import Mathlib

/-!
# GSMEAC hiking planner: the trip-plan document and its operations

A shallow embedding of `src/js/state.js`, `src/js/calculations.js` and the
document-changing handlers of `src/js/app.js`.

Conventions of the embedding.

* The trip plan is a JSON tree (`JSValue`).  The JavaScript value `undefined`
  never occurs inside a document (nothing in the program writes it and
  `JSON.parse` never produces it); a read that yields `undefined` is `none`.
* A property read is an own-property read.  Members inherited from the
  built-in prototypes (`constructor`, `toString`, `__proto__`, ...) and the
  own properties of a string primitive (`length`, indices) read as
  `undefined`.
* A write that would turn an array into something that is not a JSON array
  (an index past the end, `length`, a named property) is reported as
  `JSError.notModelled`.
* The scripts are classic scripts in sloppy mode: an assignment to a property
  of a primitive is silently ignored.
* Numbers are IEEE-754 binary64 values; a finite one is kept as an integer
  number of units of `2^-1074` (`F64`), which makes addition exact before the
  final rounding.  `-0` is identified with `0`.
-/

namespace GSMEAC

/-! ## Values -/

/-- A finite binary64 number, as an integer count of units of `2^-1074`
(every finite double is such a multiple). -/
structure F64 where
  units : Int
  deriving DecidableEq

/-- The double with the value of the natural number `n` (exact below `2^53`). -/
def F64.ofNat (n : Nat) : F64 := ⟨(n : Int) * 2 ^ 1074⟩

/-- JSON values, the shape of everything stored in the trip-plan document. -/
inductive JSValue where
  | null
  | bool (b : Bool)
  | num (x : F64)
  | str (s : String)
  | arr (xs : List JSValue)
  | obj (ps : List (String × JSValue))

namespace JSValue

mutual
/-- Structural equality test on JSON values. -/
def beq : JSValue → JSValue → Bool
  | null, null => true
  | bool a, bool b => a == b
  | num a, num b => a == b
  | str a, str b => a == b
  | arr a, arr b => beqList a b
  | obj a, obj b => beqProps a b
  | _, _ => false
/-- Structural equality test on arrays. -/
def beqList : List JSValue → List JSValue → Bool
  | [], [] => true
  | x :: xs, y :: ys => beq x y && beqList xs ys
  | _, _ => false
/-- Structural equality test on property lists. -/
def beqProps : List (String × JSValue) → List (String × JSValue) → Bool
  | [], [] => true
  | (k, x) :: xs, (l, y) :: ys => k == l && beq x y && beqProps xs ys
  | _, _ => false
end

mutual
theorem beq_iff : ∀ a b : JSValue, beq a b = true ↔ a = b
  | null, b => by cases b <;> simp [beq]
  | bool a, b => by cases b <;> simp [beq]
  | num a, b => by cases b <;> simp [beq]
  | str a, b => by cases b <;> simp [beq]
  | arr a, b => by cases b <;> simp [beq, beqList_iff a]
  | obj a, b => by cases b <;> simp [beq, beqProps_iff a]
theorem beqList_iff : ∀ a b : List JSValue, beqList a b = true ↔ a = b
  | [], b => by cases b <;> simp [beqList]
  | x :: xs, b => by cases b <;> simp [beqList, beq_iff x, beqList_iff xs]
theorem beqProps_iff : ∀ a b : List (String × JSValue), beqProps a b = true ↔ a = b
  | [], b => by cases b <;> simp [beqProps]
  | (k, x) :: xs, b => by
    cases b with
    | nil => simp [beqProps]
    | cons p ys => cases p; simp [beqProps, beq_iff x, beqProps_iff xs, and_assoc]
end

instance : DecidableEq JSValue := fun a b => decidable_of_iff _ (beq_iff a b)

end JSValue

open JSValue

/-- What a call can end with instead of a result. -/
inductive JSError where
  | typeError
  | rangeError
  | syntaxError
  | quotaExceeded
  | storageError
  | notModelled
  deriving DecidableEq

instance decEqExcept {ε α : Type} [DecidableEq ε] [DecidableEq α] :
    DecidableEq (Except ε α) := fun a b =>
  match a, b with
  | .ok x, .ok y =>
    if h : x = y then isTrue (by rw [h]) else isFalse (fun e => h (Except.ok.inj e))
  | .error x, .error y =>
    if h : x = y then isTrue (by rw [h]) else isFalse (fun e => h (Except.error.inj e))
  | .ok _, .error _ => isFalse (fun e => by cases e)
  | .error _, .ok _ => isFalse (fun e => by cases e)

/-- JavaScript truthiness (`ToBoolean`) of a JSON value. -/
def truthy : JSValue → Bool
  | .null => false
  | .bool b => b
  | .num x => decide (x.units ≠ 0)
  | .str s => decide (s ≠ "")
  | .arr _ => true
  | .obj _ => true

/-- Truthiness of the result of a read; `undefined` is falsy. -/
def truthy? : Option JSValue → Bool
  | none => false
  | some v => truthy v

/-- First value stored under `k` in a property list. -/
def lookupProp : List (String × JSValue) → String → Option JSValue
  | [], _ => none
  | (k', v) :: rest, k => if k' = k then some v else lookupProp rest k

/-- Property list after `o[k] = v`: the existing entry is overwritten in
place, a new key is appended. -/
def setProp : List (String × JSValue) → String → JSValue → List (String × JSValue)
  | [], k, v => [(k, v)]
  | (k', v') :: rest, k, v =>
    if k' = k then (k, v) :: rest else (k', v') :: setProp rest k v

/-- Value of a run of decimal digits, `none` when a character is not a digit. -/
def digitsValue : List Char → Nat → Option Nat
  | [], acc => some acc
  | c :: cs, acc =>
    if c.isDigit then digitsValue cs (acc * 10 + (c.toNat - 48)) else none

/-- The array index a property key denotes: the key is the canonical decimal
form of a number below `2^32 - 1`. -/
def arrayIndex (k : String) : Option Nat :=
  match digitsValue k.toList 0 with
  | some n =>
    if Nat.toDigits 10 n = k.toList ∧ n < 4294967295 then some n else none
  | none => none

/-- The members every object inherits from `Object.prototype` (ECMA-262
20.1.3 and B.2.2).  On an object that has no member of its own under such a
key the read `o[k]` finds a function (`Object.prototype` itself for
`__proto__`): `GEAR_PRESETS[season]`, say, is then not a list, and the `.map`
that follows throws a `TypeError`. -/
def OBJECT_PROTOTYPE_KEYS : List String :=
  ["constructor", "toString", "toLocaleString", "valueOf", "hasOwnProperty",
   "isPrototypeOf", "propertyIsEnumerable", "__proto__", "__defineGetter__",
   "__defineSetter__", "__lookupGetter__", "__lookupSetter__"]

/-- The members an array inherits from `Array.prototype` (ECMA-262 23.1.3). -/
def ARRAY_PROTOTYPE_KEYS : List String :=
  ["at", "concat", "copyWithin", "entries", "every", "fill", "filter", "find", "findIndex",
   "findLast", "findLastIndex", "flat", "flatMap", "forEach", "includes", "indexOf", "join",
   "keys", "lastIndexOf", "map", "pop", "push", "reduce", "reduceRight", "reverse", "shift",
   "slice", "some", "sort", "splice", "toReversed", "toSorted", "toSpliced", "unshift",
   "values", "with"]

/-- The members a string takes from `String.prototype` (ECMA-262 22.1.3 and
B.2.2). -/
def STRING_PROTOTYPE_KEYS : List String :=
  ["at", "charAt", "charCodeAt", "codePointAt", "concat", "endsWith", "includes", "indexOf",
   "isWellFormed", "lastIndexOf", "localeCompare", "match", "matchAll", "normalize", "padEnd",
   "padStart", "repeat", "replace", "replaceAll", "search", "slice", "split", "startsWith",
   "substring", "toLocaleLowerCase", "toLocaleUpperCase", "toLowerCase", "toUpperCase",
   "toWellFormed", "trim", "trimEnd", "trimStart", "substr", "anchor", "big", "blink", "bold",
   "fixed", "fontcolor", "fontsize", "italics", "link", "small", "strike", "sub", "sup",
   "trimLeft", "trimRight"]

/-- The members a number takes from `Number.prototype` (ECMA-262 21.1.3). -/
def NUMBER_PROTOTYPE_KEYS : List String :=
  ["toExponential", "toFixed", "toPrecision"]

/-- Whether the read `base[k]` finds a member that the platform supplies and
the document does not hold: a member inherited from the prototype chain (a
function, or `Object.prototype` for `__proto__`), or the length or a character
of a string.  Such a member is not a JSON value.  An object's own member
shadows the inherited one; the `length` and the elements of an array belong to
the document. -/
def platformMember : JSValue → String → Bool
  | .null, _ => false
  | .bool _, k => decide (k ∈ OBJECT_PROTOTYPE_KEYS)
  | .num _, k => decide (k ∈ NUMBER_PROTOTYPE_KEYS) || decide (k ∈ OBJECT_PROTOTYPE_KEYS)
  | .str s, k =>
    decide (k = "length") || ((arrayIndex k).isSome && decide (s ≠ "")) ||
    decide (k ∈ STRING_PROTOTYPE_KEYS) || decide (k ∈ OBJECT_PROTOTYPE_KEYS)
  | .arr _, k => decide (k ∈ ARRAY_PROTOTYPE_KEYS) || decide (k ∈ OBJECT_PROTOTYPE_KEYS)
  | .obj ps, k => (lookupProp ps k).isNone && decide (k ∈ OBJECT_PROTOTYPE_KEYS)

/-- The member of the document that the read `base[k]` finds on a value that
is neither `null` nor `undefined`: an object's own member, an element or the
`length` of an array; `none` is `undefined`.  This is the whole read whenever
`platformMember base k` is false. -/
def member (base : JSValue) (k : String) : Option JSValue :=
  match base with
  | .obj ps => lookupProp ps k
  | .arr xs =>
    if k = "length" then some (.num (F64.ofNat xs.length))
    else match arrayIndex k with
      | some i => xs[i]?
      | none => none
  | _ => none

/-- The read `base[k]`, which throws a `TypeError` on `null` and `undefined`.
A read that finds a member of the platform is outside the embedding. -/
def getMember (base : Option JSValue) (k : String) : Except JSError (Option JSValue) :=
  match base with
  | none => .error .typeError
  | some .null => .error .typeError
  | some b => if platformMember b k then .error .notModelled else .ok (member b k)

/-- The assignment `current[key] = value`, giving the updated `current`.
On an object the member is overwritten in place or added; under the key
`__proto__`, when the object has no such member of its own, the assignment
runs the inherited setter, which drops a primitive value and takes any other
value as the new prototype (outside the embedding).  On an array an element is
overwritten, or added when the index is the length; an index further out
leaves holes and a key that is not an index is a named member or the length:
both are outside the embedding.  On a primitive the assignment is dropped (the
scripts run in sloppy mode). -/
def setMember (current : JSValue) (key : String) (value : JSValue) : Except JSError JSValue :=
  match current with
  | .null => .error .typeError
  | .obj ps =>
    if key = "__proto__" ∧ lookupProp ps key = none then
      match value with
      | .bool _ => .ok (.obj ps)
      | .num _ => .ok (.obj ps)
      | .str _ => .ok (.obj ps)
      | _ => .error .notModelled
    else .ok (.obj (setProp ps key value))
  | .arr xs =>
    match arrayIndex key with
    | some i =>
      if i < xs.length then .ok (.arr (xs.set i value))
      else if i = xs.length then .ok (.arr (xs ++ [value]))
      else .error .notModelled
    | none => .error .notModelled
  | prim => .ok prim

/-! ## state.js: the path accessor -/

/-- Pieces of a list of characters between the dots (`String.prototype.split`
with separator `.`); `cur` holds the current piece, reversed. -/
def splitDots : List Char → List Char → List String
  | [], cur => [String.mk cur.reverse]
  | c :: cs, cur =>
    if c = '.' then String.mk cur.reverse :: splitDots cs [] else splitDots cs (c :: cur)

/-- Embedding of `path.split('.')`. -/
def splitPath (path : String) : List String := splitDots path.toList []

/-- The node the loop of `updateState` moves to when the read `current[key]`
gave `found` (state.js 273-276): the value found when it is truthy, the empty
object just stored there otherwise. -/
def childOf (found : Option JSValue) : JSValue :=
  match found with
  | some c => if truthy c then c else .obj []
  | none => .obj []

/-- The loop and the final assignment of `updateState` (state.js 267-280),
started at `current` with the keys still to walk; the result is `current`
after the write.  On a primitive the read gives `undefined`, the object
assigned is dropped, and the next step reads a member of `undefined`. -/
def setPath (current : JSValue) : List String → JSValue → Except JSError JSValue
  | [], _ => .ok current
  | [k], value => setMember current k value
  | k :: k2 :: rest, value =>
    match getMember (some current) k with
    | .error e => .error e
    | .ok found =>
      match current with
      | .obj _ =>
        match setPath (childOf found) (k2 :: rest) value with
        | .ok child' => setMember current k child'
        | .error e => .error e
      | .arr _ =>
        match setPath (childOf found) (k2 :: rest) value with
        | .ok child' => setMember current k child'
        | .error e => .error e
      | _ => .error .typeError

/-- Embedding of `updateState(path, value)` (state.js 267-291) as a function of
the document: the document after the write.  The debounced save and validation
it schedules do not touch the document until their timers fire. -/
def updateState (state : JSValue) (path : String) (value : JSValue) : Except JSError JSValue :=
  setPath state (splitPath path) value

/-- The loop of `getState` (state.js 302-309). -/
def getPath : Option JSValue → List String → Except JSError (Option JSValue)
  | current, [] => .ok current
  | none, _ :: _ => .ok none
  | some .null, _ :: _ => .ok none
  | some c, k :: rest =>
    match getMember (some c) k with
    | .ok found => getPath found rest
    | .error e => .error e

/-- Embedding of `getState(path)` (state.js 298-310). -/
def getState (state : JSValue) (path : String) : Except JSError (Option JSValue) :=
  getPath (some state) (splitPath path)

/-! ## state.js: persistence -/

/-- A text held in storage or handed to the import.  `JSON.stringify` and
`JSON.parse` belong to the host; a text is kept as what it parses to, so two
texts that differ only in layout (the export is pretty-printed, the save is
not) are the same text here.  `other raw` is a text `JSON.parse` rejects. -/
inductive Text where
  | json (v : JSValue)
  | other (raw : String)
  deriving DecidableEq

/-- Embedding of `JSON.stringify(v)`; every `JSValue` has a JSON text. -/
def JSON_stringify (v : JSValue) : Text := .json v

/-- Embedding of `JSON.parse(text)`, which throws a `SyntaxError`. -/
def JSON_parse : Text → Except JSError JSValue
  | .json v => .ok v
  | .other _ => .error .syntaxError

/-- Truthiness of a string read from storage: only the empty string is falsy
(the text of a JSON value is never empty). -/
def Text.truthy : Text → Bool
  | .json _ => true
  | .other raw => decide (raw ≠ "")

/-- The key/value store behind `localStorage`. -/
abbrev Storage := List (String × Text)

/-! ## Numbers -/

/-- A JavaScript number: `NaN`, an infinity, or a finite double. -/
inductive JSNumber where
  | nan
  | inf (negative : Bool)
  | fin (x : F64)
  deriving DecidableEq

/-- One step of the search for the rounding position: `lo` moves up by `k`
when the number shifted by `lo + k - 1` still has more than 53 bits. -/
def sigShiftStep (n lo k : Nat) : Nat :=
  if n >>> (lo + k - 1) < 9007199254740992 then lo else lo + k

/-- The least shift that brings `n` below `2^53` (for `n` below `2^4148`). -/
def sigShift (n : Nat) : Nat :=
  [2048, 1024, 512, 256, 128, 64, 32, 16, 8, 4, 2, 1].foldl (sigShiftStep n) 0

/-- The quotient `p / q`, in units of `2^-1074`, rounded to 53 significant
bits, ties to even (round-to-nearest of IEEE-754). -/
def roundRatio (p q : Nat) : Nat :=
  let s := sigShift (p / q)
  let d := q <<< s
  let quo := p / d
  let rem := p % d
  (if d < 2 * rem ∨ (2 * rem = d ∧ quo % 2 = 1) then quo + 1 else quo) <<< s

/-- The double nearest to `± p / q` units; beyond the largest finite double
the result is an infinity. -/
def JSNumber.ofRatio (negative : Bool) (p q : Nat) : JSNumber :=
  if (p / q) >>> 2099 ≠ 0 then .inf negative
  else
    let r := roundRatio p q
    if r >>> 2098 ≠ 0 then .inf negative
    else .fin ⟨if negative then -(r : Int) else (r : Int)⟩

/-- The double nearest to an exact number of units. -/
def JSNumber.ofUnits (n : Int) : JSNumber := JSNumber.ofRatio (decide (n < 0)) n.natAbs 1

/-- The double nearest to `± digits * 10^exp10`: the value of a decimal
literal. -/
def JSNumber.ofDecimal (negative : Bool) (digits : Nat) (exp10 : Int) : JSNumber :=
  match exp10 with
  | .ofNat e => JSNumber.ofRatio negative ((digits * 10 ^ e) <<< 1074) 1
  | .negSucc e => JSNumber.ofRatio negative (digits <<< 1074) (10 ^ (e + 1))

/-- The finite double of a decimal literal (`0` stands in when the literal
overflows). -/
def F64.ofDecimal (negative : Bool) (digits : Nat) (exp10 : Int) : F64 :=
  match JSNumber.ofDecimal negative digits exp10 with
  | .fin x => x
  | _ => ⟨0⟩

/-- Addition of JavaScript numbers: exact sum, then rounding. -/
def JSNumber.add : JSNumber → JSNumber → JSNumber
  | .nan, _ => .nan
  | _, .nan => .nan
  | .inf a, .inf b => if a = b then .inf a else .nan
  | .inf a, .fin _ => .inf a
  | .fin _, .inf b => .inf b
  | .fin x, .fin y => JSNumber.ofUnits (x.units + y.units)

/-- Truthiness of a number: `NaN` and `0` are falsy. -/
def JSNumber.truthy : JSNumber → Bool
  | .nan => false
  | .inf _ => true
  | .fin x => decide (x.units ≠ 0)

/-- The test `x > 0`. -/
def JSNumber.isPositive : JSNumber → Bool
  | .nan => false
  | .inf negative => !negative
  | .fin x => decide (0 < x.units)

/-! ## The host -/

/-- What the program takes from its host: the clock, the storage quota, the
date functions and the text conversions of the platform. -/
structure Host where
  /-- The reading of `new Date().toISOString()` during the call. -/
  now : String
  /-- The reading of `new Date().toLocaleString()` during the call. -/
  nowLocale : String
  /-- The error `localStorage.setItem(key, text)` throws on the given store,
  `none` when the write goes through. -/
  setItemFails : Storage → String → Text → Option JSError
  /-- Time value in milliseconds of `new Date(v)`, `none` for an invalid date. -/
  newDate : JSValue → Option Int
  /-- Local time of a time value (`LocalTime` of ECMA-262), in milliseconds. -/
  toLocal : Int → Int
  /-- Time value of a local time (`UTC` of ECMA-262), in milliseconds. -/
  toUTC : Int → Int
  /-- The text of `formatDate(v)`: `toLocaleDateString` of `new Date(v)`. -/
  formatDate : JSValue → String
  /-- The text a template literal gives for a value (`ToString`); `none` is
  `undefined`. -/
  display : Option JSValue → String
  /-- The text of `x.toFixed(digits)`. -/
  toFixed : JSNumber → Nat → String
  /-- The text of `s.toLowerCase()`. -/
  toLowerCase : String → String

def STORAGE_KEY : String := "gsmeac_trip_current"

def METADATA_KEY : String := "gsmeac_metadata"

def BACKUP_KEYS : List String :=
  ["gsmeac_trip_backup_1", "gsmeac_trip_backup_2", "gsmeac_trip_backup_3"]

/-- Embedding of `localStorage.getItem(key)`; `none` is `null`. -/
def getItem : Storage → String → Option Text
  | [], _ => none
  | (k, t) :: rest, key => if k = key then some t else getItem rest key

/-- The store after a write that went through. -/
def putItem : Storage → String → Text → Storage
  | [], key, text => [(key, text)]
  | (k, t) :: rest, key, text =>
    if k = key then (key, text) :: rest else (k, t) :: putItem rest key text

/-- Embedding of `localStorage.setItem(key, text)`. -/
def setItem (host : Host) (sto : Storage) (key : String) (text : Text) : Except JSError Storage :=
  match host.setItemFails sto key text with
  | some e => .error e
  | none => .ok (putItem sto key text)

/-- The program state: the global `state` of state.js and the durable store. -/
structure App where
  state : JSValue
  storage : Storage
  deriving DecidableEq

/-- Embedding of `DEFAULT_STATE` (state.js 9-122); the two timestamps are read
from the clock when the script is loaded. -/
def DEFAULT_STATE (createdAt lastModified : String) : JSValue :=
  .obj [
    ("schemaVersion", .str "1.0"),
    ("createdAt", .str createdAt),
    ("lastModified", .str lastModified),
    ("trip", .obj [
      ("tripName", .str ""), ("description", .str ""), ("tripType", .str "backpacking"),
      ("startDate", .str ""), ("endDate", .str "")]),
    ("ground", .obj [
      ("terrainTypes", .arr []), ("vegetation", .str ""), ("trailType", .str ""),
      ("routeCoverage", .str ""), ("elevationNotes", .str ""), ("mapLinks", .arr [])]),
    ("situation", .obj [
      ("travelType", .str ""), ("groupSize", .num (F64.ofNat 1)),
      ("experienceLevel", .str ""), ("specialConsiderations", .str "")]),
    ("season", .obj [
      ("season", .str ""), ("expectedWeather", .str ""), ("weatherRisks", .str "")]),
    ("mission", .obj [("statement", .str ""), ("missionType", .str "")]),
    ("execution", .obj [
      ("travelStyle", .str ""), ("direction", .str ""), ("dailyPlan", .arr [])]),
    ("administration", .obj [
      ("travel", .obj [
        ("transportToStart", .str ""), ("transportFromEnd", .str ""),
        ("specialLogistics", .str "")]),
      ("accommodation", .obj [
        ("type", .str ""), ("nightsRequired", .num (F64.ofNat 0)),
        ("bookingStatus", .str "")]),
      ("gear", .obj [("checklist", .arr []), ("notes", .str "")]),
      ("foodFuel", .obj [
        ("daysOfFood", .num (F64.ofNat 0)), ("emergencyDays", .num (F64.ofNat 0)),
        ("caloriesPerDay", .num (F64.ofNat 0)), ("waterPerPerson", .num (F64.ofNat 0)),
        ("waterSources", .str ""), ("filtrationRequired", .bool false),
        ("fuelNotes", .str "")]),
      ("permits", .obj [
        ("required", .bool false), ("bookingDeadlines", .str ""), ("notes", .str "")]),
      ("navigation", .obj [("mapAndCompass", .bool false), ("digitalTools", .str "")]),
      ("firstAid", .obj [("kitType", .str ""), ("plbCarried", .bool false)]),
      ("costing", .obj [
        ("travel", .num (F64.ofNat 0)), ("accommodation", .num (F64.ofNat 0)),
        ("food", .num (F64.ofNat 0)), ("permits", .num (F64.ofNat 0)),
        ("other", .num (F64.ofNat 0))])]),
    ("commandControl", .obj [
      ("homeContactName", .str ""), ("contactMethod", .str ""),
      ("expectedCheckIn", .str ""), ("emergencyInstructions", .str ""),
      ("deviceCarried", .str ""), ("groupBriefed", .bool false)]),
    ("meta", .obj [
      ("currentSection", .str "welcome"),
      ("completedSections", .arr []),
      ("validationWarnings", .obj [
        ("ground", .arr []), ("situation", .arr []), ("mission", .arr []),
        ("execution", .arr []), ("administration", .arr []),
        ("commandControl", .arr [])])])]

/-- One step of the rotation (state.js 230-233 and 235-238): the text of the
`source` slot, when there is one, is written to the `target` slot. -/
def copySlot (host : Host) (sto : Storage) (source target : String) : Except JSError Storage :=
  match getItem sto source with
  | some backup => if backup.truthy then setItem host sto target backup else .ok sto
  | none => .ok sto

/-- Embedding of `rotateBackups()` (state.js 223-244).  A write that throws
ends the rotation; the writes made before it stay. -/
def rotateBackups (host : Host) (sto : Storage) : Storage :=
  match getItem sto STORAGE_KEY with
  | none => sto
  | some currentState =>
    if !currentState.truthy then sto else
    match copySlot host sto "gsmeac_trip_backup_2" "gsmeac_trip_backup_3" with
    | .error _ => sto
    | .ok sto1 =>
      match copySlot host sto1 "gsmeac_trip_backup_1" "gsmeac_trip_backup_2" with
      | .error _ => sto1
      | .ok sto2 =>
        match setItem host sto2 "gsmeac_trip_backup_1" currentState with
        | .error _ => sto2
        | .ok sto3 => sto3

/-- Embedding of `updateMetadata()` (state.js 249-260). -/
def updateMetadata (host : Host) (sto : Storage) : Storage :=
  let metadata : JSValue := .obj [
    ("version", .str "1.0"), ("lastAccessed", .str host.now), ("tripCount", .num (F64.ofNat 1))]
  match setItem host sto METADATA_KEY (JSON_stringify metadata) with
  | .error _ => sto
  | .ok sto' => sto'

/-- Embedding of `performSave()` (state.js 178-218): the returned flag and the
program state afterwards.  The timestamp is written into the document before
the store is touched, so it stays when the write throws. -/
def performSave (host : Host) (app : App) : Bool × App :=
  match setMember app.state "lastModified" (.str host.now) with
  | .error _ => (false, app)
  | .ok stamped =>
    match setItem host app.storage STORAGE_KEY (JSON_stringify stamped) with
    | .error _ => (false, { app with state := stamped })
    | .ok sto =>
      (true, { state := stamped, storage := updateMetadata host (rotateBackups host sto) })

/-- Embedding of `exportStateJSON()` (state.js 335-344). -/
def exportStateJSON (host : Host) (state : JSValue) : Text :=
  JSON_stringify (.obj [
    ("exportVersion", .str "1.0"),
    ("exportDate", .str host.now),
    ("application", .str "GSMEAC Backpacking Planner"),
    ("data", state)])

/-- Embedding of `importStateJSON(jsonString)` (state.js 351-374): the returned
flag and the program state afterwards.  Every exception is caught and turned
into `false`; the flag of the inner `performSave` is not looked at. -/
def importStateJSON (host : Host) (jsonString : Text) (app : App) : Bool × App :=
  match JSON_parse jsonString with
  | .error _ => (false, app)
  | .ok imported =>
    match getMember (some imported) "data" with
    | .error _ => (false, app)
    | .ok data =>
      if !truthy? data then (false, app) else
      match getMember data "schemaVersion" with
      | .error _ => (false, app)
      | .ok schemaVersion =>
        if !truthy? schemaVersion then (false, app) else
        match data with
        | none => (false, app)
        | some d =>
          match setMember d "lastModified" (.str host.now) with
          | .error _ => (false, app)
          | .ok d' => (true, (performSave host { app with state := d' }).2)

/-- A host whose storage takes every write and whose clock reads `now`; it
runs on UTC, knows no date and prints nothing. -/
def quietHost (now : String) : Host where
  now := now
  nowLocale := now
  setItemFails := fun _ _ _ => none
  newDate := fun _ => none
  toLocal := fun t => t
  toUTC := fun t => t
  formatDate := fun _ => "Invalid Date"
  display := fun _ => ""
  toFixed := fun _ _ => ""
  toLowerCase := fun s => s

/-- The copy `JSON.parse(JSON.stringify(v))`; the parse of a text that
`JSON.stringify` made cannot fail. -/
def deepCopy (v : JSValue) : JSValue :=
  match JSON_parse (JSON_stringify v) with
  | .ok copy => copy
  | .error _ => v

/-- Embedding of `loadState()` (state.js 135-155) with `template` the object
`DEFAULT_STATE`: the program state afterwards (the function returns its
`state`).  Exceptions inside the `try` fall through to the default; a saved
text that holds an array is outside the embedding. -/
def loadState (host : Host) (template : JSValue) (app : App) : Except JSError App :=
  let fresh : App := { app with state := deepCopy template }
  match getItem app.storage STORAGE_KEY with
  | none => .ok fresh
  | some savedState =>
    if !savedState.truthy then .ok fresh else
    match JSON_parse savedState with
    | .error _ => .ok fresh
    | .ok parsed =>
      match setMember parsed "lastModified" (.str host.now) with
      | .ok stamped => .ok { app with state := stamped }
      | .error .notModelled => .error .notModelled
      | .error _ => .ok fresh

/-- Embedding of `resetState(keepBackup)` (state.js 316-329). -/
def resetState (host : Host) (template : JSValue) (keepBackup : Bool) (app : App) : App :=
  let sto : Storage :=
    if keepBackup then
      match setItem host app.storage "gsmeac_trip_before_reset" (JSON_stringify app.state) with
      | .ok sto' => sto'
      | .error _ => app.storage
    else app.storage
  (performSave host { state := deepCopy template, storage := sto }).2

/-- What the variable `state` of state.js refers to: nothing yet (it starts as
`null`), the object `DEFAULT_STATE` itself, or an object of its own, made by
`JSON.parse`. -/
inductive StateRef where
  | unset
  | template
  | own (document : JSValue)
  deriving DecidableEq

/-- The memory of state.js with its sharing: the object `DEFAULT_STATE` as it
is now, what `state` refers to, and the store.  A write through `state`
changes the object `state` refers to; were that the object `DEFAULT_STATE`,
the template would change with it. -/
structure Memory where
  template : JSValue
  state : StateRef
  storage : Storage
  deriving DecidableEq

/-- The document `state` refers to. -/
def Memory.document (m : Memory) : JSValue :=
  match m.state with
  | .unset => .null
  | .template => m.template
  | .own document => document

/-- Embedding of `loadState()` (state.js 135-155) on the memory.  On each of
its paths the object assigned to `state` comes out of `JSON.parse` (the parsed
text of line 140, the copy of line 152), which makes new objects: `state`
refers to an object of its own, with the value `loadState` computes. -/
def Memory.loadState (host : Host) (m : Memory) : Except JSError Memory :=
  match GSMEAC.loadState host m.template { state := m.document, storage := m.storage } with
  | .ok app => .ok { m with state := .own app.state, storage := app.storage }
  | .error e => .error e

/-- Embedding of `resetState(keepBackup)` (state.js 316-329) on the memory:
line 326 assigns to `state` the object `JSON.parse` makes. -/
def Memory.resetState (host : Host) (keepBackup : Bool) (m : Memory) : Memory :=
  let app :=
    GSMEAC.resetState host m.template keepBackup { state := m.document, storage := m.storage }
  { m with state := .own app.state, storage := app.storage }

/-- Embedding of the write of `updateState(path, value)` (state.js 267-280) on
the memory: the loop starts at the object `state` refers to and the
assignments change that object. -/
def Memory.updateState (m : Memory) (path : String) (value : JSValue) : Except JSError Memory :=
  match m.state with
  | .unset =>
    match GSMEAC.updateState .null path value with
    | .ok _ => .ok m
    | .error e => .error e
  | .template =>
    match GSMEAC.updateState m.template path value with
    | .ok template' => .ok { m with template := template' }
    | .error e => .error e
  | .own document =>
    match GSMEAC.updateState document path value with
    | .ok document' => .ok { m with state := .own document' }
    | .error e => .error e

/-- A run of writes.  A write that throws a `TypeError` leaves the memory as
it is (the loop of `updateState` assigns nothing before it reaches the value
it cannot walk through); a write the model does not represent ends the run
with that error. -/
def Memory.writes : List (String × JSValue) → Memory → Except JSError Memory
  | [], m => .ok m
  | (path, value) :: rest, m =>
    match Memory.updateState m path value with
    | .ok m' => Memory.writes rest m'
    | .error .notModelled => .error .notModelled
    | .error _ => Memory.writes rest m

/-- A host like `quietHost` whose store is full for every key but the primary
slot and the metadata record. -/
def backupRefusingHost (now : String) : Host :=
  { quietHost now with
    setItemFails := fun _ key _ =>
      if key = STORAGE_KEY ∨ key = METADATA_KEY then none else some .quotaExceeded }

/-! ## The page -/

/-- What the program takes from the page (the HTML is not part of the
sources): which elements exist, and how the steps that only read the document
and write the page end. -/
structure Page where
  /-- Whether `getElementById` / `querySelector` finds the named element. -/
  has : String → Bool
  /-- A rendering step, named after the function that does it, run with an
  argument on a document: the exception it ends with, `none` when it returns. -/
  render : String → JSValue → JSValue → Option JSError

/-- The outcome of a handler: the document it leaves (what was written before
an exception stays written) and the exception it ended with, if any. -/
structure Run where
  state : JSValue
  thrown : Option JSError
  deriving DecidableEq

/-- The outcome of `updateState` as a step of a handler. -/
def Run.ofUpdate (state : JSValue) (path : String) (value : JSValue) : Run :=
  match updateState state path value with
  | .ok state' => { state := state', thrown := none }
  | .error e => { state := state, thrown := some e }

/-- Sequencing of handler steps: the next step runs when nothing was thrown. -/
def Run.andThen (r : Run) (next : JSValue → Run) : Run :=
  match r.thrown with
  | some _ => r
  | none => next r.state

/-- A page with every element in place and rendering steps that return. -/
def fullPage : Page where
  has := fun _ => true
  render := fun _ _ _ => none

/-! ## navigation.js -/

/-- Embedding of `SECTIONS` (navigation.js 4-13). -/
def SECTIONS : List String :=
  ["welcome", "ground", "situation", "mission", "execution", "administration",
   "commandcontrol", "review"]

/-- Embedding of `Array.prototype.indexOf` on an array of strings: the first
position of `x` from position `i` on, `-1` when there is none. -/
def indexFrom : List String → String → Int → Int
  | [], _, _ => -1
  | y :: ys, x, i => if y = x then i else indexFrom ys x (i + 1)

/-- Embedding of `SECTIONS.indexOf(v)`; only a string can be found. -/
def sectionIndex : JSValue → Int
  | .str s => indexFrom SECTIONS s 0
  | _ => -1

/-- Embedding of `SECTIONS.includes(v)`. -/
def isSection : JSValue → Bool
  | .str s => decide (s ∈ SECTIONS)
  | _ => false

/-- The navigation state: the global `currentSection` of navigation.js and the
document. -/
structure Nav where
  currentSection : String
  state : JSValue
  deriving DecidableEq

/-- Embedding of `isSectionCompleted(sectionId, currentSectionId)`
(navigation.js 174-181). -/
def isSectionCompleted (sectionId currentSectionId : JSValue) : Bool :=
  let sectionIdx := sectionIndex sectionId
  let currentIndex := sectionIndex currentSectionId
  decide (sectionIdx > 0) && decide (sectionIdx < currentIndex)

/-- Embedding of `navigateToSection(sectionId)` (navigation.js 52-82): the
navigation state afterwards and the exception the call ended with.  Lines
60-67 (hide, show, progress bar) only write the page; they are the rendering
step `showSection`. -/
def navigateToSection (page : Page) (nav : Nav) (sectionId : JSValue) : Nav × Option JSError :=
  match sectionId with
  | .str s =>
    if !isSection (.str s) then (nav, none) else
    match page.render "showSection" (.str s) nav.state with
    | some e => (nav, some e)
    | none =>
      match updateState nav.state "meta.currentSection" (.str s) with
      | .ok state' => ({ currentSection := s, state := state' }, none)
      | .error e => ({ currentSection := s, state := nav.state }, some e)
  | _ => (nav, none)

/-- Embedding of `navigateToNextSection()` (navigation.js 234-241). -/
def navigateToNextSection (page : Page) (nav : Nav) : Nav × Option JSError :=
  let currentIndex := sectionIndex (.str nav.currentSection)
  if currentIndex < (SECTIONS.length : Int) - 1 then
    match SECTIONS[(currentIndex + 1).toNat]? with
    | some nextSection => navigateToSection page nav (.str nextSection)
    | none => (nav, none)
  else (nav, none)

/-- Embedding of `navigateToPreviousSection()` (navigation.js 246-253). -/
def navigateToPreviousSection (page : Page) (nav : Nav) : Nav × Option JSError :=
  let currentIndex := sectionIndex (.str nav.currentSection)
  if currentIndex > 0 then
    match SECTIONS[(currentIndex - 1).toNat]? with
    | some previousSection => navigateToSection page nav (.str previousSection)
    | none => (nav, none)
  else (nav, none)

/-! ## validation.js -/

/-- A rule of `CRITICAL_FIELDS`. -/
structure FieldRule where
  field : String
  message : String
  type : String
  deriving DecidableEq

/-- Embedding of `CRITICAL_FIELDS` (validation.js 5-27): the rules under a key
of the table, `none` for a name that is not one of its six keys. -/
def CRITICAL_FIELDS (sectionName : String) : Option (List FieldRule) :=
  if sectionName = "ground" then some [
    ⟨"terrainTypes", "Select at least one terrain type", "array"⟩,
    ⟨"trailType", "Select a trail type", "string"⟩]
  else if sectionName = "situation" then some [
    ⟨"travelType", "Specify if traveling solo or in a group", "string"⟩,
    ⟨"experienceLevel", "Select your experience level", "string"⟩]
  else if sectionName = "season" then some [
    ⟨"season", "Select the season for your trip", "string"⟩]
  else if sectionName = "mission" then some [
    ⟨"statement", "Write a mission statement for your trip", "string"⟩]
  else if sectionName = "execution" then some [
    ⟨"dailyPlan", "Add at least one day to your itinerary", "array"⟩]
  else if sectionName = "commandControl" then some [
    ⟨"homeContactName", "Provide a home contact name", "string"⟩,
    ⟨"expectedCheckIn", "Set an expected check-in date", "string"⟩]
  else none

/-- White space and line terminators of ECMA-262, what `trim` strips. -/
def isJSWhiteSpace (c : Char) : Bool :=
  c.toNat = 0x9 || c.toNat = 0xA || c.toNat = 0xB || c.toNat = 0xC || c.toNat = 0xD ||
  c.toNat = 0x20 || c.toNat = 0xA0 || c.toNat = 0x1680 ||
  (decide (0x2000 ≤ c.toNat) && decide (c.toNat ≤ 0x200A)) ||
  c.toNat = 0x2028 || c.toNat = 0x2029 || c.toNat = 0x202F || c.toNat = 0x205F ||
  c.toNat = 0x3000 || c.toNat = 0xFEFF

/-- The test `s.trim() === ''`. -/
def isBlank (s : String) : Bool := s.toList.all isJSWhiteSpace

/-- Embedding of `validateField(value, type)` (validation.js 39-50). -/
def validateField (value : Option JSValue) (type : String) : Bool :=
  if type = "string" then
    match value with
    | some (.str s) => !isBlank s
    | _ => false
  else if type = "array" then
    match value with
    | some (.arr xs) => decide (xs.length > 0)
    | _ => false
  else if type = "number" then
    match value with
    | some (.num x) => decide (x.units ≥ 0)
    | _ => false
  else false

/-- The warning object `{field, message}` of a rule. -/
def warningOf (rule : FieldRule) : JSValue :=
  .obj [("field", .str rule.field), ("message", .str rule.message)]

/-- The callback of `criticalFields.forEach` (validation.js 65-75): the
warnings after one more rule. -/
def checkRule (state : JSValue) (sectionName : String) (warnings : List JSValue)
    (fieldDef : FieldRule) : Except JSError (List JSValue) :=
  let fieldPath := sectionName ++ "." ++ fieldDef.field
  match getState state fieldPath with
  | .error e => .error e
  | .ok value =>
    if !validateField value fieldDef.type then .ok (warnings ++ [warningOf fieldDef])
    else .ok warnings

/-- The loop `criticalFields.forEach(...)`; an exception ends it. -/
def checkRules (state : JSValue) (sectionName : String) :
    List FieldRule → List JSValue → Except JSError (List JSValue)
  | [], warnings => .ok warnings
  | fieldDef :: rest, warnings =>
    match checkRule state sectionName warnings fieldDef with
    | .error e => .error e
    | .ok warnings' => checkRules state sectionName rest warnings'

/-- Embedding of `validateSection(sectionName)` (validation.js 57-78): the
array of warnings.  The read `CRITICAL_FIELDS[sectionName]` finds the rules
under one of the six keys of the table and `undefined` under any other name,
except the names the table inherits from `Object.prototype`: there it finds a
function (an object for `__proto__`), which is truthy and has no `forEach`, so
line 65 throws a `TypeError`. -/
def validateSection (state : JSValue) (sectionName : String) : Except JSError (List JSValue) :=
  match CRITICAL_FIELDS sectionName with
  | some criticalFields => checkRules state sectionName criticalFields []
  | none =>
    if sectionName ∈ OBJECT_PROTOTYPE_KEYS then .error .typeError
    else .ok []

/-- The sections `performValidation` goes through (validation.js 105). -/
def VALIDATED_SECTIONS : List String :=
  ["ground", "situation", "season", "mission", "execution", "commandControl"]

/-- The loop `sections.forEach(...)` of `performValidation` (validation.js
107-109): the mapping after the sections still to go; an exception ends it. -/
def collectWarnings (state : JSValue) :
    List String → List (String × JSValue) → Except JSError (List (String × JSValue))
  | [], validationWarnings => .ok validationWarnings
  | sec :: rest, validationWarnings =>
    match validateSection state sec with
    | .error e => .error e
    | .ok warnings => collectWarnings state rest (setProp validationWarnings sec (.arr warnings))

/-- Embedding of `performValidation()` (validation.js 101-118).  The badges of
the progress bar are a rendering step. -/
def performValidation (page : Page) (state : JSValue) : Run :=
  if !truthy state then { state := state, thrown := none } else
  match collectWarnings state VALIDATED_SECTIONS [] with
  | .error e => { state := state, thrown := some e }
  | .ok validationWarnings =>
    match getMember (some state) "meta" with
    | .error e => { state := state, thrown := some e }
    | .ok none => { state := state, thrown := some .typeError }
    | .ok (some meta) =>
      match setMember meta "validationWarnings" (.obj validationWarnings) with
      | .error e => { state := state, thrown := some e }
      | .ok meta' =>
        match setMember state "meta" meta' with
        | .error e => { state := state, thrown := some e }
        | .ok state' =>
          { state := state', thrown := page.render "updateProgressBarBadges" .null state' }

/-! ## The debounce timers -/

def SAVE_DEBOUNCE_DELAY : Nat := 500

def VALIDATION_DEBOUNCE_DELAY : Nat := 300

/-- A run of one of the two debounced functions, with the document it was
started on. -/
inductive TimerRun where
  | validation (document : JSValue)
  | save (document : JSValue)
  deriving DecidableEq

/-- Whether the run is one of `performSave`. -/
def TimerRun.isSave : TimerRun → Bool
  | .save _ => true
  | .validation _ => false

/-- The program with its two debounce timers (`saveDebounceTimer` of state.js,
`validationDebounceTimer` of validation.js): an armed timer is kept as the
time in milliseconds at which it is due.  `runs` records, oldest first, the
runs of `performSave` and `performValidation` the timers have started. -/
structure Sched where
  app : App
  saveTimer : Option Nat
  validationTimer : Option Nat
  runs : List TimerRun

/-- The validation timer fires if it is due at `now`: it runs
`performValidation` (validation.js 94). -/
def fireValidation (page : Page) (now : Nat) (s : Sched) : Sched :=
  match s.validationTimer with
  | some due =>
    if due ≤ now then
      { s with
        app := { s.app with state := (performValidation page s.app.state).state }
        validationTimer := none
        runs := s.runs ++ [.validation s.app.state] }
    else s
  | none => s

/-- The save timer fires if it is due at `now`: it runs `performSave`
(state.js 171). -/
def fireSave (host : Host) (now : Nat) (s : Sched) : Sched :=
  match s.saveTimer with
  | some due =>
    if due ≤ now then
      { s with
        app := (performSave host s.app).2
        saveTimer := none
        runs := s.runs ++ [.save s.app.state] }
    else s
  | none => s

/-- The timers that are due at `now` fire.  Every call arms both timers, the
validation timer with the shorter delay, so it is the first to be due. -/
def fireDue (host : Host) (page : Page) (now : Nat) (s : Sched) : Sched :=
  fireSave host now (fireValidation page now s)

/-- A call `updateState(path, value)` at time `now` (state.js 267-291): the
write, then `saveState()` and `runValidation()`, each of which clears its
timer and arms it anew.  A write that throws ends the call before the timers
are touched. -/
def Sched.updateState (host : Host) (page : Page) (now : Nat) (path : String)
    (value : JSValue) (s : Sched) : Sched :=
  let s1 := fireDue host page now s
  match GSMEAC.updateState s1.app.state path value with
  | .error _ => s1
  | .ok state' =>
    { s1 with
      app := { s1.app with state := state' }
      saveTimer := some (now + SAVE_DEBOUNCE_DELAY)
      validationTimer := some (now + VALIDATION_DEBOUNCE_DELAY) }

/-- A run of calls, each with its time. -/
def Sched.run (host : Host) (page : Page) : List (Nat × String × JSValue) → Sched → Sched
  | [], s => s
  | (now, path, value) :: rest, s =>
    Sched.run host page rest (Sched.updateState host page now path value s)

/-- The program left alone until no timer is armed. -/
def Sched.settle (host : Host) (page : Page) (s : Sched) : Sched :=
  match s.validationTimer, s.saveTimer with
  | some dv, some ds => fireDue host page (max dv ds) s
  | some dv, none => fireDue host page dv s
  | none, some ds => fireDue host page ds s
  | none, none => s

/-- Every write of the run goes through, on the document the program holds
when the call arrives. -/
def Sched.accepts (host : Host) (page : Page) : List (Nat × String × JSValue) → Sched → Prop
  | [], _ => True
  | (now, path, value) :: rest, s =>
    (∃ state', GSMEAC.updateState (fireDue host page now s).app.state path value = .ok state') ∧
    Sched.accepts host page rest (Sched.updateState host page now path value s)

/-- The document after a run of writes, when each goes through. -/
def applyWrites : JSValue → List (Nat × String × JSValue) → Except JSError JSValue
  | state, [] => .ok state
  | state, (_, path, value) :: rest =>
    match updateState state path value with
    | .ok state' => applyWrites state' rest
    | .error e => .error e

/-- Each call of the run arrives less than `window` milliseconds after the one
before it; `last` is the time of the call before the run. -/
def withinWindow (window : Nat) : Nat → List (Nat × String × JSValue) → Prop
  | _, [] => True
  | last, (now, _, _) :: rest => last ≤ now ∧ now < last + window ∧ withinWindow window now rest

/-! ## app.js: the gear checklist -/

/-- Embedding of `GEAR_PRESETS` (app.js 4-143): the list under a key, `none`
for a key the table does not have. -/
def GEAR_PRESETS (key : String) : Option (List String) :=
  if key = "dayhike" then some [
    "Daypack (20-30L)", "Water bottles/bladder", "Snacks/lunch",
    "Navigation (map, compass, GPS)", "Headlamp + batteries", "First aid kit",
    "Sun protection (hat, sunglasses, sunscreen)", "Insect repellent", "Rain jacket",
    "Extra warm layer", "Hiking clothes", "Knife/multitool", "Fire starter/matches",
    "Emergency whistle", "Emergency shelter (space blanket)", "Trekking poles", "Camera/phone",
    "Toiletries (TP, hand sanitizer)"]
  else if key = "summer" then some [
    "Backpack", "Tent / Shelter", "Sleeping bag (3-season)", "Sleeping pad", "Stove & fuel",
    "Cookware & utensils", "Water filter/purifier", "Water bottles/bladder",
    "Headlamp + batteries", "First aid kit", "Navigation (map, compass, GPS)",
    "Sun protection (hat, sunglasses, sunscreen)", "Insect repellent", "Lightweight rain jacket",
    "Rain pants", "Base layers", "Hiking clothes", "Extra socks & underwear", "Camp shoes",
    "Toiletries", "Trash bags", "Repair kit & duct tape", "Knife/multitool", "Fire starter"]
  else if key = "autumn" then some [
    "Backpack", "Tent / Shelter", "Sleeping bag (3-season)", "Sleeping pad", "Stove & fuel",
    "Cookware & utensils", "Water filter/purifier", "Water bottles/bladder",
    "Headlamp + batteries", "First aid kit", "Navigation (map, compass, GPS)",
    "Sun protection (hat, sunglasses, sunscreen)", "Rain jacket", "Rain pants",
    "Insulated jacket", "Warm base layers", "Beanie/warm hat", "Gloves", "Hiking clothes",
    "Extra socks & underwear", "Camp shoes", "Toiletries", "Trash bags",
    "Repair kit & duct tape", "Knife/multitool", "Fire starter"]
  else if key = "winter" then some [
    "Backpack (larger capacity)", "4-season tent", "Winter sleeping bag (-10°C or colder)",
    "Insulated sleeping pad", "Stove & extra fuel", "Insulated cookware",
    "Water filter/purifier", "Insulated water bottles", "Headlamp + extra batteries",
    "First aid kit (cold weather)", "Navigation (map, compass, GPS, altimeter)",
    "Avalanche transceiver (if applicable)", "Probe & shovel (if applicable)",
    "Goggles & sunglasses", "Heavy-duty rain/snow jacket", "Waterproof pants",
    "Down/synthetic insulated jacket", "Base layers (merino/synthetic)", "Mid layers (fleece)",
    "Winter beanie", "Warm gloves & liner gloves", "Balaclava/neck gaiter", "Gaiters",
    "Microspikes/crampons", "Ice axe (if needed)", "Insulated boots", "Extra socks (wool)",
    "Camp booties", "Toiletries", "Trash bags", "Repair kit & duct tape", "Knife/multitool",
    "Fire starter", "Emergency bivy/space blanket"]
  else if key = "spring" then some [
    "Backpack", "Tent / Shelter", "Sleeping bag (3-season)", "Sleeping pad", "Stove & fuel",
    "Cookware & utensils", "Water filter/purifier", "Water bottles/bladder",
    "Headlamp + batteries", "First aid kit", "Navigation (map, compass, GPS)",
    "Sun protection (hat, sunglasses, sunscreen)", "Rain jacket", "Rain pants",
    "Insulated jacket", "Warm layers", "Beanie/warm hat", "Gloves", "Hiking clothes",
    "Extra socks & underwear", "Camp shoes", "Toiletries", "Trash bags",
    "Repair kit & duct tape", "Knife/multitool", "Fire starter"]
  else none

/-- A chain of property reads `v.k1.k2...`; a read on `null` or `undefined`
throws a `TypeError`. -/
def readPath : Option JSValue → List String → Except JSError (Option JSValue)
  | current, [] => .ok current
  | current, k :: rest =>
    match getMember current k with
    | .error e => .error e
    | .ok v => readPath v rest

/-- The direct assignment `current.k1.k2...kn = value`: nothing is created on
the way, a missing node throws a `TypeError`.  The result is `current` after
the write. -/
def assignAt (current : JSValue) : List String → JSValue → Except JSError JSValue
  | [], _ => .ok current
  | [k], value => setMember current k value
  | k :: k2 :: rest, value =>
    match getMember (some current) k with
    | .error e => .error e
    | .ok none => .error .typeError
    | .ok (some child) =>
      match assignAt child (k2 :: rest) value with
      | .error e => .error e
      | .ok child' => setMember current k child'

/-- The entry `{name, checked: false, custom: false}` made for a preset item. -/
def presetEntry (name : String) : JSValue :=
  .obj [("name", .str name), ("checked", .bool false), ("custom", .bool false)]

/-- The test `item.custom` of the two filters (app.js 1180, 1182). -/
def isCustom (item : JSValue) : Bool := truthy? (member item "custom")

/-- Embedding of `checklist.map(item => item.name)` (app.js 1173); the read
throws on a `null` entry. -/
def existingNamesOf : List JSValue → Except JSError (List (Option JSValue))
  | [] => .ok []
  | item :: rest =>
    match getMember (some item) "name" with
    | .error e => .error e
    | .ok name =>
      match existingNamesOf rest with
      | .error e => .error e
      | .ok names => .ok (name :: names)

/-- Embedding of lines 1174-1176 of app.js: the entries for the preset items
whose name is not among the existing names. -/
def newPresetItemsOf (presetItems : List String) (existingNames : List (Option JSValue)) :
    List JSValue :=
  (presetItems.filter (fun name => !existingNames.contains (some (.str name)))).map presetEntry

/-- Embedding of lines 1179-1183 of app.js: the merged checklist. -/
def mergedChecklist (checklist newPresetItems : List JSValue) : List JSValue :=
  checklist.filter (fun item => !isCustom item) ++ newPresetItems ++
    checklist.filter (fun item => isCustom item)

/-- The write `state.administration.gear.checklist = items` followed by
`updateState('administration.gear.checklist', items)`. -/
def storeChecklist (state : JSValue) (items : List JSValue) : Run :=
  match assignAt state ["administration", "gear", "checklist"] (.arr items) with
  | .error e => { state := state, thrown := some e }
  | .ok state' => Run.ofUpdate state' "administration.gear.checklist" (.arr items)

/-- The preset `loadGearChecklist` picks (app.js 1148-1159): `none` when the
function returns early because no season is selected. -/
def selectedPreset (tripType season : Option JSValue) : Except JSError (Option (List String)) :=
  if tripType = some (.str "dayhike") then .ok (some ((GEAR_PRESETS "dayhike").getD []))
  else if !truthy? season then .ok none
  else
    match season with
    | some (.str key) =>
      if key ∈ OBJECT_PROTOTYPE_KEYS then .error .typeError
      else .ok (some ((GEAR_PRESETS key).getD []))
    | some (.arr _) => .error .notModelled
    | _ => .ok (some [])

/-- Embedding of `loadGearChecklist()` (app.js 1143-1189).  The final
`renderGearChecklist` is a rendering step. -/
def loadGearChecklist (page : Page) (state : JSValue) : Run :=
  match readPath (some state) ["trip", "tripType"] with
  | .error e => { state := state, thrown := some e }
  | .ok tripType =>
  match readPath (some state) ["season", "season"] with
  | .error e => { state := state, thrown := some e }
  | .ok season =>
  match selectedPreset tripType season with
  | .error e => { state := state, thrown := some e }
  | .ok none => { state := state, thrown := page.render "renderGearChecklist" (.arr []) state }
  | .ok (some presetItems) =>
  match readPath (some state) ["administration", "gear", "checklist"] with
  | .error e => { state := state, thrown := some e }
  | .ok checklist =>
    let render := fun (st : JSValue) =>
      ({ state := st,
         thrown := page.render "renderGearChecklist" .null st } : Run)
    let initialise := (storeChecklist state (presetItems.map presetEntry)).andThen render
    if !truthy? checklist then initialise
    else match checklist with
    | some (.arr []) => initialise
    | some (.arr (item :: items)) =>
      match existingNamesOf (item :: items) with
      | .error e => { state := state, thrown := some e }
      | .ok existingNames =>
        let newPresetItems := newPresetItemsOf presetItems existingNames
        if newPresetItems.length > 0 then
          (storeChecklist state (mergedChecklist (item :: items) newPresetItems)).andThen render
        else render state
    | some (.obj ps) =>
      if lookupProp ps "length" = some (.num (F64.ofNat 0)) then initialise
      else { state := state, thrown := some .typeError }
    | _ => { state := state, thrown := some .typeError }

/-- Embedding of `s.trim()`. -/
def jsTrim (s : String) : String :=
  ⟨((s.toList.dropWhile isJSWhiteSpace).reverse.dropWhile isJSWhiteSpace).reverse⟩

/-- Embedding of `checklist.find(item => item.name.toLowerCase() ===
wanted.toLowerCase())` (app.js 1277-1279): the first entry that matches, `none`
when `find` gives `undefined`.  The callback throws a `TypeError` on an entry
that is `null` or whose `name` is not a string; entries after the first match
are not visited. -/
def findExisting (host : Host) (wanted : String) : List JSValue → Except JSError (Option JSValue)
  | [] => .ok none
  | item :: rest =>
    match getMember (some item) "name" with
    | .error e => .error e
    | .ok (some (.str name)) =>
      if host.toLowerCase name = host.toLowerCase wanted then .ok (some item)
      else findExisting host wanted rest
    | .ok _ => .error .typeError

/-- Embedding of `addCustomGearItem()` (app.js 1268-1298).  `input` is what
`prompt` returned, `none` when the dialog was cancelled.  The `alert` of the
duplicate branch and the final `renderGearChecklist` are page steps. -/
def addCustomGearItem (page : Page) (host : Host) (input : Option String) (state : JSValue) : Run :=
  match input with
  | none => { state := state, thrown := none }
  | some itemName =>
    if itemName = "" ∨ jsTrim itemName = "" then { state := state, thrown := none }
    else
      match readPath (some state) ["administration", "gear", "checklist"] with
      | .error e => { state := state, thrown := some e }
      | .ok (some (.arr items)) =>
        (match findExisting host (jsTrim itemName) items with
        | .error e => { state := state, thrown := some e }
        | .ok (some existingItem) =>
          if truthy existingItem then
            { state := state, thrown := page.render "alert" (.str "This item already exists in your checklist.") state }
          else { state := state, thrown := some .notModelled }
        | .ok none =>
          (storeChecklist state (items ++ [.obj [("name", .str (jsTrim itemName)),
              ("checked", .bool false), ("custom", .bool true)]])).andThen
            (fun st => { state := st, thrown := page.render "renderGearChecklist" .null st }))
      | .ok _ => { state := state, thrown := some .typeError }

/-- Embedding of `checklist.filter(item => item.name !== itemName)` (app.js
1309-1311); the callback throws on a `null` entry. -/
def withoutName (itemName : String) : List JSValue → Except JSError (List JSValue)
  | [] => .ok []
  | item :: rest =>
    match getMember (some item) "name" with
    | .error e => .error e
    | .ok name =>
      match withoutName itemName rest with
      | .error e => .error e
      | .ok kept => .ok (if name = some (.str itemName) then kept else item :: kept)

/-- Embedding of `removeCustomGearItem(itemName)` (app.js 1304-1315);
`confirmed` is what `confirm` returned. -/
def removeCustomGearItem (page : Page) (confirmed : Bool) (itemName : String)
    (state : JSValue) : Run :=
  if !confirmed then { state := state, thrown := none }
  else
    match readPath (some state) ["administration", "gear", "checklist"] with
    | .error e => { state := state, thrown := some e }
    | .ok (some (.arr items)) =>
      (match withoutName itemName items with
      | .error e => { state := state, thrown := some e }
      | .ok kept =>
        (storeChecklist state kept).andThen
          (fun st => { state := st, thrown := page.render "renderGearChecklist" .null st }))
    | .ok _ => { state := state, thrown := some .typeError }

/-! ## Dates -/

/-- Milliseconds per day (`1000 * 60 * 60 * 24`). -/
def msPerDay : Int := 86400000

/-- Day number (days since 1970-01-01) of a date of the proleptic Gregorian
calendar, the calendar of ECMA-262. -/
def daysFromCivil (y : Int) (m d : Nat) : Int :=
  let y1 : Int := if m ≤ 2 then y - 1 else y
  let era : Int := y1 / 400
  let yoe : Int := y1 - era * 400
  let mp : Int := if m > 2 then (m : Int) - 3 else (m : Int) + 9
  let doy : Int := (153 * mp + 2) / 5 + (d : Int) - 1
  let doe : Int := yoe * 365 + yoe / 4 - yoe / 100 + doy
  era * 146097 + doe - 719468

/-- Year, month and day of the month of a day number. -/
def civilFromDays (z : Int) : Int × Nat × Nat :=
  let z1 : Int := z + 719468
  let era : Int := z1 / 146097
  let doe : Int := z1 - era * 146097
  let yoe : Int := (doe - doe / 1460 + doe / 36524 - doe / 146096) / 365
  let doy : Int := doe - (365 * yoe + yoe / 4 - yoe / 100)
  let mp : Int := (5 * doy + 2) / 153
  let d : Int := doy - (153 * mp + 2) / 5 + 1
  let m : Int := if mp < 10 then mp + 3 else mp - 9
  (if m ≤ 2 then yoe + era * 400 + 1 else yoe + era * 400, m.toNat, d.toNat)

/-- Decimal digits of `n`, padded with zeros on the left to `width`. -/
def padDigits (width n : Nat) : String :=
  let ds := Nat.toDigits 10 n
  ⟨List.replicate (width - ds.length) '0' ++ ds⟩

/-- The date part of `toISOString()` of a time value, that is
`toISOString().split('T')[0]`: `YYYY-MM-DD`, with a sign and six digits for a
year outside 0..9999. -/
def isoDateString (t : Int) : String :=
  match civilFromDays (t / msPerDay) with
  | (y, m, d) =>
    (if 0 ≤ y ∧ y ≤ 9999 then padDigits 4 y.toNat
     else (if y < 0 then "-" else "+") ++ padDigits 6 y.natAbs)
      ++ "-" ++ padDigits 2 m ++ "-" ++ padDigits 2 d

/-- The `TimeClip` of ECMA-262: a time value beyond 8.64e15 ms is not a date. -/
def timeClip (t : Int) : Option Int :=
  if t.natAbs ≤ 8640000000000000 then some t else none

/-- The text `d.toISOString().split('T')[0]` after `d.setDate(s.getDate() + i)`
on a copy `d` of the date `s` with time value `t`: `setDate` moves the local
time by `i` days and converts back; `toISOString` throws a `RangeError` on an
invalid date. -/
def shiftedDateString (host : Host) (t : Option Int) (i : Int) : Except JSError String :=
  match t with
  | none => .error .rangeError
  | some t =>
    match timeClip (host.toUTC (host.toLocal t + i * msPerDay)) with
    | none => .error .rangeError
    | some u => .ok (isoDateString u)

/-- Number of days of a month. -/
def daysInMonth (y : Int) (m : Nat) : Nat :=
  if m = 2 then (if y % 4 = 0 ∧ (y % 100 ≠ 0 ∨ y % 400 = 0) then 29 else 28)
  else if m = 4 ∨ m = 6 ∨ m = 9 ∨ m = 11 then 30 else 31

/-- Time value of a date-only string `YYYY-MM-DD` of the ECMA-262 date
format, which is read as midnight UTC; `none` for any other text. -/
def parseISODate (s : String) : Option Int :=
  match s.toList with
  | [y1, y2, y3, y4, '-', m1, m2, '-', d1, d2] =>
    match digitsValue [y1, y2, y3, y4] 0, digitsValue [m1, m2] 0, digitsValue [d1, d2] 0 with
    | some y, some m, some d =>
      if 1 ≤ m ∧ m ≤ 12 ∧ 1 ≤ d ∧ d ≤ daysInMonth y m then
        some (daysFromCivil y m d * msPerDay)
      else none
    | _, _, _ => none
  | _ => none

/-- A host that reads date-only strings as ECMA-262 says and whose local time
is UTC. -/
def utcHost (now : String) : Host :=
  { quietHost now with
    newDate := fun v => match v with
      | .str s => parseISODate s
      | _ => none }

/-- The text of `toLocaleDateString('en-US', {month: 'short', day: 'numeric',
year: 'numeric'})` for a local time in the years 1 to 9999, as in
`Jun 1, 2024`. -/
def shortDate (t : Int) : String :=
  match civilFromDays (t / msPerDay) with
  | (y, m, d) =>
    (["Jan", "Feb", "Mar", "Apr", "May", "Jun", "Jul", "Aug", "Sep", "Oct", "Nov",
      "Dec"][m - 1]?).getD "" ++ " " ++ ⟨Nat.toDigits 10 d⟩ ++ ", " ++ ⟨Nat.toDigits 10 y.toNat⟩

/-- A host like `utcHost` whose `formatDate` prints a date-only string the way
an `en-US` platform on UTC does. -/
def englishHost (now : String) : Host :=
  { utcHost now with
    formatDate := fun v => match v with
      | .str s =>
        if s = "" then ""
        else match parseISODate s with
          | some t => shortDate t
          | none => "Invalid Date"
      | _ => "Invalid Date" }

/-! ## calculations.js: trip duration -/

/-- Embedding of `calculateTripDuration()` (calculations.js 139-150).  The two
time values are whole numbers of milliseconds; while their difference stays
below `2^53` the subtraction is exact and the rounding of the division cannot
carry the quotient across a whole number (a quotient that is not whole is at
least `1/86400000` away from one, more than the rounding error), so
`Math.ceil` gives the exact ceiling.  A larger difference is not modelled.  An
invalid date makes `days` `NaN`, and `NaN > 0` is false. -/
def calculateTripDuration (host : Host) (state : JSValue) : Except JSError Int :=
  if !truthy state then .ok 0
  else
    match readPath (some state) ["trip", "startDate"] with
    | .error e => .error e
    | .ok startDate =>
      if !truthy? startDate then .ok 0
      else
        match readPath (some state) ["trip", "endDate"] with
        | .error e => .error e
        | .ok endDate =>
          if !truthy? endDate then .ok 0
          else
            match startDate, endDate with
            | some s, some e =>
              (match host.newDate s, host.newDate e with
              | some start, some end_ =>
                if (end_ - start).natAbs < 9007199254740992 then
                  let days := -((-(end_ - start)) / msPerDay) + 1
                  .ok (if days > 0 then days else 0)
                else .error .notModelled
              | _, _ => .ok 0)
            | _, _ => .ok 0

/-! ## app.js: the expected check-in date -/

/-- UTF-16 code units of a string, the units `<` on strings compares. -/
def utf16Units (s : String) : List Nat :=
  s.toList.flatMap (fun c =>
    if c.toNat < 65536 then [c.toNat]
    else [55296 + (c.toNat - 65536) / 1024, 56320 + (c.toNat - 65536) % 1024])

/-- Lexicographic order on lists of code units. -/
def unitsLt : List Nat → List Nat → Bool
  | [], [] => false
  | [], _ :: _ => true
  | _ :: _, [] => false
  | x :: xs, y :: ys => if x < y then true else if y < x then false else unitsLt xs ys

/-- Embedding of `a < b` on two strings. -/
def jsStringLt (a b : String) : Bool := unitsLt (utf16Units a) (utf16Units b)

/-- Embedding of `a < b`; only the comparison of two strings is modelled. -/
def jsLess (a b : Option JSValue) : Except JSError Bool :=
  match a, b with
  | some (.str x), some (.str y) => .ok (jsStringLt x y)
  | _, _ => .error .notModelled

/-- Embedding of `updateCheckInDate()` (app.js 1340-1357).  The write to
`checkInInput.value` changes the page only. -/
def updateCheckInDate (page : Page) (host : Host) (state : JSValue) : Run :=
  match readPath (some state) ["trip", "endDate"] with
  | .error e => { state := state, thrown := some e }
  | .ok endDate =>
    if !truthy? endDate || !page.has "commandControl.expectedCheckIn" then
      { state := state, thrown := none }
    else
      match readPath (some state) ["commandControl", "expectedCheckIn"] with
      | .error e => { state := state, thrown := some e }
      | .ok currentCheckIn =>
        match shiftedDateString host (endDate.bind host.newDate) 1 with
        | .error e => { state := state, thrown := some e }
        | .ok checkInDateString =>
          match (if !truthy? currentCheckIn then .ok true else jsLess currentCheckIn endDate) with
          | .error e => { state := state, thrown := some e }
          | .ok false => { state := state, thrown := none }
          | .ok true =>
            match assignAt state ["commandControl", "expectedCheckIn"]
                (.str checkInDateString) with
            | .error e => { state := state, thrown := some e }
            | .ok state' => { state := state', thrown := none }

/-- A host on US Eastern time in 2024: five hours behind UTC, four hours
between 2024-03-10 02:00 and 2024-11-03 02:00 local time. -/
def easternHost (now : String) : Host :=
  { utcHost now with
    toLocal := fun t =>
      if 1710054000000 ≤ t ∧ t < 1730613600000 then t - 14400000 else t - 18000000
    toUTC := fun l =>
      if 1710036000000 ≤ l ∧ l < 1730599200000 then l + 14400000 else l + 18000000 }

/-! ## app.js: the daily plan -/

/-- The entry `{day, date, from: '', to: '', distance: '', notes: ''}` that
`prepopulateDailyPlan` and `addDay` push. -/
def dayEntry (day : Nat) (date : String) : JSValue :=
  .obj [("day", .num (F64.ofNat day)), ("date", .str date), ("from", .str ""),
        ("to", .str ""), ("distance", .str ""), ("notes", .str "")]

/-- The test `v.length === 0` on a truthy value. -/
def lengthIsZero (v : Option JSValue) : Bool :=
  match v with
  | some (.arr xs) => xs.isEmpty
  | some (.obj ps) => decide (lookupProp ps "length" = some (.num (F64.ofNat 0)))
  | _ => false

/-- The entries the loop of `prepopulateDailyPlan` pushes (app.js 913-925),
from index `i` on, `n` more rounds; the loop stops at the first
`toISOString` that throws. -/
def planEntries (host : Host) (t : Option Int) : Nat → Nat → List JSValue × Option JSError
  | _, 0 => ([], none)
  | i, n + 1 =>
    match shiftedDateString host t i with
    | .error e => ([], some e)
    | .ok date =>
      ((dayEntry (i + 1) date) :: (planEntries host t (i + 1) n).1,
       (planEntries host t (i + 1) n).2)

/-- The write `state.execution.dailyPlan = items` (or the `push` / `pop` that
leaves the list as `items`) followed by
`updateState('execution.dailyPlan', items)`. -/
def storePlan (state : JSValue) (items : List JSValue) : Run :=
  match assignAt state ["execution", "dailyPlan"] (.arr items) with
  | .error e => { state := state, thrown := some e }
  | .ok state' => Run.ofUpdate state' "execution.dailyPlan" (.arr items)

/-- Embedding of `prepopulateDailyPlan()` (app.js 904-929). -/
def prepopulateDailyPlan (host : Host) (state : JSValue) : Run :=
  match calculateTripDuration host state with
  | .error e => { state := state, thrown := some e }
  | .ok tripDuration =>
    if tripDuration > 0 then
      match readPath (some state) ["execution", "dailyPlan"] with
      | .error e => { state := state, thrown := some e }
      | .ok plan =>
        if !truthy? plan || lengthIsZero plan then
          match assignAt state ["execution", "dailyPlan"] (.arr []) with
          | .error e => { state := state, thrown := some e }
          | .ok state1 =>
            match readPath (some state1) ["trip", "startDate"] with
            | .error e => { state := state1, thrown := some e }
            | .ok startDate =>
              match readPath (some state1) ["execution", "dailyPlan"] with
              | .ok (some (.arr _)) =>
                let built := planEntries host (startDate.bind host.newDate) 0 tripDuration.toNat
                (match assignAt state1 ["execution", "dailyPlan"] (.arr built.1) with
                | .error e => { state := state1, thrown := some e }
                | .ok state2 =>
                  match built.2 with
                  | some e => { state := state2, thrown := some e }
                  | none => Run.ofUpdate state2 "execution.dailyPlan" (.arr built.1))
              | _ => { state := state1, thrown := some .typeError }
        else { state := state, thrown := none }
    else { state := state, thrown := none }

/-- The part of `renderDailyPlanTable()` (app.js 993-1087) that can change the
document: the call of `prepopulateDailyPlan` on lines 998-1000.  The rest
writes the page. -/
def renderDailyPlanTable (page : Page) (host : Host) (state : JSValue) : Run :=
  if !page.has "daily-plan-tbody" then { state := state, thrown := none }
  else
    let populated : Run :=
      match calculateTripDuration host state with
      | .error e => { state := state, thrown := some e }
      | .ok tripDuration =>
        if tripDuration > 0 then
          match readPath (some state) ["execution", "dailyPlan"] with
          | .error e => { state := state, thrown := some e }
          | .ok plan =>
            if !truthy? plan || lengthIsZero plan then prepopulateDailyPlan host state
            else { state := state, thrown := none }
        else { state := state, thrown := none }
    populated.andThen
      (fun st => { state := st, thrown := page.render "renderDailyPlanTable" .null st })

/-- The two calls that end `addDay` and `removeLastDay`:
`renderDailyPlanTable()` and `updateTotalDistance()`. -/
def refreshDailyPlan (page : Page) (host : Host) (state : JSValue) : Run :=
  (renderDailyPlanTable page host state).andThen
    (fun st => { state := st, thrown := page.render "updateTotalDistance" .null st })

/-- Embedding of `addDay()` (app.js 934-962).  A plan that is not a list is
not modelled. -/
def addDay (page : Page) (host : Host) (state : JSValue) : Run :=
  match readPath (some state) ["execution", "dailyPlan"] with
  | .error e => { state := state, thrown := some e }
  | .ok plan =>
    match (if !truthy? plan then assignAt state ["execution", "dailyPlan"] (.arr [])
           else .ok state) with
    | .error e => { state := state, thrown := some e }
    | .ok state1 =>
      match readPath (some state1) ["execution", "dailyPlan"] with
      | .error e => { state := state1, thrown := some e }
      | .ok none => { state := state1, thrown := some .typeError }
      | .ok (some (.arr items)) =>
        (match readPath (some state1) ["trip", "startDate"] with
        | .error e => { state := state1, thrown := some e }
        | .ok startDate =>
          match (if truthy? startDate then
                   shiftedDateString host (startDate.bind host.newDate) (items.length : Int)
                 else .ok "") with
          | .error e => { state := state1, thrown := some e }
          | .ok dayDate =>
            (storePlan state1 (items ++ [dayEntry (items.length + 1) dayDate])).andThen
              (refreshDailyPlan page host))
      | .ok _ => { state := state1, thrown := some .notModelled }

/-- Embedding of `lastDay.from || lastDay.to || lastDay.distance ||
lastDay.notes` (app.js 977). -/
def rowHasData (lastDay : JSValue) : Except JSError Bool :=
  match lastDay with
  | .null => .error .typeError
  | _ => .ok (truthy? (member lastDay "from") || truthy? (member lastDay "to") ||
      truthy? (member lastDay "distance") || truthy? (member lastDay "notes"))

/-- Embedding of `removeLastDay()` (app.js 967-988); `confirmed` is what
`confirm` returns when it is asked. -/
def removeLastDay (page : Page) (host : Host) (confirmed : Bool) (state : JSValue) : Run :=
  match readPath (some state) ["execution", "dailyPlan"] with
  | .error e => { state := state, thrown := some e }
  | .ok plan =>
    if !truthy? plan || lengthIsZero plan then { state := state, thrown := none }
    else
      match plan with
      | some (.arr items) =>
        (match items.getLast? with
        | none => { state := state, thrown := none }
        | some lastDay =>
          match rowHasData lastDay with
          | .error e => { state := state, thrown := some e }
          | .ok hasData =>
            if hasData && !confirmed then { state := state, thrown := none }
            else (storePlan state items.dropLast).andThen (refreshDailyPlan page host))
      | _ => { state := state, thrown := some .notModelled }

/-- The property key of a number used as an index: `none` is `NaN`. -/
def indexKey : Option Int → String
  | none => "NaN"
  | some (.ofNat n) => ⟨Nat.toDigits 10 n⟩
  | some (.negSucc n) => ⟨'-' :: Nat.toDigits 10 (n + 1)⟩

/-- Embedding of `handleDailyPlanInput(event)` (app.js 1090-1111): `index` is
`parseInt(input.dataset.dayIndex)`, `field` is `input.dataset.field` and
`value` is `input.value`. -/
def handleDailyPlanInput (page : Page) (index : Option Int) (field value : String)
    (state : JSValue) : Run :=
  match readPath (some state) ["execution", "dailyPlan", indexKey index] with
  | .error e => { state := state, thrown := some e }
  | .ok day =>
    if !truthy? day then { state := state, thrown := none }
    else
      match assignAt state ["execution", "dailyPlan", indexKey index, field] (.str value) with
      | .error e => { state := state, thrown := some e }
      | .ok state1 =>
        match readPath (some state1) ["execution", "dailyPlan"] with
        | .ok (some plan) =>
          (Run.ofUpdate state1 "execution.dailyPlan" plan).andThen (fun st =>
            ({ state := st,
               thrown := if field = "distance" then page.render "updateTotalDistance" .null st
                         else none } : Run).andThen (fun st2 =>
              { state := st2, thrown := page.render "updateSaveIndicator" (.str "saving") st2 }))
        | .ok none => { state := state1, thrown := some .notModelled }
        | .error e => { state := state1, thrown := some e }

/-- The values of `data-field` on the inputs `renderDailyPlanTable` makes
(app.js 1025-1066), the inputs `handleDailyPlanInput` listens to. -/
def DAILY_PLAN_FIELDS : List String := ["date", "from", "to", "distance", "notes"]

/-! ## app.js: the editing handlers -/

/-- A step that writes the page only: the document is kept, the step ends the
way the page says. -/
def renderStep (page : Page) (name : String) (arg : JSValue) (state : JSValue) : Run :=
  { state := state, thrown := page.render name arg state }

/-- Embedding of `s.startsWith(p)`. -/
def startsWith (s p : String) : Bool := s.toList.take p.length == p.toList

/-- The selector of the accommodation section (app.js 452). -/
def ACCOMMODATION_SECTION : String := ".collapsible-section[data-section=\"accommodation\"]"

/-- Embedding of `toggleTripTypeVisibility(tripType)` (app.js 435-466); the
`style.display` writes change the page only. -/
def toggleTripTypeVisibility (page : Page) (tripType : String) (state : JSValue) : Run :=
  let endDateStep : Run :=
    if page.has "end-date-container" ∧ tripType = "dayhike" then
      match readPath (some state) ["trip", "startDate"] with
      | .error e => { state := state, thrown := some e }
      | .ok (some startDate) =>
        if truthy startDate then
          match assignAt state ["trip", "endDate"] startDate with
          | .error e => { state := state, thrown := some e }
          | .ok state1 => Run.ofUpdate state1 "trip.endDate" startDate
        else { state := state, thrown := none }
      | .ok none => { state := state, thrown := none }
    else { state := state, thrown := none }
  (endDateStep.andThen (fun st =>
    if page.has ACCOMMODATION_SECTION ∧ tripType = "dayhike" then
      match assignAt st ["administration", "accommodation", "nightsRequired"]
          (.num (F64.ofNat 0)) with
      | .error e => { state := st, thrown := some e }
      | .ok st1 =>
        Run.ofUpdate st1 "administration.accommodation.nightsRequired" (.num (F64.ofNat 0))
    else { state := st, thrown := none })).andThen (loadGearChecklist page)

/-- Embedding of `handleRadioChange(radio)` (app.js 287-321): `name` is
`radio.name` and `value` is `radio.value`. -/
def handleRadioChange (page : Page) (name value : String) (state : JSValue) : Run :=
  if name = "" then { state := state, thrown := none }
  else
    (((Run.ofUpdate state name (.str value)).andThen (fun st =>
      if name = "trip.tripType" then toggleTripTypeVisibility page value st
      else if name = "situation.travelType" then
        (renderStep page "toggleGroupSizeVisibility" (.str value) st).andThen
          (renderStep page "updateSoloDeviceWarning" .null)
      else if name = "season.season" then
        (renderStep page "toggleWinterWarning" (.str value) st).andThen (loadGearChecklist page)
      else if name = "commandControl.deviceCarried" then
        renderStep page "updateSoloDeviceWarning" .null st
      else { state := st, thrown := none })).andThen (fun st =>
      if startsWith name "ground." || startsWith name "situation." || startsWith name "season."
      then renderStep page "updateMissionSummary" .null st
      else { state := st, thrown := none })).andThen
    (renderStep page "updateSaveIndicator" (.str "saving"))

/-- Embedding of `handleInput(event)` (app.js 193-239) for an event on a text,
date or number input or a textarea: `name` is `target.name || target.id` and
`value` is `target.value`. -/
def handleInput (page : Page) (host : Host) (name value : String) (state : JSValue) : Run :=
  if name = "" then { state := state, thrown := none }
  else
    ((((Run.ofUpdate state name (.str value)).andThen (fun st =>
      if name = "trip.startDate" ∨ name = "trip.endDate" then
        let synced : Run :=
          if name = "trip.startDate" then
            match readPath (some st) ["trip", "tripType"] with
            | .error e => { state := st, thrown := some e }
            | .ok tripType =>
              if tripType = some (.str "dayhike") then
                match assignAt st ["trip", "endDate"] (.str value) with
                | .error e => { state := st, thrown := some e }
                | .ok st1 => { state := st1, thrown := none }
              else { state := st, thrown := none }
          else { state := st, thrown := none }
        ((synced.andThen (renderStep page "updateTripDuration" .null)).andThen
          (renderStep page "updateMissionSummary" .null)).andThen (updateCheckInDate page host)
      else { state := st, thrown := none })).andThen (fun st =>
      if startsWith name "trip." || startsWith name "ground." ||
          startsWith name "situation." || startsWith name "season."
      then renderStep page "updateMissionSummary" .null st
      else { state := st, thrown := none })).andThen (fun st =>
      if startsWith name "administration.costing."
      then renderStep page "updateTotalCost" .null st
      else { state := st, thrown := none })).andThen
    (renderStep page "updateSaveIndicator" (.str "saving"))

/-! ## calculations.js: totals -/

/-- The number a list of decimal digits denotes. -/
def natOfDigits (ds : List Char) : Nat :=
  ds.foldl (fun acc c => acc * 10 + (c.toNat - 48)) 0

/-- The exponent part of a decimal literal at the head of `cs`: `e` or `E`, an
optional sign and at least one digit; 0 when there is none. -/
def exponentOf (cs : List Char) : Int :=
  match cs with
  | c :: rest =>
    if c = 'e' ∨ c = 'E' then
      match rest with
      | '+' :: ds =>
        if (ds.takeWhile Char.isDigit).isEmpty then 0
        else (natOfDigits (ds.takeWhile Char.isDigit) : Int)
      | '-' :: ds =>
        if (ds.takeWhile Char.isDigit).isEmpty then 0
        else -(natOfDigits (ds.takeWhile Char.isDigit) : Int)
      | ds =>
        if (ds.takeWhile Char.isDigit).isEmpty then 0
        else (natOfDigits (ds.takeWhile Char.isDigit) : Int)
    else 0
  | [] => 0

/-- The value of the longest prefix of `cs` that is an unsigned decimal
literal of the string grammar (`Infinity`, `1`, `1.5`, `.5`, `1.`, each with
an optional exponent); `NaN` when no prefix is one. -/
def unsignedLiteral (negative : Bool) (cs : List Char) : JSNumber :=
  if cs.take 8 = "Infinity".toList then .inf negative
  else
    let intDigits := cs.takeWhile Char.isDigit
    let rest := cs.dropWhile Char.isDigit
    match rest with
    | '.' :: more =>
      let fracDigits := more.takeWhile Char.isDigit
      if intDigits.isEmpty ∧ fracDigits.isEmpty then .nan
      else JSNumber.ofDecimal negative (natOfDigits (intDigits ++ fracDigits))
        (exponentOf (more.dropWhile Char.isDigit) - (fracDigits.length : Int))
    | _ =>
      if intDigits.isEmpty then .nan
      else JSNumber.ofDecimal negative (natOfDigits intDigits) (exponentOf rest)

/-- Embedding of `parseFloat` on a string: leading white space is skipped, then
an optional sign and the longest decimal literal are read. -/
def parseFloatText (s : String) : JSNumber :=
  match s.toList.dropWhile isJSWhiteSpace with
  | '-' :: cs => unsignedLiteral true cs
  | '+' :: cs => unsignedLiteral false cs
  | cs => unsignedLiteral false cs

/-- Embedding of `parseFloat(v)` on a value: the argument is turned into a
string first.  The text of a number reads back as the number; the text of a
list starts with the text of its first element (empty for `null`), and a comma
ends a literal; `null`, a boolean and an object give texts that start with no
literal. -/
def parseFloatValue : JSValue → JSNumber
  | .str s => parseFloatText s
  | .num x => .fin x
  | .arr (first :: _) => parseFloatValue first
  | _ => .nan

/-- Embedding of `parseFloat(v)` on the result of a read; `undefined` gives
`NaN`. -/
def parseFloat : Option JSValue → JSNumber
  | some v => parseFloatValue v
  | none => .nan

/-- Embedding of `x || 0` on a number. -/
def orZero (x : JSNumber) : JSNumber := if x.truthy then x else .fin ⟨0⟩

/-- The callback of the `reduce` in `calculateTotalDistance`
(calculations.js 160-163), run over the entries from the left. -/
def addDistances : JSNumber → List JSValue → Except JSError JSNumber
  | total, [] => .ok total
  | total, day :: rest =>
    match getMember (some day) "distance" with
    | .error e => .error e
    | .ok distance => addDistances (total.add (orZero (parseFloat distance))) rest

/-- Embedding of `calculateTotalDistance()` (calculations.js 155-164). -/
def calculateTotalDistance (state : JSValue) : Except JSError JSNumber :=
  if !truthy state then .ok (.fin ⟨0⟩)
  else
    match readPath (some state) ["execution", "dailyPlan"] with
    | .error e => .error e
    | .ok plan =>
      if !truthy? plan then .ok (.fin ⟨0⟩)
      else
        match plan with
        | some (.arr entries) => addDistances (.fin ⟨0⟩) entries
        | _ => .error .typeError

/-- Embedding of `calculateTotalCost()` (calculations.js 170-183). -/
def calculateTotalCost (state : JSValue) : Except JSError JSNumber :=
  if !truthy state then .ok (.fin ⟨0⟩)
  else
    match readPath (some state) ["administration", "costing"] with
    | .error e => .error e
    | .ok costing =>
      if !truthy? costing then .ok (.fin ⟨0⟩)
      else
        match costing with
        | some c =>
          .ok (((((orZero (parseFloat (member c "travel"))).add
            (orZero (parseFloat (member c "accommodation")))).add
            (orZero (parseFloat (member c "food")))).add
            (orZero (parseFloat (member c "permits")))).add
            (orZero (parseFloat (member c "other"))))
        | none => .ok (.fin ⟨0⟩)

/-! ## calculations.js: the mission summary -/

/-- The text a value contributes to a template literal: a string is taken as
it is, anything else goes through the platform's `ToString`. -/
def toText (host : Host) (v : Option JSValue) : String :=
  match v with
  | some (.str s) => s
  | other => host.display other

/-- The text an element contributes to `Array.prototype.join`: `null` gives
the empty string. -/
def joinText (host : Host) (v : JSValue) : String :=
  match v with
  | .null => ""
  | other => toText host (some other)

/-- Embedding of `parts.join(sep)` on a list of strings. -/
def joinWith (sep : String) : List String → String
  | [] => ""
  | [x] => x
  | x :: y :: rest => x ++ sep ++ joinWith sep (y :: rest)

/-- Decimal text of a positive whole number. -/
def natText (n : Nat) : String := ⟨Nat.toDigits 10 n⟩

/-- The value `Math.ceil((end - start) / (1000 * 60 * 60 * 24)) + 1` for the
two dates, `none` when it is `NaN` (one of the dates is invalid); see
`calculateTripDuration` for the arithmetic. -/
def tripDays (host : Host) (startDate endDate : JSValue) : Except JSError (Option Int) :=
  match host.newDate startDate, host.newDate endDate with
  | some start, some end_ =>
    if (end_ - start).natAbs < 9007199254740992 then
      .ok (some (-((-(end_ - start)) / msPerDay) + 1))
    else .error .notModelled
  | _, _ => .ok none

/-- Embedding of `labels[v] || v` for one of the label tables, as the value
pushed: the label when the table has the key, the value itself otherwise.  A
key that every object inherits (`constructor`, ...) gives a function and is
not modelled. -/
def labelOr (host : Host) (labels : List (String × String)) (v : JSValue) :
    Except JSError JSValue :=
  match labels.lookup (toText host (some v)) with
  | some label => .ok (.str label)
  | none =>
    if toText host (some v) ∈ OBJECT_PROTOTYPE_KEYS then .error .notModelled else .ok v

/-- The `ok` values of a list of results, or the first error. -/
def allOk {α : Type} : List (Except JSError α) → Except JSError (List α)
  | [] => .ok []
  | .error e :: _ => .error e
  | .ok x :: rest =>
    match allOk rest with
    | .error e => .error e
    | .ok xs => .ok (x :: xs)

/-- Lines 13-20 of calculations.js: the trip type. -/
def tripTypeFragment (state : JSValue) : Except JSError (Option String) :=
  match readPath (some state) ["trip", "tripType"] with
  | .error e => .error e
  | .ok tripType =>
    if truthy? tripType then
      .ok (some (if tripType = some (.str "dayhike") then "Day Hike" else "Backpacking Trip"))
    else .ok none

/-- Lines 22-37 of calculations.js: the dates. -/
def dateFragment (host : Host) (state : JSValue) : Except JSError (Option String) :=
  match readPath (some state) ["trip", "startDate"] with
  | .error e => .error e
  | .ok none => .ok none
  | .ok (some startDate) =>
    if !truthy startDate then .ok none
    else
      match readPath (some state) ["trip", "endDate"] with
      | .error e => .error e
      | .ok none => .ok none
      | .ok (some endDate) =>
        if !truthy endDate then .ok none
        else
          match tripDays host startDate endDate with
          | .error e => .error e
          | .ok none => .ok none
          | .ok (some days) =>
            if days > 0 then
              match readPath (some state) ["trip", "tripType"] with
              | .error e => .error e
              | .ok tripType =>
                if tripType = some (.str "dayhike") then
                  .ok (some ("Date: " ++ host.formatDate startDate))
                else
                  .ok (some (natText days.toNat ++ " day" ++ (if days = 1 then "" else "s")
                    ++ " (" ++ host.formatDate startDate ++ " - "
                    ++ host.formatDate endDate ++ ")"))
            else .ok none

/-- Lines 39-42 of calculations.js: the trip name. -/
def tripNameFragment (host : Host) (state : JSValue) : Except JSError (Option String) :=
  match readPath (some state) ["trip", "tripName"] with
  | .error e => .error e
  | .ok tripName =>
    if truthy? tripName then .ok (some ("Trip: " ++ toText host tripName)) else .ok none

/-- Lines 44-53 of calculations.js: the travel type. -/
def travelTypeFragment (host : Host) (state : JSValue) : Except JSError (Option String) :=
  match readPath (some state) ["situation", "travelType"] with
  | .error e => .error e
  | .ok travelType =>
    if truthy? travelType then
      if travelType = some (.str "solo") then .ok (some "Solo trip")
      else if travelType = some (.str "group") then
        match readPath (some state) ["situation", "groupSize"] with
        | .error e => .error e
        | .ok groupSize =>
          if truthy? groupSize then
            .ok (some ("Group trip (" ++ toText host groupSize ++ " people)"))
          else .ok (some "Group trip")
      else .ok (some "Group trip")
    else .ok none

/-- A fragment of the form `labels[field] || field` (lines 55-63, 65-74,
95-103 and 105-113 of calculations.js). -/
def labelFragment (host : Host) (labels : List (String × String)) (branch key : String)
    (state : JSValue) : Except JSError (Option String) :=
  match readPath (some state) [branch, key] with
  | .error e => .error e
  | .ok none => .ok none
  | .ok (some v) =>
    if truthy v then
      match labelOr host labels v with
      | .error e => .error e
      | .ok part => .ok (some (toText host (some part)))
    else .ok none

def LEVEL_LABELS : List (String × String) :=
  [("beginner", "Beginner experience level"), ("intermediate", "Intermediate experience level"),
   ("advanced", "Advanced experience level")]

def SEASON_LABELS : List (String × String) :=
  [("summer", "Summer conditions"), ("autumn", "Autumn conditions"),
   ("winter", "Winter conditions"), ("spring", "Spring conditions")]

def TERRAIN_LABELS : List (String × String) :=
  [("flat", "flat terrain"), ("hills", "hills"), ("mountains", "mountains"),
   ("alpine", "alpine terrain")]

def TRAIL_LABELS : List (String × String) :=
  [("established", "Established trail"), ("partial", "Partial trail"),
   ("off-trail", "Off-trail navigation required")]

def VEGETATION_LABELS : List (String × String) :=
  [("open", "Open vegetation (grassland/tussock)"), ("bush", "Bush/forest"),
   ("mixed", "Mixed vegetation")]

/-- Lines 76-93 of calculations.js: the terrain types.  A truthy value that
is not a list has no `map` (a `TypeError`) when its `length` is positive; an
object with a `length` entry is not modelled. -/
def terrainFragment (host : Host) (state : JSValue) : Except JSError (Option String) :=
  match readPath (some state) ["ground", "terrainTypes"] with
  | .error e => .error e
  | .ok (some (.arr [])) => .ok none
  | .ok (some (.arr (t :: ts))) =>
    (match allOk ((t :: ts).map (labelOr host TERRAIN_LABELS)) with
    | .error e => .error e
    | .ok [only] => .ok (some ("Terrain: " ++ toText host (some only)))
    | .ok terrains => .ok (some ("Terrain: " ++ joinWith ", " (terrains.map (joinText host)))))
  | .ok (some (.str s)) => if s = "" then .ok none else .error .typeError
  | .ok (some (.obj ps)) =>
    (match lookupProp ps "length" with
    | none => .ok none
    | some _ => .error .notModelled)
  | .ok _ => .ok none

/-- The fragments of `generateMissionSummary` in the order of the source;
`none` stands for a block that pushes nothing. -/
def missionFragments (host : Host) (state : JSValue) : Except JSError (List (Option String)) :=
  allOk [tripTypeFragment state, dateFragment host state, tripNameFragment host state,
    travelTypeFragment host state,
    labelFragment host LEVEL_LABELS "situation" "experienceLevel" state,
    labelFragment host SEASON_LABELS "season" "season" state,
    terrainFragment host state,
    labelFragment host TRAIL_LABELS "ground" "trailType" state,
    labelFragment host VEGETATION_LABELS "ground" "vegetation" state]

/-- The message of line 117 of calculations.js. -/
def MISSION_PLACEHOLDER : String :=
  "Complete the Ground, Situation, and Season sections to see an auto-generated summary here."

/-- Embedding of `generateMissionSummary()` (calculations.js 8-121). -/
def generateMissionSummary (host : Host) (state : JSValue) : Except JSError String :=
  if !truthy state then .ok "No trip data available."
  else
    match missionFragments host state with
    | .error e => .error e
    | .ok fragments =>
      if (fragments.filterMap id).length = 0 then .ok MISSION_PLACEHOLDER
      else .ok (joinWith "\n" ((fragments.filterMap id).map (fun part => "â€¢ " ++ part)))

/-! ## export.js: the text summary -/

/-- The single rule of the summary (63 box-drawing characters). -/
def RULE : String := ⟨List.replicate 63 '─'⟩

/-- The double rule of the summary (63 box-drawing characters). -/
def DOUBLE_RULE : String := ⟨List.replicate 63 '═'⟩

/-- Decimal text of a whole number that is not negative. -/
def intText (n : Int) : String := natText n.toNat

/-- A block `if (field) lines.push(...)`: the lines made from the text of the
field when it is set, nothing otherwise. -/
def ifSet (host : Host) (state : JSValue) (path : List String) (make : String → List String) :
    Except JSError (List String) :=
  match readPath (some state) path with
  | .error e => .error e
  | .ok v => if truthy? v then .ok (make (toText host v)) else .ok []

/-- A line that ends in `Yes` or `No` after the truthiness of a field. -/
def yesNo (state : JSValue) (path : List String) (label : String) :
    Except JSError (List String) :=
  match readPath (some state) path with
  | .error e => .error e
  | .ok v => .ok [label ++ (if truthy? v then "Yes" else "No")]

/-- The blocks of a section one after the other: their lines, or the first
error. -/
def concatOk (blocks : List (Except JSError (List String))) : Except JSError (List String) :=
  match allOk blocks with
  | .error e => .error e
  | .ok parts => .ok parts.flatten

/-- Embedding of the test `v && v.length > 0` before a list method is called
on `v`: the elements when `v` is a list with elements, `none` when the test
fails.  A string with characters passes the test and has no list method (a
`TypeError`); an object with a `length` entry is not modelled. -/
def nonEmptyList (v : Option JSValue) : Except JSError (Option (List JSValue)) :=
  match v with
  | some (.arr []) => .ok none
  | some (.arr (x :: xs)) => .ok (some (x :: xs))
  | some (.str s) => if s = "" then .ok none else .error .typeError
  | some (.obj ps) =>
    (match lookupProp ps "length" with
    | none => .ok none
    | some _ => .error .notModelled)
  | _ => .ok none

/-- The text `a || fallback` puts into a template. -/
def orText (host : Host) (v : Option JSValue) (fallback : String) : String :=
  if truthy? v then toText host v else fallback

/-- Lines 18-34 of export.js: trip name, description, dates and duration. -/
def tripLines (host : Host) (state : JSValue) : Except JSError (List String) :=
  concatOk [
    ifSet host state ["trip", "tripName"] (fun t => ["TRIP: " ++ t, ""]),
    ifSet host state ["trip", "description"] (fun t => [t, ""]),
    (match readPath (some state) ["trip", "startDate"] with
    | .error e => .error e
    | .ok startDate =>
      if !truthy? startDate then .ok []
      else
        match readPath (some state) ["trip", "endDate"] with
        | .error e => .error e
        | .ok endDate =>
          if !truthy? endDate then .ok []
          else
            match calculateTripDuration host state with
            | .error e => .error e
            | .ok duration =>
              .ok ["DATES: " ++ host.formatDate (startDate.getD .null) ++ " - "
                     ++ host.formatDate (endDate.getD .null),
                   "DURATION: " ++ intText duration ++ " day"
                     ++ (if duration = 1 then "" else "s"),
                   ""])]

/-- The line of one map link (export.js 70-72). -/
def mapLinkLines (host : Host) (link : JSValue) : Except JSError (List String) :=
  match getMember (some link) "url" with
  | .error e => .error e
  | .ok url =>
    if truthy? url then
      .ok ["  • " ++ orText host (member link "description") "Map" ++ ": " ++ toText host url]
    else .ok []

/-- Lines 39-75 of export.js: the ground section. -/
def groundLines (host : Host) (state : JSValue) : Except JSError (List String) :=
  concatOk [
    (match readPath (some state) ["ground", "terrainTypes"] with
    | .error e => .error e
    | .ok terrainTypes =>
      match nonEmptyList terrainTypes with
      | .error e => .error e
      | .ok none => .ok []
      | .ok (some xs) => .ok ["Terrain Types: " ++ joinWith ", " (xs.map (joinText host))]),
    ifSet host state ["ground", "vegetation"] (fun t => ["Vegetation: " ++ t]),
    ifSet host state ["ground", "trailType"] (fun t => ["Trail Type: " ++ t]),
    ifSet host state ["ground", "routeCoverage"] (fun t => ["Route Coverage: " ++ t]),
    ifSet host state ["ground", "elevationNotes"]
      (fun t => ["", "Elevation & Terrain Notes:", t]),
    (match readPath (some state) ["ground", "mapLinks"] with
    | .error e => .error e
    | .ok mapLinks =>
      match nonEmptyList mapLinks with
      | .error e => .error e
      | .ok none => .ok []
      | .ok (some links) =>
        match concatOk (links.map (mapLinkLines host)) with
        | .error e => .error e
        | .ok ls => .ok (["", "Map Links:"] ++ ls))]

/-- Lines 82-114 of export.js: situation and season. -/
def situationLines (host : Host) (state : JSValue) : Except JSError (List String) :=
  concatOk [
    .ok ["Situation:"],
    (match readPath (some state) ["situation", "travelType"] with
    | .error e => .error e
    | .ok travelType =>
      if truthy? travelType then
        if travelType = some (.str "solo") then .ok ["  Travel Type: Solo"]
        else if travelType = some (.str "group") then
          match readPath (some state) ["situation", "groupSize"] with
          | .error e => .error e
          | .ok groupSize =>
            .ok ["  Travel Type: Group (" ++ orText host groupSize "unspecified" ++ " people)"]
        else .ok []
      else .ok []),
    ifSet host state ["situation", "experienceLevel"] (fun t => ["  Experience Level: " ++ t]),
    ifSet host state ["situation", "specialConsiderations"]
      (fun t => ["  Special Considerations:", "    " ++ t]),
    .ok ["", "Season:"],
    ifSet host state ["season", "season"] (fun t => ["  Season: " ++ t]),
    ifSet host state ["season", "expectedWeather"] (fun t => ["  Expected Weather:", "    " ++ t]),
    ifSet host state ["season", "weatherRisks"] (fun t => ["  Weather Risks:", "    " ++ t])]

/-- Lines 121-129 of export.js: the mission. -/
def missionLines (host : Host) (state : JSValue) : Except JSError (List String) :=
  concatOk [
    ifSet host state ["mission", "missionType"] (fun t => ["Mission Type: " ++ t, ""]),
    ifSet host state ["mission", "statement"] (fun t => ["Mission Statement:", t])]

/-- The lines of one day of the itinerary (export.js 160-172). -/
def dayLines (host : Host) (day : JSValue) : Except JSError (List String) :=
  match getMember (some day) "date" with
  | .error e => .error e
  | .ok date =>
    .ok (["Day " ++ toText host (member day "day")
            ++ (if truthy? date then " (" ++ host.formatDate (date.getD .null) ++ ")" else ""),
          "  From: " ++ orText host (member day "from") "Not specified",
          "  To: " ++ orText host (member day "to") "Not specified"]
      ++ (if truthy? (member day "distance") then
            ["  Distance: " ++ toText host (member day "distance") ++ " miles"] else [])
      ++ (if truthy? (member day "notes") then
            ["  Notes: " ++ toText host (member day "notes")] else [])
      ++ [""])

/-- Lines 155-179 of export.js: the itinerary and the total distance. -/
def itineraryLines (host : Host) (state : JSValue) : Except JSError (List String) :=
  match readPath (some state) ["execution", "dailyPlan"] with
  | .error e => .error e
  | .ok dailyPlan =>
    match nonEmptyList dailyPlan with
    | .error e => .error e
    | .ok none => .ok []
    | .ok (some days) =>
      match concatOk (days.map (dayLines host)) with
      | .error e => .error e
      | .ok ls =>
        match calculateTotalDistance state with
        | .error e => .error e
        | .ok totalDistance =>
          .ok (["", "Daily Itinerary:", ""] ++ ls ++
            (if totalDistance.isPositive then
              ["TOTAL DISTANCE: " ++ host.toFixed totalDistance 1 ++ " miles", ""]
            else []))

/-- Lines 147-179 of export.js: the execution section. -/
def executionLines (host : Host) (state : JSValue) : Except JSError (List String) :=
  concatOk [
    ifSet host state ["execution", "travelStyle"] (fun t => ["Travel Style: " ++ t]),
    ifSet host state ["execution", "direction"] (fun t => ["Direction: " ++ t]),
    itineraryLines host state]

/-- The lines of the gear checklist (export.js 217-233): the checked entries
under `Packed:`, the others under `Still needed:`. -/
def checklistLines (host : Host) (items : List JSValue) : Except JSError (List String) :=
  match allOk (items.map (fun item => getMember (some item) "checked")) with
  | .error e => .error e
  | .ok _ =>
    let checkedItems := items.filter (fun item => truthy? (member item "checked"))
    let uncheckedItems := items.filter (fun item => !truthy? (member item "checked"))
    .ok ((if checkedItems.length > 0 then
            "  Packed:" :: checkedItems.map (fun item => "    ✓ " ++ toText host (member item "name"))
          else [])
      ++ (if uncheckedItems.length > 0 then
            "  Still needed:" ::
              uncheckedItems.map (fun item => "    ☐ " ++ toText host (member item "name"))
          else []))

/-- One line of the costing block (export.js 292-296). -/
def costLine (host : Host) (costing : JSValue) (key label : String) : List String :=
  if truthy? (member costing key) then
    [label ++ host.toFixed (parseFloat (member costing key)) 2]
  else []

/-- Lines 290-304 of export.js: the costs and their total. -/
def costingLines (host : Host) (state : JSValue) : Except JSError (List String) :=
  match readPath (some state) ["administration", "costing"] with
  | .error e => .error e
  | .ok none => .error .typeError
  | .ok (some .null) => .error .typeError
  | .ok (some costing) =>
    match calculateTotalCost state with
    | .error e => .error e
    | .ok totalCost =>
      .ok (costLine host costing "travel" "  Travel: $"
        ++ costLine host costing "accommodation" "  Accommodation: $"
        ++ costLine host costing "food" "  Food: $"
        ++ costLine host costing "permits" "  Permits: $"
        ++ costLine host costing "other" "  Other: $"
        ++ (if totalCost.isPositive then
              ["  ─────────────", "  TOTAL: $" ++ host.toFixed totalCost 2]
            else [])
        ++ [""])

/-- Lines 186-305 of export.js: the administration section. -/
def administrationLines (host : Host) (state : JSValue) : Except JSError (List String) :=
  concatOk [
    .ok ["Travel & Transport:"],
    ifSet host state ["administration", "travel", "transportToStart"]
      (fun t => ["  To Start: " ++ t]),
    ifSet host state ["administration", "travel", "transportFromEnd"]
      (fun t => ["  From End: " ++ t]),
    ifSet host state ["administration", "travel", "specialLogistics"]
      (fun t => ["  Special Logistics: " ++ t]),
    .ok ["", "Accommodation:"],
    ifSet host state ["administration", "accommodation", "type"] (fun t => ["  Type: " ++ t]),
    ifSet host state ["administration", "accommodation", "nightsRequired"]
      (fun t => ["  Nights Required: " ++ t]),
    ifSet host state ["administration", "accommodation", "bookingStatus"]
      (fun t => ["  Booking Status: " ++ t]),
    .ok ["", "Gear & Equipment:"],
    (match readPath (some state) ["administration", "gear", "checklist"] with
    | .error e => .error e
    | .ok checklist =>
      match nonEmptyList checklist with
      | .error e => .error e
      | .ok none => .ok []
      | .ok (some items) => checklistLines host items),
    ifSet host state ["administration", "gear", "notes"] (fun t => ["  Notes: " ++ t]),
    .ok ["", "Food, Water & Fuel:"],
    ifSet host state ["administration", "foodFuel", "daysOfFood"]
      (fun t => ["  Days of Food: " ++ t]),
    ifSet host state ["administration", "foodFuel", "emergencyDays"]
      (fun t => ["  Emergency Days: " ++ t]),
    ifSet host state ["administration", "foodFuel", "caloriesPerDay"]
      (fun t => ["  Calories per Day: " ++ t]),
    ifSet host state ["administration", "foodFuel", "waterPerPerson"]
      (fun t => ["  Water per Person: " ++ t ++ " liters"]),
    ifSet host state ["administration", "foodFuel", "waterSources"]
      (fun t => ["  Water Sources: " ++ t]),
    yesNo state ["administration", "foodFuel", "filtrationRequired"] "  Filtration Required: ",
    ifSet host state ["administration", "foodFuel", "fuelNotes"] (fun t => ["  Notes: " ++ t]),
    .ok ["", "Permits & Regulations:"],
    yesNo state ["administration", "permits", "required"] "  Required: ",
    ifSet host state ["administration", "permits", "bookingDeadlines"]
      (fun t => ["  Deadlines: " ++ t]),
    ifSet host state ["administration", "permits", "notes"] (fun t => ["  Notes: " ++ t]),
    .ok ["", "Navigation:"],
    yesNo state ["administration", "navigation", "mapAndCompass"] "  Map & Compass: ",
    ifSet host state ["administration", "navigation", "digitalTools"]
      (fun t => ["  Digital Tools: " ++ t]),
    .ok ["", "First Aid & Emergency:"],
    ifSet host state ["administration", "firstAid", "kitType"] (fun t => ["  Kit Type: " ++ t]),
    yesNo state ["administration", "firstAid", "plbCarried"] "  PLB Carried: ",
    .ok ["", "Costing:"],
    costingLines host state]

/-- Lines 314-336 of export.js: command and control. -/
def commandLines (host : Host) (state : JSValue) : Except JSError (List String) :=
  concatOk [
    ifSet host state ["commandControl", "homeContactName"] (fun t => ["Home Contact: " ++ t]),
    ifSet host state ["commandControl", "contactMethod"] (fun t => ["Contact Method: " ++ t]),
    (match readPath (some state) ["commandControl", "expectedCheckIn"] with
    | .error e => .error e
    | .ok expectedCheckIn =>
      if truthy? expectedCheckIn then
        .ok ["Expected Check-in: " ++ host.formatDate (expectedCheckIn.getD .null)]
      else .ok []),
    ifSet host state ["commandControl", "deviceCarried"] (fun t => ["Emergency Device: " ++ t]),
    yesNo state ["commandControl", "groupBriefed"] "Group Briefed: ",
    ifSet host state ["commandControl", "emergencyInstructions"]
      (fun t => ["", "Emergency Instructions:", t])]

/-- The lines of the summary before the footer (export.js 12-336). -/
def summaryBody (host : Host) (state : JSValue) : Except JSError (List String) :=
  concatOk [
    .ok [DOUBLE_RULE, "           GSMEAC BACKPACKING PLAN", DOUBLE_RULE, ""],
    tripLines host state,
    .ok [RULE, "", "G - GROUND", RULE, ""],
    groundLines host state,
    .ok ["", RULE, "", "S - SITUATION & SEASON", RULE, ""],
    situationLines host state,
    .ok ["", RULE, "", "M - MISSION", RULE, ""],
    missionLines host state,
    .ok ["", RULE, "", "E - EXECUTION", RULE, ""],
    executionLines host state,
    .ok [RULE, "", "A - ADMINISTRATION", RULE, ""],
    administrationLines host state,
    .ok [RULE, "", "C - COMMAND & CONTROL", RULE, ""],
    commandLines host state]

/-- The footer of the summary (export.js 338-343); `generated` is the text
of `new Date().toLocaleString()` at the time of the call. -/
def summaryFooter (generated : String) : List String :=
  ["", DOUBLE_RULE, "", "Generated: " ++ generated, "Generated with GSMEAC Backpacking Planner",
   DOUBLE_RULE]

/-- Embedding of `generateTextSummary()` (export.js 7-346). -/
def generateTextSummary (host : Host) (state : JSValue) : Except JSError String :=
  if !truthy state then .ok "No trip data available."
  else
    match summaryBody host state with
    | .error e => .error e
    | .ok body => .ok (joinWith "\n" (body ++ summaryFooter host.nowLocale))

/-- The nodes `updateState` walks through can carry the write: `current` is an
object, or an array addressed at one of its indices or at its length, the key
names no member that the platform supplies, and the same holds for the node
the loop moves to (the value found when it is truthy, a new empty object when
the key is missing or holds a falsy value). -/
def walkable (current : JSValue) : List String → Bool
  | [] => true
  | k :: rest =>
    !platformMember current k &&
    (match current with
      | .obj _ => true
      | .arr xs => (match arrayIndex k with
          | some i => decide (i ≤ xs.length)
          | none => false)
      | _ => false) &&
    (match rest with
      | [] => true
      | _ :: _ => walkable (childOf (member current k)) rest)

/-! ## Lemmas on property lists and the path accessor -/

theorem lookupProp_setProp_same (ps : List (String × JSValue)) (k : String) (v : JSValue) :
    lookupProp (setProp ps k v) k = some v := by
  induction ps with
  | nil => simp [setProp, lookupProp]
  | cons p rest ih =>
    obtain ⟨k', v'⟩ := p
    by_cases h : k' = k
    · simp [setProp, lookupProp, h]
    · simp [setProp, lookupProp, h, ih]

theorem lookupProp_setProp_other (ps : List (String × JSValue)) (k k2 : String) (v : JSValue)
    (h : k2 ≠ k) : lookupProp (setProp ps k v) k2 = lookupProp ps k2 := by
  induction ps with
  | nil =>
    have h' : ¬ k = k2 := fun e => h e.symm
    simp [setProp, lookupProp, h']
  | cons p rest ih =>
    obtain ⟨k', v'⟩ := p
    by_cases h1 : k' = k
    · subst h1
      have h' : ¬ k' = k2 := fun e => h e.symm
      simp [setProp, lookupProp, h']
    · by_cases h2 : k' = k2
      · subst h2
        simp [setProp, lookupProp, h1]
      · simp [setProp, lookupProp, h1, h2, ih]

theorem splitDots_ne_nil (cs cur : List Char) : splitDots cs cur ≠ [] := by
  induction cs generalizing cur with
  | nil => simp [splitDots]
  | cons c cs ih =>
    by_cases h : c = '.'
    · simp [splitDots, h]
    · simp [splitDots, h, ih]

theorem splitPath_ne_nil (path : String) : splitPath path ≠ [] :=
  splitDots_ne_nil _ _

theorem arrayIndex_ne_length : arrayIndex "length" = none := by decide

/-- A key that names no member of the platform on any value: not `length`,
not an array index, not a member of one of the prototypes. -/
def plainKey (k : String) : Bool :=
  !(decide (k = "length") || (arrayIndex k).isSome || decide (k ∈ OBJECT_PROTOTYPE_KEYS) ||
    decide (k ∈ ARRAY_PROTOTYPE_KEYS) || decide (k ∈ STRING_PROTOTYPE_KEYS) ||
    decide (k ∈ NUMBER_PROTOTYPE_KEYS))

theorem platformMember_plain (b : JSValue) (k : String) (h : plainKey k = true) :
    platformMember b k = false := by
  simp only [plainKey, Bool.not_eq_true', Bool.or_eq_false_iff, decide_eq_false_iff_not] at h
  obtain ⟨⟨⟨⟨⟨h1, h2⟩, h3⟩, h4⟩, h5⟩, h6⟩ := h
  cases b <;> simp [platformMember, h1, h2, h3, h4, h5, h6]

/-- The read of a plain key is the read of the document. -/
theorem getMember_plain (b : JSValue) (k : String) (hb : b ≠ .null) (h : plainKey k = true) :
    getMember (some b) k = .ok (member b k) := by
  cases b with
  | null => exact absurd rfl hb
  | _ => simp only [getMember, platformMember_plain _ k h, Bool.false_eq_true, if_false]

theorem getMember_ok_plain (b : JSValue) (k : String) (r : Option JSValue)
    (hk : plainKey k = true) (h : getMember (some b) k = .ok r) : member b k = r := by
  by_cases hb : b = .null
  · subst hb
    simp [getMember] at h
  · rw [getMember_plain b k hb hk] at h
    exact Except.ok.inj h

/-- The read of a key that an object does not inherit is the object's own
member. -/
theorem getMember_obj (ps : List (String × JSValue)) (k : String)
    (h : k ∉ OBJECT_PROTOTYPE_KEYS) : getMember (some (.obj ps)) k = .ok (lookupProp ps k) := by
  simp [getMember, platformMember, h, member]

/-- The read of a member an object has is that member. -/
theorem getMember_own (ps : List (String × JSValue)) (k : String) (v : JSValue)
    (h : lookupProp ps k = some v) : getMember (some (.obj ps)) k = .ok (some v) := by
  simp [getMember, platformMember, h, member]

/-- The assignment to a member an object has overwrites it. -/
theorem setMember_own (ps : List (String × JSValue)) (k : String) (v old : JSValue)
    (h : lookupProp ps k = some old) : setMember (.obj ps) k v = .ok (.obj (setProp ps k v)) := by
  simp [setMember, h]

/-- The assignment of a key other than `__proto__` to an object stores it. -/
theorem setMember_obj (ps : List (String × JSValue)) (k : String) (v : JSValue)
    (h : k ≠ "__proto__") : setMember (.obj ps) k v = .ok (.obj (setProp ps k v)) := by
  simp [setMember, h]

theorem getMember_of_not_platform (c : JSValue) (k : String) (hc : c ≠ .null)
    (h : platformMember c k = false) : getMember (some c) k = .ok (member c k) := by
  cases c with
  | null => exact absurd rfl hc
  | _ => simp only [getMember, h, Bool.false_eq_true, if_false]

theorem walkable_cons (current : JSValue) (k : String) (rest : List String)
    (hw : walkable current (k :: rest) = true) :
    platformMember current k = false ∧ current ≠ .null ∧ walkable current [k] = true := by
  simp only [walkable, Bool.and_eq_true, Bool.not_eq_true'] at hw
  obtain ⟨⟨h1, h2⟩, _⟩ := hw
  refine ⟨h1, ?_, ?_⟩
  · intro e
    subst e
    simp at h2
  · simp only [walkable, h1, h2, Bool.not_false, Bool.and_self]

theorem member_setMember_same (current : JSValue) (k : String) (v r : JSValue)
    (h : setMember current k v = .ok r) (hw : walkable current [k] = true) :
    member r k = some v ∧ walkable r [k] = true := by
  simp only [walkable, Bool.and_true, Bool.and_eq_true, Bool.not_eq_true'] at hw
  obtain ⟨hp, hc⟩ := hw
  cases current with
  | obj ps =>
    have hk : ¬ (k = "__proto__" ∧ lookupProp ps k = none) := by
      rintro ⟨e, hn⟩
      subst e
      simp [platformMember, hn, OBJECT_PROTOTYPE_KEYS] at hp
    simp only [setMember, hk, if_false, Except.ok.injEq] at h
    subst h
    simp [member, lookupProp_setProp_same, walkable, platformMember]
  | arr xs =>
    cases hi : arrayIndex k with
    | none => simp [hi] at hc
    | some i =>
      simp only [hi, decide_eq_true_eq] at hc
      have hk : k ≠ "length" := by
        intro e
        rw [e, arrayIndex_ne_length] at hi
        cases hi
      have hp' : ∀ ys, platformMember (.arr ys) k = false := fun ys => hp
      simp only [setMember, hi] at h
      split at h
      · rename_i hlt
        cases h
        refine ⟨by simp [member, hk, hi, hlt], ?_⟩
        simp only [walkable, hp' _, hi, List.length_set, Bool.not_false, Bool.true_and,
          Bool.and_true, decide_eq_true_eq]
        exact hc
      · split at h
        · rename_i hge heq
          cases h
          refine ⟨by simp [member, hk, hi, heq], ?_⟩
          simp only [walkable, hp' _, hi, List.length_append, Bool.not_false, Bool.true_and,
            Bool.and_true, decide_eq_true_eq]
          simp [heq]
        · cases h
  | null => simp at hc
  | bool b => simp at hc
  | num x => simp at hc
  | str s => simp at hc

theorem setMember_ok_of_walkable (current : JSValue) (k : String) (rest : List String)
    (v : JSValue) (hw : walkable current (k :: rest) = true) :
    ∃ r, setMember current k v = .ok r := by
  obtain ⟨hp, _, hw1⟩ := walkable_cons current k rest hw
  simp only [walkable, Bool.and_true, Bool.and_eq_true, Bool.not_eq_true'] at hw1
  obtain ⟨_, hc⟩ := hw1
  cases current with
  | obj ps =>
    have hk : ¬ (k = "__proto__" ∧ lookupProp ps k = none) := by
      rintro ⟨e, hn⟩
      subst e
      simp [platformMember, hn, OBJECT_PROTOTYPE_KEYS] at hp
    exact ⟨.obj (setProp ps k v), by simp only [setMember, hk, if_false]⟩
  | arr xs =>
    cases hi : arrayIndex k with
    | none => simp [hi] at hc
    | some i =>
      simp only [hi, decide_eq_true_eq] at hc
      by_cases hlt : i < xs.length
      · exact ⟨.arr (xs.set i v), by simp only [setMember, hi, hlt, if_true]⟩
      · have heq : i = xs.length := by omega
        exact ⟨.arr (xs ++ [v]), by simp [setMember, hi, heq]⟩
  | null => simp at hc
  | bool b => simp at hc
  | num x => simp at hc
  | str s => simp at hc

theorem walkable_empty_obj (keys : List String)
    (h : ∀ k ∈ keys, k ∉ OBJECT_PROTOTYPE_KEYS) : walkable (.obj []) keys = true := by
  induction keys with
  | nil => rfl
  | cons k rest ih =>
    have hk := h k (List.mem_cons_self _ _)
    have ih' := ih (fun k' hk' => h k' (List.mem_cons_of_mem _ hk'))
    cases rest with
    | nil => simp [walkable, platformMember, hk]
    | cons k2 rest2 =>
      have hc : childOf (member (.obj []) k) = .obj [] := rfl
      have e : walkable (.obj []) (k :: k2 :: rest2)
          = (!platformMember (.obj []) k && true && walkable (.obj []) (k2 :: rest2)) := by
        simp only [walkable, hc]
      rw [e, ih']
      simp [platformMember, hk]

theorem getPath_cons_of_walkable (r : JSValue) (k : String) (rest : List String)
    (hw : walkable r [k] = true) : getPath (some r) (k :: rest) = getPath (member r k) rest := by
  obtain ⟨hp, hn, _⟩ := walkable_cons r k [] hw
  cases r with
  | null => exact absurd rfl hn
  | _ => simp only [getPath, getMember, hp, Bool.false_eq_true, if_false]

/-- The child node the loop of `updateState` moves to is walkable again. -/
theorem walkable_child (current : JSValue) (k k2 : String) (rest : List String)
    (hw : walkable current (k :: k2 :: rest) = true) :
    walkable (childOf (member current k)) (k2 :: rest) = true := by
  simp only [walkable, Bool.and_eq_true] at hw
  simpa [walkable] using hw.2

theorem setPath_cons_cons_eq (current : JSValue) (k k2 : String) (rest : List String)
    (v : JSValue) (hw : walkable current (k :: k2 :: rest) = true) :
    setPath current (k :: k2 :: rest) v
      = match setPath (childOf (member current k)) (k2 :: rest) v with
        | .ok child' => setMember current k child'
        | .error e => .error e := by
  obtain ⟨hp, hn, hw1⟩ := walkable_cons current k _ hw
  simp only [walkable, Bool.and_true, Bool.and_eq_true, Bool.not_eq_true'] at hw1
  cases current with
  | obj ps => simp only [setPath, getMember, hp, Bool.false_eq_true, if_false]
  | arr xs => simp only [setPath, getMember, hp, Bool.false_eq_true, if_false]
  | null => exact absurd rfl hn
  | bool b => simp at hw1
  | num x => simp at hw1
  | str s => simp at hw1

theorem setPath_getPath (keys : List String) (current v : JSValue) (hne : keys ≠ [])
    (hw : walkable current keys = true) :
    ∃ r, setPath current keys v = .ok r ∧ getPath (some r) keys = .ok (some v) ∧
      walkable r (keys.take 1) = true := by
  induction keys generalizing current with
  | nil => exact absurd rfl hne
  | cons k rest ih =>
    cases rest with
    | nil =>
      obtain ⟨r, hr⟩ := setMember_ok_of_walkable current k [] v hw
      obtain ⟨hm, hwr⟩ := member_setMember_same current k v r hr hw
      refine ⟨r, by simpa [setPath] using hr, ?_, by simpa using hwr⟩
      rw [getPath_cons_of_walkable r k [] hwr, hm]
      simp [getPath]
    | cons k2 rest2 =>
      have hchild := walkable_child current k k2 rest2 hw
      obtain ⟨c', hc', hg', _⟩ := ih _ (by simp) hchild
      obtain ⟨r, hr⟩ := setMember_ok_of_walkable current k (k2 :: rest2) c' hw
      obtain ⟨_, _, hw1⟩ := walkable_cons current k _ hw
      obtain ⟨hmem, hwr⟩ := member_setMember_same current k c' r hr hw1
      refine ⟨r, ?_, ?_, by simpa using hwr⟩
      · rw [setPath_cons_cons_eq current k k2 rest2 v hw, hc']
        exact hr
      · rw [getPath_cons_of_walkable r k _ hwr, hmem]
        exact hg'

/-- C1, as stated, fails: `__proto__` is a dot-path without intermediate
nodes, and the write of a string under it goes to the setter every object
inherits, which drops a value that is neither an object nor `null`.  The
document stays as it was, so no member `__proto__` of it holds the value;
`getState` then finds `Object.prototype` there. -/
theorem updateState_proto_dropped :
    updateState (.obj [("trip", .obj [])]) "__proto__" (.str "x")
      = .ok (.obj [("trip", .obj [])]) ∧
    member (.obj [("trip", .obj [])]) "__proto__" = none ∧
    getState (.obj [("trip", .obj [])]) "__proto__" ≠ .ok (some (.str "x")) := by
  decide

/-- C1, amended. For every document, every value and every dot-path that
stays inside the document (no key names a member that the node it is read on
takes from the platform, such as `__proto__`) and whose intermediate nodes are
each missing, falsy or containers (objects, or arrays addressed at one of
their indices or at their length): `updateState(path, value)` succeeds,
creating the missing intermediate objects, and `getState(path)` then returns
the value. -/
theorem updateState_then_getState (state : JSValue) (path : String) (value : JSValue)
    (h : walkable state (splitPath path) = true) :
    ∃ state', updateState state path value = .ok state' ∧
      getState state' path = .ok (some value) := by
  obtain ⟨r, hr, hg, _⟩ := setPath_getPath (splitPath path) state value (splitPath_ne_nil path) h
  exact ⟨r, hr, hg⟩

/-- C1, amended, at a path into a branch that does not exist yet: the missing
objects `a` and `a.b` are created on the way. -/
theorem updateState_then_getState_witness :
    walkable (.obj [("trip", .obj [])]) (splitPath "a.b.c") = true ∧
    ∃ state', updateState (.obj [("trip", .obj [])]) "a.b.c" (.str "x") = .ok state' ∧
      getState state' "a.b.c" = .ok (some (.str "x")) :=
  ⟨by decide, updateState_then_getState _ _ _ (by decide)⟩

/-! ## Import and export -/

theorem setProp_setProp_same (ps : List (String × JSValue)) (k : String) (v v2 : JSValue) :
    setProp (setProp ps k v) k v2 = setProp ps k v2 := by
  induction ps with
  | nil => simp [setProp]
  | cons p rest ih =>
    obtain ⟨k', v'⟩ := p
    by_cases h : k' = k
    · simp [setProp, h]
    · simp [setProp, h, ih]

/-- The document `performSave` leaves in memory: the one it was given with the
time stamp written, whatever the store does. -/
theorem performSave_state (host : Host) (ps : List (String × JSValue)) (sto : Storage) :
    (performSave host ⟨.obj ps, sto⟩).2.state = .obj (setProp ps "lastModified" (.str host.now)) := by
  simp only [performSave, setMember_obj ps "lastModified" _ (by decide)]
  cases setItem host sto STORAGE_KEY
    (JSON_stringify (.obj (setProp ps "lastModified" (.str host.now)))) <;> rfl

/-- C2, as stated, fails: after importing the export of a document stamped
2024-01-01 at a later moment, the in-memory document carries the new time
stamp, so it is not the exported document. -/
theorem import_export_changes_lastModified :
    ¬ ((importStateJSON (quietHost "2024-06-01T10:00:00.000Z")
          (exportStateJSON (quietHost "2024-06-01T09:00:00.000Z")
            (DEFAULT_STATE "2024-01-01T00:00:00.000Z" "2024-01-01T00:00:00.000Z"))
          ⟨DEFAULT_STATE "2024-01-01T00:00:00.000Z" "2024-01-01T00:00:00.000Z", []⟩).1 = true ∧
       (importStateJSON (quietHost "2024-06-01T10:00:00.000Z")
          (exportStateJSON (quietHost "2024-06-01T09:00:00.000Z")
            (DEFAULT_STATE "2024-01-01T00:00:00.000Z" "2024-01-01T00:00:00.000Z"))
          ⟨DEFAULT_STATE "2024-01-01T00:00:00.000Z" "2024-01-01T00:00:00.000Z", []⟩).2.state
        = DEFAULT_STATE "2024-01-01T00:00:00.000Z" "2024-01-01T00:00:00.000Z") := by
  decide

/-- C2, amended. For every document with a non-empty `schemaVersion`, whatever
the program state and the store at the time of the import: importing the
export of the document succeeds and leaves in memory the document with
`lastModified` overwritten by the time of the import; every other field is
the exported one. -/
theorem import_export_roundtrip (host hostExport : Host) (ps : List (String × JSValue))
    (app : App) (h : truthy? (lookupProp ps "schemaVersion") = true) :
    (importStateJSON host (exportStateJSON hostExport (.obj ps)) app).1 = true ∧
    (importStateJSON host (exportStateJSON hostExport (.obj ps)) app).2.state
      = .obj (setProp ps "lastModified" (.str host.now)) ∧
    ∀ k, k ≠ "lastModified" →
      member (importStateJSON host (exportStateJSON hostExport (.obj ps)) app).2.state k
        = member (.obj ps) k := by
  have hstate : importStateJSON host (exportStateJSON hostExport (.obj ps)) app
      = (true, (performSave host
          ⟨.obj (setProp ps "lastModified" (.str host.now)), app.storage⟩).2) := by
    have h1 : truthy? (some (JSValue.obj ps)) = true := rfl
    have hkey : "schemaVersion" ∉ OBJECT_PROTOTYPE_KEYS := by decide
    simp [importStateJSON, exportStateJSON, JSON_stringify, JSON_parse, getMember, member,
      lookupProp, h, h1, setMember, hkey, platformMember]
  rw [hstate]
  refine ⟨rfl, ?_, ?_⟩
  · rw [performSave_state, setProp_setProp_same]
  · intro k hk
    rw [performSave_state, setProp_setProp_same]
    simp [member, lookupProp_setProp_other _ _ _ _ hk]

/-- C2, amended, on the default document. -/
theorem import_export_roundtrip_witness :
    truthy? (lookupProp [("schemaVersion", .str "1.0"), ("lastModified", .str "t0")]
      "schemaVersion") = true ∧
    (importStateJSON (quietHost "t2") (exportStateJSON (quietHost "t1")
        (.obj [("schemaVersion", .str "1.0"), ("lastModified", .str "t0")]))
        ⟨.null, []⟩).2.state
      = .obj [("schemaVersion", .str "1.0"), ("lastModified", .str "t2")] :=
  ⟨by decide,
   (import_export_roundtrip (quietHost "t2") (quietHost "t1")
      [("schemaVersion", .str "1.0"), ("lastModified", .str "t0")] ⟨.null, []⟩ (by decide)).2.1⟩

theorem getPath_cons (c : JSValue) (hc : c ≠ .null) (k : String) (rest : List String) :
    getPath (some c) (k :: rest)
      = match getMember (some c) k with
        | .ok found => getPath found rest
        | .error e => .error e := by
  cases c <;> first | exact absurd rfl hc | rfl

theorem getPath_none (q : List String) : getPath none q = .ok none := by
  cases q <;> rfl

theorem getPath_null (q : List String) (hq : q ≠ []) : getPath (some .null) q = .ok none := by
  cases q with
  | nil => exact absurd rfl hq
  | cons k rest => rfl

/-- Along plain keys `getPath` is the walk through the document: it never
meets a member of the platform. -/
theorem getPath_plain_cons (c : JSValue) (hc : c ≠ .null) (k : String) (rest : List String)
    (hk : plainKey k = true) :
    getPath (some c) (k :: rest) = getPath (member c k) rest := by
  rw [getPath_cons c hc, getMember_plain c k hc hk]

/-- C3. For every import text that does not parse, or whose envelope has no
`data.schemaVersion`, `importStateJSON` returns `false` and the program state
(the in-memory document and every storage slot) is the one before the call. -/
theorem importStateJSON_rejects (host : Host) (jsonString : Text) (app : App)
    (h : (∃ e, JSON_parse jsonString = .error e) ∨
         (∃ imported, JSON_parse jsonString = .ok imported ∧
            getPath (some imported) ["data", "schemaVersion"] = .ok none)) :
    importStateJSON host jsonString app = (false, app) := by
  rcases h with ⟨e, he⟩ | ⟨imported, hp, hg⟩
  · simp [importStateJSON, he]
  · simp only [importStateJSON, hp]
    by_cases hnull : imported = .null
    · subst hnull
      rfl
    · have hdata : getMember (some imported) "data" = .ok (member imported "data") :=
        getMember_plain imported "data" hnull (by decide)
      have hg2 : getPath (member imported "data") ["schemaVersion"] = .ok none := by
        rw [← getPath_plain_cons imported hnull "data" _ (by decide)]
        exact hg
      simp only [hdata]
      cases hd : member imported "data" with
      | none => rfl
      | some d =>
        by_cases hdn : d = .null
        · subst hdn
          rfl
        · have hsv : getMember (some d) "schemaVersion" = .ok none := by
            rw [hd, getPath_plain_cons d hdn "schemaVersion" _ (by decide)] at hg2
            rw [getMember_plain d "schemaVersion" hdn (by decide)]
            simpa [getPath] using hg2
          simp only [hsv]
          split <;> rfl

/-- C3, on an envelope whose `data` carries a trip but no `schemaVersion`, and
on a text that is not JSON. -/
theorem importStateJSON_rejects_witness :
    importStateJSON (quietHost "t1")
        (.json (.obj [("exportVersion", .str "1.0"),
          ("data", .obj [("trip", .obj [("tripName", .str "Tongariro")])])]))
        ⟨DEFAULT_STATE "t0" "t0", [(STORAGE_KEY, .json (DEFAULT_STATE "t0" "t0"))]⟩
      = (false, ⟨DEFAULT_STATE "t0" "t0", [(STORAGE_KEY, .json (DEFAULT_STATE "t0" "t0"))]⟩) ∧
    importStateJSON (quietHost "t1") (.other "\x7bnot json")
        ⟨DEFAULT_STATE "t0" "t0", []⟩
      = (false, ⟨DEFAULT_STATE "t0" "t0", []⟩) :=
  ⟨importStateJSON_rejects _ _ _ (Or.inr ⟨_, rfl, by decide⟩),
   importStateJSON_rejects _ _ _ (Or.inl ⟨_, rfl⟩)⟩

/-! ## The durable store -/

theorem getItem_putItem (sto : Storage) (k k2 : String) (t : Text) :
    getItem (putItem sto k t) k2 = if k = k2 then some t else getItem sto k2 := by
  induction sto with
  | nil => simp [putItem, getItem]
  | cons p rest ih =>
    obtain ⟨k', t'⟩ := p
    by_cases h : k' = k
    · subst h
      by_cases h2 : k' = k2 <;> simp [putItem, getItem, h2]
    · by_cases h2 : k' = k2
      · subst h2
        have h3 : ¬ k = k' := fun e => h e.symm
        simp [putItem, getItem, h, h3]
      · simp [putItem, getItem, h, h2, ih]

theorem setItem_of_accepting (host : Host)
    (hacc : ∀ sto key text, host.setItemFails sto key text = none)
    (sto : Storage) (key : String) (text : Text) :
    setItem host sto key text = .ok (putItem sto key text) := by
  simp [setItem, hacc]

theorem copySlot_of_accepting (host : Host)
    (hacc : ∀ sto key text, host.setItemFails sto key text = none)
    (sto : Storage) (source target : String) :
    copySlot host sto source target
      = .ok (match getItem sto source with
          | some t => if t.truthy then putItem sto target t else sto
          | none => sto) := by
  simp only [copySlot]
  cases getItem sto source with
  | none => rfl
  | some t => by_cases ht : t.truthy = true <;> simp [ht, setItem_of_accepting host hacc]

theorem getItem_setItem_other (host : Host) (sto sto' : Storage) (k key : String) (t : Text)
    (h : setItem host sto k t = .ok sto') (hk : k ≠ key) :
    getItem sto' key = getItem sto key := by
  simp only [setItem] at h
  split at h
  · cases h
  · cases h
    simp [getItem_putItem, hk]

theorem getItem_copySlot_other (host : Host) (sto sto' : Storage) (source target key : String)
    (h : copySlot host sto source target = .ok sto') (hk : target ≠ key) :
    getItem sto' key = getItem sto key := by
  simp only [copySlot] at h
  split at h
  · split at h
    · exact getItem_setItem_other host sto sto' target key _ h hk
    · cases h
      rfl
  · cases h
    rfl

/-- The rotation touches the three backup slots only, whatever the store
refuses. -/
theorem getItem_rotateBackups_other (host : Host) (sto : Storage) (key : String)
    (h1 : "gsmeac_trip_backup_1" ≠ key) (h2 : "gsmeac_trip_backup_2" ≠ key)
    (h3 : "gsmeac_trip_backup_3" ≠ key) :
    getItem (rotateBackups host sto) key = getItem sto key := by
  simp only [rotateBackups]
  split
  · rfl
  · split
    · rfl
    · split
      · rfl
      · rename_i sto1 hs1
        have e1 := getItem_copySlot_other host sto sto1 _ _ key hs1 h3
        split
        · exact e1
        · rename_i sto2 hs2
          have e2 := getItem_copySlot_other host sto1 sto2 _ _ key hs2 h2
          split
          · rw [e2, e1]
          · rename_i sto3 hs3
            rw [getItem_setItem_other host sto2 sto3 _ key _ hs3 h1, e2, e1]

/-- The store after a rotation in which every write goes through. -/
theorem rotateBackups_of_accepting (host : Host)
    (hacc : ∀ sto key text, host.setItemFails sto key text = none)
    (sto : Storage) (cur : Text) (hcur : getItem sto STORAGE_KEY = some cur)
    (htr : cur.truthy = true) :
    getItem (rotateBackups host sto) "gsmeac_trip_backup_1" = some cur ∧
    getItem (rotateBackups host sto) STORAGE_KEY = some cur ∧
    (∀ t, getItem sto "gsmeac_trip_backup_1" = some t → t.truthy = true →
      getItem (rotateBackups host sto) "gsmeac_trip_backup_2" = some t) ∧
    (∀ t, getItem sto "gsmeac_trip_backup_2" = some t → t.truthy = true →
      getItem (rotateBackups host sto) "gsmeac_trip_backup_3" = some t) := by
  have k12 : ¬ ("gsmeac_trip_backup_1" = "gsmeac_trip_backup_2") := by decide
  have k13 : ¬ ("gsmeac_trip_backup_1" = "gsmeac_trip_backup_3") := by decide
  have k21 : ¬ ("gsmeac_trip_backup_2" = "gsmeac_trip_backup_1") := by decide
  have k23 : ¬ ("gsmeac_trip_backup_2" = "gsmeac_trip_backup_3") := by decide
  have k31 : ¬ ("gsmeac_trip_backup_3" = "gsmeac_trip_backup_1") := by decide
  have k32 : ¬ ("gsmeac_trip_backup_3" = "gsmeac_trip_backup_2") := by decide
  refine ⟨?_, ?_, ?_, ?_⟩
  · simp only [rotateBackups, hcur, htr, Bool.not_true, Bool.false_eq_true, if_false,
      copySlot_of_accepting host hacc, setItem_of_accepting host hacc]
    simp [getItem_putItem]
  · rw [getItem_rotateBackups_other host sto STORAGE_KEY (by decide) (by decide) (by decide)]
    exact hcur
  · intro t ht htt
    simp only [rotateBackups, hcur, htr, Bool.not_true, Bool.false_eq_true, if_false,
      copySlot_of_accepting host hacc, setItem_of_accepting host hacc]
    have hb1 : ∀ s3 : Storage, getItem s3 "gsmeac_trip_backup_1" = some t →
        getItem (putItem (match getItem s3 "gsmeac_trip_backup_1" with
          | some t => if t.truthy then putItem s3 "gsmeac_trip_backup_2" t else s3
          | none => s3) "gsmeac_trip_backup_1" cur) "gsmeac_trip_backup_2" = some t := by
      intro s3 h
      simp [h, htt, getItem_putItem, k12]
    apply hb1
    cases getItem sto "gsmeac_trip_backup_2" with
    | none => exact ht
    | some b2 =>
      by_cases hb2 : b2.truthy = true
      · simp [hb2, getItem_putItem, k31, ht]
      · simp [hb2, ht]
  · intro t ht htt
    simp only [rotateBackups, hcur, htr, Bool.not_true, Bool.false_eq_true, if_false,
      copySlot_of_accepting host hacc, setItem_of_accepting host hacc, ht, htt, if_true]
    rw [getItem_putItem, if_neg k13]
    cases getItem (putItem sto "gsmeac_trip_backup_3" t) "gsmeac_trip_backup_1" with
    | none => simp [getItem_putItem]
    | some b1 =>
      by_cases hb1 : b1.truthy = true
      · simp [hb1, getItem_putItem, k23]
      · simp [hb1, getItem_putItem]

theorem getItem_updateMetadata (host : Host) (sto : Storage) (key : String)
    (hk : METADATA_KEY ≠ key) : getItem (updateMetadata host sto) key = getItem sto key := by
  simp only [updateMetadata]
  cases h : setItem host sto METADATA_KEY (JSON_stringify (.obj [
    ("version", .str "1.0"), ("lastAccessed", .str host.now), ("tripCount", .num (F64.ofNat 1))]))
    with
  | error e => rfl
  | ok sto' =>
    simp only [setItem] at h
    split at h
    · cases h
    · cases h
      simp [getItem_putItem, hk]

/-- With an accepting store `performSave` stamps the document and writes it to
the primary slot. -/
theorem performSave_accepting_primary (host : Host)
    (hacc : ∀ sto key text, host.setItemFails sto key text = none)
    (ps : List (String × JSValue)) (sto : Storage) :
    (performSave host ⟨.obj ps, sto⟩).2.state
      = .obj (setProp ps "lastModified" (.str host.now)) ∧
    getItem (performSave host ⟨.obj ps, sto⟩).2.storage STORAGE_KEY
      = some (JSON_stringify (.obj (setProp ps "lastModified" (.str host.now)))) := by
  have hsave : performSave host ⟨.obj ps, sto⟩
      = (true, ⟨.obj (setProp ps "lastModified" (.str host.now)),
          updateMetadata host (rotateBackups host (putItem sto STORAGE_KEY
            (JSON_stringify (.obj (setProp ps "lastModified" (.str host.now))))))⟩) := by
    simp [performSave, setMember, setItem_of_accepting host hacc]
  rw [hsave]
  refine ⟨rfl, ?_⟩
  simp only
  rw [getItem_updateMetadata _ _ _ (by decide),
    getItem_rotateBackups_other _ _ _ (by decide) (by decide) (by decide)]
  simp [getItem_putItem]

/-- C20, as stated, fails: with a store that is full for the backup slots the
save reports success, yet backup slot 0 does not hold the persisted document
(the exception of the rotation is caught and logged). -/
theorem performSave_backup_not_written :
    ¬ ((performSave (backupRefusingHost "t1") ⟨DEFAULT_STATE "t0" "t0", []⟩).1 = true →
       getItem (performSave (backupRefusingHost "t1") ⟨DEFAULT_STATE "t0" "t0", []⟩).2.storage
          "gsmeac_trip_backup_1"
        = some (JSON_stringify
            (performSave (backupRefusingHost "t1") ⟨DEFAULT_STATE "t0" "t0", []⟩).2.state)) := by
  decide

/-- C20, amended. When the store accepts the writes, `performSave` reports
success and afterwards the primary slot and backup slot 0 hold the document
just persisted, backup slot 1 holds what backup slot 0 held and backup slot 2
holds what backup slot 1 held (the old content of slot 2 is overwritten). -/
theorem performSave_rotates (host : Host)
    (hacc : ∀ sto key text, host.setItemFails sto key text = none)
    (ps : List (String × JSValue)) (sto : Storage) :
    (performSave host ⟨.obj ps, sto⟩).1 = true ∧
    (performSave host ⟨.obj ps, sto⟩).2.state
      = .obj (setProp ps "lastModified" (.str host.now)) ∧
    getItem (performSave host ⟨.obj ps, sto⟩).2.storage STORAGE_KEY
      = some (JSON_stringify (.obj (setProp ps "lastModified" (.str host.now)))) ∧
    getItem (performSave host ⟨.obj ps, sto⟩).2.storage "gsmeac_trip_backup_1"
      = some (JSON_stringify (.obj (setProp ps "lastModified" (.str host.now)))) ∧
    (∀ t, getItem sto "gsmeac_trip_backup_1" = some t → t.truthy = true →
      getItem (performSave host ⟨.obj ps, sto⟩).2.storage "gsmeac_trip_backup_2" = some t) ∧
    (∀ t, getItem sto "gsmeac_trip_backup_2" = some t → t.truthy = true →
      getItem (performSave host ⟨.obj ps, sto⟩).2.storage "gsmeac_trip_backup_3" = some t) := by
  have hsave : performSave host ⟨.obj ps, sto⟩
      = (true, ⟨.obj (setProp ps "lastModified" (.str host.now)),
          updateMetadata host (rotateBackups host (putItem sto STORAGE_KEY
            (JSON_stringify (.obj (setProp ps "lastModified" (.str host.now))))))⟩) := by
    simp [performSave, setMember, setItem_of_accepting host hacc]
  have hcur : getItem (putItem sto STORAGE_KEY
      (JSON_stringify (.obj (setProp ps "lastModified" (.str host.now))))) STORAGE_KEY
      = some (JSON_stringify (.obj (setProp ps "lastModified" (.str host.now)))) := by
    simp [getItem_putItem]
  obtain ⟨r1, rs, r2, r3⟩ := rotateBackups_of_accepting host hacc _ _ hcur rfl
  rw [hsave]
  refine ⟨rfl, rfl, ?_, ?_, ?_, ?_⟩
  · rw [getItem_updateMetadata _ _ _ (by decide)]
    exact rs
  · rw [getItem_updateMetadata _ _ _ (by decide)]
    exact r1
  · intro t ht htt
    rw [getItem_updateMetadata _ _ _ (by decide)]
    exact r2 t (by rw [getItem_putItem, if_neg (by decide)]; exact ht) htt
  · intro t ht htt
    rw [getItem_updateMetadata _ _ _ (by decide)]
    exact r3 t (by rw [getItem_putItem, if_neg (by decide)]; exact ht) htt

/-- C20, amended, on a store that already holds two backups. -/
theorem performSave_rotates_witness :
    (∀ sto key text, (quietHost "t3").setItemFails sto key text = none) ∧
    getItem (performSave (quietHost "t3") ⟨.obj [("schemaVersion", .str "1.0")],
        [("gsmeac_trip_backup_1", .json (.str "second")),
         ("gsmeac_trip_backup_2", .json (.str "first"))]⟩).2.storage "gsmeac_trip_backup_2"
      = some (.json (.str "second")) :=
  ⟨fun _ _ _ => rfl,
   (performSave_rotates (quietHost "t3") (fun _ _ _ => rfl) [("schemaVersion", .str "1.0")]
      [("gsmeac_trip_backup_1", .json (.str "second")),
       ("gsmeac_trip_backup_2", .json (.str "first"))]).2.2.2.2.1 _ (by decide) (by decide)⟩

/-- C21. If the write of the primary slot throws (quota or any other storage
error), `performSave` returns `false`, the whole store (primary slot and
backup slots included) is as before, and the in-memory document keeps the
time stamp written before the failure: it is not rolled back. -/
theorem performSave_primary_write_fails (host : Host) (app : App) (stamped : JSValue)
    (e : JSError)
    (hstamp : setMember app.state "lastModified" (.str host.now) = .ok stamped)
    (hfail : host.setItemFails app.storage STORAGE_KEY (JSON_stringify stamped) = some e) :
    performSave host app = (false, { state := stamped, storage := app.storage }) := by
  simp [performSave, hstamp, setItem, hfail]

/-- A host like `quietHost` whose store refuses every write. -/
def fullHost (now : String) : Host :=
  { quietHost now with setItemFails := fun _ _ _ => some .quotaExceeded }

/-- C21, on a full store that holds an earlier save and a backup. -/
theorem performSave_primary_write_fails_witness :
    performSave (fullHost "t2")
        ⟨.obj [("schemaVersion", .str "1.0"), ("lastModified", .str "t1")],
         [(STORAGE_KEY, .json (.str "saved")), ("gsmeac_trip_backup_1", .json (.str "b"))]⟩
      = (false,
         ⟨.obj [("schemaVersion", .str "1.0"), ("lastModified", .str "t2")],
          [(STORAGE_KEY, .json (.str "saved")), ("gsmeac_trip_backup_1", .json (.str "b"))]⟩) :=
  performSave_primary_write_fails (fullHost "t2") _ _ .quotaExceeded rfl rfl

theorem loadState_fresh (host : Host) (template : JSValue) (app : App)
    (h : getItem app.storage STORAGE_KEY = none ∨
         ∃ text e, getItem app.storage STORAGE_KEY = some text ∧ JSON_parse text = .error e) :
    loadState host template app = .ok { state := template, storage := app.storage } := by
  rcases h with h | ⟨text, e, ht, hp⟩
  · simp [loadState, h, deepCopy, JSON_parse, JSON_stringify]
  · simp only [loadState, ht, hp]
    split <;> simp [deepCopy, JSON_parse, JSON_stringify]

/-- A write through a `state` that refers to an object of its own leaves the
template and the store alone, and `state` keeps referring to an object of its
own. -/
theorem writes_own (writes : List (String × JSValue)) :
    ∀ (m written : Memory) (document : JSValue), m.state = .own document →
      Memory.writes writes m = .ok written →
      written.template = m.template ∧ written.storage = m.storage ∧
      ∃ document', written.state = .own document' := by
  induction writes with
  | nil =>
    intro m written document h hw
    cases hw
    exact ⟨rfl, rfl, document, h⟩
  | cons w rest ih =>
    obtain ⟨path, value⟩ := w
    intro m written document h hw
    simp only [Memory.writes, Memory.updateState, h] at hw
    cases hu : updateState document path value with
    | error e =>
      rw [hu] at hw
      cases e <;> first | exact ih m written document h hw | cases hw
    | ok document' =>
      rw [hu] at hw
      exact ih { m with state := .own document' } written document' rfl hw

/-- Were `state` the object `DEFAULT_STATE` itself, a write would reach the
template: the sharing that the copy of line 152 prevents. -/
theorem write_through_template :
    Memory.writes [("trip.tripName", .str "Kepler")]
        ⟨.obj [("trip", .obj [("tripName", .str "")])], .template, []⟩
      = .ok ⟨.obj [("trip", .obj [("tripName", .str "Kepler")])], .template, []⟩ := by
  decide

/-- C22. Whenever the primary slot is absent or holds a text that does not
parse, `loadState` leaves `state` referring to an object of its own that is
equal to the default template, and the store as it was.  That document is
independent of the template: after any run of `updateState` calls on it (of
writes inside the document) the object `DEFAULT_STATE` is what it was, so the
next `loadState` (the slot being still absent or unparsable) gives a document
equal to the template again, and the next `resetState` starts from the same
copy as a reset before the writes. -/
theorem loadState_default (host : Host) (m : Memory)
    (h : getItem m.storage STORAGE_KEY = none ∨
         ∃ text e, getItem m.storage STORAGE_KEY = some text ∧ JSON_parse text = .error e) :
    Memory.loadState host m = .ok { m with state := .own m.template } ∧
    ∀ (loaded : Memory), Memory.loadState host m = .ok loaded →
      loaded.document = m.template ∧
      ∀ (writes : List (String × JSValue)) (written : Memory),
        Memory.writes writes loaded = .ok written →
        written.template = m.template ∧
        Memory.loadState host written = .ok { m with state := .own m.template } ∧
        ∀ keepBackup, (Memory.resetState host keepBackup written).document
          = (resetState host m.template keepBackup ⟨written.document, m.storage⟩).state := by
  have hload : Memory.loadState host m = .ok { m with state := .own m.template } := by
    simp [Memory.loadState, loadState_fresh host m.template ⟨m.document, m.storage⟩ h]
  refine ⟨hload, ?_⟩
  intro loaded hl
  rw [hload] at hl
  cases hl
  refine ⟨rfl, ?_⟩
  intro writes written hw
  obtain ⟨h1, h2, document', h3⟩ := writes_own writes
    { m with state := StateRef.own m.template } written m.template rfl hw
  obtain ⟨t, s, sto⟩ := written
  simp only at h1 h2
  subst h1
  subst h2
  refine ⟨rfl, ?_, ?_⟩
  · simp [Memory.loadState, loadState_fresh host m.template ⟨_, m.storage⟩ h]
  · intro keepBackup
    simp only [Memory.resetState, Memory.document]

/-- The memory after a load on an empty store. -/
def loadedMemory : Memory :=
  ⟨DEFAULT_STATE "t0" "t0", .own (DEFAULT_STATE "t0" "t0"), []⟩

/-- The memory after two writes on the loaded document: the trip name, and a
first map link, which makes an array grow. -/
def writtenMemory : Memory :=
  match Memory.writes [("trip.tripName", .str "Kepler"), ("ground.mapLinks.0", .str "map")]
      loadedMemory with
  | .ok written => written
  | .error _ => loadedMemory

set_option maxRecDepth 8000 in
theorem writes_written :
    Memory.writes [("trip.tripName", .str "Kepler"), ("ground.mapLinks.0", .str "map")]
      loadedMemory = .ok writtenMemory :=
  rfl

set_option maxRecDepth 8000 in
/-- C22, on an empty store and on a store whose primary slot is not JSON:
`state` comes to refer to a copy of the template, and after two writes through
it the document has changed while the template is what it was, and the next
load gives the default document again. -/
theorem loadState_default_witness :
    Memory.loadState (quietHost "t1") ⟨DEFAULT_STATE "t0" "t0", .unset, []⟩ = .ok loadedMemory ∧
    Memory.loadState (quietHost "t1")
        ⟨DEFAULT_STATE "t0" "t0", .unset, [(STORAGE_KEY, .other "\x7boops")]⟩
      = .ok ⟨DEFAULT_STATE "t0" "t0", .own (DEFAULT_STATE "t0" "t0"),
          [(STORAGE_KEY, .other "\x7boops")]⟩ ∧
    getState writtenMemory.document "trip.tripName" = .ok (some (.str "Kepler")) ∧
    getState writtenMemory.document "ground.mapLinks.0" = .ok (some (.str "map")) ∧
    writtenMemory.template = DEFAULT_STATE "t0" "t0" ∧
    Memory.loadState (quietHost "t1") writtenMemory = .ok loadedMemory :=
  ⟨(loadState_default _ ⟨DEFAULT_STATE "t0" "t0", .unset, []⟩ (Or.inl rfl)).1,
   (loadState_default _ ⟨DEFAULT_STATE "t0" "t0", .unset, [(STORAGE_KEY, .other "\x7boops")]⟩
      (Or.inr ⟨_, .syntaxError, rfl, rfl⟩)).1,
   by decide, by decide,
   (((loadState_default (quietHost "t1") ⟨DEFAULT_STATE "t0" "t0", .unset, []⟩
      (Or.inl rfl)).2 loadedMemory
      ((loadState_default (quietHost "t1") ⟨DEFAULT_STATE "t0" "t0", .unset, []⟩
        (Or.inl rfl)).1)).2 _ writtenMemory writes_written).1,
   (((loadState_default (quietHost "t1") ⟨DEFAULT_STATE "t0" "t0", .unset, []⟩
      (Or.inl rfl)).2 loadedMemory
      ((loadState_default (quietHost "t1") ⟨DEFAULT_STATE "t0" "t0", .unset, []⟩
        (Or.inl rfl)).1)).2 _ writtenMemory writes_written).2.1⟩

/-- C23, as stated, fails: on a store that is full for the pre-reset slot,
`resetState(true)` does not write the current document there (the exception
is caught and logged). -/
theorem resetState_backup_not_written :
    ¬ (getItem (resetState (backupRefusingHost "t1") (DEFAULT_STATE "t0" "t0") true
          ⟨.obj [("schemaVersion", .str "1.0"), ("trip", .obj [("tripName", .str "Routeburn")])],
           []⟩).storage "gsmeac_trip_before_reset"
        = some (JSON_stringify
          (.obj [("schemaVersion", .str "1.0"), ("trip", .obj [("tripName", .str "Routeburn")])]))) := by
  decide

/-- C23, amended. When the store accepts the writes: `resetState(true)` puts
the serialized current document into the pre-reset slot, `resetState(false)`
leaves that slot alone, and in both cases the in-memory document becomes a
copy of the default template stamped with the time of the reset, which is
what the primary slot holds afterwards. -/
theorem resetState_effect (host : Host)
    (hacc : ∀ sto key text, host.setItemFails sto key text = none)
    (tps : List (String × JSValue)) (keepBackup : Bool) (app : App) :
    (resetState host (.obj tps) keepBackup app).state
      = .obj (setProp tps "lastModified" (.str host.now)) ∧
    getItem (resetState host (.obj tps) keepBackup app).storage STORAGE_KEY
      = some (JSON_stringify (.obj (setProp tps "lastModified" (.str host.now)))) ∧
    getItem (resetState host (.obj tps) keepBackup app).storage "gsmeac_trip_before_reset"
      = (if keepBackup then some (JSON_stringify app.state)
         else getItem app.storage "gsmeac_trip_before_reset") := by
  have hcopy : deepCopy (.obj tps) = .obj tps := rfl
  have hpre : ∀ sto : Storage,
      getItem (performSave host ⟨.obj tps, sto⟩).2.storage "gsmeac_trip_before_reset"
        = getItem sto "gsmeac_trip_before_reset" := by
    intro sto
    have hsave : performSave host ⟨.obj tps, sto⟩
        = (true, ⟨.obj (setProp tps "lastModified" (.str host.now)),
            updateMetadata host (rotateBackups host (putItem sto STORAGE_KEY
              (JSON_stringify (.obj (setProp tps "lastModified" (.str host.now))))))⟩) := by
      simp [performSave, setMember, setItem_of_accepting host hacc]
    rw [hsave]
    simp only
    rw [getItem_updateMetadata _ _ _ (by decide),
      getItem_rotateBackups_other _ _ _ (by decide) (by decide) (by decide),
      getItem_putItem, if_neg (by decide)]
  cases keepBackup with
  | false =>
    simp only [resetState, hcopy, Bool.false_eq_true, if_false]
    obtain ⟨h2, h3⟩ := performSave_accepting_primary host hacc tps app.storage
    exact ⟨h2, h3, hpre _⟩
  | true =>
    simp only [resetState, hcopy, if_true, setItem_of_accepting host hacc]
    obtain ⟨h2, h3⟩ := performSave_accepting_primary host hacc tps
      (putItem app.storage "gsmeac_trip_before_reset" (JSON_stringify app.state))
    refine ⟨h2, h3, ?_⟩
    rw [hpre]
    simp [getItem_putItem]

/-- C23, amended, on a planned trip. -/
theorem resetState_effect_witness :
    (∀ sto key text, (quietHost "t1").setItemFails sto key text = none) ∧
    getItem (resetState (quietHost "t1") (.obj [("schemaVersion", .str "1.0")]) true
        ⟨.obj [("schemaVersion", .str "1.0"), ("trip", .str "Routeburn")], []⟩).storage
        "gsmeac_trip_before_reset"
      = some (.json (.obj [("schemaVersion", .str "1.0"), ("trip", .str "Routeburn")])) :=
  ⟨fun _ _ _ => rfl,
   (resetState_effect (quietHost "t1") (fun _ _ _ => rfl) [("schemaVersion", .str "1.0")] true
      ⟨.obj [("schemaVersion", .str "1.0"), ("trip", .str "Routeburn")], []⟩).2.2⟩

/-! ## The frame of `updateState` -/

/-- The key list `p` is an initial segment of the key list `q`. -/
def initialSegment : List String → List String → Bool
  | [], _ => true
  | _ :: _, [] => false
  | a :: p, b :: q => decide (a = b) && initialSegment p q

theorem arrayIndex_inj (k k2 : String) (i : Nat) (h : arrayIndex k = some i)
    (h2 : arrayIndex k2 = some i) : k = k2 := by
  have key : ∀ s : String, arrayIndex s = some i → s.toList = Nat.toDigits 10 i := by
    intro s hs
    simp only [arrayIndex] at hs
    split at hs
    · split at hs
      · rename_i hc
        cases hs
        exact hc.1.symm
      · cases hs
    · cases hs
  have e : k.toList = k2.toList := by rw [key k h, key k2 h2]
  exact String.ext e

/-- A key that names no member the platform supplies on a value: neither
`length` nor a member of one of the prototypes.  Array indices are such keys.
A read under such a key is a read of the document (on a string it can also
reach a character). -/
def fieldKey (k : String) : Bool :=
  !(decide (k = "length") || decide (k ∈ OBJECT_PROTOTYPE_KEYS) ||
    decide (k ∈ ARRAY_PROTOTYPE_KEYS) || decide (k ∈ STRING_PROTOTYPE_KEYS) ||
    decide (k ∈ NUMBER_PROTOTYPE_KEYS))

theorem fieldKey_iff (k : String) (h : fieldKey k = true) :
    k ≠ "length" ∧ k ∉ OBJECT_PROTOTYPE_KEYS ∧ k ∉ ARRAY_PROTOTYPE_KEYS ∧
    k ∉ STRING_PROTOTYPE_KEYS ∧ k ∉ NUMBER_PROTOTYPE_KEYS := by
  simp only [fieldKey, Bool.not_eq_true', Bool.or_eq_false_iff, decide_eq_false_iff_not] at h
  obtain ⟨⟨⟨⟨h1, h2⟩, h3⟩, h4⟩, h5⟩ := h
  exact ⟨h1, h2, h3, h4, h5⟩

theorem getPath_falsy (c : JSValue) (hc : truthy c = false) (k : String) (q : List String)
    (hk : fieldKey k = true) : getPath (some c) (k :: q) = .ok none := by
  obtain ⟨h1, h2, _, h4, h5⟩ := fieldKey_iff k hk
  cases c with
  | null => rfl
  | bool b => simp [getPath, getMember, member, getPath_none, h2, platformMember]
  | num x => simp [getPath, getMember, member, getPath_none, h2, h5, platformMember]
  | str s =>
    have hs : s = "" := by simpa [truthy] using hc
    simp [getPath, getMember, member, getPath_none, h1, h2, h4, hs, platformMember]
  | arr xs => simp [truthy] at hc
  | obj ps => simp [truthy] at hc

theorem getPath_empty_obj (k : String) (q : List String) (hk : fieldKey k = true) :
    getPath (some (.obj [])) (k :: q) = .ok none := by
  obtain ⟨_, h2, _, _, _⟩ := fieldKey_iff k hk
  simp [getPath, getMember, member, lookupProp, getPath_none, h2, platformMember]

/-- A write `current[k] = v` leaves every other key of `current` as it was,
the `length` of an array apart. -/
theorem member_setMember_other (current r : JSValue) (k k2 : String) (v : JSValue)
    (h : setMember current k v = .ok r) (hk : k ≠ k2) (hl : k2 ≠ "length") :
    member r k2 = member current k2 := by
  cases current with
  | null => simp [setMember] at h
  | bool b => simp [setMember] at h; subst h; rfl
  | num x => simp [setMember] at h; subst h; rfl
  | str s => simp [setMember] at h; subst h; rfl
  | obj ps =>
    simp only [setMember] at h
    split at h
    · split at h <;> first | (cases h; rfl) | cases h
    · cases h
      simp [member, lookupProp_setProp_other _ _ _ _ (Ne.symm hk)]
  | arr xs =>
    simp only [setMember] at h
    cases hi : arrayIndex k with
    | none => simp [hi] at h
    | some i =>
      simp only [hi] at h
      have hne : ∀ j, arrayIndex k2 = some j → i ≠ j := by
        intro j hj e
        subst e
        exact hk (arrayIndex_inj k k2 i hi hj)
      split at h
      · cases h
        simp only [member, hl, if_false]
        cases hj : arrayIndex k2 with
        | none => rfl
        | some j => simp [List.getElem?_set_ne (hne j hj)]
      · split at h
        · rename_i heq
          cases h
          simp only [member, hl, if_false]
          cases hj : arrayIndex k2 with
          | none => rfl
          | some j =>
            have hij := hne j hj
            by_cases hlt : j < xs.length
            · simp [List.getElem?_append_left hlt]
            · have hgt : xs.length < j := by omega
              have e1 : (xs ++ [v])[j]? = none := List.getElem?_eq_none (by simp; omega)
              have e2 : xs[j]? = none := List.getElem?_eq_none (by omega)
              simp [e1, e2]
        · cases h

/-- A write `current[k] = v` leaves the members the platform supplies under
every other key as they were. -/
theorem platformMember_setMember_other (current r : JSValue) (k k2 : String) (v : JSValue)
    (h : setMember current k v = .ok r) (hk : k ≠ k2) :
    platformMember r k2 = platformMember current k2 := by
  cases current with
  | null => simp [setMember] at h
  | bool b => simp [setMember] at h; subst h; rfl
  | num x => simp [setMember] at h; subst h; rfl
  | str s => simp [setMember] at h; subst h; rfl
  | obj ps =>
    simp only [setMember] at h
    split at h
    · split at h <;> first | (cases h; rfl) | cases h
    · cases h
      simp only [platformMember, lookupProp_setProp_other _ _ _ _ (Ne.symm hk)]
  | arr xs =>
    simp only [setMember] at h
    split at h
    · split at h
      · cases h; rfl
      · split at h
        · cases h; rfl
        · cases h
    · cases h

theorem setMember_null_iff (current r : JSValue) (k : String) (v : JSValue)
    (h : setMember current k v = .ok r) : current ≠ .null ∧ r ≠ .null := by
  cases current with
  | null => simp [setMember] at h
  | bool b => simp [setMember] at h; subst h; simp
  | num x => simp [setMember] at h; subst h; simp
  | str s => simp [setMember] at h; subst h; simp
  | obj ps =>
    simp only [setMember] at h
    split at h
    · split at h <;> first | (cases h; simp) | cases h
    · cases h; simp
  | arr xs =>
    simp only [setMember] at h
    split at h
    · split at h
      · cases h; simp
      · split at h
        · cases h; simp
        · cases h
    · cases h

/-- A write `current[k] = v` leaves the read of every other key as it was, the
`length` of an array apart. -/
theorem getMember_setMember_other (current r : JSValue) (k k2 : String) (v : JSValue)
    (h : setMember current k v = .ok r) (hk : k ≠ k2) (hl : k2 ≠ "length") :
    getMember (some r) k2 = getMember (some current) k2 := by
  obtain ⟨hcn, hrn⟩ := setMember_null_iff current r k v h
  have hm := member_setMember_other current r k k2 v h hk hl
  have hp := platformMember_setMember_other current r k k2 v h hk
  cases current <;> first | exact absurd rfl hcn | skip
  all_goals cases r <;> first | exact absurd rfl hrn | skip
  all_goals simp only [getMember, hm, hp]

theorem setPath_cons_cons (current r : JSValue) (k k2 : String) (rest : List String)
    (v : JSValue) (h : setPath current (k :: k2 :: rest) v = .ok r) :
    (∃ child', getMember (some current) k = .ok (member current k) ∧
      setPath (childOf (member current k)) (k2 :: rest) v = .ok child' ∧
      setMember current k child' = .ok r ∧ getMember (some r) k = .ok (some child')) := by
  have key : ∀ c : JSValue, (c = current) → platformMember c k = false →
      (∀ child', setMember c k child' = .ok r → getMember (some r) k = .ok (some child')) := by
    intro c hc hp child' hs
    cases c with
    | null => simp [setMember] at hs
    | bool b => subst hc; simp only [setPath] at h; split at h <;> cases h
    | num x => subst hc; simp only [setPath] at h; split at h <;> cases h
    | str s => subst hc; simp only [setPath] at h; split at h <;> cases h
    | obj ps =>
      have hnot : ¬ (k = "__proto__" ∧ lookupProp ps k = none) := by
        rintro ⟨e, hn⟩
        subst e
        simp [platformMember, hn, OBJECT_PROTOTYPE_KEYS] at hp
      simp only [setMember, hnot, if_false, Except.ok.injEq] at hs
      subst hs
      simp [getMember, platformMember, member, lookupProp_setProp_same]
    | arr xs =>
      simp only [setMember] at hs
      cases hi : arrayIndex k with
      | none => simp [hi] at hs
      | some i =>
        have hk : k ≠ "length" := by
          intro e
          rw [e, arrayIndex_ne_length] at hi
          cases hi
        have hp' : ∀ ys, platformMember (.arr ys) k = false := fun ys => hp
        simp only [hi] at hs
        split at hs
        · rename_i hlt
          cases hs
          simp [getMember, hp' _, member, hk, hi, hlt]
        · split at hs
          · rename_i heq
            cases hs
            simp [getMember, hp' _, member, hk, hi, heq]
          · cases hs
  cases current with
  | null => simp [setPath, getMember] at h
  | bool b => simp only [setPath] at h; split at h <;> cases h
  | num x => simp only [setPath] at h; split at h <;> cases h
  | str s => simp only [setPath] at h; split at h <;> cases h
  | obj ps =>
    simp only [setPath] at h
    by_cases hp : platformMember (.obj ps) k = true
    · simp [getMember, hp] at h
    · have hp' : platformMember (.obj ps) k = false := by simpa using hp
      have hg : getMember (some (.obj ps)) k = .ok (member (.obj ps) k) := by
        simp only [getMember, hp', Bool.false_eq_true, if_false]
      simp only [hg] at h
      split at h
      · rename_i child' hc
        exact ⟨child', hg, hc, h, key _ rfl hp' child' h⟩
      · cases h
  | arr xs =>
    simp only [setPath] at h
    by_cases hp : platformMember (.arr xs) k = true
    · simp [getMember, hp] at h
    · have hp' : platformMember (.arr xs) k = false := by simpa using hp
      have hg : getMember (some (.arr xs)) k = .ok (member (.arr xs) k) := by
        simp only [getMember, hp', Bool.false_eq_true, if_false]
      simp only [hg] at h
      split at h
      · rename_i child' hc
        exact ⟨child', hg, hc, h, key _ rfl hp' child' h⟩
      · cases h

theorem getPath_childOf (found : Option JSValue) (k2 : String) (q : List String)
    (hk : fieldKey k2 = true) :
    getPath (some (childOf found)) (k2 :: q) = getPath found (k2 :: q) := by
  simp only [childOf]
  cases found with
  | none => rw [getPath_empty_obj k2 q hk]; rfl
  | some c =>
    by_cases ht : truthy c = true
    · simp [ht]
    · have hf : truthy c = false := by simpa using ht
      simp only [hf, Bool.false_eq_true, if_false]
      rw [getPath_empty_obj k2 q hk, getPath_falsy c hf k2 q hk]

theorem setPath_frame (p : List String) :
    ∀ (current r : JSValue) (q : List String) (v : JSValue),
      setPath current p v = .ok r → initialSegment p q = false →
      initialSegment q p = false → (∀ k ∈ q, fieldKey k = true) →
      getPath (some r) q = getPath (some current) q := by
  induction p with
  | nil => intro current r q v _ h1 _ _; simp [initialSegment] at h1
  | cons k rest ih =>
    intro current r q v h h1 h2 hq
    cases q with
    | nil => simp [initialSegment] at h2
    | cons k' q' =>
      have hk'l : k' ≠ "length" := (fieldKey_iff k' (hq k' (List.mem_cons_self _ _))).1
      cases rest with
      | nil =>
        have hk : k ≠ k' := by
          intro e
          subst e
          simp [initialSegment] at h1
        have hs : setMember current k v = .ok r := by simpa [setPath] using h
        obtain ⟨hcn, hrn⟩ := setMember_null_iff current r k v hs
        rw [getPath_cons r hrn, getPath_cons current hcn,
          getMember_setMember_other current r k k' v hs hk hk'l]
      | cons k2 rest2 =>
        obtain ⟨child', hg, hc, hs, hm⟩ := setPath_cons_cons current r k k2 rest2 v h
        obtain ⟨hcn, hrn⟩ := setMember_null_iff current r k child' hs
        rw [getPath_cons r hrn, getPath_cons current hcn]
        by_cases hk : k = k'
        · subst hk
          have h1' : initialSegment (k2 :: rest2) q' = false := by
            simpa [initialSegment] using h1
          have h2' : initialSegment q' (k2 :: rest2) = false := by
            simpa [initialSegment] using h2
          cases q' with
          | nil => simp [initialSegment] at h2'
          | cons k3 q3 =>
            have hq' : ∀ k ∈ k3 :: q3, fieldKey k = true :=
              fun k hk => hq k (List.mem_cons_of_mem _ hk)
            rw [hm, hg]
            simp only
            rw [ih (childOf (member current k)) child' (k3 :: q3) v hc h1' h2' hq',
              getPath_childOf _ k3 q3 (hq' k3 (List.mem_cons_self _ _))]
        · rw [getMember_setMember_other current r k k' child' hs hk hk'l]

theorem F64.ofNat_injective (n m : Nat) (h : F64.ofNat n = F64.ofNat m) : n = m := by
  have h2 : (n : Int) * 2 ^ 1074 = (m : Int) * 2 ^ 1074 := congrArg F64.units h
  have h3 : (2 : Int) ^ 1074 ≠ 0 := pow_ne_zero _ (by norm_num)
  exact_mod_cast mul_right_cancel₀ h3 h2

/-- C30, as stated, fails: the paths `ground.mapLinks.0` and
`ground.mapLinks.length` are no prefix of one another, yet the write of the
first element of the empty list of map links makes the list one longer, and
`getState` at the second path returns 1 where it returned 0. -/
theorem updateState_grows_array :
    initialSegment (splitPath "ground.mapLinks.0") (splitPath "ground.mapLinks.length") = false ∧
    initialSegment (splitPath "ground.mapLinks.length") (splitPath "ground.mapLinks.0") = false ∧
    updateState (.obj [("ground", .obj [("mapLinks", .arr [])])]) "ground.mapLinks.0" (.str "x")
      = .ok (.obj [("ground", .obj [("mapLinks", .arr [.str "x"])])]) ∧
    getState (.obj [("ground", .obj [("mapLinks", .arr [])])]) "ground.mapLinks.length"
      = .ok (some (.num (F64.ofNat 0))) ∧
    getState (.obj [("ground", .obj [("mapLinks", .arr [.str "x"])])]) "ground.mapLinks.length"
      = .ok (some (.num (F64.ofNat 1))) ∧
    F64.ofNat 1 ≠ F64.ofNat 0 := by
  have hs : splitPath "ground.mapLinks.length" = ["ground", "mapLinks", "length"] := by decide
  refine ⟨by decide, by decide, by decide, ?_, ?_, ?_⟩
  · rw [getState, hs]; rfl
  · rw [getState, hs]; rfl
  · intro h
    exact absurd (F64.ofNat_injective 1 0 h) (by decide)

/-- C30, amended. `updateState` changes only what it is asked to: for every
document, value and paths `p`, `q` neither of which is an initial segment of
the other, where `q` has no key that names a member the platform supplies
(`length`, or a member of a prototype such as `__proto__`): after a write at
`p` that went through, `getState(q)` returns what it returned before.  (The
writes that do not go through throw a `TypeError`, or leave the document: they
run through a member of the platform, put a named member or a hole into an
array, or replace a prototype.) -/
theorem updateState_frame (state state' : JSValue) (p q : String) (v : JSValue)
    (hpq : initialSegment (splitPath p) (splitPath q) = false)
    (hqp : initialSegment (splitPath q) (splitPath p) = false)
    (hq : ∀ k ∈ splitPath q, fieldKey k = true)
    (h : updateState state p v = .ok state') :
    getState state' q = getState state q :=
  setPath_frame (splitPath p) state state' (splitPath q) v h hpq hqp hq

/-- C30, amended, on a small document: the write of the first element of the
list of map links leaves the trail type alone. -/
theorem updateState_frame_witness :
    initialSegment (splitPath "ground.mapLinks.0") (splitPath "ground.trailType") = false ∧
    initialSegment (splitPath "ground.trailType") (splitPath "ground.mapLinks.0") = false ∧
    (∀ k ∈ splitPath "ground.trailType", fieldKey k = true) ∧
    getState (.obj [("ground", .obj [("mapLinks", .arr [.str "x"]), ("trailType", .str "loop")])])
        "ground.trailType"
      = getState (.obj [("ground", .obj [("mapLinks", .arr []), ("trailType", .str "loop")])])
        "ground.trailType" :=
  ⟨by decide, by decide, by decide,
   updateState_frame
     (.obj [("ground", .obj [("mapLinks", .arr []), ("trailType", .str "loop")])])
     (.obj [("ground", .obj [("mapLinks", .arr [.str "x"]), ("trailType", .str "loop")])])
     "ground.mapLinks.0" "ground.trailType" (.str "x") (by decide) (by decide) (by decide)
     (by decide)⟩

/-! ## Navigation -/

theorem splitPath_meta_currentSection :
    splitPath "meta.currentSection" = ["meta", "currentSection"] := by decide

theorem navigateToSection_ok (page : Page) (nav : Nav) (s : String) (hs : s ∈ SECTIONS)
    (hr : page.render "showSection" (.str s) nav.state = none)
    (hw : walkable nav.state ["meta", "currentSection"] = true) :
    ∃ state', navigateToSection page nav (.str s) = (⟨s, state'⟩, none) ∧
      getState state' "meta.currentSection" = .ok (some (.str s)) := by
  obtain ⟨r, hr1, hr2, _⟩ := setPath_getPath ["meta", "currentSection"] nav.state (.str s)
    (by simp) hw
  refine ⟨r, ?_, ?_⟩
  · have hm : isSection (.str s) = true := by simp [isSection, hs]
    simp [navigateToSection, hm, hr, updateState, splitPath_meta_currentSection, hr1]
  · simpa [getState, splitPath_meta_currentSection] using hr2

/-- C17. `navigateToSection(s)` changes state only for members of the fixed
section list: for `s` outside the list the current section and the whole
document stay as they were and nothing is thrown; for `s` in the list (the
page being rendered without an exception, on a document whose `meta` is an
object or missing) the current section and `meta.currentSection` both become
`s`. -/
theorem navigateToSection_effect (page : Page) (nav : Nav) (sectionId : JSValue) :
    (isSection sectionId = false → navigateToSection page nav sectionId = (nav, none)) ∧
    (∀ s, sectionId = .str s → s ∈ SECTIONS →
      page.render "showSection" (.str s) nav.state = none →
      walkable nav.state ["meta", "currentSection"] = true →
      ∃ state', navigateToSection page nav sectionId = (⟨s, state'⟩, none) ∧
        getState state' "meta.currentSection" = .ok (some (.str s))) := by
  constructor
  · intro h
    cases sectionId <;> first | rfl | simp [navigateToSection, h]
  · intro s hs hmem hr hw
    subst hs
    exact navigateToSection_ok page nav s hmem hr hw

/-- C17, on the default document: an unknown section changes nothing, a known
one is adopted. -/
theorem navigateToSection_effect_witness :
    navigateToSection fullPage ⟨"welcome", DEFAULT_STATE "t0" "t0"⟩ (.str "summit")
      = (⟨"welcome", DEFAULT_STATE "t0" "t0"⟩, none) ∧
    ∃ state', navigateToSection fullPage ⟨"welcome", DEFAULT_STATE "t0" "t0"⟩ (.str "mission")
        = (⟨"mission", state'⟩, none) ∧
      getState state' "meta.currentSection" = .ok (some (.str "mission")) :=
  ⟨(navigateToSection_effect fullPage ⟨"welcome", DEFAULT_STATE "t0" "t0"⟩ (.str "summit")).1
      (by decide),
   (navigateToSection_effect fullPage ⟨"welcome", DEFAULT_STATE "t0" "t0"⟩ (.str "mission")).2
      "mission" rfl (by decide) rfl (by decide)⟩

theorem sections_index_lt (i : Nat) (x : String) (hi : SECTIONS[i]? = some x) : i < 8 := by
  by_contra hge
  have : SECTIONS[i]? = none := by
    apply List.getElem?_eq_none
    simp [SECTIONS]
    omega
  rw [this] at hi
  cases hi

theorem navigateToNextSection_eq (page : Page) (cur : String) (st : JSValue) (i : Nat)
    (next : String) (hi : SECTIONS[i]? = some cur) (hn : SECTIONS[i + 1]? = some next) :
    navigateToNextSection page ⟨cur, st⟩ = navigateToSection page ⟨cur, st⟩ (.str next) := by
  have hlt := sections_index_lt (i + 1) next hn
  have hi7 : i < 7 := by omega
  interval_cases i <;>
    simp only [SECTIONS, List.getElem?_cons_zero, List.getElem?_cons_succ,
      Option.some.injEq] at hi hn <;>
    subst hi <;> subst hn <;> rfl

theorem navigateToPreviousSection_eq (page : Page) (cur : String) (st : JSValue) (i : Nat)
    (previous : String) (hi : SECTIONS[i + 1]? = some cur) (hp : SECTIONS[i]? = some previous) :
    navigateToPreviousSection page ⟨cur, st⟩
      = navigateToSection page ⟨cur, st⟩ (.str previous) := by
  have hlt := sections_index_lt (i + 1) cur hi
  have hi7 : i < 7 := by omega
  interval_cases i <;>
    simp only [SECTIONS, List.getElem?_cons_zero, List.getElem?_cons_succ,
      Option.some.injEq] at hi hp <;>
    subst hi <;> subst hp <;> rfl

theorem sections_mem (i : Nat) (x : String) (hi : SECTIONS[i]? = some x) : x ∈ SECTIONS :=
  List.getElem?_mem hi

/-- C18. With the current section at index `i` of the fixed order (the page
being rendered without an exception, on a document whose `meta` is an object
or missing): `navigateToNextSection` makes the section at index `i + 1`
current when `i < 7` and changes nothing when `i = 7`;
`navigateToPreviousSection` makes the section at index `i - 1` current when
`i > 0` and changes nothing when `i = 0`. -/
theorem navigate_next_previous (page : Page) (nav : Nav) (i : Nat)
    (hi : SECTIONS[i]? = some nav.currentSection)
    (hr : ∀ s, page.render "showSection" (.str s) nav.state = none)
    (hw : walkable nav.state ["meta", "currentSection"] = true) :
    (∀ next, SECTIONS[i + 1]? = some next →
      ∃ state', navigateToNextSection page nav = (⟨next, state'⟩, none) ∧
        getState state' "meta.currentSection" = .ok (some (.str next))) ∧
    (i = 7 → navigateToNextSection page nav = (nav, none)) ∧
    (∀ previous, 0 < i → SECTIONS[i - 1]? = some previous →
      ∃ state', navigateToPreviousSection page nav = (⟨previous, state'⟩, none) ∧
        getState state' "meta.currentSection" = .ok (some (.str previous))) ∧
    (i = 0 → navigateToPreviousSection page nav = (nav, none)) := by
  obtain ⟨cur, st⟩ := nav
  simp only at hi hr hw
  refine ⟨?_, ?_, ?_, ?_⟩
  · intro next hn
    rw [navigateToNextSection_eq page cur st i next hi hn]
    exact navigateToSection_ok page ⟨cur, st⟩ next (sections_mem _ _ hn) (hr next) hw
  · intro h7
    subst h7
    simp only [SECTIONS, List.getElem?_cons_zero, List.getElem?_cons_succ,
      Option.some.injEq] at hi
    subst hi
    rfl
  · intro previous hpos hp
    obtain ⟨j, rfl⟩ : ∃ j, i = j + 1 := ⟨i - 1, by omega⟩
    simp only [Nat.add_sub_cancel] at hp
    rw [navigateToPreviousSection_eq page cur st j previous hi hp]
    exact navigateToSection_ok page ⟨cur, st⟩ previous (sections_mem _ _ hp) (hr previous) hw
  · intro h0
    subst h0
    simp only [SECTIONS, List.getElem?_cons_zero, Option.some.injEq] at hi
    subst hi
    rfl

/-- C18, on the default document at `mission` (index 3), `review` (index 7)
and `welcome` (index 0). -/
theorem navigate_next_previous_witness :
    (∃ state', navigateToNextSection fullPage ⟨"mission", DEFAULT_STATE "t0" "t0"⟩
        = (⟨"execution", state'⟩, none) ∧
      getState state' "meta.currentSection" = .ok (some (.str "execution"))) ∧
    navigateToNextSection fullPage ⟨"review", DEFAULT_STATE "t0" "t0"⟩
      = (⟨"review", DEFAULT_STATE "t0" "t0"⟩, none) ∧
    navigateToPreviousSection fullPage ⟨"welcome", DEFAULT_STATE "t0" "t0"⟩
      = (⟨"welcome", DEFAULT_STATE "t0" "t0"⟩, none) :=
  ⟨(navigate_next_previous fullPage ⟨"mission", DEFAULT_STATE "t0" "t0"⟩ 3 rfl
      (fun _ => rfl) (by decide)).1 "execution" rfl,
   (navigate_next_previous fullPage ⟨"review", DEFAULT_STATE "t0" "t0"⟩ 7 rfl
      (fun _ => rfl) (by decide)).2.1 rfl,
   (navigate_next_previous fullPage ⟨"welcome", DEFAULT_STATE "t0" "t0"⟩ 0 rfl
      (fun _ => rfl) (by decide)).2.2.2 rfl⟩

theorem indexFrom_spec (l : List String) (x : String) (start : Int) (i : Int)
    (h : indexFrom l x start = i) (hi : 0 ≤ start) (hne : i ≠ -1) :
    start ≤ i ∧ l[(i - start).toNat]? = some x := by
  induction l generalizing start with
  | nil => simp [indexFrom] at h; omega
  | cons y ys ih =>
    simp only [indexFrom] at h
    split at h
    · rename_i hy
      subst h
      subst hy
      simp
    · obtain ⟨h1, h2⟩ := ih (start + 1) h (by omega)
      refine ⟨by omega, ?_⟩
      have e : (i - start).toNat = (i - (start + 1)).toNat + 1 := by omega
      rw [e]
      simpa using h2

/-- C19. `isSectionCompleted(s, current)` is true exactly when `s` stands in
the fixed section order at an index strictly above 0 and strictly below the
index of `current`; with `current = "mission"` exactly `ground` and
`situation` are completed. -/
theorem isSectionCompleted_iff (s current : String) :
    (isSectionCompleted (.str s) (.str current) = true ↔
      ∃ i j, SECTIONS[i]? = some s ∧ SECTIONS[j]? = some current ∧ 0 < i ∧ i < j) ∧
    (isSectionCompleted (.str s) (.str "mission") = true ↔ s = "ground" ∨ s = "situation") := by
  have main : isSectionCompleted (.str s) (.str current) = true ↔
      ∃ i j, SECTIONS[i]? = some s ∧ SECTIONS[j]? = some current ∧ 0 < i ∧ i < j := by
    constructor
    · intro h
      simp only [isSectionCompleted, sectionIndex, Bool.and_eq_true, decide_eq_true_eq] at h
      obtain ⟨h0, hlt⟩ := h
      obtain ⟨_, hs⟩ := indexFrom_spec SECTIONS s 0 _ rfl (le_refl 0) (by omega)
      obtain ⟨_, hc⟩ := indexFrom_spec SECTIONS current 0 _ rfl (le_refl 0) (by omega)
      refine ⟨_, _, hs, hc, by omega, by omega⟩
    · rintro ⟨i, j, hi, hj, h0, hij⟩
      have hj8 := sections_index_lt j current hj
      interval_cases j <;> interval_cases i <;>
        simp only [SECTIONS, List.getElem?_cons_zero, List.getElem?_cons_succ,
          Option.some.injEq] at hi hj <;>
        subst hi <;> subst hj <;> decide
  refine ⟨main, ?_⟩
  constructor
  · intro h
    simp only [isSectionCompleted, sectionIndex, Bool.and_eq_true, decide_eq_true_eq] at h
    obtain ⟨h0, hlt⟩ := h
    obtain ⟨_, hs⟩ := indexFrom_spec SECTIONS s 0 _ rfl (le_refl 0) (by omega)
    have h3 : indexFrom SECTIONS "mission" 0 = 3 := by decide
    rw [h3] at hlt
    have hcases : (indexFrom SECTIONS s 0 - 0).toNat = 1 ∨ (indexFrom SECTIONS s 0 - 0).toNat = 2 := by
      omega
    rcases hcases with e | e <;> rw [e] at hs <;>
      simp only [SECTIONS, List.getElem?_cons_zero, List.getElem?_cons_succ,
        Option.some.injEq] at hs
    · exact Or.inl hs.symm
    · exact Or.inr hs.symm
  · rintro (h | h) <;> subst h <;> decide

/-! ## Validation -/

/-- The kind check as the claim words it: a string rule fails on a non-string
or an empty string, an array rule on a non-array or an empty array. -/
def failsKindAsStated (value : Option JSValue) (type : String) : Bool :=
  if type = "string" then
    match value with
    | some (.str s) => decide (s = "")
    | _ => true
  else
    match value with
    | some (.arr xs) => decide (xs = [])
    | _ => true

/-- The kind check of the code, in words: a string rule fails on a non-string
or a string that is empty once its white space is trimmed, an array rule on a
non-array or an empty array. -/
def failsKind (value : Option JSValue) (type : String) : Bool :=
  if type = "string" then
    match value with
    | some (.str s) => isBlank s
    | _ => true
  else
    match value with
    | some (.arr xs) => decide (xs = [])
    | _ => true

/-- The rules of a section, none for a section that has no entry. -/
def rulesOf (sectionName : String) : List FieldRule :=
  (CRITICAL_FIELDS sectionName).getD []

/-- The walk of `getState` through the members the document holds. -/
def ownPath : Option JSValue → List String → Option JSValue
  | current, [] => current
  | none, _ :: _ => none
  | some .null, _ :: _ => none
  | some c, k :: rest => ownPath (member c k) rest

/-- Along plain keys `getState` never meets a member of the platform: it
returns what the walk through the document finds. -/
theorem getPath_plain (keys : List String) :
    ∀ current : Option JSValue, (∀ k ∈ keys, plainKey k = true) →
      getPath current keys = .ok (ownPath current keys) := by
  induction keys with
  | nil =>
    intro current _
    cases current with
    | none => rfl
    | some c => cases c <;> rfl
  | cons k rest ih =>
    intro current h
    cases current with
    | none => rfl
    | some c =>
      by_cases hc : c = .null
      · subst hc
        rfl
      · rw [getPath_plain_cons c hc k rest (h k (List.mem_cons_self _ _)),
          ih _ (fun k' hk' => h k' (List.mem_cons_of_mem _ hk'))]
        cases c <;> first | exact absurd rfl hc | rfl

/-- The paths the rules of the six sections read, key by key: all plain. -/
theorem rule_path (sectionName : String) (rules : List FieldRule)
    (h : CRITICAL_FIELDS sectionName = some rules) (r : FieldRule) (hr : r ∈ rules) :
    splitPath (sectionName ++ "." ++ r.field) = [sectionName, r.field] ∧
    plainKey sectionName = true ∧ plainKey r.field = true := by
  simp only [CRITICAL_FIELDS] at h
  repeat' split at h
  all_goals cases h
  all_goals
    rename_i hs
    subst hs
    simp only [List.mem_cons, List.mem_singleton, List.not_mem_nil, or_false] at hr
    first
      | (rcases hr with hr | hr <;> subst hr <;> decide)
      | (subst hr; decide)

/-- What `getState` returns for the field of a rule. -/
theorem getState_rule (state : JSValue) (sectionName : String) (rules : List FieldRule)
    (h : CRITICAL_FIELDS sectionName = some rules) (r : FieldRule) (hr : r ∈ rules) :
    getState state (sectionName ++ "." ++ r.field)
      = .ok (ownPath (some state) [sectionName, r.field]) := by
  obtain ⟨hs, h1, h2⟩ := rule_path sectionName rules h r hr
  rw [getState, hs]
  apply getPath_plain
  intro k hk
  simp only [List.mem_cons, List.mem_singleton, List.not_mem_nil, or_false] at hk
  rcases hk with e | e <;> subst e <;> assumption

theorem checkRules_eq_filter (state : JSValue) (sectionName : String)
    (value : FieldRule → Option JSValue) (rules : List FieldRule) :
    ∀ acc : List JSValue,
      (∀ r ∈ rules, getState state (sectionName ++ "." ++ r.field) = .ok (value r)) →
      checkRules state sectionName rules acc
        = .ok (acc ++ (rules.filter (fun r => !validateField (value r) r.type)).map warningOf) := by
  induction rules with
  | nil => intro acc _; simp [checkRules]
  | cons r rest ih =>
    intro acc h
    have hr := h r (List.mem_cons_self _ _)
    have hrest := fun r' hr' => h r' (List.mem_cons_of_mem _ hr')
    by_cases hv : validateField (value r) r.type = true
    · simp [checkRules, checkRule, hr, hv, ih acc hrest, List.filter]
    · simp [checkRules, checkRule, hr, hv, ih _ hrest, List.filter]

theorem rules_type (sectionName : String) (rules : List FieldRule)
    (h : CRITICAL_FIELDS sectionName = some rules) (r : FieldRule) (hr : r ∈ rules) :
    r.type = "string" ∨ r.type = "array" := by
  simp only [CRITICAL_FIELDS] at h
  repeat' split at h
  all_goals cases h
  all_goals
    simp only [List.mem_cons, List.mem_singleton, List.not_mem_nil, or_false] at hr
    first
      | (rcases hr with hr | hr <;> subst hr <;> simp)
      | (subst hr; simp)

theorem validateField_eq_not_failsKind (value : Option JSValue) (type : String)
    (ht : type = "string" ∨ type = "array") :
    (!validateField value type) = failsKind value type := by
  rcases ht with h | h
  · subst h
    simp only [validateField, failsKind, if_true]
    cases value with
    | none => rfl
    | some v => cases v <;> simp
  · subst h
    have hne : ¬ ("array" = "string") := by decide
    simp only [validateField, failsKind, hne, if_false, if_true]
    cases value with
    | none => rfl
    | some v =>
      cases v with
      | arr xs => cases xs <;> simp
      | _ => simp

/-- The warnings of a section that has rules, in terms of the walk through the
document. -/
theorem validateSection_eq_filter (state : JSValue) (sectionName : String)
    (rules : List FieldRule) (h : CRITICAL_FIELDS sectionName = some rules) :
    validateSection state sectionName
      = .ok ((rules.filter (fun r =>
          failsKind (ownPath (some state) [sectionName, r.field]) r.type)).map warningOf) := by
  simp only [validateSection, h]
  rw [checkRules_eq_filter state sectionName
    (fun r => ownPath (some state) [sectionName, r.field]) rules []
    (fun r hr => getState_rule state sectionName rules h r hr)]
  simp only [List.nil_append]
  congr 2
  apply List.filter_congr
  intro r hr
  exact validateField_eq_not_failsKind _ _ (rules_type sectionName rules h r hr)

/-- C14, as stated, fails on two counts.  A mission statement of three spaces
is a non-empty string, yet `validateSection` warns about it.  And the section
name `toString` has no rules, yet `validateSection` does not return the empty
list for it: it throws a `TypeError`, because the table of rules inherits a
member of that name. -/
theorem validateSection_warns_on_blank :
    getState (.obj [("mission", .obj [("statement", .str "   ")])]) "mission.statement"
      = .ok (some (.str "   ")) ∧
    failsKindAsStated (some (.str "   ")) "string" = false ∧
    validateSection (.obj [("mission", .obj [("statement", .str "   ")])]) "mission"
      = .ok [.obj [("field", .str "statement"),
                   ("message", .str "Write a mission statement for your trip")]] ∧
    CRITICAL_FIELDS "toString" = none ∧
    validateSection (.obj [("mission", .obj [("statement", .str "   ")])]) "toString"
      = .error .typeError := by
  decide

/-- C14, amended. For every document and every section that has an entry in
`CRITICAL_FIELDS`, `validateSection` returns one warning `{field, message}`
for each rule of the entry whose value, as `getState` returns it, fails its
kind check (a string rule fails on a non-string or on a string that is empty
once trimmed, an array rule on a non-array or an empty array), in the order of
the rules.  For a name without an entry it returns the empty list, unless the
name is one of the twelve that every object inherits from `Object.prototype`
(`toString`, `constructor`, `__proto__`, ...): then it throws a `TypeError`. -/
theorem validateSection_spec (state : JSValue) (sectionName : String) :
    (∀ rules, CRITICAL_FIELDS sectionName = some rules →
      ∃ value : FieldRule → Option JSValue,
        (∀ r ∈ rules, getState state (sectionName ++ "." ++ r.field) = .ok (value r)) ∧
        validateSection state sectionName
          = .ok ((rules.filter (fun r => failsKind (value r) r.type)).map warningOf)) ∧
    (CRITICAL_FIELDS sectionName = none → sectionName ∉ OBJECT_PROTOTYPE_KEYS →
      validateSection state sectionName = .ok []) ∧
    (sectionName ∈ OBJECT_PROTOTYPE_KEYS →
      validateSection state sectionName = .error .typeError) := by
  refine ⟨?_, ?_, ?_⟩
  · intro rules h
    exact ⟨fun r => ownPath (some state) [sectionName, r.field],
      fun r hr => getState_rule state sectionName rules h r hr,
      validateSection_eq_filter state sectionName rules h⟩
  · intro h hk
    simp [validateSection, h, hk]
  · intro hk
    have h : CRITICAL_FIELDS sectionName = none := by
      simp only [OBJECT_PROTOTYPE_KEYS, List.mem_cons, List.mem_singleton, List.not_mem_nil,
        or_false] at hk
      rcases hk with e | e | e | e | e | e | e | e | e | e | e | e <;> subst e <;> rfl
    simp [validateSection, h, hk]

/-- C14, amended, on the default document: the ground section gets its two
warnings in rule order, the administration section (no rules) gets none, and
the name `constructor` makes the call throw. -/
theorem validateSection_spec_witness :
    validateSection (DEFAULT_STATE "t0" "t0") "ground"
      = .ok [.obj [("field", .str "terrainTypes"),
               ("message", .str "Select at least one terrain type")],
         .obj [("field", .str "trailType"), ("message", .str "Select a trail type")]] ∧
    validateSection (DEFAULT_STATE "t0" "t0") "administration" = .ok [] ∧
    validateSection (DEFAULT_STATE "t0" "t0") "constructor" = .error .typeError :=
  ⟨by decide,
   (validateSection_spec (DEFAULT_STATE "t0" "t0") "administration").2.1 (by decide) (by decide),
   (validateSection_spec (DEFAULT_STATE "t0" "t0") "constructor").2.2 (by decide)⟩

/-- The walk through the document below a key other than the one written. -/
theorem ownPath_setProp_other (ps : List (String × JSValue)) (k k2 : String) (v : JSValue)
    (q : List String) (hk : k ≠ k2) :
    ownPath (some (.obj (setProp ps k v))) (k2 :: q) = ownPath (some (.obj ps)) (k2 :: q) := by
  simp [ownPath, member, lookupProp_setProp_other _ _ _ _ (Ne.symm hk)]

/-- Writing `meta` leaves the warnings of every validated section as they are:
the rules read no path under `meta`. -/
theorem validateSection_setProp_meta (ps : List (String × JSValue)) (v : JSValue)
    (sectionName : String) (hs : sectionName ∈ VALIDATED_SECTIONS) :
    validateSection (.obj (setProp ps "meta" v)) sectionName
      = validateSection (.obj ps) sectionName := by
  have hne : "meta" ≠ sectionName := by
    intro e
    subst e
    simp [VALIDATED_SECTIONS] at hs
  cases hc : CRITICAL_FIELDS sectionName with
  | none => simp [validateSection, hc]
  | some rules =>
    rw [validateSection_eq_filter _ _ rules hc, validateSection_eq_filter _ _ rules hc]
    congr 2
    apply List.filter_congr
    intro r _
    rw [ownPath_setProp_other ps "meta" sectionName v _ hne]

/-- The warnings `validateSection` returns, none when it throws. -/
def warningsIn (state : JSValue) (sectionName : String) : List JSValue :=
  match validateSection state sectionName with
  | .ok warnings => warnings
  | .error _ => []

/-- On each of the six validated sections `validateSection` returns. -/
theorem validateSection_ok (state : JSValue) (sectionName : String)
    (hs : sectionName ∈ VALIDATED_SECTIONS) :
    validateSection state sectionName = .ok (warningsIn state sectionName) := by
  have hc : ∃ rules, CRITICAL_FIELDS sectionName = some rules := by
    simp only [VALIDATED_SECTIONS, List.mem_cons, List.mem_singleton, List.not_mem_nil,
      or_false] at hs
    rcases hs with h | h | h | h | h | h <;> subst h <;> exact ⟨_, rfl⟩
  obtain ⟨rules, hc⟩ := hc
  simp only [warningsIn, validateSection_eq_filter state sectionName rules hc]

/-- The mapping `performValidation` builds. -/
def warningsOf (state : JSValue) : JSValue :=
  .obj [("ground", .arr (warningsIn state "ground")),
        ("situation", .arr (warningsIn state "situation")),
        ("season", .arr (warningsIn state "season")),
        ("mission", .arr (warningsIn state "mission")),
        ("execution", .arr (warningsIn state "execution")),
        ("commandControl", .arr (warningsIn state "commandControl"))]

theorem collectWarnings_eq (state : JSValue) :
    collectWarnings state VALIDATED_SECTIONS []
      = .ok [("ground", .arr (warningsIn state "ground")),
        ("situation", .arr (warningsIn state "situation")),
        ("season", .arr (warningsIn state "season")),
        ("mission", .arr (warningsIn state "mission")),
        ("execution", .arr (warningsIn state "execution")),
        ("commandControl", .arr (warningsIn state "commandControl"))] := by
  simp [collectWarnings, VALIDATED_SECTIONS,
    validateSection_ok state "ground" (by decide),
    validateSection_ok state "situation" (by decide),
    validateSection_ok state "season" (by decide),
    validateSection_ok state "mission" (by decide),
    validateSection_ok state "execution" (by decide),
    validateSection_ok state "commandControl" (by decide), setProp]

/-- The document `performValidation` leaves, on a document whose `meta` is an
object. -/
theorem performValidation_state (page : Page) (ps ms : List (String × JSValue))
    (hmeta : lookupProp ps "meta" = some (.obj ms)) :
    (performValidation page (.obj ps)).state
      = .obj (setProp ps "meta" (.obj (setProp ms "validationWarnings" (warningsOf (.obj ps))))) := by
  have hkey : "meta" ∉ OBJECT_PROTOTYPE_KEYS := by decide
  simp [performValidation, truthy, collectWarnings_eq, getMember, platformMember, member, hmeta,
    setMember, warningsOf, hkey]

/-- C15. After `performValidation` on a document whose `meta` is an object,
`meta.validationWarnings` is a mapping with exactly the six validated sections
as keys, the entry of each being what `validateSection` returns for that
section on the current document; what earlier runs recorded there is gone. -/
theorem performValidation_overwrites (page : Page) (ps ms : List (String × JSValue))
    (hmeta : lookupProp ps "meta" = some (.obj ms)) :
    getState (performValidation page (.obj ps)).state "meta.validationWarnings"
      = .ok (some (warningsOf (performValidation page (.obj ps)).state)) ∧
    (∀ sectionName, sectionName ∈ VALIDATED_SECTIONS →
      validateSection (performValidation page (.obj ps)).state sectionName
        = .ok (warningsIn (performValidation page (.obj ps)).state sectionName) ∧
      member (warningsOf (performValidation page (.obj ps)).state) sectionName
        = some (.arr (warningsIn (performValidation page (.obj ps)).state sectionName))) ∧
    (∀ key, key ∉ VALIDATED_SECTIONS →
      member (warningsOf (performValidation page (.obj ps)).state) key = none) := by
  have hstate := performValidation_state page ps ms hmeta
  have hin : ∀ sectionName, sectionName ∈ VALIDATED_SECTIONS →
      warningsIn (performValidation page (.obj ps)).state sectionName
        = warningsIn (.obj ps) sectionName := by
    intro sectionName hs
    rw [hstate]
    simp only [warningsIn, validateSection_setProp_meta ps _ sectionName hs]
  have hw : warningsOf (performValidation page (.obj ps)).state = warningsOf (.obj ps) := by
    simp only [warningsOf, hin "ground" (by decide), hin "situation" (by decide),
      hin "season" (by decide), hin "mission" (by decide), hin "execution" (by decide),
      hin "commandControl" (by decide)]
  refine ⟨?_, ?_, ?_⟩
  · rw [hw, hstate]
    have hsplit : splitPath "meta.validationWarnings" = ["meta", "validationWarnings"] := by
      decide
    have h1 : "meta" ∉ OBJECT_PROTOTYPE_KEYS := by decide
    have h2 : "validationWarnings" ∉ OBJECT_PROTOTYPE_KEYS := by decide
    simp [getState, hsplit, getPath, getMember, platformMember, member,
      lookupProp_setProp_same, h1, h2, warningsOf]
  · intro sectionName hs
    refine ⟨validateSection_ok _ sectionName hs, ?_⟩
    simp only [VALIDATED_SECTIONS, List.mem_cons, List.mem_singleton, List.not_mem_nil,
      or_false] at hs
    rcases hs with h | h | h | h | h | h <;> subst h <;> simp [warningsOf, member, lookupProp]
  · intro key hk
    simp only [VALIDATED_SECTIONS, List.mem_cons, List.mem_singleton, List.not_mem_nil,
      or_false, not_or] at hk
    obtain ⟨h1, h2, h3, h4, h5, h6⟩ := hk
    simp [warningsOf, member, lookupProp, Ne.symm h1, Ne.symm h2, Ne.symm h3, Ne.symm h4,
      Ne.symm h5, Ne.symm h6]

/-- C15, on the default document, whose recorded warnings carry an
`administration` entry: after the run the entry is gone, the `season` entry is
there. -/
theorem performValidation_overwrites_witness :
    getState (performValidation fullPage (DEFAULT_STATE "t0" "t0")).state
        "meta.validationWarnings.administration" = .ok none ∧
    getState (performValidation fullPage (DEFAULT_STATE "t0" "t0")).state
        "meta.validationWarnings"
      = .ok (some (warningsOf (performValidation fullPage (DEFAULT_STATE "t0" "t0")).state)) :=
  ⟨by decide,
   (performValidation_overwrites fullPage _
      [("currentSection", .str "welcome"), ("completedSections", .arr []),
       ("validationWarnings", .obj [
        ("ground", .arr []), ("situation", .arr []), ("mission", .arr []),
        ("execution", .arr []), ("administration", .arr []),
        ("commandControl", .arr [])])] (by decide)).1⟩

/-- C16, evaluated at the failing input: the document `{schemaVersion: "1.0"}`
is adopted by `importStateJSON`, and `performValidation` on the adopted
document throws a `TypeError` (it has no `meta` to write the warnings to). -/
theorem performValidation_throws_after_import :
    (importStateJSON (quietHost "t1")
        (.json (.obj [("data", .obj [("schemaVersion", .str "1.0")])]))
        ⟨DEFAULT_STATE "t0" "t0", []⟩).1 = true ∧
    (performValidation fullPage
        (importStateJSON (quietHost "t1")
          (.json (.obj [("data", .obj [("schemaVersion", .str "1.0")])]))
          ⟨DEFAULT_STATE "t0" "t0", []⟩).2.state).thrown = some .typeError := by
  decide

/-! ## Debounce -/

/-- The program after a run of calls that starts with no timer armed and
nothing run, left alone afterwards until the timers have fired. -/
def Sched.outcome (host : Host) (page : Page) (calls : List (Nat × String × JSValue))
    (app : App) : Sched :=
  Sched.settle host page (Sched.run host page calls ⟨app, none, none, []⟩)

theorem performValidation_storage (host : Host) (page : Page) (now last : Nat) (s : Sched)
    (hs : s.saveTimer = some (last + SAVE_DEBOUNCE_DELAY))
    (hv : s.validationTimer = some (last + VALIDATION_DEBOUNCE_DELAY))
    (hlt : now < last + SAVE_DEBOUNCE_DELAY) (hruns : ∀ e ∈ s.runs, e.isSave = false) :
    (fireDue host page now s).app.storage = s.app.storage ∧
    (fireDue host page now s).saveTimer = some (last + SAVE_DEBOUNCE_DELAY) ∧
    (∀ e ∈ (fireDue host page now s).runs, e.isSave = false) := by
  have hns : ¬ (last + SAVE_DEBOUNCE_DELAY ≤ now) := by omega
  by_cases hd : last + VALIDATION_DEBOUNCE_DELAY ≤ now
  · have hf : fireDue host page now s
        = { s with
            app := { s.app with state := (performValidation page s.app.state).state }
            validationTimer := none
            runs := s.runs ++ [.validation s.app.state] } := by
      simp [fireDue, fireValidation, fireSave, hv, hs, hd, hns]
    rw [hf]
    refine ⟨rfl, hs, ?_⟩
    intro e he
    simp only [List.mem_append, List.mem_singleton] at he
    rcases he with he | he
    · exact hruns e he
    · subst he
      rfl
  · have hf : fireDue host page now s = s := by
      simp [fireDue, fireValidation, fireSave, hv, hs, hd, hns]
    rw [hf]
    exact ⟨rfl, hs, hruns⟩

/-- While the calls keep arriving inside the save window the save timer does
not fire: the run ends with both timers armed by its last call, the store
untouched and no run of `performSave` on record. -/
theorem run_keeps_save_armed (host : Host) (page : Page)
    (calls : List (Nat × String × JSValue)) :
    ∀ (s : Sched) (last : Nat),
      s.saveTimer = some (last + SAVE_DEBOUNCE_DELAY) →
      s.validationTimer = some (last + VALIDATION_DEBOUNCE_DELAY) →
      (∀ e ∈ s.runs, e.isSave = false) →
      withinWindow SAVE_DEBOUNCE_DELAY last calls →
      Sched.accepts host page calls s →
      ∃ final, (Sched.run host page calls s).saveTimer = some (final + SAVE_DEBOUNCE_DELAY) ∧
        (Sched.run host page calls s).validationTimer
          = some (final + VALIDATION_DEBOUNCE_DELAY) ∧
        (∀ e ∈ (Sched.run host page calls s).runs, e.isSave = false) ∧
        (Sched.run host page calls s).app.storage = s.app.storage := by
  induction calls with
  | nil =>
    intro s last hs hv hruns _ _
    exact ⟨last, hs, hv, hruns, rfl⟩
  | cons call rest ih =>
    obtain ⟨now, path, value⟩ := call
    intro s last hs hv hruns hwin hacc
    obtain ⟨_, hlt, hrest⟩ := hwin
    obtain ⟨⟨state', hu⟩, hacc'⟩ := hacc
    obtain ⟨hsto, _, hruns'⟩ := performValidation_storage host page now last s hs hv hlt hruns
    have hstep : Sched.updateState host page now path value s
        = { fireDue host page now s with
            app := { (fireDue host page now s).app with state := state' }
            saveTimer := some (now + SAVE_DEBOUNCE_DELAY)
            validationTimer := some (now + VALIDATION_DEBOUNCE_DELAY) } := by
      simp [Sched.updateState, hu]
    simp only [Sched.run]
    rw [hstep] at hacc' ⊢
    obtain ⟨final, h1, h2, h3, h4⟩ := ih
      { fireDue host page now s with
        app := { (fireDue host page now s).app with state := state' }
        saveTimer := some (now + SAVE_DEBOUNCE_DELAY)
        validationTimer := some (now + VALIDATION_DEBOUNCE_DELAY) }
      now rfl rfl hruns' hrest hacc'
    exact ⟨final, h1, h2, h3, by rw [h4]; exact hsto⟩

/-- While the calls keep arriving inside the validation window no timer fires:
the run ends with both timers armed by its last call, nothing run yet, the
store untouched and the document of the last write in memory. -/
theorem run_keeps_timers_armed (host : Host) (page : Page)
    (calls : List (Nat × String × JSValue)) :
    ∀ (s : Sched) (last : Nat) (docN : JSValue),
      s.saveTimer = some (last + SAVE_DEBOUNCE_DELAY) →
      s.validationTimer = some (last + VALIDATION_DEBOUNCE_DELAY) →
      s.runs = [] →
      withinWindow VALIDATION_DEBOUNCE_DELAY last calls →
      applyWrites s.app.state calls = .ok docN →
      ∃ final, (Sched.run host page calls s).saveTimer = some (final + SAVE_DEBOUNCE_DELAY) ∧
        (Sched.run host page calls s).validationTimer
          = some (final + VALIDATION_DEBOUNCE_DELAY) ∧
        (Sched.run host page calls s).runs = [] ∧
        (Sched.run host page calls s).app = ⟨docN, s.app.storage⟩ := by
  induction calls with
  | nil =>
    intro s last docN hs hv hr _ hdoc
    simp only [applyWrites, Except.ok.injEq] at hdoc
    exact ⟨last, hs, hv, hr, by rw [← hdoc]; rfl⟩
  | cons call rest ih =>
    obtain ⟨now, path, value⟩ := call
    intro s last docN hs hv hr hwin hdoc
    obtain ⟨_, hlt, hrest⟩ := hwin
    have hnv : ¬ (last + VALIDATION_DEBOUNCE_DELAY ≤ now) := by omega
    have hns : ¬ (last + SAVE_DEBOUNCE_DELAY ≤ now) := by
      simp only [SAVE_DEBOUNCE_DELAY, VALIDATION_DEBOUNCE_DELAY] at hlt ⊢
      omega
    have hfire : fireDue host page now s = s := by
      simp [fireDue, fireValidation, fireSave, hv, hs, hnv, hns]
    simp only [applyWrites] at hdoc
    cases hu : updateState s.app.state path value with
    | error e => simp [hu] at hdoc
    | ok state' =>
      simp only [hu] at hdoc
      have hstep : Sched.updateState host page now path value s
          = { s with
              app := { s.app with state := state' }
              saveTimer := some (now + SAVE_DEBOUNCE_DELAY)
              validationTimer := some (now + VALIDATION_DEBOUNCE_DELAY) } := by
        simp [Sched.updateState, hfire, hu]
      simp only [Sched.run, hstep]
      exact ih _ now docN rfl rfl hr hrest hdoc

/-- Both timers armed by the same call fire when the program is left alone:
first the validation, then the save, which persists the document as the
validation left it. -/
theorem settle_armed (host : Host) (page : Page) (s : Sched) (final : Nat)
    (hs : s.saveTimer = some (final + SAVE_DEBOUNCE_DELAY))
    (hv : s.validationTimer = some (final + VALIDATION_DEBOUNCE_DELAY)) :
    (Sched.settle host page s).runs
      = s.runs ++ [.validation s.app.state, .save (performValidation page s.app.state).state] ∧
    (Sched.settle host page s).app
      = (performSave host ⟨(performValidation page s.app.state).state, s.app.storage⟩).2 ∧
    (Sched.settle host page s).saveTimer = none ∧
    (Sched.settle host page s).validationTimer = none := by
  have hle : final + VALIDATION_DEBOUNCE_DELAY
      ≤ max (final + VALIDATION_DEBOUNCE_DELAY) (final + SAVE_DEBOUNCE_DELAY) :=
    le_max_left _ _
  have hle2 : final + SAVE_DEBOUNCE_DELAY
      ≤ max (final + VALIDATION_DEBOUNCE_DELAY) (final + SAVE_DEBOUNCE_DELAY) :=
    le_max_right _ _
  simp [Sched.settle, hs, hv, fireDue, fireValidation, fireSave, hle, hle2]

theorem first_call (host : Host) (page : Page) (app : App) (first : Nat) (path : String)
    (value state' : JSValue) (hu : updateState app.state path value = .ok state') :
    Sched.updateState host page first path value ⟨app, none, none, []⟩
      = ⟨{ app with state := state' }, some (first + SAVE_DEBOUNCE_DELAY),
          some (first + VALIDATION_DEBOUNCE_DELAY), []⟩ := by
  simp [Sched.updateState, fireDue, fireValidation, fireSave, hu]

/-- C24, as stated, fails.  Two calls 400 ms apart are inside the debounce
window of the save (500 ms), yet `performValidation` runs twice, because its
own window is 300 ms.  And the one `performSave` does not see the document as
it is after the last call: the validation has run before it and has written
its warnings into the document. -/
theorem debounce_save_sees_validated :
    withinWindow SAVE_DEBOUNCE_DELAY 1000 [(1400, "trip.tripName", .str "Ke")] ∧
    applyWrites (.obj [("trip", .obj [("tripName", .str "")]), ("meta", .obj [])])
        [(1000, "trip.tripName", .str "K"), (1400, "trip.tripName", .str "Ke")]
      = .ok (.obj [("trip", .obj [("tripName", .str "Ke")]), ("meta", .obj [])]) ∧
    ((Sched.outcome (quietHost "t1") fullPage
        [(1000, "trip.tripName", .str "K"), (1400, "trip.tripName", .str "Ke")]
        ⟨.obj [("trip", .obj [("tripName", .str "")]), ("meta", .obj [])], []⟩).runs.map
      TimerRun.isSave) = [false, false, true] ∧
    (Sched.outcome (quietHost "t1") fullPage
        [(1000, "trip.tripName", .str "K"), (1400, "trip.tripName", .str "Ke")]
        ⟨.obj [("trip", .obj [("tripName", .str "")]), ("meta", .obj [])], []⟩).runs.getLast?
      ≠ some (.save (.obj [("trip", .obj [("tripName", .str "Ke")]), ("meta", .obj [])])) := by
  refine ⟨by simp [withinWindow, SAVE_DEBOUNCE_DELAY], by decide, by decide, by decide⟩

/-- C24, amended. Debounce coalescing, for a run of `N >= 1` calls of
`updateState` that starts with no timer armed.  When each call arrives less
than 500 ms after the one before it and each write goes through, exactly one
`performSave` runs; it runs last, after the last call, and the program state
it leaves is the one `performSave` makes from the store as it was before the
run.  When each call arrives less than 300 ms after the one before it,
exactly one `performValidation` runs as well: it is started on the document
as it is after the last write, and the save that follows it is started on
that document as the validation left it. -/
theorem debounce_coalesces (host : Host) (page : Page) (app : App)
    (first : Nat) (path : String) (value : JSValue) (rest : List (Nat × String × JSValue)) :
    (withinWindow SAVE_DEBOUNCE_DELAY first rest →
      Sched.accepts host page ((first, path, value) :: rest) ⟨app, none, none, []⟩ →
      ∃ before D,
        (Sched.outcome host page ((first, path, value) :: rest) app).runs
          = before ++ [.save D] ∧
        (∀ e ∈ before, e.isSave = false) ∧
        (Sched.outcome host page ((first, path, value) :: rest) app).app
          = (performSave host ⟨D, app.storage⟩).2 ∧
        (Sched.outcome host page ((first, path, value) :: rest) app).saveTimer = none ∧
        (Sched.outcome host page ((first, path, value) :: rest) app).validationTimer = none) ∧
    (withinWindow VALIDATION_DEBOUNCE_DELAY first rest →
      ∀ docN, applyWrites app.state ((first, path, value) :: rest) = .ok docN →
        (Sched.outcome host page ((first, path, value) :: rest) app).runs
          = [.validation docN, .save (performValidation page docN).state] ∧
        (Sched.outcome host page ((first, path, value) :: rest) app).app
          = (performSave host ⟨(performValidation page docN).state, app.storage⟩).2 ∧
        (Sched.outcome host page ((first, path, value) :: rest) app).saveTimer = none ∧
        (Sched.outcome host page ((first, path, value) :: rest) app).validationTimer = none) := by
  constructor
  · intro hwin hacc
    obtain ⟨⟨state', hu⟩, hacc'⟩ := hacc
    have hu' : updateState app.state path value = .ok state' := by
      simpa [fireDue, fireValidation, fireSave] using hu
    have hstep := first_call host page app first path value state' hu'
    rw [hstep] at hacc'
    obtain ⟨final, h1, h2, h3, h4⟩ := run_keeps_save_armed host page rest _ first rfl rfl
      (by simp) hwin hacc'
    simp only [Sched.outcome, Sched.run, hstep]
    generalize Sched.run host page rest
      ⟨{ app with state := state' }, some (first + SAVE_DEBOUNCE_DELAY),
        some (first + VALIDATION_DEBOUNCE_DELAY), []⟩ = r at h1 h2 h3 h4
    obtain ⟨e1, e2, e3, e4⟩ := settle_armed host page r final h1 h2
    refine ⟨r.runs ++ [.validation r.app.state], (performValidation page r.app.state).state,
      ?_, ?_, ?_, e3, e4⟩
    · rw [e1]
      simp
    · intro e he
      simp only [List.mem_append, List.mem_singleton] at he
      rcases he with he | he
      · exact h3 e he
      · subst he
        rfl
    · rw [e2, h4]
  · intro hwin docN hdoc
    simp only [applyWrites] at hdoc
    cases hu : updateState app.state path value with
    | error e => simp [hu] at hdoc
    | ok state' =>
      simp only [hu] at hdoc
      have hstep := first_call host page app first path value state' hu
      obtain ⟨final, h1, h2, h3, h4⟩ := run_keeps_timers_armed host page rest
        ⟨{ app with state := state' }, some (first + SAVE_DEBOUNCE_DELAY),
          some (first + VALIDATION_DEBOUNCE_DELAY), []⟩ first docN rfl rfl rfl hwin hdoc
      simp only [Sched.outcome, Sched.run, hstep]
      generalize Sched.run host page rest
        ⟨{ app with state := state' }, some (first + SAVE_DEBOUNCE_DELAY),
          some (first + VALIDATION_DEBOUNCE_DELAY), []⟩ = r at h1 h2 h3 h4
      obtain ⟨e1, e2, e3, e4⟩ := settle_armed host page r final h1 h2
      rw [e1, e2, h3, h4]
      exact ⟨rfl, rfl, e3, e4⟩

/-- C24, amended, on three key strokes 100 ms apart in the trip name: one
validation, started on the document with the last key stroke, then one save,
after which the primary slot of the store holds the document with the last key
stroke, the warnings of the validation and the time stamp of the save. -/
theorem debounce_coalesces_witness :
    withinWindow VALIDATION_DEBOUNCE_DELAY 1000
      [(1100, "trip.tripName", .str "Ke"), (1200, "trip.tripName", .str "Kep")] ∧
    (Sched.outcome (quietHost "t1") fullPage
        [(1000, "trip.tripName", .str "K"), (1100, "trip.tripName", .str "Ke"),
         (1200, "trip.tripName", .str "Kep")]
        ⟨.obj [("trip", .obj [("tripName", .str "")]), ("meta", .obj [])], []⟩).runs
      = [.validation (.obj [("trip", .obj [("tripName", .str "Kep")]), ("meta", .obj [])]),
         .save (performValidation fullPage
           (.obj [("trip", .obj [("tripName", .str "Kep")]), ("meta", .obj [])])).state] ∧
    getItem (Sched.outcome (quietHost "t1") fullPage
        [(1000, "trip.tripName", .str "K"), (1100, "trip.tripName", .str "Ke"),
         (1200, "trip.tripName", .str "Kep")]
        ⟨.obj [("trip", .obj [("tripName", .str "")]), ("meta", .obj [])], []⟩).app.storage
        STORAGE_KEY
      = some (JSON_stringify (.obj [("trip", .obj [("tripName", .str "Kep")]),
          ("meta", .obj [("validationWarnings", warningsOf (.obj [("trip", .obj [("tripName", .str "Kep")]), ("meta", .obj [])]))]),
          ("lastModified", .str "t1")])) :=
  ⟨by simp [withinWindow, VALIDATION_DEBOUNCE_DELAY],
   ((debounce_coalesces (quietHost "t1") fullPage
      ⟨.obj [("trip", .obj [("tripName", .str "")]), ("meta", .obj [])], []⟩
      1000 "trip.tripName" (.str "K")
      [(1100, "trip.tripName", .str "Ke"), (1200, "trip.tripName", .str "Kep")]).2
      (by simp [withinWindow, VALIDATION_DEBOUNCE_DELAY])
      (.obj [("trip", .obj [("tripName", .str "Kep")]), ("meta", .obj [])]) (by decide)).1,
   by decide⟩

/-! ## The gear checklist -/

/-- A document with the branches the gear functions read: `trip.tripType` and
`season.season` are strings, `administration.gear.checklist` is an array
without `null` entries. -/
def GearShape (state : JSValue) (tripType season : String) (items : List JSValue) : Prop :=
  ∃ ps tp sp ap gp, state = .obj ps ∧
    lookupProp ps "trip" = some (.obj tp) ∧ lookupProp tp "tripType" = some (.str tripType) ∧
    lookupProp ps "season" = some (.obj sp) ∧ lookupProp sp "season" = some (.str season) ∧
    lookupProp ps "administration" = some (.obj ap) ∧ lookupProp ap "gear" = some (.obj gp) ∧
    lookupProp gp "checklist" = some (.arr items) ∧ ∀ item ∈ items, item ≠ .null

/-- The document with `administration.gear.checklist` replaced. -/
def withChecklist (state : JSValue) (items : List JSValue) : JSValue :=
  match state with
  | .obj ps =>
    match lookupProp ps "administration" with
    | some (.obj ap) =>
      match lookupProp ap "gear" with
      | some (.obj gp) =>
        .obj (setProp ps "administration"
          (.obj (setProp ap "gear" (.obj (setProp gp "checklist" (.arr items))))))
      | _ => state
    | _ => state
  | _ => state

/-- The names of the entries, as `item.name` reads them. -/
def namesOf (items : List JSValue) : List (Option JSValue) :=
  items.map (fun item => member item "name")

/-- The checklist `loadGearChecklist` leaves, as a function of trip type,
season and the checklist before. -/
def gearMerge (tripType season : String) (items : List JSValue) : List JSValue :=
  match selectedPreset (some (.str tripType)) (some (.str season)) with
  | .ok (some presetItems) =>
    if items = [] then presetItems.map presetEntry
    else if (newPresetItemsOf presetItems (namesOf items)).length > 0 then
      mergedChecklist items (newPresetItemsOf presetItems (namesOf items))
    else items
  | _ => items

theorem setProp_lookup_self (ps : List (String × JSValue)) (k : String) (v : JSValue)
    (h : lookupProp ps k = some v) : setProp ps k v = ps := by
  induction ps with
  | nil => simp [lookupProp] at h
  | cons p rest ih =>
    obtain ⟨k', v'⟩ := p
    by_cases hk : k' = k
    · subst hk
      simp only [lookupProp, if_true, Option.some.injEq] at h
      subst h
      simp [setProp]
    · simp only [lookupProp, hk, if_false] at h
      simp [setProp, hk, ih h]

theorem existingNamesOf_eq (items : List JSValue) (h : ∀ item ∈ items, item ≠ .null) :
    existingNamesOf items = .ok (namesOf items) := by
  induction items with
  | nil => rfl
  | cons item rest ih =>
    have h1 : item ≠ .null := h item (List.mem_cons_self _ _)
    have h2 := ih (fun x hx => h x (List.mem_cons_of_mem _ hx))
    have hg : getMember (some item) "name" = .ok (member item "name") :=
      getMember_plain item "name" h1 (by decide)
    simp [existingNamesOf, hg, h2, namesOf]

theorem withChecklist_shape (state : JSValue) (tt se : String) (items xs : List JSValue)
    (h : GearShape state tt se items) (hx : ∀ item ∈ xs, item ≠ .null) :
    GearShape (withChecklist state xs) tt se xs := by
  obtain ⟨ps, tp, sp, ap, gp, rfl, h1, h2, h3, h4, h5, h6, _, _⟩ := h
  refine ⟨setProp ps "administration"
      (.obj (setProp ap "gear" (.obj (setProp gp "checklist" (.arr xs))))), tp, sp,
    setProp ap "gear" (.obj (setProp gp "checklist" (.arr xs))),
    setProp gp "checklist" (.arr xs), ?_, ?_, h2, ?_, h4, ?_, ?_, ?_, hx⟩
  · simp only [withChecklist, h5, h6]
  · rw [lookupProp_setProp_other _ _ _ _ (by decide)]; exact h1
  · rw [lookupProp_setProp_other _ _ _ _ (by decide)]; exact h3
  · exact lookupProp_setProp_same _ _ _
  · exact lookupProp_setProp_same _ _ _
  · exact lookupProp_setProp_same _ _ _

theorem withChecklist_self (state : JSValue) (tt se : String) (items : List JSValue)
    (h : GearShape state tt se items) : withChecklist state items = state := by
  obtain ⟨ps, tp, sp, ap, gp, rfl, _, _, _, _, h5, h6, h7, _⟩ := h
  simp only [withChecklist, h5, h6]
  rw [setProp_lookup_self gp _ _ h7, setProp_lookup_self ap _ _ h6, setProp_lookup_self ps _ _ h5]

theorem withChecklist_twice (state : JSValue) (tt se : String) (items xs ys : List JSValue)
    (h : GearShape state tt se items) :
    withChecklist (withChecklist state xs) ys = withChecklist state ys := by
  obtain ⟨ps, tp, sp, ap, gp, rfl, _, _, _, _, h5, h6, _, _⟩ := h
  simp only [withChecklist, h5, h6, lookupProp_setProp_same, setProp_setProp_same]

/-- On a shaped document the two writes of `storeChecklist` go through and
leave the document with the new checklist. -/
theorem storeChecklist_shape (state : JSValue) (tt se : String) (items xs : List JSValue)
    (h : GearShape state tt se items) :
    storeChecklist state xs = { state := withChecklist state xs, thrown := none } := by
  obtain ⟨ps, tp, sp, ap, gp, rfl, _, _, _, _, h5, h6, _, _⟩ := h
  have hsplit : splitPath "administration.gear.checklist"
      = ["administration", "gear", "checklist"] := by decide
  simp [storeChecklist, assignAt, getMember, platformMember, OBJECT_PROTOTYPE_KEYS, member, h5, h6, setMember, Run.ofUpdate,
    updateState, hsplit, setPath, childOf, lookupProp_setProp_same, truthy, setProp_setProp_same,
    withChecklist]

theorem readPath_tripType (state : JSValue) (tt se : String) (items : List JSValue)
    (h : GearShape state tt se items) :
    readPath (some state) ["trip", "tripType"] = .ok (some (.str tt)) ∧
    readPath (some state) ["season", "season"] = .ok (some (.str se)) ∧
    readPath (some state) ["administration", "gear", "checklist"] = .ok (some (.arr items)) := by
  obtain ⟨ps, tp, sp, ap, gp, rfl, h1, h2, h3, h4, h5, h6, h7, _⟩ := h
  simp [readPath, getMember, platformMember, OBJECT_PROTOTYPE_KEYS, member, h1, h2, h3, h4, h5, h6, h7]

/-- On a shaped document `loadGearChecklist` leaves the document with the
checklist `gearMerge` computes. -/
theorem loadGearChecklist_shape (page : Page) (state : JSValue) (tt se : String)
    (items : List JSValue) (h : GearShape state tt se items) :
    (loadGearChecklist page state).state = withChecklist state (gearMerge tt se items) := by
  obtain ⟨r1, r2, r3⟩ := readPath_tripType state tt se items h
  have hself := withChecklist_self state tt se items h
  have hnames := existingNamesOf_eq items (by
    obtain ⟨ps, tp, sp, ap, gp, _, _, _, _, _, _, _, _, h8⟩ := h; exact h8)
  unfold loadGearChecklist gearMerge
  rw [r1, r2]
  simp only []
  cases hsel : selectedPreset (some (.str tt)) (some (.str se)) with
  | error e => simp [hself]
  | ok sel =>
    cases sel with
    | none => simp [hself]
    | some presetItems =>
      simp only [r3]
      cases items with
      | nil =>
        simp [truthy?, truthy, storeChecklist_shape state tt se [] _ h, Run.andThen]
      | cons item rest =>
        simp only [hnames, truthy?, truthy]
        by_cases hnew : (newPresetItemsOf presetItems (namesOf (item :: rest))).length > 0
        · simp [hnew, storeChecklist_shape state tt se (item :: rest) _ h, Run.andThen]
        · simp [hnew, hself]

theorem mem_mergedChecklist (items new : List JSValue) (item : JSValue)
    (h : item ∈ items) : item ∈ mergedChecklist items new := by
  unfold mergedChecklist
  by_cases hc : isCustom item = true
  · exact List.mem_append_right _ (List.mem_filter.mpr ⟨h, by simpa using hc⟩)
  · exact List.mem_append_left _ (List.mem_append_left _
      (List.mem_filter.mpr ⟨h, by simpa using hc⟩))

theorem mem_mergedChecklist_new (items new : List JSValue) (item : JSValue)
    (h : item ∈ new) : item ∈ mergedChecklist items new := by
  unfold mergedChecklist
  exact List.mem_append_left _ (List.mem_append_right _ h)

theorem mem_mergedChecklist_iff (items new : List JSValue) (item : JSValue) :
    item ∈ mergedChecklist items new ↔ item ∈ items ∨ item ∈ new := by
  constructor
  · intro h
    unfold mergedChecklist at h
    rcases List.mem_append.mp h with h | h
    · rcases List.mem_append.mp h with h | h
      · exact Or.inl (List.mem_filter.mp h).1
      · exact Or.inr h
    · exact Or.inl (List.mem_filter.mp h).1
  · rintro (h | h)
    · exact mem_mergedChecklist _ _ _ h
    · exact mem_mergedChecklist_new _ _ _ h

theorem member_presetEntry_name (name : String) :
    member (presetEntry name) "name" = some (.str name) := by
  simp [presetEntry, member, lookupProp]

theorem newPresetItemsOf_eq_nil (presetItems : List String) (names : List (Option JSValue))
    (h : ∀ p ∈ presetItems, some (JSValue.str p) ∈ names) :
    newPresetItemsOf presetItems names = [] := by
  unfold newPresetItemsOf
  rw [List.map_eq_nil_iff, List.filter_eq_nil_iff]
  intro p hp
  simpa using h p hp

theorem mem_newPresetItemsOf (presetItems : List String) (names : List (Option JSValue))
    (item : JSValue) :
    item ∈ newPresetItemsOf presetItems names ↔
      ∃ p ∈ presetItems, some (JSValue.str p) ∉ names ∧ item = presetEntry p := by
  unfold newPresetItemsOf
  simp only [List.mem_map, List.mem_filter]
  constructor
  · rintro ⟨p, ⟨hp, hn⟩, rfl⟩
    exact ⟨p, hp, by simpa using hn, rfl⟩
  · rintro ⟨p, hp, hn, rfl⟩
    exact ⟨p, ⟨hp, by simpa using hn⟩, rfl⟩

theorem preset_names_in_merged (presetItems : List String) (items : List JSValue) :
    ∀ p ∈ presetItems, some (JSValue.str p) ∈
      namesOf (mergedChecklist items (newPresetItemsOf presetItems (namesOf items))) := by
  intro p hp
  by_cases hin : some (JSValue.str p) ∈ namesOf items
  · obtain ⟨item, hitem, hname⟩ := List.mem_map.mp hin
    exact List.mem_map.mpr ⟨item, mem_mergedChecklist _ _ _ hitem, hname⟩
  · exact List.mem_map.mpr ⟨presetEntry p,
      mem_mergedChecklist_new _ _ _
        ((mem_newPresetItemsOf _ _ _).mpr ⟨p, hp, hin, rfl⟩),
      member_presetEntry_name p⟩

theorem preset_names_in_initial (presetItems : List String) :
    ∀ p ∈ presetItems, some (JSValue.str p) ∈ namesOf (presetItems.map presetEntry) := by
  intro p hp
  exact List.mem_map.mpr ⟨presetEntry p, List.mem_map.mpr ⟨p, hp, rfl⟩,
    member_presetEntry_name p⟩

/-- Running the merge on its own result changes nothing. -/
theorem gearMerge_idem (tt se : String) (items : List JSValue) :
    gearMerge tt se (gearMerge tt se items) = gearMerge tt se items := by
  unfold gearMerge
  cases hsel : selectedPreset (some (.str tt)) (some (.str se)) with
  | error e => rfl
  | ok sel =>
    cases sel with
    | none => rfl
    | some presetItems =>
      simp only []
      by_cases hnil : items = []
      · simp only [hnil, if_true]
        by_cases hp : presetItems.map presetEntry = []
        · simp [hp]
        · simp [hp, newPresetItemsOf_eq_nil _ _ (preset_names_in_initial presetItems)]
      · simp only [hnil, if_false]
        by_cases hnew : (newPresetItemsOf presetItems (namesOf items)).length > 0
        · simp only [hnew, if_true]
          have hne : mergedChecklist items (newPresetItemsOf presetItems (namesOf items)) ≠ [] := by
            intro h0
            cases items with
            | nil => exact hnil rfl
            | cons item rest =>
              have := mem_mergedChecklist (item :: rest)
                (newPresetItemsOf presetItems (namesOf (item :: rest))) item
                (List.mem_cons_self _ _)
              rw [h0] at this
              exact absurd this (List.not_mem_nil _)
          simp [hne, newPresetItemsOf_eq_nil _ _ (preset_names_in_merged presetItems items)]
        · simp [hnew, hnil]

/-- Every entry of the checklist is still in the merged checklist. -/
theorem mem_gearMerge (tt se : String) (items : List JSValue) (item : JSValue)
    (h : item ∈ items) : item ∈ gearMerge tt se items := by
  unfold gearMerge
  cases hsel : selectedPreset (some (.str tt)) (some (.str se)) with
  | error e => exact h
  | ok sel =>
    cases sel with
    | none => exact h
    | some presetItems =>
      simp only []
      have hnil : items ≠ [] := List.ne_nil_of_mem h
      simp only [hnil, if_false]
      split
      · exact mem_mergedChecklist _ _ _ h
      · exact h

theorem gearMerge_ne_null (tt se : String) (items : List JSValue)
    (h : ∀ item ∈ items, item ≠ .null) : ∀ item ∈ gearMerge tt se items, item ≠ .null := by
  unfold gearMerge
  cases hsel : selectedPreset (some (.str tt)) (some (.str se)) with
  | error e => exact h
  | ok sel =>
    cases sel with
    | none => exact h
    | some presetItems =>
      simp only []
      intro item hitem
      split at hitem
      · obtain ⟨p, _, rfl⟩ := List.mem_map.mp hitem
        simp [presetEntry]
      · split at hitem
        · rcases (mem_mergedChecklist_iff _ _ _).mp hitem with h1 | h1
          · exact h item h1
          · obtain ⟨p, _, _, rfl⟩ := (mem_newPresetItemsOf _ _ _).mp h1
            simp [presetEntry]
        · exact h item hitem

/-- A small document with the three branches the gear functions read. -/
def gearDoc (tripType season : String) (items : List JSValue) : JSValue :=
  .obj [("trip", .obj [("tripType", .str tripType)]),
        ("season", .obj [("season", .str season)]),
        ("administration", .obj [("gear", .obj [("checklist", .arr items)])])]

theorem gearDoc_shape (tt se : String) (items : List JSValue)
    (h : ∀ item ∈ items, item ≠ .null) : GearShape (gearDoc tt se items) tt se items :=
  ⟨_, [("tripType", .str tt)], [("season", .str se)],
    [("gear", .obj [("checklist", .arr items)])], [("checklist", .arr items)],
    rfl, by simp [lookupProp], by simp [lookupProp], by simp [lookupProp],
    by simp [lookupProp], by simp [lookupProp], by simp [lookupProp], by simp [lookupProp], h⟩

/-- A custom entry as `addCustomGearItem` makes it. -/
def customEntry (name : String) : JSValue :=
  .obj [("name", .str name), ("checked", .bool false), ("custom", .bool true)]

/-- Claim C9: on a document whose trip type and season are strings and whose
gear checklist is an array of entries, running `loadGearChecklist` a second
time, with trip type and season unchanged, leaves the document (and so the
checklist, entry by entry and in the same order) as the first run left it. -/
theorem loadGearChecklist_idempotent (page : Page) (state : JSValue) (tt se : String)
    (items : List JSValue) (h : GearShape state tt se items) :
    (loadGearChecklist page (loadGearChecklist page state).state).state
      = (loadGearChecklist page state).state := by
  have h2 := withChecklist_shape state tt se items (gearMerge tt se items) h
    (gearMerge_ne_null tt se items (by
      obtain ⟨ps, tp, sp, ap, gp, _, _, _, _, _, _, _, _, h8⟩ := h; exact h8))
  rw [loadGearChecklist_shape page state tt se items h,
    loadGearChecklist_shape page _ tt se _ h2, withChecklist_twice state tt se items _ _ h,
    gearMerge_idem]

theorem loadGearChecklist_idempotent_witness :
    GearShape (gearDoc "backpacking" "winter" [customEntry "Hammock", presetEntry "Backpack"])
      "backpacking" "winter" [customEntry "Hammock", presetEntry "Backpack"] ∧
    (loadGearChecklist fullPage (loadGearChecklist fullPage
        (gearDoc "backpacking" "winter"
          [customEntry "Hammock", presetEntry "Backpack"])).state).state
      = (loadGearChecklist fullPage (gearDoc "backpacking" "winter"
          [customEntry "Hammock", presetEntry "Backpack"])).state :=
  ⟨gearDoc_shape _ _ _ (by decide),
   loadGearChecklist_idempotent fullPage _ "backpacking" "winter" _
    (gearDoc_shape _ _ _ (by decide))⟩

/-- Claim C10: whatever trip type and season the document now holds, after
`loadGearChecklist` the gear checklist is an array that still contains every
entry it held before, unchanged (same name, checked flag and custom flag). -/
theorem loadGearChecklist_keeps_entries (page : Page) (state : JSValue) (tt se : String)
    (items : List JSValue) (h : GearShape state tt se items) :
    ∃ after, readPath (some (loadGearChecklist page state).state)
        ["administration", "gear", "checklist"] = .ok (some (.arr after)) ∧
      ∀ item ∈ items, item ∈ after := by
  have h2 := withChecklist_shape state tt se items (gearMerge tt se items) h
    (gearMerge_ne_null tt se items (by
      obtain ⟨ps, tp, sp, ap, gp, _, _, _, _, _, _, _, _, h8⟩ := h; exact h8))
  refine ⟨gearMerge tt se items, ?_, fun item hitem => mem_gearMerge tt se items item hitem⟩
  rw [loadGearChecklist_shape page state tt se items h]
  exact (readPath_tripType _ tt se _ h2).2.2

theorem loadGearChecklist_keeps_entries_witness :
    GearShape (gearDoc "backpacking" "summer"
        [.obj [("name", .str "Backpack"), ("checked", .bool true), ("custom", .bool false)],
         customEntry "Hammock"])
      "backpacking" "summer"
        [.obj [("name", .str "Backpack"), ("checked", .bool true), ("custom", .bool false)],
         customEntry "Hammock"] ∧
    ∃ after, readPath (some (loadGearChecklist fullPage (gearDoc "backpacking" "summer"
        [.obj [("name", .str "Backpack"), ("checked", .bool true), ("custom", .bool false)],
         customEntry "Hammock"])).state)
        ["administration", "gear", "checklist"] = .ok (some (.arr after)) ∧
      ∀ item ∈ [JSValue.obj [("name", .str "Backpack"), ("checked", .bool true),
          ("custom", .bool false)], customEntry "Hammock"], item ∈ after :=
  ⟨gearDoc_shape _ _ _ (by decide),
   loadGearChecklist_keeps_entries fullPage _ "backpacking" "summer" _
    (gearDoc_shape _ _ _ (by decide))⟩

/-- Claim C11, evaluated: on a winter backpacking document whose checklist
still holds the summer preset, `loadGearChecklist` keeps the summer entry
"Sleeping bag (3-season)", which is not custom and is not an item of the
winter preset. -/
theorem loadGearChecklist_keeps_left_preset :
    ∃ after, readPath (some (loadGearChecklist fullPage (gearDoc "backpacking" "winter"
        (((GEAR_PRESETS "summer").getD []).map presetEntry))).state)
        ["administration", "gear", "checklist"] = .ok (some (.arr after)) ∧
      selectedPreset (some (.str "backpacking")) (some (.str "winter"))
        = .ok (GEAR_PRESETS "winter") ∧
      presetEntry "Sleeping bag (3-season)" ∈ after ∧
      isCustom (presetEntry "Sleeping bag (3-season)") = false ∧
      "Sleeping bag (3-season)" ∉ (GEAR_PRESETS "winter").getD [] := by
  have hnn : ∀ item ∈ ((GEAR_PRESETS "summer").getD []).map presetEntry, item ≠ .null := by
    intro item hitem
    obtain ⟨p, _, rfl⟩ := List.mem_map.mp hitem
    simp [presetEntry]
  have h := gearDoc_shape "backpacking" "winter" _ hnn
  have h2 := withChecklist_shape _ "backpacking" "winter" _ _ h
    (gearMerge_ne_null "backpacking" "winter" _ hnn)
  refine ⟨gearMerge "backpacking" "winter" (((GEAR_PRESETS "summer").getD []).map presetEntry),
    ?_, by decide, ?_, by decide, by decide⟩
  · rw [loadGearChecklist_shape fullPage _ "backpacking" "winter" _ h]
    exact (readPath_tripType _ _ _ _ h2).2.2
  · exact mem_gearMerge _ _ _ _ (List.mem_map.mpr ⟨_, by decide, rfl⟩)

/-- No two custom entries of the checklist have names that `toLowerCase`
makes equal. -/
def CustomUnique (host : Host) (items : List JSValue) : Prop :=
  items.Pairwise (fun a b => isCustom a = true → isCustom b = true →
    ∀ na nb, member a "name" = some (.str na) → member b "name" = some (.str nb) →
      host.toLowerCase na ≠ host.toLowerCase nb)

/-- The documents the gear functions reach from a document with an empty
checklist; `retarget` is any change of the document that keeps the checklist
(a change of trip type or season among them). -/
inductive GearReach (page : Page) (host : Host) : JSValue → Prop
  | start (state : JSValue) (tt se : String) :
      GearShape state tt se [] → GearReach page host state
  | load (state : JSValue) :
      GearReach page host state → GearReach page host (loadGearChecklist page state).state
  | add (state : JSValue) (input : Option String) :
      GearReach page host state →
      GearReach page host (addCustomGearItem page host input state).state
  | remove (state : JSValue) (confirmed : Bool) (itemName : String) :
      GearReach page host state →
      GearReach page host (removeCustomGearItem page confirmed itemName state).state
  | retarget (state state' : JSValue) (tt se tt' se' : String) (items : List JSValue) :
      GearReach page host state → GearShape state tt se items →
      GearShape state' tt' se' items → GearReach page host state'

theorem GearShape.ne_null {state : JSValue} {tt se : String} {items : List JSValue}
    (h : GearShape state tt se items) : ∀ item ∈ items, item ≠ .null := by
  obtain ⟨ps, tp, sp, ap, gp, _, _, _, _, _, _, _, _, h8⟩ := h
  exact h8

theorem GearShape.items_unique {state : JSValue} {tt se tt' se' : String}
    {items items' : List JSValue}
    (h : GearShape state tt se items) (h' : GearShape state tt' se' items') : items' = items := by
  have h1 := (readPath_tripType state tt se items h).2.2
  have h2 := (readPath_tripType state tt' se' items' h').2.2
  rw [h1] at h2
  simpa using h2.symm

theorem customUnique_of_none_custom (host : Host) (l1 l2 : List JSValue)
    (h1 : ∀ a ∈ l1, isCustom a = false) (h2 : CustomUnique host l2) :
    CustomUnique host (l1 ++ l2) := by
  induction l1 with
  | nil => exact h2
  | cons a rest ih =>
    refine List.Pairwise.cons ?_ (ih (fun x hx => h1 x (List.mem_cons_of_mem _ hx)))
    intro b _ ha
    rw [h1 a (List.mem_cons_self _ _)] at ha
    exact absurd ha (by decide)

theorem isCustom_presetEntry (name : String) : isCustom (presetEntry name) = false := by
  simp [isCustom, presetEntry, member, lookupProp, truthy?, truthy]

theorem customUnique_mergedChecklist (host : Host) (presetItems : List String)
    (names : List (Option JSValue)) (items : List JSValue) (h : CustomUnique host items) :
    CustomUnique host (mergedChecklist items (newPresetItemsOf presetItems names)) := by
  unfold mergedChecklist
  rw [List.append_assoc]
  refine customUnique_of_none_custom host _ _ ?_ (customUnique_of_none_custom host _ _ ?_ ?_)
  · intro a ha
    simpa using (List.mem_filter.mp ha).2
  · intro a ha
    obtain ⟨p, _, _, rfl⟩ := (mem_newPresetItemsOf _ _ _).mp ha
    exact isCustom_presetEntry p
  · exact List.Pairwise.sublist (List.filter_sublist _) h

theorem customUnique_gearMerge (host : Host) (tt se : String) (items : List JSValue)
    (h : CustomUnique host items) : CustomUnique host (gearMerge tt se items) := by
  unfold gearMerge
  cases hsel : selectedPreset (some (.str tt)) (some (.str se)) with
  | error e => exact h
  | ok sel =>
    cases sel with
    | none => exact h
    | some presetItems =>
      simp only []
      split
      · have := customUnique_of_none_custom host (presetItems.map presetEntry) []
          (fun a ha => by
            obtain ⟨p, _, rfl⟩ := List.mem_map.mp ha
            exact isCustom_presetEntry p) List.Pairwise.nil
        simpa using this
      · split
        · exact customUnique_mergedChecklist host _ _ _ h
        · exact h

theorem findExisting_none (host : Host) (wanted : String) (items : List JSValue)
    (h : findExisting host wanted items = .ok none) :
    ∀ item ∈ items, ∃ n, member item "name" = some (.str n) ∧
      host.toLowerCase n ≠ host.toLowerCase wanted := by
  induction items with
  | nil => intro item hitem; exact absurd hitem (List.not_mem_nil _)
  | cons a rest ih =>
    unfold findExisting at h
    cases hg : getMember (some a) "name" with
    | error e => rw [hg] at h; simp at h
    | ok name =>
      rw [hg] at h
      have hm : member a "name" = name := getMember_ok_plain a "name" name (by decide) hg
      cases name with
      | none => simp at h
      | some v =>
        cases v with
        | str n =>
          simp only [] at h
          by_cases heq : host.toLowerCase n = host.toLowerCase wanted
          · simp [heq] at h
          · simp only [heq, if_false] at h
            intro item hitem
            rcases List.mem_cons.mp hitem with rfl | hrest
            · exact ⟨n, hm, heq⟩
            · exact ih h item hrest
        | _ => simp at h

theorem withoutName_eq (itemName : String) (items : List JSValue)
    (h : ∀ item ∈ items, item ≠ .null) :
    withoutName itemName items
      = .ok (items.filter (fun item => !decide (member item "name" = some (.str itemName)))) := by
  induction items with
  | nil => rfl
  | cons item rest ih =>
    have h1 : item ≠ .null := h item (List.mem_cons_self _ _)
    have h2 := ih (fun x hx => h x (List.mem_cons_of_mem _ hx))
    have hg : getMember (some item) "name" = .ok (member item "name") :=
      getMember_plain item "name" h1 (by decide)
    by_cases hn : member item "name" = some (.str itemName)
    · simp [withoutName, hg, h2, hn]
    · simp [withoutName, hg, h2, hn]

/-- On a shaped document `addCustomGearItem` leaves the document with a
checklist that still has no `null` entry and still has unique custom names. -/
theorem addCustomGearItem_shape (page : Page) (host : Host) (input : Option String)
    (state : JSValue) (tt se : String) (items : List JSValue) (h : GearShape state tt se items) :
    ∃ items', (addCustomGearItem page host input state).state = withChecklist state items' ∧
      (∀ item ∈ items', item ≠ .null) ∧
      (CustomUnique host items → CustomUnique host items') := by
  have hself := withChecklist_self state tt se items h
  have keep : ∀ r : Run, r.state = state → ∃ items', r.state = withChecklist state items' ∧
      (∀ item ∈ items', item ≠ .null) ∧ (CustomUnique host items → CustomUnique host items') :=
    fun r hr => ⟨items, by rw [hr, hself], h.ne_null, id⟩
  unfold addCustomGearItem
  cases input with
  | none => exact keep _ rfl
  | some itemName =>
    simp only []
    split
    · exact keep _ rfl
    · rw [(readPath_tripType state tt se items h).2.2]
      simp only []
      cases hf : findExisting host (jsTrim itemName) items with
      | error e => exact keep _ rfl
      | ok found =>
        cases found with
        | some existingItem =>
          simp only []
          split
          · exact keep _ rfl
          · exact keep _ rfl
        | none =>
          simp only []
          refine ⟨_, by rw [storeChecklist_shape state tt se items _ h]; rfl, ?_, ?_⟩
          · intro item hitem
            rcases List.mem_append.mp hitem with h1 | h1
            · exact h.ne_null item h1
            · rw [List.mem_singleton.mp h1]; simp
          · intro hu
            refine List.pairwise_append.mpr ⟨hu, List.pairwise_singleton _ _, ?_⟩
            intro a ha b hb _ _ na nb hna hnb
            rw [List.mem_singleton.mp hb] at hnb
            obtain ⟨n, hn, hne⟩ := findExisting_none host _ items hf a ha
            rw [hn] at hna
            have e1 : n = na := by simpa using hna
            have e2 : jsTrim itemName = nb := by simpa [member, lookupProp] using hnb
            rw [← e1, ← e2]
            exact hne

/-- On a shaped document `removeCustomGearItem` leaves the document with a
checklist that still has no `null` entry and still has unique custom names. -/
theorem removeCustomGearItem_shape (page : Page) (host : Host) (confirmed : Bool)
    (itemName : String) (state : JSValue) (tt se : String) (items : List JSValue)
    (h : GearShape state tt se items) :
    ∃ items', (removeCustomGearItem page confirmed itemName state).state
        = withChecklist state items' ∧
      (∀ item ∈ items', item ≠ .null) ∧
      (CustomUnique host items → CustomUnique host items') := by
  have hself := withChecklist_self state tt se items h
  unfold removeCustomGearItem
  cases confirmed with
  | false => exact ⟨items, by simp [hself], h.ne_null, id⟩
  | true =>
    simp only [Bool.not_true, Bool.false_eq_true, if_false]
    rw [(readPath_tripType state tt se items h).2.2]
    simp only [withoutName_eq itemName items h.ne_null]
    refine ⟨_, by rw [storeChecklist_shape state tt se items _ h]; rfl, ?_, ?_⟩
    · intro item hitem
      exact h.ne_null item (List.mem_filter.mp hitem).1
    · intro hu
      exact List.Pairwise.sublist (List.filter_sublist _) hu

/-- Every reachable document is shaped and its custom names are unique. -/
theorem gearReach_inv (page : Page) (host : Host) (state : JSValue)
    (h : GearReach page host state) :
    ∃ tt se items, GearShape state tt se items ∧ CustomUnique host items := by
  induction h with
  | start state tt se hs => exact ⟨tt, se, [], hs, List.Pairwise.nil⟩
  | load state _ ih =>
    obtain ⟨tt, se, items, hs, hu⟩ := ih
    refine ⟨tt, se, gearMerge tt se items, ?_, customUnique_gearMerge host tt se items hu⟩
    rw [loadGearChecklist_shape page state tt se items hs]
    exact withChecklist_shape state tt se items _ hs (gearMerge_ne_null tt se items hs.ne_null)
  | add state input _ ih =>
    obtain ⟨tt, se, items, hs, hu⟩ := ih
    obtain ⟨items', he, hn, hu'⟩ := addCustomGearItem_shape page host input state tt se items hs
    exact ⟨tt, se, items', by rw [he]; exact withChecklist_shape state tt se items _ hs hn, hu' hu⟩
  | remove state confirmed itemName _ ih =>
    obtain ⟨tt, se, items, hs, hu⟩ := ih
    obtain ⟨items', he, hn, hu'⟩ :=
      removeCustomGearItem_shape page host confirmed itemName state tt se items hs
    exact ⟨tt, se, items', by rw [he]; exact withChecklist_shape state tt se items _ hs hn, hu' hu⟩
  | retarget state state' tt se tt' se' items _ hs hs' ih =>
    obtain ⟨tt0, se0, items0, hs0, hu⟩ := ih
    have := GearShape.items_unique hs hs0
    subst this
    exact ⟨tt', se', _, hs', hu⟩

/-- A name that matches an entry ignoring case is not added: the document
stays as it is. -/
theorem addCustomGearItem_duplicate (page : Page) (host : Host) (itemName : String)
    (state : JSValue) (items : List JSValue)
    (hr : readPath (some state) ["administration", "gear", "checklist"] = .ok (some (.arr items)))
    (hd : ∃ item ∈ items, ∃ n, member item "name" = some (.str n) ∧
      host.toLowerCase n = host.toLowerCase (jsTrim itemName)) :
    (addCustomGearItem page host (some itemName) state).state = state := by
  unfold addCustomGearItem
  simp only []
  split
  · rfl
  · rw [hr]
    simp only []
    cases hf : findExisting host (jsTrim itemName) items with
    | error e => rfl
    | ok found =>
      cases found with
      | some existingItem =>
        simp only []
        split <;> rfl
      | none =>
        obtain ⟨item, hitem, n, hn, heq⟩ := hd
        obtain ⟨n', hn', hne⟩ := findExisting_none host _ items hf item hitem
        rw [hn] at hn'
        have : n = n' := by simpa using hn'
        subst this
        exact absurd heq hne

/-- Claim C29: in every document reached from one with an empty checklist
through `loadGearChecklist`, `addCustomGearItem` and `removeCustomGearItem`
(and changes of trip type or season in between), the checklist is an array in
which no two custom entries have names equal under `toLowerCase`; and
`addCustomGearItem` with a name whose trimmed form matches an existing entry
ignoring case leaves the document, and so the checklist, unchanged. -/
theorem custom_gear_names_unique (page : Page) (host : Host) (state : JSValue)
    (h : GearReach page host state) :
    ∃ items, readPath (some state) ["administration", "gear", "checklist"]
        = .ok (some (.arr items)) ∧
      CustomUnique host items ∧
      ∀ itemName, (∃ item ∈ items, ∃ n, member item "name" = some (.str n) ∧
          host.toLowerCase n = host.toLowerCase (jsTrim itemName)) →
        (addCustomGearItem page host (some itemName) state).state = state := by
  obtain ⟨tt, se, items, hs, hu⟩ := gearReach_inv page host state h
  have hr := (readPath_tripType state tt se items hs).2.2
  exact ⟨items, hr, hu, fun itemName hd =>
    addCustomGearItem_duplicate page host itemName state items hr hd⟩

theorem custom_gear_names_unique_witness :
    GearReach fullPage (quietHost "t")
      (addCustomGearItem fullPage (quietHost "t") (some " Hammock ")
        (gearDoc "backpacking" "summer" [])).state ∧
    ∃ items, readPath (some (addCustomGearItem fullPage (quietHost "t") (some " Hammock ")
        (gearDoc "backpacking" "summer" [])).state) ["administration", "gear", "checklist"]
        = .ok (some (.arr items)) ∧
      CustomUnique (quietHost "t") items ∧
      ∀ itemName, (∃ item ∈ items, ∃ n, member item "name" = some (.str n) ∧
          (quietHost "t").toLowerCase n = (quietHost "t").toLowerCase (jsTrim itemName)) →
        (addCustomGearItem fullPage (quietHost "t") (some itemName)
          (addCustomGearItem fullPage (quietHost "t") (some " Hammock ")
            (gearDoc "backpacking" "summer" [])).state).state
          = (addCustomGearItem fullPage (quietHost "t") (some " Hammock ")
            (gearDoc "backpacking" "summer" [])).state :=
  ⟨GearReach.add _ _ (GearReach.start _ "backpacking" "summer"
      (gearDoc_shape _ _ _ (by simp))),
   custom_gear_names_unique fullPage (quietHost "t") _
    (GearReach.add _ _ (GearReach.start _ "backpacking" "summer"
      (gearDoc_shape _ _ _ (by simp))))⟩

/-! ## Trip duration -/

theorem neg_ediv_days (a b : Int) : -((-(a * msPerDay - b * msPerDay)) / msPerDay) = a - b := by
  have h : -(a * msPerDay - b * msPerDay) = (b - a) * msPerDay := by ring
  rw [h, Int.mul_ediv_cancel _ (by decide : msPerDay ≠ 0)]
  ring

theorem natAbs_days (a b : Int) (h : (a - b).natAbs < 104249991) :
    (a * msPerDay - b * msPerDay).natAbs < 9007199254740992 := by
  have h1 : a * msPerDay - b * msPerDay = (a - b) * msPerDay := by ring
  rw [h1, Int.natAbs_mul]
  have : msPerDay.natAbs = 86400000 := by decide
  rw [this]
  omega

/-- A document with the two trip dates. -/
def tripDoc (startDate endDate : String) : JSValue :=
  .obj [("trip", .obj [("startDate", .str startDate), ("endDate", .str endDate)])]

/-- The scenario of the specification: 2024-06-01 to 2024-06-05 is 5 days,
and a start date alone is 0 days. -/
theorem calculateTripDuration_scenario :
    calculateTripDuration (utcHost "t") (tripDoc "2024-06-01" "2024-06-05") = .ok 5 ∧
    calculateTripDuration (utcHost "t") (tripDoc "2024-06-01" "2024-06-01") = .ok 1 ∧
    calculateTripDuration (utcHost "t") (tripDoc "2024-06-05" "2024-06-01") = .ok 0 ∧
    calculateTripDuration (utcHost "t") (tripDoc "2024-06-01" "") = .ok 0 := by
  decide

/-- Claim C4: on a document whose `trip.startDate` and `trip.endDate` are
strings, `calculateTripDuration` returns 0 when either is empty; and when both
are calendar dates, read by the host as midnight UTC of the days numbered `ds`
and `de`, it returns the inclusive day count `de - ds + 1` when the end is on
or after the start (1 when they are equal) and 0 when the end is before the
start. -/
theorem calculateTripDuration_spec (host : Host) (ps tp : List (String × JSValue))
    (s e : String)
    (htrip : lookupProp ps "trip" = some (.obj tp))
    (hstart : lookupProp tp "startDate" = some (.str s))
    (hend : lookupProp tp "endDate" = some (.str e)) :
    (s = "" ∨ e = "" → calculateTripDuration host (.obj ps) = .ok 0) ∧
    (∀ ds de : Int, s ≠ "" → e ≠ "" →
      host.newDate (.str s) = some (ds * msPerDay) →
      host.newDate (.str e) = some (de * msPerDay) →
      (de - ds).natAbs < 104249991 →
      calculateTripDuration host (.obj ps) = .ok (if ds ≤ de then de - ds + 1 else 0)) := by
  have r1 : readPath (some (.obj ps)) ["trip", "startDate"] = .ok (some (.str s)) := by
    simp [readPath, getMember, platformMember, OBJECT_PROTOTYPE_KEYS, member, htrip, hstart]
  have r2 : readPath (some (.obj ps)) ["trip", "endDate"] = .ok (some (.str e)) := by
    simp [readPath, getMember, platformMember, OBJECT_PROTOTYPE_KEYS, member, htrip, hend]
  constructor
  · intro h
    unfold calculateTripDuration
    rw [r1, r2]
    rcases h with h | h
    · simp [truthy, truthy?, h]
    · by_cases hs : s = ""
      · simp [truthy, truthy?, hs]
      · simp [truthy, truthy?, hs, h]
  · intro ds de hs he hns hne hr
    unfold calculateTripDuration
    rw [r1, r2]
    simp only [truthy, truthy?, hs, he, hns, hne, natAbs_days de ds hr, neg_ediv_days]
    simp only [ne_eq, not_false_eq_true, decide_True, Bool.not_true, Bool.false_eq_true,
      if_false, if_true]
    by_cases hle : ds ≤ de
    · have : de - ds + 1 > 0 := by omega
      simp [hle, this, hs, he]
    · have : ¬ (de - ds + 1 > 0) := by omega
      simp [hle, this, hs, he]

theorem calculateTripDuration_spec_witness :
    calculateTripDuration (utcHost "t") (tripDoc "2024-06-01" "2024-06-05")
      = .ok (if (19875 : Int) ≤ 19879 then 19879 - 19875 + 1 else 0) :=
  (calculateTripDuration_spec (utcHost "t") _
    [("startDate", .str "2024-06-01"), ("endDate", .str "2024-06-05")]
    "2024-06-01" "2024-06-05" (by decide) (by decide) (by decide)).2
    19875 19879 (by decide) (by decide) (by decide) (by decide) (by decide)

/-! ## The expected check-in date -/

/-- A document with the end date and the expected check-in date. -/
def checkInDoc (endDate expectedCheckIn : String) : JSValue :=
  .obj [("trip", .obj [("endDate", .str endDate)]),
        ("commandControl", .obj [("expectedCheckIn", .str expectedCheckIn)])]

/-- Claim C12, evaluated: on a host on US Eastern time, with end date
2024-03-10 (the day the clocks go forward) and no check-in date yet,
`updateCheckInDate` writes 2024-03-10, the end date itself and not the day
after; on a host on UTC the same call writes 2024-03-11. -/
theorem updateCheckInDate_same_day :
    (updateCheckInDate fullPage (easternHost "t") (checkInDoc "2024-03-10" "")).state
      = checkInDoc "2024-03-10" "2024-03-10" ∧
    (updateCheckInDate fullPage (utcHost "t") (checkInDoc "2024-03-10" "")).state
      = checkInDoc "2024-03-10" "2024-03-11" := by
  decide

theorem readPath_setProp_other (ps : List (String × JSValue)) (k k' : String) (v : JSValue)
    (rest : List String) (h : k ≠ k') :
    readPath (some (.obj (setProp ps k v))) (k' :: rest) = readPath (some (.obj ps)) (k' :: rest) := by
  simp [readPath, getMember, platformMember, OBJECT_PROTOTYPE_KEYS, member, lookupProp_setProp_other ps k k' v (Ne.symm h)]

/-- Claim C13: on a document whose `commandControl` is an object, a second
call of `updateCheckInDate` leaves the document as the first call left it; and
a call on a document whose expected check-in date is a non-empty string not
before the end date (in the order `<` gives on strings, which is the order of
time on dates written `YYYY-MM-DD`) leaves the document unchanged. -/
theorem updateCheckInDate_stable (page : Page) (host : Host)
    (ps cp : List (String × JSValue))
    (hcc : lookupProp ps "commandControl" = some (.obj cp)) :
    (updateCheckInDate page host (updateCheckInDate page host (.obj ps)).state).state
      = (updateCheckInDate page host (.obj ps)).state ∧
    (∀ c e : String, lookupProp cp "expectedCheckIn" = some (.str c) → c ≠ "" →
      readPath (some (.obj ps)) ["trip", "endDate"] = .ok (some (.str e)) →
      jsStringLt c e = false →
      (updateCheckInDate page host (.obj ps)).state = .obj ps) := by
  have hcur : readPath (some (.obj ps)) ["commandControl", "expectedCheckIn"]
      = .ok (lookupProp cp "expectedCheckIn") := by
    simp [readPath, getMember, platformMember, OBJECT_PROTOTYPE_KEYS, member, hcc]
  have hassign : ∀ s : String, assignAt (.obj ps) ["commandControl", "expectedCheckIn"] (.str s)
      = .ok (.obj (setProp ps "commandControl" (.obj (setProp cp "expectedCheckIn" (.str s))))) := by
    intro s
    simp [assignAt, getMember, platformMember, OBJECT_PROTOTYPE_KEYS, member, hcc, setMember]
  constructor
  · -- the first call either keeps the document or writes the string `s`
    have key : (updateCheckInDate page host (.obj ps)).state = .obj ps ∨
        ∃ s endDate, readPath (some (.obj ps)) ["trip", "endDate"] = .ok endDate ∧
          (!truthy? endDate || !page.has "commandControl.expectedCheckIn") = false ∧
          shiftedDateString host (endDate.bind host.newDate) 1 = .ok s ∧
          (updateCheckInDate page host (.obj ps)).state
            = .obj (setProp ps "commandControl" (.obj (setProp cp "expectedCheckIn" (.str s)))) := by
      unfold updateCheckInDate
      cases hr : readPath (some (.obj ps)) ["trip", "endDate"] with
      | error e => exact Or.inl rfl
      | ok endDate =>
        simp only []
        cases hg : (!truthy? endDate || !page.has "commandControl.expectedCheckIn") with
        | true => exact Or.inl (by simp)
        | false =>
          simp only [Bool.false_eq_true, if_false, hcur]
          cases hsd : shiftedDateString host (endDate.bind host.newDate) 1 with
          | error e => exact Or.inl rfl
          | ok s =>
            simp only []
            cases hc : (if !truthy? (lookupProp cp "expectedCheckIn") then Except.ok true
                else jsLess (lookupProp cp "expectedCheckIn") endDate) with
            | error e => exact Or.inl rfl
            | ok b =>
              cases b with
              | false => exact Or.inl rfl
              | true =>
                simp only [hassign]
                exact Or.inr ⟨s, endDate, rfl, hg, hsd, rfl⟩
    rcases key with h | ⟨s, endDate, hr, hg, hsd, h⟩
    · rw [h]; exact h
    · rw [h]
      have hr2 : readPath (some (.obj (setProp ps "commandControl"
          (.obj (setProp cp "expectedCheckIn" (.str s)))))) ["trip", "endDate"] = .ok endDate := by
        rw [readPath_setProp_other _ _ _ _ _ (by decide)]; exact hr
      have hcur2 : readPath (some (.obj (setProp ps "commandControl"
          (.obj (setProp cp "expectedCheckIn" (.str s))))))
          ["commandControl", "expectedCheckIn"] = .ok (some (.str s)) := by
        simp [readPath, getMember, platformMember, OBJECT_PROTOTYPE_KEYS, member, lookupProp_setProp_same]
      have hassign2 : assignAt (.obj (setProp ps "commandControl"
          (.obj (setProp cp "expectedCheckIn" (.str s)))))
          ["commandControl", "expectedCheckIn"] (.str s)
          = .ok (.obj (setProp ps "commandControl"
              (.obj (setProp cp "expectedCheckIn" (.str s))))) := by
        simp [assignAt, getMember, platformMember, OBJECT_PROTOTYPE_KEYS, member, lookupProp_setProp_same, setMember,
          setProp_setProp_same]
      unfold updateCheckInDate
      rw [hr2]
      simp only [hg, Bool.false_eq_true, if_false, hcur2, hsd, hassign2]
      split <;> rfl
  · intro c e hc hne hr hlt
    unfold updateCheckInDate
    rw [hr]
    simp only []
    split
    · rfl
    · rw [hcur, hc]
      cases hsd : shiftedDateString host ((some (JSValue.str e)).bind host.newDate) 1 with
      | error err => rfl
      | ok s => simp [truthy?, truthy, hne, jsLess, hlt]

theorem updateCheckInDate_stable_witness :
    (updateCheckInDate fullPage (utcHost "t")
        (updateCheckInDate fullPage (utcHost "t") (checkInDoc "2024-06-05" "")).state).state
      = (updateCheckInDate fullPage (utcHost "t") (checkInDoc "2024-06-05" "")).state :=
  (updateCheckInDate_stable fullPage (utcHost "t") _ [("expectedCheckIn", .str "")]
    (by decide)).1

/-! ## The daily plan -/

/-- A document whose `execution.dailyPlan` is the list `items`. -/
def PlanShape (state : JSValue) (items : List JSValue) : Prop :=
  ∃ ps ep, state = .obj ps ∧ lookupProp ps "execution" = some (.obj ep) ∧
    lookupProp ep "dailyPlan" = some (.arr items)

/-- The document with `execution.dailyPlan` replaced. -/
def withPlan (state : JSValue) (items : List JSValue) : JSValue :=
  match state with
  | .obj ps =>
    match lookupProp ps "execution" with
    | some (.obj ep) =>
      .obj (setProp ps "execution" (.obj (setProp ep "dailyPlan" (.arr items))))
    | _ => state
  | _ => state

/-- The entries carry the day numbers `k`, `k + 1`, ... in list order. -/
def numberedFrom : Nat → List JSValue → Prop
  | _, [] => True
  | k, x :: xs => member x "day" = some (.num (F64.ofNat k)) ∧ numberedFrom (k + 1) xs

theorem withPlan_shape (state : JSValue) (items xs : List JSValue)
    (h : PlanShape state items) : PlanShape (withPlan state xs) xs := by
  obtain ⟨ps, ep, rfl, h1, h2⟩ := h
  refine ⟨setProp ps "execution" (.obj (setProp ep "dailyPlan" (.arr xs))),
    setProp ep "dailyPlan" (.arr xs), ?_, ?_, ?_⟩
  · simp only [withPlan, h1]
  · exact lookupProp_setProp_same _ _ _
  · exact lookupProp_setProp_same _ _ _

theorem withPlan_self (state : JSValue) (items : List JSValue)
    (h : PlanShape state items) : withPlan state items = state := by
  obtain ⟨ps, ep, rfl, h1, h2⟩ := h
  simp only [withPlan, h1]
  rw [setProp_lookup_self ep _ _ h2, setProp_lookup_self ps _ _ h1]

theorem readPath_plan (state : JSValue) (items : List JSValue) (h : PlanShape state items) :
    readPath (some state) ["execution", "dailyPlan"] = .ok (some (.arr items)) := by
  obtain ⟨ps, ep, rfl, h1, h2⟩ := h
  simp [readPath, getMember, platformMember, OBJECT_PROTOTYPE_KEYS, member, h1, h2]

theorem assignAt_plan (state : JSValue) (items xs : List JSValue) (h : PlanShape state items) :
    assignAt state ["execution", "dailyPlan"] (.arr xs) = .ok (withPlan state xs) := by
  obtain ⟨ps, ep, rfl, h1, h2⟩ := h
  simp [assignAt, getMember, platformMember, OBJECT_PROTOTYPE_KEYS, member, h1, setMember, withPlan]

theorem updateState_plan (state : JSValue) (items xs : List JSValue) (h : PlanShape state items) :
    updateState state "execution.dailyPlan" (.arr xs) = .ok (withPlan state xs) := by
  obtain ⟨ps, ep, rfl, h1, h2⟩ := h
  have hsplit : splitPath "execution.dailyPlan" = ["execution", "dailyPlan"] := by decide
  simp [updateState, hsplit, setPath, childOf, getMember, platformMember, OBJECT_PROTOTYPE_KEYS, member, h1, truthy, setMember, withPlan]

theorem withPlan_twice (state : JSValue) (items xs ys : List JSValue)
    (h : PlanShape state items) : withPlan (withPlan state xs) ys = withPlan state ys := by
  obtain ⟨ps, ep, rfl, h1, h2⟩ := h
  simp only [withPlan, h1, lookupProp_setProp_same, setProp_setProp_same]

theorem storePlan_shape (state : JSValue) (items xs : List JSValue) (h : PlanShape state items) :
    storePlan state xs = { state := withPlan state xs, thrown := none } := by
  unfold storePlan
  rw [assignAt_plan state items xs h]
  simp only [Run.ofUpdate]
  rw [updateState_plan _ xs xs (withPlan_shape state items xs h), withPlan_twice state items _ _ h]

theorem numberedFrom_append (k : Nat) (xs : List JSValue) (x : JSValue) :
    numberedFrom k (xs ++ [x]) ↔
      numberedFrom k xs ∧ member x "day" = some (.num (F64.ofNat (k + xs.length))) := by
  induction xs generalizing k with
  | nil => simp [numberedFrom]
  | cons y ys ih =>
    have e : k + 1 + ys.length = k + (ys.length + 1) := by omega
    have h1 := ih (k + 1)
    rw [e] at h1
    show member y "day" = some (.num (F64.ofNat k)) ∧ numberedFrom (k + 1) (ys ++ [x]) ↔
      (member y "day" = some (.num (F64.ofNat k)) ∧ numberedFrom (k + 1) ys) ∧
        member x "day" = some (.num (F64.ofNat (k + (ys.length + 1))))
    rw [h1]
    tauto

theorem numberedFrom_dropLast (k : Nat) (xs : List JSValue) (h : numberedFrom k xs) :
    numberedFrom k xs.dropLast := by
  induction xs generalizing k with
  | nil => exact h
  | cons y ys ih =>
    cases ys with
    | nil => simp [numberedFrom]
    | cons z zs =>
      simp only [List.dropLast_cons₂, numberedFrom]
      exact ⟨h.1, ih (k + 1) h.2⟩

theorem numberedFrom_set (k : Nat) (xs : List JSValue) (i : Nat) (x : JSValue)
    (h : numberedFrom k xs) (hx : ∀ y, xs[i]? = some y → member x "day" = member y "day") :
    numberedFrom k (xs.set i x) := by
  induction xs generalizing k i with
  | nil => exact h
  | cons y ys ih =>
    cases i with
    | zero =>
      simp only [List.set_cons_zero, numberedFrom]
      exact ⟨by rw [hx y (by simp)]; exact h.1, h.2⟩
    | succ j =>
      simp only [List.set_cons_succ, numberedFrom]
      exact ⟨h.1, ih (k + 1) j h.2 (fun y' hy' => hx y' (by simpa using hy'))⟩

theorem numberedFrom_getElem (k : Nat) (xs : List JSValue) (h : numberedFrom k xs) :
    ∀ i y, xs[i]? = some y → member y "day" = some (.num (F64.ofNat (k + i))) := by
  induction xs generalizing k with
  | nil => intro i y hy; simp at hy
  | cons x rest ih =>
    intro i y hy
    cases i with
    | zero =>
      simp only [List.getElem?_cons_zero, Option.some.injEq] at hy
      subst hy
      exact h.1
    | succ j =>
      simp only [List.getElem?_cons_succ] at hy
      have := ih (k + 1) h.2 j y hy
      rw [this]
      congr 3
      omega

theorem numberedFrom_planEntries (host : Host) (t : Option Int) (i n : Nat) :
    numberedFrom (i + 1) (planEntries host t i n).1 := by
  induction n generalizing i with
  | zero => simp [planEntries, numberedFrom]
  | succ n ih =>
    unfold planEntries
    cases hs : shiftedDateString host t i with
    | error e => simp [numberedFrom]
    | ok date =>
      simp only [numberedFrom]
      exact ⟨by simp [dayEntry, member, lookupProp], ih (i + 1)⟩

/-- The document's daily plan is a list numbered 1, 2, ... in list order. -/
def PlanInv (state : JSValue) : Prop :=
  ∃ items, PlanShape state items ∧ numberedFrom 1 items

theorem ofUpdate_plan (state : JSValue) (items xs : List JSValue) (h : PlanShape state items) :
    Run.ofUpdate state "execution.dailyPlan" (.arr xs)
      = { state := withPlan state xs, thrown := none } := by
  simp only [Run.ofUpdate, updateState_plan state items xs h]

theorem andThen_state (r : Run) (f : JSValue → Run) (P : JSValue → Prop)
    (hr : P r.state) (hf : ∀ st, P st → P (f st).state) : P (r.andThen f).state := by
  unfold Run.andThen
  cases r.thrown with
  | some e => exact hr
  | none => exact hf _ hr

theorem planInv_withPlan (state : JSValue) (items xs : List JSValue)
    (h : PlanShape state items) (hx : numberedFrom 1 xs) : PlanInv (withPlan state xs) :=
  ⟨xs, withPlan_shape state items xs h, hx⟩

theorem prepopulateDailyPlan_inv (host : Host) (state : JSValue) (h : PlanInv state) :
    PlanInv (prepopulateDailyPlan host state).state := by
  obtain ⟨items, hs, hn⟩ := h
  have hinv : PlanInv state := ⟨items, hs, hn⟩
  unfold prepopulateDailyPlan
  cases calculateTripDuration host state with
  | error e => exact hinv
  | ok d =>
    simp only []
    split
    · rw [readPath_plan state items hs]
      simp only []
      split
      · rw [assignAt_plan state items [] hs]
        simp only []
        have hs1 := withPlan_shape state items [] hs
        have hinv1 : PlanInv (withPlan state []) := ⟨[], hs1, trivial⟩
        cases readPath (some (withPlan state [])) ["trip", "startDate"] with
        | error e => exact hinv1
        | ok startDate =>
          simp only [readPath_plan _ _ hs1, assignAt_plan _ [] _ hs1,
            withPlan_twice state items _ _ hs]
          have hs2 := withPlan_shape state items
            (planEntries host (startDate.bind host.newDate) 0 d.toNat).1 hs
          have hinv2 : PlanInv (withPlan state
              (planEntries host (startDate.bind host.newDate) 0 d.toNat).1) :=
            ⟨_, hs2, numberedFrom_planEntries host _ 0 _⟩
          split
          · exact hinv2
          · rw [ofUpdate_plan _ _ _ hs2, withPlan_twice state items _ _ hs]
            exact hinv2
      · exact hinv
    · exact hinv

theorem refreshDailyPlan_inv (page : Page) (host : Host) (state : JSValue) (h : PlanInv state) :
    PlanInv (refreshDailyPlan page host state).state := by
  unfold refreshDailyPlan
  refine andThen_state _ _ PlanInv ?_ (fun st hst => hst)
  unfold renderDailyPlanTable
  split
  · exact h
  · simp only []
    refine andThen_state _ _ PlanInv ?_ (fun st hst => hst)
    cases calculateTripDuration host state with
    | error e => exact h
    | ok d =>
      simp only []
      split
      · cases readPath (some state) ["execution", "dailyPlan"] with
        | error e => exact h
        | ok plan =>
          simp only []
          split
          · exact prepopulateDailyPlan_inv host state h
          · exact h
      · exact h

theorem addDay_inv (page : Page) (host : Host) (state : JSValue) (h : PlanInv state) :
    PlanInv (addDay page host state).state := by
  obtain ⟨items, hs, hn⟩ := h
  have hinv : PlanInv state := ⟨items, hs, hn⟩
  unfold addDay
  rw [readPath_plan state items hs]
  simp only [truthy?, truthy, Bool.not_true, Bool.false_eq_true, if_false,
    readPath_plan state items hs]
  cases readPath (some state) ["trip", "startDate"] with
  | error e => exact hinv
  | ok startDate =>
    simp only []
    split
    · exact hinv
    · simp only [storePlan_shape state items _ hs]
      refine andThen_state _ _ PlanInv ?_ (fun st hst => refreshDailyPlan_inv page host st hst)
      refine planInv_withPlan state items _ hs ?_
      rw [numberedFrom_append]
      refine ⟨hn, ?_⟩
      have : 1 + items.length = items.length + 1 := by omega
      rw [this]
      simp [dayEntry, member, lookupProp]

theorem removeLastDay_inv (page : Page) (host : Host) (confirmed : Bool) (state : JSValue)
    (h : PlanInv state) : PlanInv (removeLastDay page host confirmed state).state := by
  obtain ⟨items, hs, hn⟩ := h
  have hinv : PlanInv state := ⟨items, hs, hn⟩
  unfold removeLastDay
  rw [readPath_plan state items hs]
  simp only []
  split
  · exact hinv
  · cases items.getLast? with
    | none => exact hinv
    | some lastDay =>
      simp only []
      cases rowHasData lastDay with
      | error e => exact hinv
      | ok hasData =>
        simp only []
        split
        · exact hinv
        · rw [storePlan_shape state items _ hs]
          refine andThen_state _ _ PlanInv ?_
            (fun st hst => refreshDailyPlan_inv page host st hst)
          exact planInv_withPlan state items _ hs (numberedFrom_dropLast 1 items hn)

theorem assignAt_entry (ps ep : List (String × JSValue)) (items : List JSValue)
    (key field : String) (v day : JSValue)
    (h1 : lookupProp ps "execution" = some (.obj ep))
    (h2 : lookupProp ep "dailyPlan" = some (.arr items))
    (hday : member (.arr items) key = some day)
    (hp : platformMember (.arr items) key = false) :
    assignAt (.obj ps) ["execution", "dailyPlan", key, field] v =
      match setMember day field v with
      | .error e => .error e
      | .ok day' =>
        match setMember (.arr items) key day' with
        | .error e => .error e
        | .ok plan' => .ok (.obj (setProp ps "execution" (.obj (setProp ep "dailyPlan" plan')))) := by
  have g1 : getMember (some (.obj ps)) "execution" = .ok (some (.obj ep)) := by
    simp [getMember, platformMember, OBJECT_PROTOTYPE_KEYS, member, h1]
  have g2 : getMember (some (.obj ep)) "dailyPlan" = .ok (some (.arr items)) := by
    simp [getMember, platformMember, OBJECT_PROTOTYPE_KEYS, member, h2]
  have g3 : getMember (some (.arr items)) key = .ok (some day) := by
    simp only [getMember, hp, Bool.false_eq_true, if_false]; rw [hday]
  rw [assignAt, g1]
  simp only []
  rw [assignAt, g2]
  simp only []
  rw [assignAt, g3]
  simp only [assignAt]
  cases setMember day field v with
  | error e => rfl
  | ok day' =>
    simp only []
    cases setMember (.arr items) key day' with
    | error e => rfl
    | ok plan' =>
      simp [setMember_obj _ _ _ (show "dailyPlan" ≠ "__proto__" by decide),
        setMember_obj _ _ _ (show "execution" ≠ "__proto__" by decide)]

theorem handleDailyPlanInput_inv (page : Page) (index : Option Int) (field value : String)
    (state : JSValue) (hfield : field ≠ "day") (h : PlanInv state) :
    PlanInv (handleDailyPlanInput page index field value state).state := by
  obtain ⟨items, hs, hn⟩ := h
  have hinv : PlanInv state := ⟨items, hs, hn⟩
  obtain ⟨ps, ep, rfl, h1, h2⟩ := hs
  have hs : PlanShape (.obj ps) items := ⟨ps, ep, rfl, h1, h2⟩
  unfold handleDailyPlanInput
  have g1 : getMember (some (.obj ps)) "execution" = .ok (some (.obj ep)) :=
    getMember_own ps "execution" _ h1
  have g2 : getMember (some (.obj ep)) "dailyPlan" = .ok (some (.arr items)) :=
    getMember_own ep "dailyPlan" _ h2
  by_cases hp : platformMember (.arr items) (indexKey index) = true
  · have hread : readPath (some (.obj ps)) ["execution", "dailyPlan", indexKey index]
        = .error .notModelled := by
      simp only [readPath, g1, g2]
      simp [getMember, hp]
    rw [hread]
    exact hinv
  have hp : platformMember (.arr items) (indexKey index) = false := by simpa using hp
  have hread : readPath (some (.obj ps)) ["execution", "dailyPlan", indexKey index]
      = .ok (member (.arr items) (indexKey index)) := by
    simp only [readPath, g1, g2]
    simp [getMember, hp]
  rw [hread]
  simp only []
  split
  · exact hinv
  · rename_i htruthy
    cases hday : member (.arr items) (indexKey index) with
    | none => rw [hday] at htruthy; simp [truthy?] at htruthy
    | some day =>
      rw [assignAt_entry ps ep items _ field _ day h1 h2 hday hp]
      cases hset1 : setMember day field (.str value) with
      | error e => exact hinv
      | ok day' =>
        simp only []
        cases hset : setMember (.arr items) (indexKey index) day' with
        | error e => exact hinv
        | ok plan' =>
          simp only []
          simp only [setMember] at hset
          split at hset
          · rename_i i hidx
            have hnone : arrayIndex "length" = none := by decide
            have hkey : indexKey index ≠ "length" := by
              intro hk
              rw [hk, hnone] at hidx
              cases hidx
            have hlt : i < items.length := by
              simp only [member, hkey, if_false, hidx] at hday
              by_contra hge
              rw [List.getElem?_eq_none (by omega)] at hday
              cases hday
            simp only [hlt, if_true] at hset
            · simp only [Except.ok.injEq] at hset
              subst hset
              have hw : JSValue.obj (setProp ps "execution"
                  (.obj (setProp ep "dailyPlan" (.arr (items.set i day')))))
                  = withPlan (.obj ps) (items.set i day') := by
                simp only [withPlan, h1]
              rw [hw]
              have hs1 := withPlan_shape (.obj ps) items (items.set i day') hs
              have hnum : numberedFrom 1 (items.set i day') := by
                refine numberedFrom_set 1 items i day' hn ?_
                intro y hy
                have : day = y := by
                  simp only [member, hkey, if_false, hidx] at hday
                  rw [hy] at hday
                  exact (Option.some.inj hday).symm
                subst this
                exact member_setMember_other day day' field "day" _ hset1 hfield (by decide)
              have hinv1 : PlanInv (withPlan (.obj ps) (items.set i day')) := ⟨_, hs1, hnum⟩
              rw [readPath_plan _ _ hs1]
              simp only []
              refine andThen_state _ _ PlanInv ?_ (fun st hst =>
                andThen_state _ _ PlanInv hst (fun st2 hst2 => hst2))
              rw [ofUpdate_plan _ _ _ hs1, withPlan_twice _ items _ _ hs]
              exact hinv1
          · simp at hset

/-- The documents the daily-plan functions reach from a document with an
empty plan.  `handleDailyPlanInput` is called by the inputs that
`renderDailyPlanTable` makes, whose `data-field` is one of
`DAILY_PLAN_FIELDS`. -/
inductive PlanReach (page : Page) (host : Host) : JSValue → Prop
  | start (state : JSValue) : PlanShape state [] → PlanReach page host state
  | prepopulate (state : JSValue) :
      PlanReach page host state → PlanReach page host (prepopulateDailyPlan host state).state
  | addDay (state : JSValue) :
      PlanReach page host state → PlanReach page host (addDay page host state).state
  | removeLastDay (state : JSValue) (confirmed : Bool) :
      PlanReach page host state →
      PlanReach page host (removeLastDay page host confirmed state).state
  | input (state : JSValue) (index : Option Int) (field value : String) :
      field ∈ DAILY_PLAN_FIELDS → PlanReach page host state →
      PlanReach page host (handleDailyPlanInput page index field value state).state

theorem planReach_inv (page : Page) (host : Host) (state : JSValue)
    (h : PlanReach page host state) : PlanInv state := by
  induction h with
  | start state hs => exact ⟨[], hs, trivial⟩
  | prepopulate state _ ih => exact prepopulateDailyPlan_inv host state ih
  | addDay state _ ih => exact addDay_inv page host state ih
  | removeLastDay state confirmed _ ih => exact removeLastDay_inv page host confirmed state ih
  | input state index field value hf _ ih =>
    refine handleDailyPlanInput_inv page index field value state ?_ ih
    intro hd
    rw [hd] at hf
    exact absurd hf (by decide)

/-- Claim C28: in every document reached from one with an empty daily plan
through `prepopulateDailyPlan`, `addDay`, `removeLastDay` and
`handleDailyPlanInput`, the plan is a list whose entry at position `i`
(counting from 0) has `day` equal to `i + 1`. -/
theorem dailyPlan_numbering (page : Page) (host : Host) (state : JSValue)
    (h : PlanReach page host state) :
    ∃ items, readPath (some state) ["execution", "dailyPlan"] = .ok (some (.arr items)) ∧
      ∀ i entry, items[i]? = some entry →
        member entry "day" = some (.num (F64.ofNat (i + 1))) := by
  obtain ⟨items, hs, hn⟩ := planReach_inv page host state h
  refine ⟨items, readPath_plan state items hs, fun i entry he => ?_⟩
  have := numberedFrom_getElem 1 items hn i entry he
  rw [this]
  congr 3
  omega

/-- A document with an empty daily plan and a start date. -/
def planDoc (startDate : String) : JSValue :=
  .obj [("trip", .obj [("startDate", .str startDate), ("endDate", .str "")]),
        ("execution", .obj [("dailyPlan", .arr [])])]

theorem dailyPlan_numbering_witness :
    PlanReach fullPage (utcHost "t")
      (addDay fullPage (utcHost "t") (addDay fullPage (utcHost "t")
        (planDoc "2024-06-01")).state).state ∧
    ∃ items, readPath (some (addDay fullPage (utcHost "t") (addDay fullPage (utcHost "t")
        (planDoc "2024-06-01")).state).state) ["execution", "dailyPlan"]
        = .ok (some (.arr items)) ∧
      ∀ i entry, items[i]? = some entry →
        member entry "day" = some (.num (F64.ofNat (i + 1))) :=
  ⟨PlanReach.addDay _ (PlanReach.addDay _ (PlanReach.start _
      ⟨_, [("dailyPlan", .arr [])], rfl, by simp [lookupProp], by simp [lookupProp]⟩)),
   dailyPlan_numbering fullPage (utcHost "t") _
    (PlanReach.addDay _ (PlanReach.addDay _ (PlanReach.start _
      ⟨_, [("dailyPlan", .arr [])], rfl, by simp [lookupProp], by simp [lookupProp]⟩)))⟩


/-! ## The editing handlers -/

theorem assignAt_two (ps ap : List (String × JSValue)) (a b : String) (v : JSValue)
    (h : lookupProp ps a = some (.obj ap)) (hb : b ≠ "__proto__") :
    assignAt (.obj ps) [a, b] v = .ok (.obj (setProp ps a (.obj (setProp ap b v)))) := by
  simp [assignAt, getMember_own ps a _ h, setMember, hb, h]

theorem ofUpdate_two (ps ap : List (String × JSValue)) (a b path : String) (v : JSValue)
    (hsplit : splitPath path = [a, b]) (h : lookupProp ps a = some (.obj ap))
    (hb : b ≠ "__proto__") :
    Run.ofUpdate (.obj ps) path v
      = { state := .obj (setProp ps a (.obj (setProp ap b v))), thrown := none } := by
  simp [Run.ofUpdate, updateState, hsplit, setPath, childOf, getMember_own ps a _ h, truthy,
    setMember, hb, h]

theorem assignAt_three (ps ap bp : List (String × JSValue)) (a b c : String) (v : JSValue)
    (h : lookupProp ps a = some (.obj ap)) (h2 : lookupProp ap b = some (.obj bp))
    (hc : c ≠ "__proto__") :
    assignAt (.obj ps) [a, b, c] v
      = .ok (.obj (setProp ps a (.obj (setProp ap b (.obj (setProp bp c v)))))) := by
  simp [assignAt, getMember_own ps a _ h, getMember_own ap b _ h2, setMember, hc, h, h2]

theorem ofUpdate_three (ps ap bp : List (String × JSValue)) (a b c path : String) (v : JSValue)
    (hsplit : splitPath path = [a, b, c])
    (h : lookupProp ps a = some (.obj ap)) (h2 : lookupProp ap b = some (.obj bp))
    (hc : c ≠ "__proto__") :
    Run.ofUpdate (.obj ps) path v
      = { state := .obj (setProp ps a (.obj (setProp ap b (.obj (setProp bp c v))))),
          thrown := none } := by
  simp [Run.ofUpdate, updateState, hsplit, setPath, childOf, getMember_own ps a _ h,
    getMember_own ap b _ h2, truthy, setMember, hc, h, h2]

theorem readPath_withChecklist_other (state : JSValue) (xs : List JSValue) (k : String)
    (rest : List String) (hk : k ≠ "administration") :
    readPath (some (withChecklist state xs)) (k :: rest) = readPath (some state) (k :: rest) := by
  unfold withChecklist
  split
  · split
    · split
      · exact readPath_setProp_other _ _ _ _ _ (Ne.symm hk)
      · rfl
    · rfl
  · rfl

theorem readPath_withChecklist_administration (state : JSValue) (xs : List JSValue)
    (k : String) (rest : List String) (hk : k ≠ "gear") :
    readPath (some (withChecklist state xs)) ("administration" :: k :: rest)
      = readPath (some state) ("administration" :: k :: rest) := by
  unfold withChecklist
  split
  · rename_i ps
    split
    · rename_i ap hap
      split
      · simp [readPath, getMember, platformMember, OBJECT_PROTOTYPE_KEYS, member, lookupProp_setProp_same, hap,
          lookupProp_setProp_other _ _ _ _ hk]
      · rfl
    · rfl
  · rfl

theorem andThen_state_eq (r : Run) (f : JSValue → Run) (hf : ∀ st, (f st).state = st) :
    (r.andThen f).state = r.state := by
  unfold Run.andThen
  cases r.thrown with
  | some e => rfl
  | none => exact hf _

/-- The trip branch after the day-hike switch: the end date follows a start
date that is set. -/
def syncedTrip (tp : List (String × JSValue)) : List (String × JSValue) :=
  match lookupProp tp "startDate" with
  | some startDate => if truthy startDate then setProp tp "endDate" startDate else tp
  | none => tp

/-- The second and third step of `toggleTripTypeVisibility('dayhike')` on a
page with the accommodation section. -/
theorem toggle_tail (page : Page) (ps tp sp ap gp cp : List (String × JSValue))
    (tt se : String) (items : List JSValue) (r : Run)
    (hr : r = { state := .obj ps, thrown := none })
    (hacc : page.has ACCOMMODATION_SECTION = true)
    (htrip : lookupProp ps "trip" = some (.obj tp))
    (htt : lookupProp tp "tripType" = some (.str tt))
    (hseason : lookupProp ps "season" = some (.obj sp))
    (hse : lookupProp sp "season" = some (.str se))
    (hadm : lookupProp ps "administration" = some (.obj ap))
    (hgear : lookupProp ap "gear" = some (.obj gp))
    (hcl : lookupProp gp "checklist" = some (.arr items))
    (hnn : ∀ item ∈ items, item ≠ .null)
    (haccm : lookupProp ap "accommodation" = some (.obj cp)) :
    ((r.andThen (fun st =>
      if page.has ACCOMMODATION_SECTION ∧ "dayhike" = "dayhike" then
        match assignAt st ["administration", "accommodation", "nightsRequired"]
            (.num (F64.ofNat 0)) with
        | .error e => { state := st, thrown := some e }
        | .ok st1 =>
          Run.ofUpdate st1 "administration.accommodation.nightsRequired" (.num (F64.ofNat 0))
      else { state := st, thrown := none })).andThen (loadGearChecklist page)).state
      = withChecklist (.obj (setProp ps "administration" (.obj (setProp ap "accommodation"
          (.obj (setProp cp "nightsRequired" (.num (F64.ofNat 0)))))))) (gearMerge tt se items) := by
  subst hr
  have hsplit : splitPath "administration.accommodation.nightsRequired"
      = ["administration", "accommodation", "nightsRequired"] := by decide
  have hshape : GearShape (.obj (setProp ps "administration" (.obj (setProp ap "accommodation"
      (.obj (setProp cp "nightsRequired" (.num (F64.ofNat 0)))))))) tt se items :=
    ⟨_, tp, sp, setProp ap "accommodation" (.obj (setProp cp "nightsRequired" (.num (F64.ofNat 0)))),
      gp, rfl,
      by rw [lookupProp_setProp_other _ _ _ _ (by decide)]; exact htrip, htt,
      by rw [lookupProp_setProp_other _ _ _ _ (by decide)]; exact hseason, hse,
      lookupProp_setProp_same _ _ _,
      by rw [lookupProp_setProp_other _ _ _ _ (by decide)]; exact hgear, hcl, hnn⟩
  simp only [Run.andThen, hacc, true_and, if_true, assignAt_three ps ap cp _ _ _ _ hadm haccm (show "nightsRequired" ≠ "__proto__" by decide)]
  rw [ofUpdate_three _ _ _ _ _ _ _ _ hsplit (lookupProp_setProp_same _ _ _)
    (lookupProp_setProp_same _ _ _) (by decide)]
  simp only [setProp_setProp_same]
  exact loadGearChecklist_shape page _ tt se items hshape

theorem toggle_dayhike (page : Page) (ps tp sp ap gp cp : List (String × JSValue))
    (tt se : String) (items : List JSValue)
    (hend : page.has "end-date-container" = true)
    (hacc : page.has ACCOMMODATION_SECTION = true)
    (htrip : lookupProp ps "trip" = some (.obj tp))
    (htt : lookupProp tp "tripType" = some (.str tt))
    (hseason : lookupProp ps "season" = some (.obj sp))
    (hse : lookupProp sp "season" = some (.str se))
    (hadm : lookupProp ps "administration" = some (.obj ap))
    (hgear : lookupProp ap "gear" = some (.obj gp))
    (hcl : lookupProp gp "checklist" = some (.arr items))
    (hnn : ∀ item ∈ items, item ≠ .null)
    (haccm : lookupProp ap "accommodation" = some (.obj cp)) :
    (toggleTripTypeVisibility page "dayhike" (.obj ps)).state
      = withChecklist (.obj (setProp (setProp ps "trip" (.obj (syncedTrip tp))) "administration"
          (.obj (setProp ap "accommodation"
            (.obj (setProp cp "nightsRequired" (.num (F64.ofNat 0)))))))) (gearMerge tt se items) := by
  have hsplit : splitPath "trip.endDate" = ["trip", "endDate"] := by decide
  have hstart : readPath (some (.obj ps)) ["trip", "startDate"] = .ok (lookupProp tp "startDate") := by
    simp [readPath, getMember, platformMember, OBJECT_PROTOTYPE_KEYS, member, htrip]
  have htt2 : lookupProp (syncedTrip tp) "tripType" = some (.str tt) := by
    unfold syncedTrip
    split
    · split
      · rw [lookupProp_setProp_other _ _ _ _ (by decide)]; exact htt
      · exact htt
    · exact htt
  unfold toggleTripTypeVisibility
  refine toggle_tail page (setProp ps "trip" (.obj (syncedTrip tp))) (syncedTrip tp) sp ap gp cp
    tt se items _ ?_ hacc (lookupProp_setProp_same _ _ _) htt2
    (by rw [lookupProp_setProp_other _ _ _ _ (by decide)]; exact hseason) hse
    (by rw [lookupProp_setProp_other _ _ _ _ (by decide)]; exact hadm) hgear hcl hnn haccm
  simp only [hend, true_and, if_true, hstart]
  unfold syncedTrip
  cases hsd : lookupProp tp "startDate" with
  | none => simp only []; rw [setProp_lookup_self ps _ _ htrip]
  | some v =>
    simp only []
    by_cases hv : truthy v = true
    · simp only [hv, if_true, assignAt_two ps tp _ _ _ htrip (show "endDate" ≠ "__proto__" by decide)]
      rw [ofUpdate_two _ _ _ _ _ _ hsplit (lookupProp_setProp_same _ _ _) (by decide)]
      simp only [setProp_setProp_same]
    · simp only [hv, if_false, Bool.false_eq_true]
      rw [setProp_lookup_self ps _ _ htrip]

/-- Claim C7, as the code has it: on a page with the end-date container and
the accommodation section, and on a document with the trip, season and
administration branches in place, choosing the trip type `dayhike` leaves
`trip.tripType` as `dayhike` and `administration.accommodation.nightsRequired`
as 0, keeps `trip.startDate`, and makes `trip.endDate` equal to
`trip.startDate` when the start date is set; with no start date the end date
stays as it was. -/
theorem dayhike_sets_end_date (page : Page) (ps tp sp ap gp cp : List (String × JSValue))
    (se : String) (items : List JSValue)
    (hend : page.has "end-date-container" = true)
    (hacc : page.has ACCOMMODATION_SECTION = true)
    (htrip : lookupProp ps "trip" = some (.obj tp))
    (hseason : lookupProp ps "season" = some (.obj sp))
    (hse : lookupProp sp "season" = some (.str se))
    (hadm : lookupProp ps "administration" = some (.obj ap))
    (hgear : lookupProp ap "gear" = some (.obj gp))
    (hcl : lookupProp gp "checklist" = some (.arr items))
    (hnn : ∀ item ∈ items, item ≠ .null)
    (haccm : lookupProp ap "accommodation" = some (.obj cp)) :
    readPath (some (handleRadioChange page "trip.tripType" "dayhike" (.obj ps)).state)
        ["trip", "tripType"] = .ok (some (.str "dayhike")) ∧
    readPath (some (handleRadioChange page "trip.tripType" "dayhike" (.obj ps)).state)
        ["administration", "accommodation", "nightsRequired"]
      = .ok (some (.num (F64.ofNat 0))) ∧
    readPath (some (handleRadioChange page "trip.tripType" "dayhike" (.obj ps)).state)
        ["trip", "startDate"] = .ok (lookupProp tp "startDate") ∧
    readPath (some (handleRadioChange page "trip.tripType" "dayhike" (.obj ps)).state)
        ["trip", "endDate"]
      = .ok (if truthy? (lookupProp tp "startDate") then lookupProp tp "startDate"
             else lookupProp tp "endDate") := by
  have hsplit : splitPath "trip.tripType" = ["trip", "tripType"] := by decide
  have hstate : (handleRadioChange page "trip.tripType" "dayhike" (.obj ps)).state
      = withChecklist (.obj (setProp (setProp (setProp ps "trip"
            (.obj (setProp tp "tripType" (.str "dayhike")))) "trip"
            (.obj (syncedTrip (setProp tp "tripType" (.str "dayhike"))))) "administration"
          (.obj (setProp ap "accommodation"
            (.obj (setProp cp "nightsRequired" (.num (F64.ofNat 0))))))))
          (gearMerge "dayhike" se items) := by
    unfold handleRadioChange
    simp only [show ("trip.tripType" = "") = False from by decide, if_false]
    rw [andThen_state_eq _ _ (fun st => rfl), andThen_state_eq _ _ (fun st => by split <;> rfl)]
    rw [ofUpdate_two ps tp _ _ _ _ hsplit htrip (by decide)]
    simp only [Run.andThen, if_true]
    exact toggle_dayhike page _ _ sp ap gp cp "dayhike" se items hend hacc
      (lookupProp_setProp_same _ _ _) (lookupProp_setProp_same _ _ _)
      (by rw [lookupProp_setProp_other _ _ _ _ (by decide)]; exact hseason) hse
      (by rw [lookupProp_setProp_other _ _ _ _ (by decide)]; exact hadm) hgear hcl hnn haccm
  rw [hstate]
  have hsd : lookupProp (setProp tp "tripType" (.str "dayhike")) "startDate"
      = lookupProp tp "startDate" := lookupProp_setProp_other _ _ _ _ (by decide)
  have hed : lookupProp (setProp tp "tripType" (.str "dayhike")) "endDate"
      = lookupProp tp "endDate" := lookupProp_setProp_other _ _ _ _ (by decide)
  have htrip' : ∀ k, k ∉ OBJECT_PROTOTYPE_KEYS →
      readPath (some (withChecklist (.obj (setProp (setProp (setProp ps "trip"
            (.obj (setProp tp "tripType" (.str "dayhike")))) "trip"
            (.obj (syncedTrip (setProp tp "tripType" (.str "dayhike"))))) "administration"
          (.obj (setProp ap "accommodation"
            (.obj (setProp cp "nightsRequired" (.num (F64.ofNat 0))))))))
          (gearMerge "dayhike" se items))) ["trip", k]
      = .ok (lookupProp (syncedTrip (setProp tp "tripType" (.str "dayhike"))) k) := by
    intro k hk
    rw [readPath_withChecklist_other _ _ _ _ (by decide),
      readPath_setProp_other _ _ _ _ _ (by decide)]
    simp [readPath, getMember_own _ "trip" _ (lookupProp_setProp_same _ _ _),
      getMember_obj _ k hk]
  refine ⟨?_, ?_, ?_, ?_⟩
  · rw [htrip' _ (by decide)]
    unfold syncedTrip
    rw [hsd]
    split
    · split
      · rw [lookupProp_setProp_other _ _ _ _ (by decide), lookupProp_setProp_same]
      · rw [lookupProp_setProp_same]
    · rw [lookupProp_setProp_same]
  · rw [readPath_withChecklist_administration _ _ _ _ (by decide)]
    simp [readPath, getMember, platformMember, OBJECT_PROTOTYPE_KEYS, member, lookupProp_setProp_same]
  · rw [htrip' _ (by decide)]
    unfold syncedTrip
    rw [hsd]
    split
    · split
      · rw [lookupProp_setProp_other _ _ _ _ (by decide), hsd]
      · rw [hsd]
    · rw [hsd]
  · rw [htrip' _ (by decide)]
    unfold syncedTrip
    rw [hsd]
    cases hs : lookupProp tp "startDate" with
    | none => simp [truthy?, hed]
    | some v =>
      simp only [truthy?]
      by_cases hv : truthy v = true
      · simp only [hv, if_true, lookupProp_setProp_same]
      · simp only [hv, if_false, Bool.false_eq_true, hed]

/-- A small document with the branches the day-hike switch touches. -/
def hikeDoc (startDate endDate : String) : JSValue :=
  .obj [("trip", .obj [("tripType", .str "backpacking"), ("startDate", .str startDate),
          ("endDate", .str endDate)]),
        ("season", .obj [("season", .str "")]),
        ("administration", .obj [
          ("accommodation", .obj [("nightsRequired", .num (F64.ofNat 3))]),
          ("gear", .obj [("checklist", .arr [])])])]

theorem dayhike_sets_end_date_witness :
    readPath (some (handleRadioChange fullPage "trip.tripType" "dayhike"
        (hikeDoc "2024-06-01" "2024-06-05")).state) ["trip", "tripType"]
      = .ok (some (.str "dayhike")) ∧
    readPath (some (handleRadioChange fullPage "trip.tripType" "dayhike"
        (hikeDoc "2024-06-01" "2024-06-05")).state)
        ["administration", "accommodation", "nightsRequired"]
      = .ok (some (.num (F64.ofNat 0))) ∧
    readPath (some (handleRadioChange fullPage "trip.tripType" "dayhike"
        (hikeDoc "2024-06-01" "2024-06-05")).state) ["trip", "startDate"]
      = .ok (lookupProp [("tripType", .str "backpacking"), ("startDate", .str "2024-06-01"),
          ("endDate", .str "2024-06-05")] "startDate") ∧
    readPath (some (handleRadioChange fullPage "trip.tripType" "dayhike"
        (hikeDoc "2024-06-01" "2024-06-05")).state) ["trip", "endDate"]
      = .ok (if truthy? (lookupProp [("tripType", .str "backpacking"),
            ("startDate", .str "2024-06-01"), ("endDate", .str "2024-06-05")] "startDate")
          then lookupProp [("tripType", .str "backpacking"), ("startDate", .str "2024-06-01"),
            ("endDate", .str "2024-06-05")] "startDate"
          else lookupProp [("tripType", .str "backpacking"), ("startDate", .str "2024-06-01"),
            ("endDate", .str "2024-06-05")] "endDate") :=
  dayhike_sets_end_date fullPage _
    [("tripType", .str "backpacking"), ("startDate", .str "2024-06-01"),
      ("endDate", .str "2024-06-05")]
    [("season", .str "")]
    [("accommodation", .obj [("nightsRequired", .num (F64.ofNat 3))]),
      ("gear", .obj [("checklist", .arr [])])]
    [("checklist", .arr [])] [("nightsRequired", .num (F64.ofNat 3))] "" []
    rfl rfl (by simp [lookupProp]) (by simp [lookupProp]) (by simp [lookupProp])
    (by simp [lookupProp]) (by simp [lookupProp]) (by simp [lookupProp]) (by simp)
    (by simp [lookupProp])

set_option maxRecDepth 4000 in
/-- The scenario of the specification: with start date 2024-06-01 the end date
becomes 2024-06-01. -/
theorem dayhike_scenario :
    getState (handleRadioChange fullPage "trip.tripType" "dayhike"
        (hikeDoc "2024-06-01" "2024-06-05")).state "trip.endDate"
      = .ok (some (.str "2024-06-01")) := by
  decide

set_option maxRecDepth 4000 in
/-- Claim C7 as stated fails on the default document once an end date has
been entered and no start date: after the switch to `dayhike` the end date is
still 2024-06-05 and the start date is still empty. -/
theorem dayhike_keeps_end_date :
    (handleInput fullPage (utcHost "t") "trip.endDate" "2024-06-05"
        (DEFAULT_STATE "c" "m")).thrown = none ∧
    getState (handleRadioChange fullPage "trip.tripType" "dayhike"
      (handleInput fullPage (utcHost "t") "trip.endDate" "2024-06-05"
        (DEFAULT_STATE "c" "m")).state).state "trip.endDate" = .ok (some (.str "2024-06-05")) ∧
    getState (handleRadioChange fullPage "trip.tripType" "dayhike"
      (handleInput fullPage (utcHost "t") "trip.endDate" "2024-06-05"
        (DEFAULT_STATE "c" "m")).state).state "trip.startDate" = .ok (some (.str "")) ∧
    getState (handleRadioChange fullPage "trip.tripType" "dayhike"
      (handleInput fullPage (utcHost "t") "trip.endDate" "2024-06-05"
        (DEFAULT_STATE "c" "m")).state).state "trip.tripType" = .ok (some (.str "dayhike")) := by
  decide

set_option maxRecDepth 4000 in
/-- Claim C8 as stated fails: from the default document, the switch to
`dayhike`, a start date and then an end date typed into the end-date input
give a day hike whose end date is not its start date. -/
theorem dayhike_end_date_edited :
    getState (handleInput fullPage (utcHost "t") "trip.endDate" "2024-06-09"
      (handleInput fullPage (utcHost "t") "trip.startDate" "2024-06-01"
        (handleRadioChange fullPage "trip.tripType" "dayhike"
          (DEFAULT_STATE "c" "m")).state).state).state "trip.tripType"
      = .ok (some (.str "dayhike")) ∧
    getState (handleInput fullPage (utcHost "t") "trip.endDate" "2024-06-09"
      (handleInput fullPage (utcHost "t") "trip.startDate" "2024-06-01"
        (handleRadioChange fullPage "trip.tripType" "dayhike"
          (DEFAULT_STATE "c" "m")).state).state).state "trip.startDate"
      = .ok (some (.str "2024-06-01")) ∧
    getState (handleInput fullPage (utcHost "t") "trip.endDate" "2024-06-09"
      (handleInput fullPage (utcHost "t") "trip.startDate" "2024-06-01"
        (handleRadioChange fullPage "trip.tripType" "dayhike"
          (DEFAULT_STATE "c" "m")).state).state).state "trip.endDate"
      = .ok (some (.str "2024-06-09")) := by
  decide

/-- The document is an object whose `trip` entry is `T`. -/
def HasTrip (T : Option JSValue) (state : JSValue) : Prop :=
  ∃ ps, state = .obj ps ∧ lookupProp ps "trip" = T

theorem hasTrip_setMember (T : Option JSValue) (ps : List (String × JSValue)) (k : String)
    (v r : JSValue) (hk : k ≠ "trip") (hT : lookupProp ps "trip" = T)
    (h : setMember (.obj ps) k v = .ok r) : HasTrip T r := by
  simp only [setMember] at h
  split at h
  · split at h <;> first | (cases h; exact ⟨_, rfl, hT⟩) | cases h
  · cases h
    exact ⟨_, rfl, by rw [lookupProp_setProp_other _ _ _ _ (Ne.symm hk)]; exact hT⟩

theorem hasTrip_assignAt (T : Option JSValue) (state : JSValue) (k : String)
    (rest : List String) (v r : JSValue) (hk : k ≠ "trip") (hs : HasTrip T state)
    (h : assignAt state (k :: rest) v = .ok r) : HasTrip T r := by
  obtain ⟨ps, rfl, hT⟩ := hs
  cases rest with
  | nil => exact hasTrip_setMember T ps k v r hk hT h
  | cons k2 rest2 =>
    simp only [assignAt] at h
    split at h
    · simp at h
    · simp at h
    · split at h
      · simp at h
      · exact hasTrip_setMember T ps k _ r hk hT h

theorem hasTrip_setPath (T : Option JSValue) (state : JSValue) (k : String)
    (rest : List String) (v r : JSValue) (hk : k ≠ "trip") (hs : HasTrip T state)
    (h : setPath state (k :: rest) v = .ok r) : HasTrip T r := by
  obtain ⟨ps, rfl, hT⟩ := hs
  cases rest with
  | nil => exact hasTrip_setMember T ps k v r hk hT h
  | cons k2 rest2 =>
    simp only [setPath] at h
    split at h
    · simp at h
    · split at h
      · exact hasTrip_setMember T ps k _ r hk hT h
      · simp at h

theorem hasTrip_ofUpdate (T : Option JSValue) (state : JSValue) (path k : String)
    (rest : List String) (v : JSValue) (hsplit : splitPath path = k :: rest) (hk : k ≠ "trip")
    (hs : HasTrip T state) : HasTrip T (Run.ofUpdate state path v).state := by
  unfold Run.ofUpdate
  cases h : updateState state path v with
  | error e => exact hs
  | ok r =>
    simp only [updateState, hsplit] at h
    exact hasTrip_setPath T state k rest v r hk hs h

theorem hasTrip_storeChecklist (T : Option JSValue) (state : JSValue) (xs : List JSValue)
    (hs : HasTrip T state) : HasTrip T (storeChecklist state xs).state := by
  unfold storeChecklist
  cases h : assignAt state ["administration", "gear", "checklist"] (.arr xs) with
  | error e => exact hs
  | ok r =>
    exact hasTrip_ofUpdate T r _ "administration" ["gear", "checklist"] _ (by decide)
      (by decide) (hasTrip_assignAt T state _ _ _ r (by decide) hs h)

theorem hasTrip_loadGearChecklist (T : Option JSValue) (page : Page) (state : JSValue)
    (hs : HasTrip T state) : HasTrip T (loadGearChecklist page state).state := by
  have hstore : ∀ xs, HasTrip T ((storeChecklist state xs).andThen (fun st =>
      ({ state := st, thrown := page.render "renderGearChecklist" .null st } : Run))).state :=
    fun xs => andThen_state _ _ (HasTrip T) (hasTrip_storeChecklist T state xs hs)
      (fun st hst => hst)
  unfold loadGearChecklist
  split
  · exact hs
  · split
    · exact hs
    · split
      · exact hs
      · exact hs
      · split
        · exact hs
        · simp only []
          split
          · exact hstore _
          · split
            · exact hstore _
            · split
              · exact hs
              · split
                · exact hstore _
                · exact hs
            · split
              · exact hstore _
              · exact hs
            · exact hs

theorem hasTrip_updateCheckInDate (T : Option JSValue) (page : Page) (host : Host)
    (state : JSValue) (hs : HasTrip T state) :
    HasTrip T (updateCheckInDate page host state).state := by
  unfold updateCheckInDate
  split
  · exact hs
  · split
    · exact hs
    · split
      · exact hs
      · split
        · exact hs
        · split
          · exact hs
          · exact hs
          · split
            · exact hs
            · rename_i h
              exact hasTrip_assignAt T state _ _ _ _ (by decide) hs h

/-- The day-hike rule on the trip branch: a day hike with a start date ends on
its start date. -/
def Sync (tp : List (String × JSValue)) : Prop :=
  lookupProp tp "tripType" = some (.str "dayhike") →
    truthy? (lookupProp tp "startDate") = true →
    lookupProp tp "endDate" = lookupProp tp "startDate"

/-- The document has a trip branch that keeps the day-hike rule. -/
def TripInv (state : JSValue) : Prop :=
  ∃ tp, HasTrip (some (.obj tp)) state ∧ Sync tp

theorem hasTrip_renderStep (T : Option JSValue) (page : Page) (name : String) (arg : JSValue)
    (state : JSValue) (hs : HasTrip T state) : HasTrip T (renderStep page name arg state).state :=
  hs

theorem sync_setProp_other (tp : List (String × JSValue)) (f : String) (v : JSValue)
    (h1 : f ≠ "tripType") (h2 : f ≠ "startDate") (h3 : f ≠ "endDate") (hs : Sync tp) :
    Sync (setProp tp f v) := by
  unfold Sync
  rw [lookupProp_setProp_other _ _ _ _ (Ne.symm h1), lookupProp_setProp_other _ _ _ _ (Ne.symm h2),
    lookupProp_setProp_other _ _ _ _ (Ne.symm h3)]
  exact hs

theorem handleInput_tail (T : Option JSValue) (page : Page) (name : String) (r : Run)
    (hr : HasTrip T r.state) :
    HasTrip T (((r.andThen (fun st =>
      if startsWith name "trip." || startsWith name "ground." ||
          startsWith name "situation." || startsWith name "season."
      then renderStep page "updateMissionSummary" .null st
      else { state := st, thrown := none })).andThen (fun st =>
      if startsWith name "administration.costing."
      then renderStep page "updateTotalCost" .null st
      else { state := st, thrown := none })).andThen
    (renderStep page "updateSaveIndicator" (.str "saving"))).state := by
  refine andThen_state _ _ (HasTrip T) (andThen_state _ _ (HasTrip T)
    (andThen_state _ _ (HasTrip T) hr ?_) ?_) (fun st hst => hst)
  · intro st hst; split <;> exact hst
  · intro st hst; split <;> exact hst

/-- An input outside the trip branch keeps the trip branch. -/
theorem handleInput_other (T : Option JSValue) (page : Page) (host : Host)
    (name value k : String) (rest : List String) (state : JSValue)
    (hsplit : splitPath name = k :: rest) (hk : k ≠ "trip") (hs : HasTrip T state) :
    HasTrip T (handleInput page host name value state).state := by
  have h1 : name ≠ "trip.startDate" := by
    intro h; rw [h] at hsplit
    have : splitPath "trip.startDate" = ["trip", "startDate"] := by decide
    rw [this] at hsplit
    exact hk (List.cons.inj hsplit).1.symm
  have h2 : name ≠ "trip.endDate" := by
    intro h; rw [h] at hsplit
    have : splitPath "trip.endDate" = ["trip", "endDate"] := by decide
    rw [this] at hsplit
    exact hk (List.cons.inj hsplit).1.symm
  unfold handleInput
  split
  · exact hs
  · refine handleInput_tail T page name _ ?_
    refine andThen_state _ _ (HasTrip T) (hasTrip_ofUpdate T state name k rest _ hsplit hk hs) ?_
    intro st hst
    simp only [h1, h2, or_self, if_false]
    exact hst

/-- The write of a field directly under `trip`: the trip branch afterwards is
the one before with the field set (or the one before, when the field is
`__proto__` and the write is dropped). -/
theorem ofUpdate_trip_field (ps tp : List (String × JSValue)) (name f value : String)
    (hsplit : splitPath name = ["trip", f]) (hT : lookupProp ps "trip" = some (.obj tp)) :
    ∃ tp', Run.ofUpdate (.obj ps) name (.str value)
        = { state := .obj (setProp ps "trip" (.obj tp')), thrown := none } ∧
      (tp' = tp ∨ (tp' = setProp tp f (.str value) ∧ f ≠ "__proto__") ∨
        (tp' = setProp tp f (.str value) ∧ lookupProp tp f ≠ none)) := by
  have hg := getMember_own ps "trip" _ hT
  have hs := setMember_own ps "trip" (.obj tp) (.obj tp) hT
  by_cases hproto : f = "__proto__" ∧ lookupProp tp f = none
  · refine ⟨tp, ?_, Or.inl rfl⟩
    have h1 : setMember (.obj tp) f (.str value) = .ok (.obj tp) := by
      obtain ⟨e, hn⟩ := hproto
      subst e
      simp [setMember, hn]
    simp [Run.ofUpdate, updateState, hsplit, setPath, hg, childOf, truthy, h1, hs]
  · have h1 : setMember (.obj tp) f (.str value) = .ok (.obj (setProp tp f (.str value))) := by
      simp only [setMember, hproto, if_false]
    have hs2 := setMember_own ps "trip" (.obj (setProp tp f (.str value))) (.obj tp) hT
    refine ⟨setProp tp f (.str value), ?_, ?_⟩
    · simp [Run.ofUpdate, updateState, hsplit, setPath, hg, childOf, truthy, h1, hs2]
    · by_cases hf : f = "__proto__"
      · exact Or.inr (Or.inr ⟨rfl, fun hn => hproto ⟨hf, hn⟩⟩)
      · exact Or.inr (Or.inl ⟨rfl, hf⟩)

theorem sync_of_not_dayhike (tp : List (String × JSValue))
    (h : lookupProp tp "tripType" ≠ some (.str "dayhike")) : Sync tp :=
  fun hd => absurd hd h

/-- An input on a field directly under `trip`, other than the trip type and
the two dates, keeps the day-hike rule. -/
theorem handleInput_trip_field (page : Page) (host : Host) (name value f : String)
    (state : JSValue) (hsplit : splitPath name = ["trip", f])
    (h1 : f ≠ "tripType") (h2 : f ≠ "startDate") (h3 : f ≠ "endDate")
    (hs : TripInv state) : TripInv (handleInput page host name value state).state := by
  obtain ⟨tp, ⟨ps, rfl, hT⟩, hsync⟩ := hs
  have hn1 : name ≠ "trip.startDate" := by
    intro h; rw [h] at hsplit
    have : splitPath "trip.startDate" = ["trip", "startDate"] := by decide
    rw [this] at hsplit
    simp at hsplit
    exact h2 hsplit.symm
  have hn2 : name ≠ "trip.endDate" := by
    intro h; rw [h] at hsplit
    have : splitPath "trip.endDate" = ["trip", "endDate"] := by decide
    rw [this] at hsplit
    simp at hsplit
    exact h3 hsplit.symm
  obtain ⟨tp', hrun, htp'⟩ := ofUpdate_trip_field ps tp name f value hsplit hT
  have hsync' : Sync tp' := by
    rcases htp' with e | ⟨e, _⟩ | ⟨e, _⟩
    · rw [e]; exact hsync
    · rw [e]; exact sync_setProp_other tp f _ h1 h2 h3 hsync
    · rw [e]; exact sync_setProp_other tp f _ h1 h2 h3 hsync
  refine ⟨tp', ?_, hsync'⟩
  unfold handleInput
  split
  · rename_i hempty
    rw [hempty] at hsplit
    have : splitPath "" = [""] := by decide
    rw [this] at hsplit
    simp at hsplit
  · refine handleInput_tail _ page name _ ?_
    rw [hrun]
    simp only [Run.andThen, hn1, hn2, or_self, if_false]
    exact ⟨_, rfl, lookupProp_setProp_same _ _ _⟩

/-- What the read of a field of the trip branch gives. -/
theorem readPath_trip (ps tp : List (String × JSValue)) (k : String)
    (hT : lookupProp ps "trip" = some (.obj tp)) (hk : k ∉ OBJECT_PROTOTYPE_KEYS) :
    readPath (some (.obj ps)) ["trip", k] = .ok (lookupProp tp k) := by
  simp [readPath, getMember_own ps "trip" _ hT, getMember_obj tp k hk]

/-- An input on `trip.endDate` while the trip is not a day hike keeps the
day-hike rule. -/
theorem handleInput_endDate (page : Page) (host : Host) (value : String) (state : JSValue)
    (hnot : readPath (some state) ["trip", "tripType"] ≠ .ok (some (.str "dayhike")))
    (hs : TripInv state) :
    TripInv (handleInput page host "trip.endDate" value state).state := by
  obtain ⟨tp, ⟨ps, rfl, hT⟩, _⟩ := hs
  have hsplit : splitPath "trip.endDate" = ["trip", "endDate"] := by decide
  rw [readPath_trip ps tp "tripType" hT (by decide)] at hnot
  have hnd : lookupProp tp "tripType" ≠ some (.str "dayhike") := fun e => hnot (by rw [e])
  refine ⟨setProp tp "endDate" (.str value), ?_, ?_⟩
  · unfold handleInput
    simp only [show ("trip.endDate" = "") = False from by decide, if_false]
    rw [ofUpdate_two ps tp _ _ _ _ hsplit hT (by decide)]
    refine handleInput_tail _ page _ _ ?_
    simp only [Run.andThen, or_true, if_true,
      show ("trip.endDate" = "trip.startDate") = False from by decide, if_false]
    refine andThen_state _ _ (HasTrip _) (andThen_state _ _ (HasTrip _)
      ⟨_, rfl, lookupProp_setProp_same _ _ _⟩ (fun st hst => hst))
      (fun st hst => hasTrip_updateCheckInDate _ page host st hst)
  · apply sync_of_not_dayhike
    rw [lookupProp_setProp_other _ _ _ _ (by decide)]
    exact hnd

/-- An input that sets `trip.tripType` to something other than `dayhike` keeps
the day-hike rule. -/
theorem handleInput_tripType (page : Page) (host : Host) (value : String) (state : JSValue)
    (hvalue : value ≠ "dayhike") (hs : TripInv state) :
    TripInv (handleInput page host "trip.tripType" value state).state := by
  obtain ⟨tp, ⟨ps, rfl, hT⟩, _⟩ := hs
  have hsplit : splitPath "trip.tripType" = ["trip", "tripType"] := by decide
  refine ⟨setProp tp "tripType" (.str value), ?_, ?_⟩
  · unfold handleInput
    simp only [show ("trip.tripType" = "") = False from by decide, if_false]
    rw [ofUpdate_two ps tp _ _ _ _ hsplit hT (by decide)]
    refine handleInput_tail _ page _ _ ?_
    simp only [Run.andThen,
      show ("trip.tripType" = "trip.startDate") = False from by decide,
      show ("trip.tripType" = "trip.endDate") = False from by decide, or_self, if_false]
    exact ⟨_, rfl, lookupProp_setProp_same _ _ _⟩
  · apply sync_of_not_dayhike
    rw [lookupProp_setProp_same]
    intro e
    simp only [Option.some.injEq, JSValue.str.injEq] at e
    exact hvalue e

/-- An input on `trip.startDate` keeps the day-hike rule: on a day hike the
end date is set along with the start date. -/
theorem handleInput_startDate (page : Page) (host : Host) (value : String) (state : JSValue)
    (hs : TripInv state) :
    TripInv (handleInput page host "trip.startDate" value state).state := by
  obtain ⟨tp, ⟨ps, rfl, hT⟩, hsync⟩ := hs
  have hsplit : splitPath "trip.startDate" = ["trip", "startDate"] := by decide
  unfold handleInput
  simp only [show ("trip.startDate" = "") = False from by decide, if_false]
  rw [ofUpdate_two ps tp _ _ _ _ hsplit hT (by decide)]
  have hread : readPath (some (.obj (setProp ps "trip"
      (.obj (setProp tp "startDate" (.str value)))))) ["trip", "tripType"]
      = .ok (lookupProp tp "tripType") := by
    simp [readPath, getMember, platformMember, OBJECT_PROTOTYPE_KEYS, member, lookupProp_setProp_same,
      lookupProp_setProp_other tp "startDate" "tripType" _ (by decide)]
  by_cases hday : lookupProp tp "tripType" = some (.str "dayhike")
  · refine ⟨setProp (setProp tp "startDate" (.str value)) "endDate" (.str value), ?_, ?_⟩
    · refine handleInput_tail _ page _ _ ?_
      simp only [Run.andThen, true_or, if_true, hread, hday,
        assignAt_two _ _ _ _ _ (lookupProp_setProp_same _ _ _) (show "endDate" ≠ "__proto__" by decide), setProp_setProp_same]
      refine andThen_state _ _ (HasTrip _) (andThen_state _ _ (HasTrip _)
        ⟨_, rfl, lookupProp_setProp_same _ _ _⟩ (fun st hst => hst))
        (fun st hst => hasTrip_updateCheckInDate _ page host st hst)
    · intro _ _
      rw [lookupProp_setProp_same, lookupProp_setProp_other _ _ _ _ (by decide),
        lookupProp_setProp_same]
  · refine ⟨setProp tp "startDate" (.str value), ?_, ?_⟩
    · refine handleInput_tail _ page _ _ ?_
      simp only [Run.andThen, true_or, if_true, hread, hday, if_false]
      refine andThen_state _ _ (HasTrip _) (andThen_state _ _ (HasTrip _)
        ⟨_, rfl, lookupProp_setProp_same _ _ _⟩ (fun st hst => hst))
        (fun st hst => hasTrip_updateCheckInDate _ page host st hst)
    · intro h
      rw [lookupProp_setProp_other _ _ _ _ (by decide)] at h
      exact absurd h hday

/-- The choice of a trip type keeps the day-hike rule on a page with the
end-date container: the switch to `dayhike` copies a start date that is set
into the end date. -/
theorem handleRadioChange_tripType (page : Page) (value : String) (state : JSValue)
    (hend : page.has "end-date-container" = true) (hs : TripInv state) :
    TripInv (handleRadioChange page "trip.tripType" value state).state := by
  obtain ⟨tp, ⟨ps, rfl, hT⟩, _⟩ := hs
  have hsplit : splitPath "trip.tripType" = ["trip", "tripType"] := by decide
  have hsplit2 : splitPath "trip.endDate" = ["trip", "endDate"] := by decide
  have hstart : readPath (some (.obj (setProp ps "trip"
      (.obj (setProp tp "tripType" (.str value)))))) ["trip", "startDate"]
      = .ok (lookupProp tp "startDate") := by
    simp [readPath, getMember, platformMember, OBJECT_PROTOTYPE_KEYS, member, lookupProp_setProp_same,
      lookupProp_setProp_other tp "tripType" "startDate" _ (by decide)]
  -- the trip branch after the first step of `toggleTripTypeVisibility`
  have key : ∃ tp', Sync tp' ∧
      HasTrip (some (.obj tp')) (handleRadioChange page "trip.tripType" value (.obj ps)).state := by
    by_cases hday : value = "dayhike"
    · subst hday
      cases hsd : lookupProp tp "startDate" with
      | none =>
        refine ⟨setProp tp "tripType" (.str "dayhike"), ?_, ?_⟩
        · intro _ h
          rw [lookupProp_setProp_other _ _ _ _ (by decide), hsd] at h
          simp [truthy?] at h
        · unfold handleRadioChange
          simp only [show ("trip.tripType" = "") = False from by decide, if_false]
          rw [ofUpdate_two ps tp _ _ _ _ hsplit hT (by decide)]
          refine andThen_state _ _ (HasTrip _) (andThen_state _ _ (HasTrip _) ?_
            (fun st hst => by split <;> exact hst)) (fun st hst => hst)
          simp only [Run.andThen, if_true, toggleTripTypeVisibility, hend, true_and, hstart, hsd]
          refine andThen_state _ _ (HasTrip _) ?_
            (fun st hst => hasTrip_loadGearChecklist _ page st hst)
          split
          · split
            · exact ⟨_, rfl, lookupProp_setProp_same _ _ _⟩
            · rename_i h
              exact hasTrip_ofUpdate _ _ _ "administration" ["accommodation", "nightsRequired"]
                _ (by decide) (by decide)
                (hasTrip_assignAt _ _ _ _ _ _ (by decide)
                  ⟨_, rfl, lookupProp_setProp_same _ _ _⟩ h)
          · exact ⟨_, rfl, lookupProp_setProp_same _ _ _⟩
      | some v =>
        by_cases hv : truthy v = true
        · refine ⟨setProp (setProp tp "tripType" (.str "dayhike")) "endDate" v, ?_, ?_⟩
          · intro _ _
            rw [lookupProp_setProp_same, lookupProp_setProp_other _ _ _ _ (by decide),
              lookupProp_setProp_other _ _ _ _ (by decide), hsd]
          · unfold handleRadioChange
            simp only [show ("trip.tripType" = "") = False from by decide, if_false]
            rw [ofUpdate_two ps tp _ _ _ _ hsplit hT (by decide)]
            refine andThen_state _ _ (HasTrip _) (andThen_state _ _ (HasTrip _) ?_
              (fun st hst => by split <;> exact hst)) (fun st hst => hst)
            simp only [Run.andThen, if_true, toggleTripTypeVisibility, hend, true_and, hstart,
              hsd, hv, assignAt_two _ _ _ _ _ (lookupProp_setProp_same _ _ _) (show "endDate" ≠ "__proto__" by decide),
              setProp_setProp_same]
            rw [ofUpdate_two _ _ _ _ _ _ hsplit2 (lookupProp_setProp_same _ _ _) (by decide)]
            simp only [setProp_setProp_same]
            refine andThen_state _ _ (HasTrip _) ?_
              (fun st hst => hasTrip_loadGearChecklist _ page st hst)
            split
            · split
              · exact ⟨_, rfl, lookupProp_setProp_same _ _ _⟩
              · rename_i h
                exact hasTrip_ofUpdate _ _ _ "administration" ["accommodation", "nightsRequired"]
                  _ (by decide) (by decide)
                  (hasTrip_assignAt _ _ _ _ _ _ (by decide)
                    ⟨_, rfl, lookupProp_setProp_same _ _ _⟩ h)
            · exact ⟨_, rfl, lookupProp_setProp_same _ _ _⟩
        · refine ⟨setProp tp "tripType" (.str "dayhike"), ?_, ?_⟩
          · intro _ h
            rw [lookupProp_setProp_other _ _ _ _ (by decide), hsd] at h
            simp only [truthy?] at h
            exact absurd h hv
          · unfold handleRadioChange
            simp only [show ("trip.tripType" = "") = False from by decide, if_false]
            rw [ofUpdate_two ps tp _ _ _ _ hsplit hT (by decide)]
            refine andThen_state _ _ (HasTrip _) (andThen_state _ _ (HasTrip _) ?_
              (fun st hst => by split <;> exact hst)) (fun st hst => hst)
            simp only [Run.andThen, if_true, toggleTripTypeVisibility, hend, true_and, hstart,
              hsd, hv, if_false, Bool.false_eq_true]
            refine andThen_state _ _ (HasTrip _) ?_
              (fun st hst => hasTrip_loadGearChecklist _ page st hst)
            split
            · split
              · exact ⟨_, rfl, lookupProp_setProp_same _ _ _⟩
              · rename_i h
                exact hasTrip_ofUpdate _ _ _ "administration" ["accommodation", "nightsRequired"]
                  _ (by decide) (by decide)
                  (hasTrip_assignAt _ _ _ _ _ _ (by decide)
                    ⟨_, rfl, lookupProp_setProp_same _ _ _⟩ h)
            · exact ⟨_, rfl, lookupProp_setProp_same _ _ _⟩
    · refine ⟨setProp tp "tripType" (.str value), ?_, ?_⟩
      · intro h
        rw [lookupProp_setProp_same] at h
        simp only [Option.some.injEq, JSValue.str.injEq] at h
        exact absurd h hday
      · unfold handleRadioChange
        simp only [show ("trip.tripType" = "") = False from by decide, if_false]
        rw [ofUpdate_two ps tp _ _ _ _ hsplit hT (by decide)]
        refine andThen_state _ _ (HasTrip _) (andThen_state _ _ (HasTrip _) ?_
          (fun st hst => by split <;> exact hst)) (fun st hst => hst)
        simp only [Run.andThen, if_true, toggleTripTypeVisibility, hday, and_false, if_false]
        exact hasTrip_loadGearChecklist _ page _ ⟨_, rfl, lookupProp_setProp_same _ _ _⟩
  obtain ⟨tp', hsync, hstate⟩ := key
  exact ⟨tp', hstate, hsync⟩

/-- The documents reached from the default document through the editing
handlers: `handleRadioChange` on `trip.tripType`, and `handleInput` on a field
of the document, that is on a field directly under `trip` or on a field of
another section.  Two inputs are restricted: the one on `trip.endDate` comes
only while the trip is not a day hike (on a day hike the page hides the end
date), and the one on `trip.tripType`, which belongs to the radio buttons,
does not make the trip a day hike. -/
inductive TripReach (page : Page) (host : Host) (createdAt lastModified : String) :
    JSValue → Prop
  | start : TripReach page host createdAt lastModified (DEFAULT_STATE createdAt lastModified)
  | radio (state : JSValue) (value : String) :
      TripReach page host createdAt lastModified state →
      TripReach page host createdAt lastModified
        (handleRadioChange page "trip.tripType" value state).state
  | startDate (state : JSValue) (value : String) :
      TripReach page host createdAt lastModified state →
      TripReach page host createdAt lastModified
        (handleInput page host "trip.startDate" value state).state
  | endDate (state : JSValue) (value : String) :
      readPath (some state) ["trip", "tripType"] ≠ .ok (some (.str "dayhike")) →
      TripReach page host createdAt lastModified state →
      TripReach page host createdAt lastModified
        (handleInput page host "trip.endDate" value state).state
  | tripType (state : JSValue) (value : String) :
      value ≠ "dayhike" →
      TripReach page host createdAt lastModified state →
      TripReach page host createdAt lastModified
        (handleInput page host "trip.tripType" value state).state
  | tripField (state : JSValue) (name value f : String) :
      splitPath name = ["trip", f] → f ≠ "tripType" → f ≠ "startDate" → f ≠ "endDate" →
      TripReach page host createdAt lastModified state →
      TripReach page host createdAt lastModified (handleInput page host name value state).state
  | other (state : JSValue) (name value k : String) (rest : List String) :
      splitPath name = k :: rest → k ≠ "trip" →
      TripReach page host createdAt lastModified state →
      TripReach page host createdAt lastModified (handleInput page host name value state).state

theorem tripReach_inv (page : Page) (host : Host) (createdAt lastModified : String)
    (state : JSValue) (hend : page.has "end-date-container" = true)
    (h : TripReach page host createdAt lastModified state) : TripInv state := by
  induction h with
  | start =>
    refine ⟨[("tripName", .str ""), ("description", .str ""), ("tripType", .str "backpacking"),
      ("startDate", .str ""), ("endDate", .str "")], ⟨_, rfl, by simp [lookupProp]⟩, ?_⟩
    intro h
    simp [lookupProp] at h
  | radio state value _ ih => exact handleRadioChange_tripType page value state hend ih
  | startDate state value _ ih => exact handleInput_startDate page host value state ih
  | endDate state value hnot _ ih => exact handleInput_endDate page host value state hnot ih
  | tripType state value hvalue _ ih => exact handleInput_tripType page host value state hvalue ih
  | tripField state name value f hsplit h1 h2 h3 _ ih =>
    exact handleInput_trip_field page host name value f state hsplit h1 h2 h3 ih
  | other state name value k rest hsplit hk _ ih =>
    obtain ⟨tp, hT, hsync⟩ := ih
    exact ⟨tp, handleInput_other _ page host name value k rest state hsplit hk hT, hsync⟩

/-- Claim C8, as the code has it: on a page with the end-date container, in
every document reached from the default document through `handleRadioChange`
on `trip.tripType` and `handleInput` on the fields of the document, where an
input on `trip.endDate` comes only while the trip is not a day hike and
`handleInput` does not set `trip.tripType` to `dayhike`: whenever
`trip.tripType` is `dayhike` and `trip.startDate` is set, `trip.endDate`
equals `trip.startDate`. -/
theorem dayhike_invariant (page : Page) (host : Host) (createdAt lastModified : String)
    (state : JSValue) (hend : page.has "end-date-container" = true)
    (h : TripReach page host createdAt lastModified state) :
    readPath (some state) ["trip", "tripType"] = .ok (some (.str "dayhike")) →
    ∀ startDate, readPath (some state) ["trip", "startDate"] = .ok (some startDate) →
      truthy startDate = true →
      readPath (some state) ["trip", "endDate"] = .ok (some startDate) := by
  obtain ⟨tp, ⟨ps, rfl, hT⟩, hsync⟩ := tripReach_inv page host createdAt lastModified state hend h
  intro htype startDate hstart htruthy
  rw [readPath_trip ps tp _ hT (by decide)] at htype hstart ⊢
  simp only [Except.ok.injEq] at htype hstart
  rw [hsync htype (by rw [hstart]; exact htruthy), hstart]

set_option maxRecDepth 8000 in
/-- Claim C8, as the code has it, on the flow of the specification: both
dates are typed on a backpacking trip, then the trip is made a day hike. -/
theorem dayhike_invariant_witness :
    fullPage.has "end-date-container" = true ∧
    TripReach fullPage (utcHost "t") "c" "m"
      (handleRadioChange fullPage "trip.tripType" "dayhike"
        (handleInput fullPage (utcHost "t") "trip.endDate" "2024-06-05"
          (handleInput fullPage (utcHost "t") "trip.startDate" "2024-06-01"
            (DEFAULT_STATE "c" "m")).state).state).state ∧
    (readPath (some (handleRadioChange fullPage "trip.tripType" "dayhike"
        (handleInput fullPage (utcHost "t") "trip.endDate" "2024-06-05"
          (handleInput fullPage (utcHost "t") "trip.startDate" "2024-06-01"
            (DEFAULT_STATE "c" "m")).state).state).state) ["trip", "tripType"]
        = .ok (some (.str "dayhike")) →
      ∀ startDate, readPath (some (handleRadioChange fullPage "trip.tripType" "dayhike"
          (handleInput fullPage (utcHost "t") "trip.endDate" "2024-06-05"
            (handleInput fullPage (utcHost "t") "trip.startDate" "2024-06-01"
              (DEFAULT_STATE "c" "m")).state).state).state) ["trip", "startDate"]
          = .ok (some startDate) →
        truthy startDate = true →
        readPath (some (handleRadioChange fullPage "trip.tripType" "dayhike"
          (handleInput fullPage (utcHost "t") "trip.endDate" "2024-06-05"
            (handleInput fullPage (utcHost "t") "trip.startDate" "2024-06-01"
              (DEFAULT_STATE "c" "m")).state).state).state) ["trip", "endDate"]
          = .ok (some startDate)) :=
  ⟨rfl,
   TripReach.radio _ _ (TripReach.endDate _ _ (by decide)
    (TripReach.startDate _ _ TripReach.start)),
   dayhike_invariant fullPage (utcHost "t") "c" "m" _ rfl
    (TripReach.radio _ _ (TripReach.endDate _ _ (by decide)
      (TripReach.startDate _ _ TripReach.start)))⟩

set_option maxRecDepth 8000 in
/-- The reached document of the witness is a day hike on 2024-06-01 that ends
on 2024-06-01: the end date typed before, 2024-06-05, is gone. -/
theorem dayhike_invariant_scenario :
    getState (handleInput fullPage (utcHost "t") "trip.endDate" "2024-06-05"
        (handleInput fullPage (utcHost "t") "trip.startDate" "2024-06-01"
          (DEFAULT_STATE "c" "m")).state).state "trip.endDate" = .ok (some (.str "2024-06-05")) ∧
    getState (handleRadioChange fullPage "trip.tripType" "dayhike"
        (handleInput fullPage (utcHost "t") "trip.endDate" "2024-06-05"
          (handleInput fullPage (utcHost "t") "trip.startDate" "2024-06-01"
            (DEFAULT_STATE "c" "m")).state).state).state "trip.tripType"
      = .ok (some (.str "dayhike")) ∧
    getState (handleRadioChange fullPage "trip.tripType" "dayhike"
        (handleInput fullPage (utcHost "t") "trip.endDate" "2024-06-05"
          (handleInput fullPage (utcHost "t") "trip.startDate" "2024-06-01"
            (DEFAULT_STATE "c" "m")).state).state).state "trip.startDate"
      = .ok (some (.str "2024-06-01")) ∧
    getState (handleRadioChange fullPage "trip.tripType" "dayhike"
        (handleInput fullPage (utcHost "t") "trip.endDate" "2024-06-05"
          (handleInput fullPage (utcHost "t") "trip.startDate" "2024-06-01"
            (DEFAULT_STATE "c" "m")).state).state).state "trip.endDate"
      = .ok (some (.str "2024-06-01")) := by
  decide

/-! ## Totals -/

/-- The numeric value of a distance or cost in the words of the
specification: the number the field parses to, 0 when it parses to none. -/
def numericValue (v : Option JSValue) : JSNumber :=
  match parseFloat v with
  | .nan => .fin ⟨0⟩
  | x => x

/-- The total in the words of the specification: the values are summed from
the left, starting at 0. -/
def sumOfValues (values : List JSNumber) : JSNumber :=
  values.foldl JSNumber.add (.fin ⟨0⟩)

theorem orZero_eq_numericValue (v : Option JSValue) : orZero (parseFloat v) = numericValue v := by
  unfold orZero numericValue
  cases h : parseFloat v with
  | nan => simp [JSNumber.truthy]
  | inf negative => simp [JSNumber.truthy]
  | fin x =>
    by_cases hx : x.units = 0
    · have : x = ⟨0⟩ := by cases x; simp_all
      simp [JSNumber.truthy, this]
    · simp [JSNumber.truthy, hx]

theorem addDistances_eq (total : JSNumber) (entries : List JSValue)
    (hnn : ∀ e ∈ entries, e ≠ .null) :
    addDistances total entries
      = .ok ((entries.map (fun day => numericValue (member day "distance"))).foldl
          JSNumber.add total) := by
  induction entries generalizing total with
  | nil => rfl
  | cons day rest ih =>
    have h1 : day ≠ .null := hnn day (List.mem_cons_self _ _)
    have hg : getMember (some day) "distance" = .ok (member day "distance") :=
      getMember_plain day "distance" h1 (by decide)
    simp only [addDistances, hg, List.map_cons, List.foldl_cons, orZero_eq_numericValue]
    exact ih _ (fun e he => hnn e (List.mem_cons_of_mem _ he))

/-- A document with the daily plan `entries`. -/
def planOf (entries : List JSValue) : JSValue :=
  .obj [("execution", .obj [("dailyPlan", .arr entries)])]

/-- Claim C5: on a document whose daily plan is a list of entries,
`calculateTotalDistance` returns the sum, taken from the left, of the numeric
values of the entries' distances; an empty, `null`, missing or non-numeric
distance has the numeric value 0; and for the distances 3.2, "4", "" and
`null` the total is 7.2. -/
theorem calculateTotalDistance_spec (ps ep : List (String × JSValue)) (entries : List JSValue)
    (hexec : lookupProp ps "execution" = some (.obj ep))
    (hplan : lookupProp ep "dailyPlan" = some (.arr entries))
    (hnn : ∀ e ∈ entries, e ≠ .null) :
    calculateTotalDistance (.obj ps)
      = .ok (sumOfValues (entries.map (fun day => numericValue (member day "distance")))) ∧
    numericValue (some (.str "")) = .fin ⟨0⟩ ∧ numericValue (some .null) = .fin ⟨0⟩ ∧
    numericValue none = .fin ⟨0⟩ ∧ numericValue (some (.str "n/a")) = .fin ⟨0⟩ ∧
    calculateTotalDistance (planOf [
        .obj [("distance", .num (F64.ofDecimal false 32 (-1)))],
        .obj [("distance", .str "4")], .obj [("distance", .str "")],
        .obj [("distance", .null)]])
      = .ok (JSNumber.ofDecimal false 72 (-1)) := by
  refine ⟨?_, by decide, by decide, by decide, by decide, by decide⟩
  have hr : readPath (some (.obj ps)) ["execution", "dailyPlan"] = .ok (some (.arr entries)) := by
    simp [readPath, getMember, platformMember, OBJECT_PROTOTYPE_KEYS, member, hexec, hplan]
  unfold calculateTotalDistance
  simp only [truthy, Bool.not_true, Bool.false_eq_true, if_false, hr, truthy?]
  exact addDistances_eq _ entries hnn

theorem calculateTotalDistance_spec_witness :
    calculateTotalDistance (planOf [
        .obj [("distance", .num (F64.ofDecimal false 32 (-1)))],
        .obj [("distance", .str "4")], .obj [("distance", .str "")],
        .obj [("distance", .null)]])
      = .ok (sumOfValues ([
        JSValue.obj [("distance", .num (F64.ofDecimal false 32 (-1)))],
        .obj [("distance", .str "4")], .obj [("distance", .str "")],
        .obj [("distance", .null)]].map (fun day => numericValue (member day "distance")))) :=
  (calculateTotalDistance_spec _ [("dailyPlan", .arr [
        .obj [("distance", .num (F64.ofDecimal false 32 (-1)))],
        .obj [("distance", .str "4")], .obj [("distance", .str "")],
        .obj [("distance", .null)]])] _ (by simp [lookupProp]) (by simp [lookupProp])
      (by decide)).1

/-! ## Exact sums of whole numbers -/

theorem sigShiftStep_le (n lo k L : Nat) (hlo : lo ≤ L) (hL : n >>> L < 9007199254740992) :
    sigShiftStep n lo k ≤ L := by
  unfold sigShiftStep
  split
  · exact hlo
  · rename_i h
    by_contra hc
    apply h
    have hle : L ≤ lo + k - 1 := by omega
    calc n >>> (lo + k - 1) ≤ n >>> L := by
          rw [Nat.shiftRight_eq_div_pow, Nat.shiftRight_eq_div_pow]
          exact Nat.div_le_div_left (Nat.pow_le_pow_right (by decide) hle) (Nat.two_pow_pos _)
      _ < 9007199254740992 := hL

theorem foldl_sigShiftStep_le (n L : Nat) (ks : List Nat) (lo : Nat) (hlo : lo ≤ L)
    (hL : n >>> L < 9007199254740992) : ks.foldl (sigShiftStep n) lo ≤ L := by
  induction ks generalizing lo with
  | nil => exact hlo
  | cons k rest ih => exact ih _ (sigShiftStep_le n lo k L hlo hL)

theorem sigShift_le (n L : Nat) (hL : n >>> L < 9007199254740992) : sigShift n ≤ L :=
  foldl_sigShiftStep_le n L _ 0 (Nat.zero_le _) hL

/-- A number `m * 2^e` with `m` below `2^53` is not changed by the rounding. -/
theorem roundRatio_exact (m e : Nat) (hm : m < 9007199254740992) :
    roundRatio (m * 2 ^ e) 1 = m * 2 ^ e := by
  have hs : sigShift (m * 2 ^ e / 1) ≤ e := by
    apply sigShift_le
    rw [Nat.div_one, Nat.shiftRight_eq_div_pow, Nat.mul_div_cancel _ (Nat.two_pow_pos _)]
    exact hm
  unfold roundRatio
  generalize sigShift (m * 2 ^ e / 1) = s at hs
  obtain ⟨t, rfl⟩ : ∃ t, e = t + s := ⟨e - s, by omega⟩
  have hsplit : m * 2 ^ (t + s) = (m * 2 ^ t) * 2 ^ s := by rw [Nat.pow_add, Nat.mul_assoc]
  have hd : 1 <<< s = 2 ^ s := by rw [Nat.shiftLeft_eq, Nat.one_mul]
  have hrem : m * 2 ^ (t + s) % 2 ^ s = 0 := by rw [hsplit]; exact Nat.mul_mod_left _ _
  have hquo : m * 2 ^ (t + s) / 2 ^ s = m * 2 ^ t := by
    rw [hsplit]; exact Nat.mul_div_cancel _ (Nat.two_pow_pos _)
  have hpos : 0 < 2 ^ s := Nat.two_pow_pos _
  simp only [hd, hrem, hquo, Nat.mul_zero, Nat.not_lt_zero, false_or]
  have : ¬ (0 = 2 ^ s ∧ m * 2 ^ t % 2 = 1) := by
    intro h; omega
  simp only [this, if_false, Nat.shiftLeft_eq]
  exact hsplit.symm

set_option exponentiation.threshold 2100 in
theorem ofRatio_exact (m e : Nat) (hm : m < 9007199254740992) (he : e ≤ 1074) :
    JSNumber.ofRatio false (m * 2 ^ e) 1 = .fin ⟨((m * 2 ^ e : Nat) : Int)⟩ := by
  have h53 : (9007199254740992 : Nat) = 2 ^ 53 := by norm_num
  have hlt : ∀ k, 53 + e ≤ k → m * 2 ^ e < 2 ^ k := by
    intro k hk
    have hm2 : m < 2 ^ 53 := by rw [← h53]; exact hm
    have h3 : m * 2 ^ e < 2 ^ 53 * 2 ^ e := Nat.mul_lt_mul_of_pos_right hm2 (Nat.two_pow_pos _)
    rw [← Nat.pow_add] at h3
    exact lt_of_lt_of_le h3 (Nat.pow_le_pow_right (by decide) hk)
  have h1 : (m * 2 ^ e / 1) >>> 2099 = 0 := by
    rw [Nat.div_one]
    exact (Nat.shiftRight_eq_div_pow _ _).trans (Nat.div_eq_of_lt (hlt 2099 (by omega)))
  have h2 : (m * 2 ^ e) >>> 2098 = 0 := by
    exact (Nat.shiftRight_eq_div_pow _ _).trans (Nat.div_eq_of_lt (hlt 2098 (by omega)))
  unfold JSNumber.ofRatio
  rw [if_neg (by rw [h1]; exact fun h => h rfl)]
  simp only [roundRatio_exact m e hm]
  rw [if_neg (by rw [h2]; exact fun h => h rfl)]
  simp

theorem ofUnits_scaled (m e : Nat) (hm : m < 9007199254740992) (he : e ≤ 1074) :
    JSNumber.ofUnits ((m : Int) * 2 ^ e) = .fin ⟨(m : Int) * 2 ^ e⟩ := by
  unfold JSNumber.ofUnits
  have hnn : ¬ ((m : Int) * 2 ^ e < 0) := by
    have : (0 : Int) ≤ (m : Int) * 2 ^ e := by positivity
    omega
  have habs : ((m : Int) * 2 ^ e).natAbs = m * 2 ^ e := by
    simp [Int.natAbs_mul, Int.natAbs_pow]
  rw [habs, decide_eq_false hnn, ofRatio_exact m e hm he]
  congr 2
  push_cast
  rfl

theorem ofUnits_exact (m : Nat) (hm : m < 9007199254740992) :
    JSNumber.ofUnits (F64.ofNat m).units = .fin (F64.ofNat m) :=
  ofUnits_scaled m 1074 hm (Nat.le_refl _)

/-- The sum of two whole numbers is exact while it stays below `2^53`. -/
theorem add_ofNat (a b : Nat) (h : a + b < 9007199254740992) :
    (JSNumber.fin (F64.ofNat a)).add (.fin (F64.ofNat b)) = .fin (F64.ofNat (a + b)) := by
  have : (F64.ofNat a).units + (F64.ofNat b).units = (F64.ofNat (a + b)).units := by
    unfold F64.ofNat
    generalize (2 : Int) ^ 1074 = K
    push_cast
    ring
  show JSNumber.ofUnits ((F64.ofNat a).units + (F64.ofNat b).units) = _
  rw [this]
  exact ofUnits_exact (a + b) h

/-- The whole number a distance or cost stands for, when it is one: a JSON
number without a fraction, or a non-empty string of decimal digits. -/
def wholeOf (v : Option JSValue) : Option Nat :=
  match v with
  | some (.num x) =>
    if 0 ≤ x.units ∧ x.units % 2 ^ 1074 = 0 then some (x.units / 2 ^ 1074).toNat else none
  | some (.str s) =>
    if s.toList ≠ [] ∧ s.toList.all Char.isDigit = true then some (natOfDigits s.toList)
    else none
  | _ => none

theorem isDigit_not_space (c : Char) (h : c.isDigit = true) : isJSWhiteSpace c = false := by
  simp only [Char.isDigit, Bool.and_eq_true, decide_eq_true_eq] at h
  have h1 : 48 ≤ c.toNat := by
    have := h.1
    simpa [Char.toNat] using this
  have h2 : c.toNat ≤ 57 := by
    have := h.2
    simpa [Char.toNat] using this
  simp only [isJSWhiteSpace, Bool.or_eq_false_iff, Bool.and_eq_false_iff, decide_eq_false_iff_not]
  omega

theorem parseFloatText_digits (s : String) (hne : s.toList ≠ [])
    (hd : s.toList.all Char.isDigit = true) :
    parseFloatText s = JSNumber.ofDecimal false (natOfDigits s.toList) 0 := by
  unfold parseFloatText
  cases hs : s.toList with
  | nil => exact absurd hs hne
  | cons c rest =>
    rw [hs] at hd
    have hall : ∀ x ∈ c :: rest, x.isDigit = true := by simpa using hd
    have hc : c.isDigit = true := hall c (List.mem_cons_self _ _)
    have hsp : isJSWhiteSpace c = false := isDigit_not_space c hc
    have hdrop : (c :: rest).dropWhile isJSWhiteSpace = c :: rest := by
      simp [List.dropWhile, hsp]
    rw [hdrop]
    have hminus : c ≠ '-' := by intro h; rw [h] at hc; exact absurd hc (by decide)
    have hplus : c ≠ '+' := by intro h; rw [h] at hc; exact absurd hc (by decide)
    have hI : c ≠ 'I' := by intro h; rw [h] at hc; exact absurd hc (by decide)
    have htake : (c :: rest).takeWhile Char.isDigit = c :: rest :=
      List.takeWhile_eq_self_iff.mpr hall
    have hdropd : (c :: rest).dropWhile Char.isDigit = [] :=
      List.dropWhile_eq_nil_iff.mpr hall
    have hlit : unsignedLiteral false (c :: rest)
        = JSNumber.ofDecimal false (natOfDigits (c :: rest)) 0 := by
      unfold unsignedLiteral
      have hinf : ¬ ((c :: rest).take 8 = "Infinity".toList) := by
        intro h
        have h0 : ((c :: rest).take 8).head? = ("Infinity".toList).head? := by rw [h]
        simp at h0
        exact hI h0
      simp only [hinf, if_false, htake, hdropd, List.isEmpty_cons, Bool.false_eq_true,
        exponentOf]
    split
    · rename_i cs heq
      exact absurd (List.cons.inj heq).1 hminus
    · rename_i cs heq
      exact absurd (List.cons.inj heq).1 hplus
    · exact hlit

theorem ofRatio_shift (n e : Nat) (hn : n < 9007199254740992) (he : e ≤ 1074) :
    JSNumber.ofRatio false ((n * 10 ^ 0) <<< e) 1 = .fin ⟨(n : Int) * 2 ^ e⟩ := by
  rw [Nat.pow_zero, Nat.mul_one, Nat.shiftLeft_eq, ofRatio_exact n e hn he]
  congr 2
  push_cast
  rfl

/-- The numeric value of a whole number below `2^53` is that number. -/
theorem numericValue_whole (v : Option JSValue) (n : Nat) (h : wholeOf v = some n)
    (hn : n < 9007199254740992) : numericValue v = .fin (F64.ofNat n) := by
  unfold wholeOf at h
  split at h
  · rename_i x
    split at h
    · rename_i hx
      simp only [Option.some.injEq] at h
      have hunits : x.units = (n : Int) * 2 ^ 1074 := by
        rw [← h, Int.toNat_of_nonneg (Int.ediv_nonneg hx.1 (by positivity))]
        exact (Int.ediv_mul_cancel (Int.dvd_of_emod_eq_zero hx.2)).symm
      have hx2 : x = F64.ofNat n := by
        cases x
        simp only [F64.ofNat, F64.mk.injEq]
        exact hunits
      simp only [numericValue, parseFloat, parseFloatValue, hx2]
    · simp at h
  · rename_i s
    split at h
    · rename_i hs
      simp only [Option.some.injEq] at h
      have hp := parseFloatText_digits s hs.1 hs.2
      rw [h] at hp
      have hval : JSNumber.ofDecimal false n 0 = .fin (F64.ofNat n) :=
        ofRatio_shift n 1074 hn (Nat.le_refl _)
      simp only [numericValue, parseFloat, parseFloatValue, hp, hval]
    · simp at h
  · simp at h

/-- The sum of the whole numbers the values stand for. -/
def wholeSum (vs : List (Option JSValue)) : Nat :=
  (vs.map (fun v => (wholeOf v).getD 0)).sum

theorem ofNat_zero : F64.ofNat 0 = ⟨0⟩ := by
  unfold F64.ofNat
  generalize (2 : Int) ^ 1074 = K
  simp

theorem foldl_add_whole (vs : List (Option JSValue)) (acc : Nat)
    (hw : ∀ v ∈ vs, (wholeOf v).isSome = true)
    (hsum : acc + wholeSum vs < 9007199254740992) :
    (vs.map numericValue).foldl JSNumber.add (.fin (F64.ofNat acc))
      = .fin (F64.ofNat (acc + wholeSum vs)) := by
  induction vs generalizing acc with
  | nil => simp [wholeSum]
  | cons v rest ih =>
    obtain ⟨n, hn⟩ := Option.isSome_iff_exists.mp (hw v (List.mem_cons_self _ _))
    have hsplit : wholeSum (v :: rest) = n + wholeSum rest := by
      simp [wholeSum, hn]
    rw [hsplit] at hsum ⊢
    simp only [List.map_cons, List.foldl_cons]
    rw [numericValue_whole v n hn (by omega), add_ofNat acc n (by omega)]
    rw [ih (acc + n) (fun x hx => hw x (List.mem_cons_of_mem _ hx)) (by omega)]
    congr 2
    omega

theorem wholeSum_perm (vs vs' : List (Option JSValue)) (h : vs.Perm vs') :
    wholeSum vs = wholeSum vs' :=
  (h.map _).sum_eq

theorem calculateTotalDistance_planOf (entries : List JSValue)
    (hnn : ∀ e ∈ entries, e ≠ .null) :
    calculateTotalDistance (planOf entries)
      = .ok (sumOfValues (entries.map (fun day => numericValue (member day "distance")))) := by
  have hr : readPath (some (planOf entries)) ["execution", "dailyPlan"]
      = .ok (some (.arr entries)) := by
    simp [planOf, readPath, getMember, platformMember, OBJECT_PROTOTYPE_KEYS, member, lookupProp]
  unfold calculateTotalDistance
  simp only [planOf, truthy, Bool.not_true, Bool.false_eq_true, if_false, truthy?]
  rw [show JSValue.obj [("execution", .obj [("dailyPlan", .arr entries)])] = planOf entries
    from rfl, hr]
  exact addDistances_eq _ entries hnn

/-- On whole distances the total is their sum. -/
theorem calculateTotalDistance_whole (entries : List JSValue)
    (hw : ∀ e ∈ entries, e ≠ .null ∧ (wholeOf (member e "distance")).isSome = true)
    (hsum : wholeSum (entries.map (fun e => member e "distance")) < 9007199254740992) :
    calculateTotalDistance (planOf entries)
      = .ok (.fin (F64.ofNat (wholeSum (entries.map (fun e => member e "distance"))))) := by
  rw [calculateTotalDistance_planOf entries (fun e he => (hw e he).1)]
  have := foldl_add_whole (entries.map (fun e => member e "distance")) 0
    (by
      intro v hv
      obtain ⟨e, he, rfl⟩ := List.mem_map.mp hv
      exact (hw e he).2)
    (by omega)
  rw [Nat.zero_add, ofNat_zero, List.map_map] at this
  unfold sumOfValues
  rw [← this]
  rfl

/-- The names of the five costing fields, in the order `calculateTotalCost`
adds them. -/
def COSTING_FIELDS : List String := ["travel", "accommodation", "food", "permits", "other"]

/-- A document whose five costing fields hold the values `vs`, in order. -/
def costingOf (vs : List JSValue) : JSValue :=
  .obj [("administration", .obj [("costing", .obj (COSTING_FIELDS.zip vs))])]

/-- On whole costs the total is their sum. -/
theorem calculateTotalCost_whole (t a f p o : JSValue)
    (hw : ∀ v ∈ [t, a, f, p, o], (wholeOf (some v)).isSome = true)
    (hsum : wholeSum [some t, some a, some f, some p, some o] < 9007199254740992) :
    calculateTotalCost (costingOf [t, a, f, p, o])
      = .ok (.fin (F64.ofNat (wholeSum [some t, some a, some f, some p, some o]))) := by
  obtain ⟨n, hn⟩ := Option.isSome_iff_exists.mp (hw t (by simp))
  have hsplit : wholeSum [some t, some a, some f, some p, some o]
      = n + wholeSum [some a, some f, some p, some o] := by
    simp [wholeSum, hn]
  have := foldl_add_whole [some a, some f, some p, some o] n
    (by
      intro v hv
      simp only [List.mem_cons, List.mem_singleton, List.not_mem_nil, or_false] at hv
      rcases hv with rfl | rfl | rfl | rfl
      · exact hw a (by simp)
      · exact hw f (by simp)
      · exact hw p (by simp)
      · exact hw o (by simp))
    (by omega)
  rw [hsplit, ← this, ← numericValue_whole (some t) n hn (by omega)]
  simp [calculateTotalCost, costingOf, COSTING_FIELDS, readPath, getMember, platformMember, OBJECT_PROTOTYPE_KEYS, member, lookupProp,
    truthy, truthy?, orZero_eq_numericValue]

/-- A daily-plan entry with the distance `d`. -/
def dayWith (d : JSValue) : JSValue := .obj [("distance", d)]

/-- Claim C6 as stated fails: the distances 0.1, 0.2, 0.3 add up to
0.6000000000000001 and, in the order 0.3, 0.2, 0.1, to 0.6; and the same
values in the costing fields give the same two totals. -/
theorem totals_depend_on_order :
    [dayWith (.str "0.1"), dayWith (.str "0.2"), dayWith (.str "0.3")].Perm
      [dayWith (.str "0.3"), dayWith (.str "0.2"), dayWith (.str "0.1")] ∧
    calculateTotalDistance
        (planOf [dayWith (.str "0.1"), dayWith (.str "0.2"), dayWith (.str "0.3")])
      = .ok (JSNumber.ofDecimal false 6000000000000001 (-16)) ∧
    calculateTotalDistance
        (planOf [dayWith (.str "0.3"), dayWith (.str "0.2"), dayWith (.str "0.1")])
      = .ok (JSNumber.ofDecimal false 6 (-1)) ∧
    JSNumber.ofDecimal false 6000000000000001 (-16) ≠ JSNumber.ofDecimal false 6 (-1) ∧
    calculateTotalCost (costingOf [.str "0.1", .str "0.2", .str "0.3", .str "0", .str "0"])
      = .ok (JSNumber.ofDecimal false 6000000000000001 (-16)) ∧
    calculateTotalCost (costingOf [.str "0.3", .str "0.2", .str "0.1", .str "0", .str "0"])
      = .ok (JSNumber.ofDecimal false 6 (-1)) :=
  ⟨(List.reverse_perm _).symm, by decide, by decide, by decide, by decide, by decide⟩

/-- Claim C6, for whole numbers: when every distance of the daily plan is a
whole number (a JSON number without a fraction or a string of digits) and the
sum stays below `2^53`, every permutation of the entries has the same total
distance; and when the five costing values are whole numbers with a sum below
`2^53`, permuting them among the fields leaves the total cost the same. -/
theorem totals_order_independent (entries entries' : List JSValue)
    (t a f p o t' a' f' p' o' : JSValue)
    (hperm : entries.Perm entries')
    (hw : ∀ e ∈ entries, e ≠ .null ∧ (wholeOf (member e "distance")).isSome = true)
    (hsum : wholeSum (entries.map (fun e => member e "distance")) < 9007199254740992)
    (hcperm : [t, a, f, p, o].Perm [t', a', f', p', o'])
    (hcw : ∀ v ∈ [t, a, f, p, o], (wholeOf (some v)).isSome = true)
    (hcsum : wholeSum [some t, some a, some f, some p, some o] < 9007199254740992) :
    calculateTotalDistance (planOf entries) = calculateTotalDistance (planOf entries') ∧
    calculateTotalCost (costingOf [t, a, f, p, o])
      = calculateTotalCost (costingOf [t', a', f', p', o']) := by
  have hs : wholeSum (entries.map (fun e => member e "distance"))
      = wholeSum (entries'.map (fun e => member e "distance")) :=
    wholeSum_perm _ _ (hperm.map _)
  have hcs : wholeSum [some t, some a, some f, some p, some o]
      = wholeSum [some t', some a', some f', some p', some o'] :=
    wholeSum_perm _ _ (hcperm.map some)
  constructor
  · rw [calculateTotalDistance_whole entries hw hsum,
      calculateTotalDistance_whole entries' (fun e he => hw e (hperm.mem_iff.mpr he))
        (by rw [← hs]; exact hsum), hs]
  · rw [calculateTotalCost_whole t a f p o hcw hcsum,
      calculateTotalCost_whole t' a' f' p' o' (fun v hv => hcw v (hcperm.mem_iff.mpr hv))
        (by rw [← hcs]; exact hcsum), hcs]

theorem totals_order_independent_witness :
    calculateTotalDistance (planOf [dayWith (.str "3"), dayWith (.str "4"), dayWith (.str "5")])
      = calculateTotalDistance
          (planOf [dayWith (.str "5"), dayWith (.str "4"), dayWith (.str "3")]) ∧
    calculateTotalCost (costingOf [.str "10", .str "20", .str "30", .str "0", .str "5"])
      = calculateTotalCost (costingOf [.str "5", .str "0", .str "30", .str "20", .str "10"]) :=
  totals_order_independent _ _ _ _ _ _ _ _ _ _ _ _
    (List.reverse_perm [dayWith (.str "3"), dayWith (.str "4"), dayWith (.str "5")]).symm
    (by decide) (by decide)
    (List.reverse_perm [JSValue.str "10", .str "20", .str "30", .str "0", .str "5"]).symm
    (by decide) (by decide)

/-! ## The mission summary -/

theorem allOk_getElem {α : Type} (rs : List (Except JSError α)) (xs : List α)
    (h : allOk rs = .ok xs) :
    xs.length = rs.length ∧
      ∀ (i : Nat) (r : Except JSError α), rs[i]? = some r →
        ∃ x, r = Except.ok x ∧ xs[i]? = some x := by
  induction rs generalizing xs with
  | nil =>
    simp only [allOk, Except.ok.injEq] at h
    subst h
    exact ⟨rfl, fun i r hr => by simp at hr⟩
  | cons r0 rest ih =>
    cases r0 with
    | error e => simp [allOk] at h
    | ok x0 =>
      simp only [allOk] at h
      cases hrest : allOk rest with
      | error e => rw [hrest] at h; simp at h
      | ok ys =>
        rw [hrest] at h
        simp only [Except.ok.injEq] at h
        subst h
        obtain ⟨hl, hi⟩ := ih ys hrest
        refine ⟨by simp [hl], fun i r hr => ?_⟩
        cases i with
        | zero =>
          simp only [List.getElem?_cons_zero, Option.some.injEq] at hr
          exact ⟨x0, hr.symm, by simp⟩
        | succ j =>
          simp only [List.getElem?_cons_succ] at hr
          obtain ⟨x, hx, hxs⟩ := hi j r hr
          exact ⟨x, hx, by simpa using hxs⟩

theorem joinWith_head (sep x : String) (rest : List String) (hx : x.data ≠ []) :
    (joinWith sep (x :: rest)).data.head? = x.data.head? := by
  cases rest with
  | nil => rfl
  | cons y ys =>
    simp only [joinWith, String.data_append]
    cases hd : x.data with
    | nil => exact absurd hd hx
    | cons c cs => rfl

theorem bullets_ne_placeholder (part : String) (rest : List String) :
    joinWith "\n" (("â€¢ " ++ part) :: rest) ≠ MISSION_PLACEHOLDER := by
  intro h
  have h1 := joinWith_head "\n" ("â€¢ " ++ part) rest (by simp [String.data_append])
  rw [h] at h1
  simp [String.data_append, MISSION_PLACEHOLDER] at h1

/-- The fields the mission summary is made from, as the form stores them: a
text each, a list of texts for the terrain types; the group size is whatever
the document holds. -/
structure MissionFields where
  tripType : String
  startDate : String
  endDate : String
  tripName : String
  travelType : String
  groupSize : Option JSValue
  experienceLevel : String
  season : String
  terrainTypes : List String
  trailType : String
  vegetation : String

/-- The document holds the fields of the mission summary with the given
values. -/
def HoldsMissionFields (state : JSValue) (f : MissionFields) : Prop :=
  ∃ ps tp sp se gp, state = .obj ps ∧
    lookupProp ps "trip" = some (.obj tp) ∧ lookupProp ps "situation" = some (.obj sp) ∧
    lookupProp ps "season" = some (.obj se) ∧ lookupProp ps "ground" = some (.obj gp) ∧
    lookupProp tp "tripType" = some (.str f.tripType) ∧
    lookupProp tp "startDate" = some (.str f.startDate) ∧
    lookupProp tp "endDate" = some (.str f.endDate) ∧
    lookupProp tp "tripName" = some (.str f.tripName) ∧
    lookupProp sp "travelType" = some (.str f.travelType) ∧
    lookupProp sp "groupSize" = f.groupSize ∧
    lookupProp sp "experienceLevel" = some (.str f.experienceLevel) ∧
    lookupProp se "season" = some (.str f.season) ∧
    lookupProp gp "terrainTypes" = some (.arr (f.terrainTypes.map JSValue.str)) ∧
    lookupProp gp "trailType" = some (.str f.trailType) ∧
    lookupProp gp "vegetation" = some (.str f.vegetation)

/-- A fragment that is there only when its field is set. -/
def fragmentWhen (set : Bool) (text : String) : Option String :=
  if set then some text else none

/-- The label of a value in a table of labels, the value itself when the
table has none. -/
def labelText (labels : List (String × String)) (v : String) : String :=
  (labels.lookup v).getD v

/-- The nine fragments in the words of the claim: in the fixed order trip
type, date range, trip name, travel type, experience level, season, terrain,
trail type, vegetation, each there only when its field is set (the date range
when both dates are set and the trip has at least one day, `days` being its
length in days; the terrain when a terrain type is selected). -/
def fragmentsAsStated (host : Host) (f : MissionFields) (days : Option Int) :
    List (Option String) :=
  [fragmentWhen (decide (f.tripType ≠ ""))
      (if f.tripType = "dayhike" then "Day Hike" else "Backpacking Trip"),
   fragmentWhen (decide (f.startDate ≠ "") && decide (f.endDate ≠ "") &&
        decide (∃ d, days = some d ∧ d > 0))
      (if f.tripType = "dayhike" then "Date: " ++ host.formatDate (.str f.startDate)
       else natText (days.getD 0).toNat ++ " day" ++ (if days = some 1 then "" else "s")
         ++ " (" ++ host.formatDate (.str f.startDate) ++ " - "
         ++ host.formatDate (.str f.endDate) ++ ")"),
   fragmentWhen (decide (f.tripName ≠ "")) ("Trip: " ++ f.tripName),
   fragmentWhen (decide (f.travelType ≠ ""))
      (if f.travelType = "solo" then "Solo trip"
       else if f.travelType = "group" ∧ truthy? f.groupSize = true then
         "Group trip (" ++ toText host f.groupSize ++ " people)"
       else "Group trip"),
   fragmentWhen (decide (f.experienceLevel ≠ "")) (labelText LEVEL_LABELS f.experienceLevel),
   fragmentWhen (decide (f.season ≠ "")) (labelText SEASON_LABELS f.season),
   fragmentWhen (decide (f.terrainTypes ≠ []))
      ("Terrain: " ++ joinWith ", " (f.terrainTypes.map (labelText TERRAIN_LABELS))),
   fragmentWhen (decide (f.trailType ≠ "")) (labelText TRAIL_LABELS f.trailType),
   fragmentWhen (decide (f.vegetation ≠ "")) (labelText VEGETATION_LABELS f.vegetation)]

theorem labelOr_str (host : Host) (labels : List (String × String)) (v : String)
    (hv : v ∉ OBJECT_PROTOTYPE_KEYS) :
    labelOr host labels (.str v) = .ok (.str (labelText labels v)) := by
  unfold labelOr labelText
  simp only [toText]
  cases labels.lookup v with
  | none => simp [hv]
  | some label => simp

theorem labelFragment_str (host : Host) (labels : List (String × String))
    (branch key : String) (state : JSValue) (v : String)
    (hr : readPath (some state) [branch, key] = .ok (some (.str v)))
    (hv : v ∉ OBJECT_PROTOTYPE_KEYS) :
    labelFragment host labels branch key state
      = .ok (fragmentWhen (decide (v ≠ "")) (labelText labels v)) := by
  unfold labelFragment fragmentWhen
  rw [hr]
  by_cases h : v = ""
  · simp [truthy, h]
  · simp [truthy, h, labelOr_str host labels v hv, toText]

theorem allOk_labels (host : Host) (labels : List (String × String)) (vs : List String)
    (hvs : ∀ v ∈ vs, v ∉ OBJECT_PROTOTYPE_KEYS) :
    allOk ((vs.map JSValue.str).map (labelOr host labels))
      = .ok (vs.map (fun v => JSValue.str (labelText labels v))) := by
  induction vs with
  | nil => rfl
  | cons v rest ih =>
    have h1 := labelOr_str host labels v (hvs v (List.mem_cons_self _ _))
    have h2 := ih (fun x hx => hvs x (List.mem_cons_of_mem _ hx))
    simp only [List.map_cons, allOk, h1, h2]

theorem terrainFragment_strs (host : Host) (state : JSValue) (vs : List String)
    (hr : readPath (some state) ["ground", "terrainTypes"]
      = .ok (some (.arr (vs.map JSValue.str))))
    (hvs : ∀ v ∈ vs, v ∉ OBJECT_PROTOTYPE_KEYS) :
    terrainFragment host state
      = .ok (fragmentWhen (decide (vs ≠ []))
          ("Terrain: " ++ joinWith ", " (vs.map (labelText TERRAIN_LABELS)))) := by
  unfold terrainFragment fragmentWhen
  rw [hr]
  cases vs with
  | nil => rfl
  | cons v rest =>
    have h := allOk_labels host TERRAIN_LABELS (v :: rest) hvs
    simp only [List.map_cons] at h ⊢
    rw [h]
    cases rest with
    | nil => simp [toText, joinWith]
    | cons v2 rest2 =>
      simp [joinText, toText, List.map_map, Function.comp_def]

theorem filterMap_id_eq_nil (fragments : List (Option String)) :
    fragments.filterMap id = [] ↔ ∀ f ∈ fragments, f = none := by
  induction fragments with
  | nil => simp
  | cons f rest ih =>
    cases f with
    | none => simp [ih]
    | some s => simp

/-- On a document that holds the fields the nine blocks of
`generateMissionSummary` push the fragments of the claim. -/
theorem missionFragments_eq (host : Host) (state : JSValue) (f : MissionFields)
    (days : Option Int) (hf : HoldsMissionFields state f)
    (hdays : f.startDate ≠ "" → f.endDate ≠ "" →
      tripDays host (.str f.startDate) (.str f.endDate) = .ok days)
    (hkeys : ∀ v ∈ f.experienceLevel :: f.season :: f.trailType :: f.vegetation ::
      f.terrainTypes, v ∉ OBJECT_PROTOTYPE_KEYS) :
    missionFragments host state = .ok (fragmentsAsStated host f days) := by
  obtain ⟨ps, tp, sp, se, gp, rfl, hT, hS, hSe, hG, h1, h2, h3, h4, h5, h6, h7, h8, h9, h10,
    h11⟩ := hf
  have rT : ∀ k v, k ∉ OBJECT_PROTOTYPE_KEYS → lookupProp tp k = v →
      readPath (some (.obj ps)) ["trip", k] = .ok v := by
    intro k v hk hv
    simp [readPath, getMember_own ps "trip" _ hT, getMember_obj tp k hk, hv]
  have rS : ∀ k v, k ∉ OBJECT_PROTOTYPE_KEYS → lookupProp sp k = v →
      readPath (some (.obj ps)) ["situation", k] = .ok v := by
    intro k v hk hv
    simp [readPath, getMember_own ps "situation" _ hS, getMember_obj sp k hk, hv]
  have rSe : ∀ k v, k ∉ OBJECT_PROTOTYPE_KEYS → lookupProp se k = v →
      readPath (some (.obj ps)) ["season", k] = .ok v := by
    intro k v hk hv
    simp [readPath, getMember_own ps "season" _ hSe, getMember_obj se k hk, hv]
  have rG : ∀ k v, k ∉ OBJECT_PROTOTYPE_KEYS → lookupProp gp k = v →
      readPath (some (.obj ps)) ["ground", k] = .ok v := by
    intro k v hk hv
    simp [readPath, getMember_own ps "ground" _ hG, getMember_obj gp k hk, hv]
  have e0 : tripTypeFragment (.obj ps) = .ok (fragmentWhen (decide (f.tripType ≠ ""))
      (if f.tripType = "dayhike" then "Day Hike" else "Backpacking Trip")) := by
    unfold tripTypeFragment fragmentWhen
    rw [rT _ _ (by decide) h1]
    by_cases h : f.tripType = ""
    · simp [truthy?, truthy, h]
    · simp [truthy?, truthy, h]
  have e1 : dateFragment host (.obj ps)
      = .ok (fragmentWhen (decide (f.startDate ≠ "") && decide (f.endDate ≠ "") &&
          decide (∃ d, days = some d ∧ d > 0))
        (if f.tripType = "dayhike" then "Date: " ++ host.formatDate (.str f.startDate)
         else natText (days.getD 0).toNat ++ " day" ++ (if days = some 1 then "" else "s")
           ++ " (" ++ host.formatDate (.str f.startDate) ++ " - "
           ++ host.formatDate (.str f.endDate) ++ ")")) := by
    unfold dateFragment fragmentWhen
    rw [rT _ _ (by decide) h2, rT _ _ (by decide) h3, rT _ _ (by decide) h1]
    by_cases hs : f.startDate = ""
    · simp [truthy, hs]
    · by_cases he : f.endDate = ""
      · simp [truthy, hs, he]
      · have hd := hdays hs he
        cases days with
        | none => simp [truthy, hs, he, hd]
        | some d =>
          by_cases hpos : d > 0
          · by_cases ht : f.tripType = "dayhike"
            · simp [truthy, hs, he, hd, hpos, ht]
            · simp [truthy, hs, he, hd, hpos, ht]
          · simp [truthy, hs, he, hd, hpos]
  have e2 : tripNameFragment host (.obj ps)
      = .ok (fragmentWhen (decide (f.tripName ≠ "")) ("Trip: " ++ f.tripName)) := by
    unfold tripNameFragment fragmentWhen
    rw [rT _ _ (by decide) h4]
    by_cases h : f.tripName = ""
    · simp [truthy?, truthy, h]
    · simp [truthy?, truthy, h, toText]
  have e3 : travelTypeFragment host (.obj ps)
      = .ok (fragmentWhen (decide (f.travelType ≠ ""))
        (if f.travelType = "solo" then "Solo trip"
         else if f.travelType = "group" ∧ truthy? f.groupSize = true then
           "Group trip (" ++ toText host f.groupSize ++ " people)"
         else "Group trip")) := by
    unfold travelTypeFragment fragmentWhen
    rw [rS _ _ (by decide) h5, rS _ _ (by decide) h6]
    have ht : truthy? (some (.str f.travelType)) = decide (f.travelType ≠ "") := by
      simp [truthy?, truthy]
    simp only [ht]
    by_cases h : f.travelType = ""
    · simp [h]
    · by_cases hsolo : f.travelType = "solo"
      · simp [hsolo]
      · by_cases hgroup : f.travelType = "group"
        · by_cases hsize : truthy? f.groupSize = true
          · simp [hgroup, hsize]
          · simp [hgroup, hsize]
        · simp [h, hsolo, hgroup]
  have k1 := hkeys f.experienceLevel (by simp)
  have k2 := hkeys f.season (by simp)
  have k3 := hkeys f.trailType (by simp)
  have k4 := hkeys f.vegetation (by simp)
  have k5 : ∀ v ∈ f.terrainTypes, v ∉ OBJECT_PROTOTYPE_KEYS :=
    fun v hv => hkeys v (by simp [hv])
  have e4 := labelFragment_str host LEVEL_LABELS "situation" "experienceLevel" (.obj ps) _
    (rS _ _ (by decide) h7) k1
  have e5 := labelFragment_str host SEASON_LABELS "season" "season" (.obj ps) _
    (rSe _ _ (by decide) h8) k2
  have e6 := terrainFragment_strs host (.obj ps) _ (rG _ _ (by decide) h9) k5
  have e7 := labelFragment_str host TRAIL_LABELS "ground" "trailType" (.obj ps) _
    (rG _ _ (by decide) h10) k3
  have e8 := labelFragment_str host VEGETATION_LABELS "ground" "vegetation" (.obj ps) _
    (rG _ _ (by decide) h11) k4
  unfold missionFragments fragmentsAsStated
  rw [e0, e1, e2, e3, e4, e5, e6, e7, e8]
  rfl

/-- Claim C25. On a document that holds the fields of the summary as texts
(and the terrain types as a list of texts; no label field is one of the names
every object inherits), `generateMissionSummary` returns the bullet lines of
the fragments that are there, in the fixed order trip type, date range, trip
name, travel type, experience level, season, terrain, trail type, vegetation;
a fragment is there exactly when its field is set; and the result is the
placeholder message exactly when no fragment is there. -/
theorem generateMissionSummary_spec (host : Host) (state : JSValue) (f : MissionFields)
    (days : Option Int) (hf : HoldsMissionFields state f)
    (hdays : f.startDate ≠ "" → f.endDate ≠ "" →
      tripDays host (.str f.startDate) (.str f.endDate) = .ok days)
    (hkeys : ∀ v ∈ f.experienceLevel :: f.season :: f.trailType :: f.vegetation ::
      f.terrainTypes, v ∉ OBJECT_PROTOTYPE_KEYS) :
    generateMissionSummary host state
      = .ok (if (fragmentsAsStated host f days).filterMap id = [] then MISSION_PLACEHOLDER
             else joinWith "\n" (((fragmentsAsStated host f days).filterMap id).map
               (fun part => "â€¢ " ++ part))) ∧
    (generateMissionSummary host state = .ok MISSION_PLACEHOLDER ↔
      f.tripType = "" ∧
      (f.startDate = "" ∨ f.endDate = "" ∨ ¬ ∃ d, days = some d ∧ d > 0) ∧
      f.tripName = "" ∧ f.travelType = "" ∧ f.experienceLevel = "" ∧ f.season = "" ∧
      f.terrainTypes = [] ∧ f.trailType = "" ∧ f.vegetation = "") := by
  have hfrag := missionFragments_eq host state f days hf hdays hkeys
  have hstate : truthy state = true := by
    obtain ⟨ps, _, _, _, _, rfl, _⟩ := hf
    rfl
  have hsum : generateMissionSummary host state
      = .ok (if (fragmentsAsStated host f days).filterMap id = [] then MISSION_PLACEHOLDER
             else joinWith "\n" (((fragmentsAsStated host f days).filterMap id).map
               (fun part => "â€¢ " ++ part))) := by
    unfold generateMissionSummary
    simp only [hstate, Bool.not_true, Bool.false_eq_true, if_false, hfrag, List.length_eq_zero]
    split <;> rfl
  refine ⟨hsum, ?_⟩
  have hnone : (fragmentsAsStated host f days).filterMap id = [] ↔
      f.tripType = "" ∧
      (f.startDate = "" ∨ f.endDate = "" ∨ ¬ ∃ d, days = some d ∧ d > 0) ∧
      f.tripName = "" ∧ f.travelType = "" ∧ f.experienceLevel = "" ∧ f.season = "" ∧
      f.terrainTypes = [] ∧ f.trailType = "" ∧ f.vegetation = "" := by
    rw [filterMap_id_eq_nil]
    simp only [fragmentsAsStated, fragmentWhen, List.mem_cons, List.mem_singleton,
      List.not_mem_nil, or_false, forall_eq_or_imp, forall_eq, ite_eq_right_iff,
      Bool.and_eq_true, decide_eq_true_eq, reduceCtorEq, imp_false, not_and, ne_eq,
      Decidable.not_not]
    constructor
    · rintro ⟨a, b, c, d, e, g, h, i, j⟩
      refine ⟨a, ?_, c, d, e, g, h, i, j⟩
      by_cases hs : f.startDate = ""
      · exact Or.inl hs
      · by_cases he : f.endDate = ""
        · exact Or.inr (Or.inl he)
        · exact Or.inr (Or.inr (b ⟨hs, he⟩))
    · rintro ⟨a, b, c, d, e, g, h, i, j⟩
      refine ⟨a, ?_, c, d, e, g, h, i, j⟩
      intro hse hd
      rcases b with b | b | b
      · exact hse.1 b
      · exact hse.2 b
      · exact b hd
  rw [hsum, ← hnone]
  constructor
  · intro h
    by_contra hne
    simp only [hne, if_false, Except.ok.injEq] at h
    cases hparts : (fragmentsAsStated host f days).filterMap id with
    | nil => exact hne hparts
    | cons part rest =>
      rw [hparts] at h
      exact bullets_ne_placeholder part _ h
  · intro h
    simp [h]

/-- A document with every field of the summary set: a group of four on a
three-day backpacking trip. -/
def summaryDoc : JSValue :=
  .obj [("trip", .obj [("tripType", .str "backpacking"), ("startDate", .str "2024-06-01"),
          ("endDate", .str "2024-06-03"), ("tripName", .str "Routeburn")]),
        ("situation", .obj [("travelType", .str "group"), ("groupSize", .str "4"),
          ("experienceLevel", .str "intermediate")]),
        ("season", .obj [("season", .str "winter")]),
        ("ground", .obj [("terrainTypes", .arr [.str "alpine", .str "hills"]),
          ("trailType", .str "partial"), ("vegetation", .str "bush")])]

/-- The fields of `summaryDoc`. -/
def summaryFields : MissionFields where
  tripType := "backpacking"
  startDate := "2024-06-01"
  endDate := "2024-06-03"
  tripName := "Routeburn"
  travelType := "group"
  groupSize := some (.str "4")
  experienceLevel := "intermediate"
  season := "winter"
  terrainTypes := ["alpine", "hills"]
  trailType := "partial"
  vegetation := "bush"

set_option maxRecDepth 8000 in
/-- Claim C25 on a document with every field set: all nine fragments are
there, in the order of the claim. -/
theorem generateMissionSummary_spec_witness :
    fragmentsAsStated (englishHost "t") summaryFields (some 3)
      = [some "Backpacking Trip", some "3 days (Jun 1, 2024 - Jun 3, 2024)",
         some "Trip: Routeburn", some "Group trip (4 people)",
         some "Intermediate experience level", some "Winter conditions",
         some "Terrain: alpine terrain, hills", some "Partial trail", some "Bush/forest"] ∧
    generateMissionSummary (englishHost "t") summaryDoc
      = .ok (if (fragmentsAsStated (englishHost "t") summaryFields (some 3)).filterMap id = []
          then MISSION_PLACEHOLDER
          else joinWith "\n" (((fragmentsAsStated (englishHost "t") summaryFields
            (some 3)).filterMap id).map (fun part => "â€¢ " ++ part))) ∧
    generateMissionSummary (englishHost "t") summaryDoc
      = .ok (joinWith "\n" ["â€¢ Backpacking Trip", "â€¢ 3 days (Jun 1, 2024 - Jun 3, 2024)",
          "â€¢ Trip: Routeburn", "â€¢ Group trip (4 people)", "â€¢ Intermediate experience level",
          "â€¢ Winter conditions", "â€¢ Terrain: alpine terrain, hills", "â€¢ Partial trail",
          "â€¢ Bush/forest"]) :=
  ⟨by decide,
   (generateMissionSummary_spec (englishHost "t") summaryDoc summaryFields (some 3)
      ⟨_, _, _, _, _, rfl, rfl, rfl, rfl, rfl, rfl, rfl, rfl, rfl, rfl, rfl, rfl, rfl, rfl, rfl,
        rfl⟩
      (fun _ _ => by decide) (by decide)).1,
   by decide⟩

set_option maxRecDepth 8000 in
/-- The summary of a document with no field set is the placeholder message. -/
theorem generateMissionSummary_placeholder :
    generateMissionSummary (englishHost "t")
      (.obj [("trip", .obj [("tripType", .str ""), ("startDate", .str ""),
          ("endDate", .str ""), ("tripName", .str "")]),
        ("situation", .obj [("travelType", .str ""), ("experienceLevel", .str "")]),
        ("season", .obj [("season", .str "")]),
        ("ground", .obj [("terrainTypes", .arr []), ("trailType", .str ""),
          ("vegetation", .str "")])])
      = .ok MISSION_PLACEHOLDER := by
  decide

/-- A document with every section in place and no field filled in. -/
def blankDoc : JSValue :=
  .obj [("trip", .obj []), ("ground", .obj []), ("situation", .obj []), ("season", .obj []),
        ("mission", .obj []), ("execution", .obj []),
        ("administration", .obj [("travel", .obj []), ("accommodation", .obj []),
          ("gear", .obj []), ("foodFuel", .obj []), ("permits", .obj []),
          ("navigation", .obj []), ("firstAid", .obj []), ("costing", .obj [])]),
        ("commandControl", .obj [])]

/-- The lines of the summary of the blank document, before the footer. -/
def blankBody : List String :=
  [DOUBLE_RULE, "           GSMEAC BACKPACKING PLAN", DOUBLE_RULE, "",
   RULE, "", "G - GROUND", RULE, "",
   "", RULE, "", "S - SITUATION & SEASON", RULE, "",
   "Situation:", "", "Season:",
   "", RULE, "", "M - MISSION", RULE, "",
   "", RULE, "", "E - EXECUTION", RULE, "",
   RULE, "", "A - ADMINISTRATION", RULE, "",
   "Travel & Transport:", "", "Accommodation:", "", "Gear & Equipment:", "",
   "Food, Water & Fuel:", "  Filtration Required: No", "",
   "Permits & Regulations:", "  Required: No", "",
   "Navigation:", "  Map & Compass: No", "",
   "First Aid & Emergency:", "  PLB Carried: No", "", "Costing:", "",
   RULE, "", "C - COMMAND & CONTROL", RULE, "",
   "Group Briefed: No"]

set_option maxRecDepth 8000 in
theorem summaryBody_blank :
    summaryBody (quietHost "t") blankDoc = .ok blankBody := by
  decide

set_option maxRecDepth 8000 in
/-- Claim C27 as stated fails on a document with no field filled in: the text
is made of the lines below, and none of them gives a duration, a total
distance or a total cost. -/
theorem summary_without_totals :
    generateTextSummary (quietHost "t") blankDoc
      = .ok (joinWith "\n" (blankBody ++ summaryFooter "t")) ∧
    ∀ line ∈ blankBody ++ summaryFooter "t",
      startsWith line "DURATION" = false ∧ startsWith line "TOTAL DISTANCE" = false ∧
      startsWith line "  TOTAL" = false := by
  refine ⟨?_, by decide⟩
  unfold generateTextSummary
  rw [summaryBody_blank]
  rfl

theorem summaryBody_clock (host : Host) (now nowLocale : String) (state : JSValue) :
    summaryBody { host with now := now, nowLocale := nowLocale } state = summaryBody host state :=
  rfl

theorem joinWith_append_cons (sep : String) (a : List String) (x : String) (b : List String)
    (ha : a ≠ []) :
    joinWith sep (a ++ x :: b) = joinWith sep a ++ sep ++ joinWith sep (x :: b) := by
  induction a with
  | nil => exact absurd rfl ha
  | cons y rest ih =>
    cases rest with
    | nil => rfl
    | cons z zs =>
      have := ih (by simp)
      simp only [List.cons_append] at this ⊢
      simp only [joinWith, this, String.append_assoc]

theorem string_append_cancel (a b x y : String) (h : a ++ x ++ b = a ++ y ++ b) : x = y := by
  have h1 := congrArg String.data h
  simp only [String.data_append, List.append_assoc] at h1
  have h2 := List.append_cancel_left h1
  have h3 := List.append_cancel_right h2
  exact String.ext h3

/-- Two summaries of the same body are the same text only when the time
text of the footer is the same. -/
theorem footer_text_injective (body : List String) (g1 g2 : String)
    (h : joinWith "\n" (body ++ summaryFooter g1) = joinWith "\n" (body ++ summaryFooter g2)) :
    g1 = g2 := by
  have hsplit : ∀ g, joinWith "\n" (body ++ summaryFooter g)
      = (joinWith "\n" (body ++ ["", DOUBLE_RULE, ""]) ++ "\n" ++ "Generated: ") ++ g
        ++ ("\n" ++ joinWith "\n" ["Generated with GSMEAC Backpacking Planner", DOUBLE_RULE]) := by
    intro g
    have e : body ++ summaryFooter g
        = (body ++ ["", DOUBLE_RULE, ""]) ++ ("Generated: " ++ g) ::
            ["Generated with GSMEAC Backpacking Planner", DOUBLE_RULE] := by
      simp [summaryFooter]
    rw [e, joinWith_append_cons _ _ _ _ (by simp)]
    simp only [joinWith, String.append_assoc]
  rw [hsplit g1, hsplit g2] at h
  exact string_append_cancel _ _ _ _ h

/-- Claim C26 as stated fails: two calls on the same document whose clock
readings differ return different texts. -/
theorem summary_changes_with_clock :
    generateTextSummary (quietHost "t") blankDoc ≠ generateTextSummary (quietHost "u") blankDoc := by
  intro h
  have hu : summaryBody (quietHost "u") blankDoc = .ok blankBody :=
    (summaryBody_clock (quietHost "t") "u" "u" blankDoc).trans summaryBody_blank
  unfold generateTextSummary at h
  rw [summaryBody_blank, hu] at h
  simp only [blankDoc, truthy, Bool.not_true, Bool.false_eq_true, if_false,
    Except.ok.injEq] at h
  have := footer_text_injective blankBody "t" "u" h
  exact absurd this (by decide)

theorem allOk_mem {α : Type} (rs : List (Except JSError α)) (xs : List α)
    (h : allOk rs = .ok xs) (r : Except JSError α) (hr : r ∈ rs) :
    ∃ x, r = .ok x ∧ x ∈ xs := by
  obtain ⟨i, hlt, hi⟩ := List.getElem_of_mem hr
  obtain ⟨x, hx, hxs⟩ := (allOk_getElem rs xs h).2 i r (by rw [List.getElem?_eq_getElem hlt, hi])
  exact ⟨x, hx, List.getElem?_mem hxs⟩

theorem concatOk_mem (blocks : List (Except JSError (List String))) (lines : List String)
    (h : concatOk blocks = .ok lines) (b : Except JSError (List String)) (hb : b ∈ blocks) :
    ∃ ls, b = .ok ls ∧ ∀ l ∈ ls, l ∈ lines := by
  unfold concatOk at h
  cases hall : allOk blocks with
  | error e => rw [hall] at h; simp at h
  | ok parts =>
    rw [hall] at h
    simp only [Except.ok.injEq] at h
    subst h
    obtain ⟨ls, hls, hmem⟩ := allOk_mem blocks parts hall b hb
    exact ⟨ls, hls, fun l hl => List.mem_flatten.mpr ⟨ls, hmem, hl⟩⟩

theorem duration_line (host : Host) (state : JSValue) (body : List String)
    (hb : summaryBody host state = .ok body) (s e : JSValue)
    (hs : readPath (some state) ["trip", "startDate"] = .ok (some s)) (hst : truthy s = true)
    (he : readPath (some state) ["trip", "endDate"] = .ok (some e)) (het : truthy e = true) :
    ∃ d, calculateTripDuration host state = .ok d ∧
      ("DURATION: " ++ intText d ++ " day" ++ (if d = 1 then "" else "s")) ∈ body := by
  obtain ⟨tl, htl, htl2⟩ := concatOk_mem _ body hb (tripLines host state) (by simp)
  unfold tripLines at htl
  obtain ⟨dl, hdl, hdl2⟩ := concatOk_mem _ tl htl _
    (List.mem_cons_of_mem _ (List.mem_cons_of_mem _ (List.mem_singleton.mpr rfl)))
  simp only [hs, he, truthy?, hst, het, Bool.not_true, Bool.false_eq_true, if_false] at hdl
  cases hd : calculateTripDuration host state with
  | error err => rw [hd] at hdl; simp at hdl
  | ok d =>
    rw [hd] at hdl
    simp only [Except.ok.injEq] at hdl
    refine ⟨d, rfl, htl2 _ (hdl2 _ ?_)⟩
    rw [← hdl]
    simp

theorem addDistances_ok_nil (total : JSNumber) : addDistances total [] = .ok total := rfl

theorem distance_line (host : Host) (state : JSValue) (body : List String)
    (hb : summaryBody host state = .ok body) (total : JSNumber)
    (ht : calculateTotalDistance state = .ok total) (hpos : total.isPositive = true) :
    ("TOTAL DISTANCE: " ++ host.toFixed total 1 ++ " miles") ∈ body := by
  obtain ⟨el, hel, hel2⟩ := concatOk_mem _ body hb (executionLines host state) (by simp)
  unfold executionLines at hel
  obtain ⟨il, hil, hil2⟩ := concatOk_mem _ el hel (itineraryLines host state) (by simp)
  -- the plan is a list with entries, or the total would not be positive
  have hplan : ∃ x xs, readPath (some state) ["execution", "dailyPlan"]
      = .ok (some (.arr (x :: xs))) := by
    unfold calculateTotalDistance at ht
    split at ht
    · simp only [Except.ok.injEq] at ht
      rw [← ht] at hpos
      simp [JSNumber.isPositive] at hpos
    · cases hr : readPath (some state) ["execution", "dailyPlan"] with
      | error err => rw [hr] at ht; simp at ht
      | ok plan =>
        rw [hr] at ht
        simp only [] at ht
        split at ht
        · simp only [Except.ok.injEq] at ht
          rw [← ht] at hpos
          simp [JSNumber.isPositive] at hpos
        · split at ht
          · rename_i entries hne
            cases entries with
            | nil =>
              simp only [addDistances, Except.ok.injEq] at ht
              rw [← ht] at hpos
              simp [JSNumber.isPositive] at hpos
            | cons x xs => exact ⟨x, xs, rfl⟩
          · simp at ht
  obtain ⟨x, xs, hr⟩ := hplan
  unfold itineraryLines at hil
  simp only [hr, nonEmptyList, ht] at hil
  cases hc : concatOk ((x :: xs).map (dayLines host)) with
  | error err => rw [hc] at hil; simp at hil
  | ok ls =>
    rw [hc] at hil
    simp only [hpos, if_true, Except.ok.injEq] at hil
    refine hel2 _ (hil2 _ ?_)
    rw [← hil]
    simp

theorem cost_line (host : Host) (state : JSValue) (body : List String)
    (hb : summaryBody host state = .ok body) (total : JSNumber)
    (ht : calculateTotalCost state = .ok total) (hpos : total.isPositive = true) :
    ("  TOTAL: $" ++ host.toFixed total 2) ∈ body := by
  obtain ⟨al, hal, hal2⟩ := concatOk_mem _ body hb (administrationLines host state) (by simp)
  unfold administrationLines at hal
  obtain ⟨cl, hcl, hcl2⟩ := concatOk_mem _ al hal (costingLines host state) (by simp)
  unfold costingLines at hcl
  rw [ht] at hcl
  split at hcl
  · simp at hcl
  · simp at hcl
  · simp at hcl
  · simp only [hpos, if_true, Except.ok.injEq] at hcl
    refine hal2 _ (hcl2 _ ?_)
    rw [← hcl]
    simp

/-- Claim C27, as the code has it: the text is the lines of the body and of
the footer; it has the line `DURATION: n day(s)` with the computed duration
when both trip dates are set, the line `TOTAL DISTANCE: x miles` when the
computed total distance is positive, and the line `TOTAL: $x` when the
computed total cost is positive. -/
theorem generateTextSummary_totals (host : Host) (state : JSValue) (body : List String)
    (hstate : truthy state = true) (hb : summaryBody host state = .ok body) :
    generateTextSummary host state
      = .ok (joinWith "\n" (body ++ summaryFooter host.nowLocale)) ∧
    (∀ s e, readPath (some state) ["trip", "startDate"] = .ok (some s) → truthy s = true →
      readPath (some state) ["trip", "endDate"] = .ok (some e) → truthy e = true →
      ∃ d, calculateTripDuration host state = .ok d ∧
        ("DURATION: " ++ intText d ++ " day" ++ (if d = 1 then "" else "s")) ∈ body) ∧
    (∀ total, calculateTotalDistance state = .ok total → total.isPositive = true →
      ("TOTAL DISTANCE: " ++ host.toFixed total 1 ++ " miles") ∈ body) ∧
    (∀ total, calculateTotalCost state = .ok total → total.isPositive = true →
      ("  TOTAL: $" ++ host.toFixed total 2) ∈ body) := by
  refine ⟨?_, fun s e hs hst he het => duration_line host state body hb s e hs hst he het,
    fun total ht hpos => distance_line host state body hb total ht hpos,
    fun total ht hpos => cost_line host state body hb total ht hpos⟩
  unfold generateTextSummary
  simp only [hstate, Bool.not_true, Bool.false_eq_true, if_false, hb]

/-- A document with the trip dates, one day of 4 miles and a travel cost. -/
def filledDoc : JSValue :=
  .obj [("trip", .obj [("startDate", .str "2024-06-01"), ("endDate", .str "2024-06-05")]),
        ("ground", .obj []), ("situation", .obj []), ("season", .obj []),
        ("mission", .obj []),
        ("execution", .obj [("dailyPlan", .arr [.obj [("day", .str "1"), ("distance", .str "4")]])]),
        ("administration", .obj [("travel", .obj []), ("accommodation", .obj []),
          ("gear", .obj []), ("foodFuel", .obj []), ("permits", .obj []),
          ("navigation", .obj []), ("firstAid", .obj []),
          ("costing", .obj [("travel", .str "10")])]),
        ("commandControl", .obj [])]

/-- The lines of the summary of `filledDoc` before the footer, on a host
whose `formatDate` and `toFixed` give the texts `Invalid Date` and the empty
text. -/
def filledBody : List String :=
  [DOUBLE_RULE, "           GSMEAC BACKPACKING PLAN", DOUBLE_RULE, "",
   "DATES: Invalid Date - Invalid Date", "DURATION: 5 days", "",
   RULE, "", "G - GROUND", RULE, "",
   "", RULE, "", "S - SITUATION & SEASON", RULE, "",
   "Situation:", "", "Season:",
   "", RULE, "", "M - MISSION", RULE, "",
   "", RULE, "", "E - EXECUTION", RULE, "",
   "", "Daily Itinerary:", "", "Day 1", "  From: Not specified", "  To: Not specified",
   "  Distance: 4 miles", "", "TOTAL DISTANCE:  miles", "",
   RULE, "", "A - ADMINISTRATION", RULE, "",
   "Travel & Transport:", "", "Accommodation:", "", "Gear & Equipment:", "",
   "Food, Water & Fuel:", "  Filtration Required: No", "",
   "Permits & Regulations:", "  Required: No", "",
   "Navigation:", "  Map & Compass: No", "",
   "First Aid & Emergency:", "  PLB Carried: No", "", "Costing:",
   "  Travel: $", "  ─────────────", "  TOTAL: $", "",
   RULE, "", "C - COMMAND & CONTROL", RULE, "",
   "Group Briefed: No"]

set_option maxRecDepth 8000 in
theorem summaryBody_filled : summaryBody (utcHost "t") filledDoc = .ok filledBody := by
  decide

theorem generateTextSummary_totals_witness :
    generateTextSummary (utcHost "t") filledDoc
      = .ok (joinWith "\n" (filledBody ++ summaryFooter (utcHost "t").nowLocale)) ∧
    (∀ s e, readPath (some filledDoc) ["trip", "startDate"] = .ok (some s) → truthy s = true →
      readPath (some filledDoc) ["trip", "endDate"] = .ok (some e) → truthy e = true →
      ∃ d, calculateTripDuration (utcHost "t") filledDoc = .ok d ∧
        ("DURATION: " ++ intText d ++ " day" ++ (if d = 1 then "" else "s")) ∈ filledBody) ∧
    (∀ total, calculateTotalDistance filledDoc = .ok total → total.isPositive = true →
      ("TOTAL DISTANCE: " ++ (utcHost "t").toFixed total 1 ++ " miles") ∈ filledBody) ∧
    (∀ total, calculateTotalCost filledDoc = .ok total → total.isPositive = true →
      ("  TOTAL: $" ++ (utcHost "t").toFixed total 2) ∈ filledBody) :=
  generateTextSummary_totals (utcHost "t") filledDoc filledBody (by decide) summaryBody_filled

/-- A call on a UTC platform, early in the second 10:00:00. -/
def earlyCall : Host :=
  { utcHost "2024-06-01T10:00:00.100Z" with nowLocale := "6/1/2024, 10:00:00 AM" }

/-- A later call in the same second, on a platform in another time zone whose
storage is full: the readings of the clock differ, the time printed in the
footer is the same. -/
def lateCall : Host :=
  { easternHost "2024-06-01T10:00:00.900Z" with
    nowLocale := "6/1/2024, 10:00:00 AM"
    setItemFails := fun _ _ _ => some .quotaExceeded }

set_option maxRecDepth 8000 in
theorem summaryBody_early : summaryBody earlyCall filledDoc = .ok filledBody := by
  decide

/-- Claim C26, amended.  The text is not a function of the document alone:
its footer prints the reading of the clock.  The lines before the footer
depend on the document and on the platform's date and number formats only;
when they are computed, the text of either call is these lines followed by
the footer with the time of that call, so two calls on equal documents under
the same formats return the same text exactly when the time printed is the
same, whatever else differs (the clock reading within the second, the time
zone rules, the storage). -/
theorem generateTextSummary_reproducible (host host' : Host) (state : JSValue)
    (hnew : host'.newDate = host.newDate) (hformat : host'.formatDate = host.formatDate)
    (hdisplay : host'.display = host.display) (hfixed : host'.toFixed = host.toFixed) :
    summaryBody host' state = summaryBody host state ∧
    (host'.nowLocale = host.nowLocale →
      generateTextSummary host' state = generateTextSummary host state) ∧
    (∀ body, truthy state = true → summaryBody host state = .ok body →
      generateTextSummary host state
        = .ok (joinWith "\n" (body ++ summaryFooter host.nowLocale)) ∧
      generateTextSummary host' state
        = .ok (joinWith "\n" (body ++ summaryFooter host'.nowLocale)) ∧
      (generateTextSummary host' state = generateTextSummary host state ↔
        host'.nowLocale = host.nowLocale)) := by
  have hbody : summaryBody host' state = summaryBody host state := by
    cases host
    cases host'
    simp only at hnew hformat hdisplay hfixed
    subst hnew hformat hdisplay hfixed
    rfl
  have hsame : host'.nowLocale = host.nowLocale →
      generateTextSummary host' state = generateTextSummary host state := by
    intro h
    unfold generateTextSummary
    rw [hbody, h]
  refine ⟨hbody, hsame, fun body hstate hb => ?_⟩
  have h1 : generateTextSummary host state
      = .ok (joinWith "\n" (body ++ summaryFooter host.nowLocale)) := by
    unfold generateTextSummary
    simp only [hstate, Bool.not_true, Bool.false_eq_true, if_false, hb]
  have h2 : generateTextSummary host' state
      = .ok (joinWith "\n" (body ++ summaryFooter host'.nowLocale)) := by
    unfold generateTextSummary
    simp only [hstate, Bool.not_true, Bool.false_eq_true, if_false, hbody, hb]
  refine ⟨h1, h2, fun h => ?_, hsame⟩
  rw [h1, h2] at h
  exact footer_text_injective body _ _ (Except.ok.inj h)

/-- Claim C26 on a document whose summary is computed: two calls in the same
second, at different clock readings, in different time zones and with
different storage, return the same text, with the lines of the document and
the time printed. -/
theorem generateTextSummary_reproducible_witness :
    earlyCall.now ≠ lateCall.now ∧
    summaryBody lateCall filledDoc = .ok filledBody ∧
    generateTextSummary earlyCall filledDoc
      = .ok (joinWith "\n" (filledBody ++ summaryFooter "6/1/2024, 10:00:00 AM")) ∧
    generateTextSummary lateCall filledDoc
      = .ok (joinWith "\n" (filledBody ++ summaryFooter "6/1/2024, 10:00:00 AM")) ∧
    generateTextSummary lateCall filledDoc = generateTextSummary earlyCall filledDoc :=
  ⟨by decide,
   (generateTextSummary_reproducible earlyCall lateCall filledDoc rfl rfl rfl rfl).1.trans
     summaryBody_early,
   ((generateTextSummary_reproducible earlyCall lateCall filledDoc rfl rfl rfl rfl).2.2
     filledBody (by decide) summaryBody_early).1,
   ((generateTextSummary_reproducible earlyCall lateCall filledDoc rfl rfl rfl rfl).2.2
     filledBody (by decide) summaryBody_early).2.1,
   (generateTextSummary_reproducible earlyCall lateCall filledDoc rfl rfl rfl rfl).2.1 rfl⟩

end GSMEAC
